import Mathlib

/-!
# liveGBA: memory unit, input latch, timers, PPU, DMA, CPU, cartridge, APU and system step

Shallow embedding of `pkg/mmu/mmu.go`, `pkg/input/input.go`, `pkg/timer/timer.go`,
`pkg/ppu/ppu.go`, `pkg/dma/dma.go`, `pkg/cpu/cpu.go`, `pkg/cpu/thumb.go`,
`pkg/cartridge/cartridge.go`, the sample loop of `pkg/apu/apu.go`, and the wiring, the
interrupt entry and `Step` of `pkg/gba/gba.go`.

Conventions of the embedding:

* Go `uint8`/`uint16`/`uint32` values are natural numbers; every place where the
  Go arithmetic can wrap carries an explicit `% 2^w`.
* A Go byte slice is a `Bytes`: its length and its contents.  Indexing at or past
  the length panics in Go; here it yields `none`.
* Go `int` and `int64` values (cycle counters, line numbers, buffer positions) are
  integers without a bound.
* A loop whose number of passes depends on the state takes fuel; the theorems on
  `Timer.Step` and `APU.Step` show that their loops end within it (the timer loop when the
  prescaler is positive).
* `fmt.Printf` calls have no effect on the machine state and are left out.
-/

namespace LiveGBA

/-! ## Byte slices -/

/-- Go `[]byte`: a length and the byte stored at each index. -/
structure Bytes where
  len : Nat
  data : Nat → Nat

namespace Bytes

/-- The slice `make([]byte, n)`: `n` zero bytes. -/
def make (n : Nat) : Bytes := ⟨n, fun _ => 0⟩

/-- A slice holding the bytes of a list. -/
def ofList (l : List Nat) : Bytes := ⟨l.length, fun i => l.getD i 0⟩

/-- The read `b[i]`: a `uint8`, or a panic (`none`) when `i` is out of range. -/
def get? (b : Bytes) (i : Nat) : Option Nat :=
  if i < b.len then some (b.data i % 256) else none

/-- The store `b[i] = v`: the updated slice, or a panic (`none`) when `i` is out of range. -/
def set? (b : Bytes) (i v : Nat) : Option Bytes :=
  if i < b.len then some { b with data := Function.update b.data i v } else none

/-- The loop `for i := range b { b[i] = 0 }`. -/
def zero (b : Bytes) : Bytes := ⟨b.len, fun _ => 0⟩

/-- The builtin `copy(dst, src)`: the first `min (len dst) (len src)` bytes are overwritten. -/
def copyFrom (dst : Bytes) (src : List Nat) : Bytes :=
  ⟨dst.len, fun i => if i < dst.len ∧ i < src.length then src.getD i 0 else dst.data i⟩

end Bytes

/-! ## Memory unit (`pkg/mmu/mmu.go`) -/

def BIOSStart : Nat := 0x00000000
def BIOSLength : Nat := 0x00004000
def WRAM256Start : Nat := 0x02000000
def WRAM256Length : Nat := 0x00040000
def WRAM32Start : Nat := 0x03000000
def WRAM32Length : Nat := 0x00008000
def IOStart : Nat := 0x04000000
def IOLength : Nat := 0x000003FF
def PaletteStart : Nat := 0x05000000
def PaletteLength : Nat := 0x00000400
def VRAMStart : Nat := 0x06000000
def VRAMLenth : Nat := 0x00018000
def OAMStart : Nat := 0x07000000
def OAMLength : Nat := 0x00000400
def ROMStart : Nat := 0x08000000
def ROMLength : Nat := 0x02000000
def SRAMStart : Nat := 0x0E000000
def SRAMLenth : Nat := 0x00010000

/-- The `MMU` struct.  The fields kept are the region slices and every register that
some function of the package reads or writes; the remaining register mirrors of the Go
struct (`BG0CNT` .. `JOYSTAT`) are declared there and never touched by any function. -/
structure MMU where
  BIOS : Bytes
  WRAM256 : Bytes
  WRAM32 : Bytes
  IOmem : Bytes
  Palette : Bytes
  VRAM : Bytes
  OAM : Bytes
  ROM : Bytes
  SRAM : Bytes
  DISPCNT : Nat
  DISPSTAT : Nat
  VCOUNT : Nat
  KEYINPUT : Nat
  IE : Nat
  IF : Nat
  WAITCNT : Nat
  IME : Nat
  HALTCNT : Nat

namespace MMU

/-- `MMU.Reset`: clears the writable regions and the listed registers. -/
def Reset (m : MMU) : MMU :=
  { m with
    WRAM256 := m.WRAM256.zero
    WRAM32 := m.WRAM32.zero
    IOmem := m.IOmem.zero
    Palette := m.Palette.zero
    VRAM := m.VRAM.zero
    OAM := m.OAM.zero
    SRAM := m.SRAM.zero
    DISPCNT := 0x0080
    DISPSTAT := 0x0000
    VCOUNT := 0x0000
    IE := 0x0000
    IF := 0x0000
    IME := 0x0000
    WAITCNT := 0x0000
    KEYINPUT := 0x03FF }

/-- `mmu.New`: allocates the regions and resets. -/
def New : MMU :=
  Reset
    { BIOS := Bytes.make BIOSLength
      WRAM256 := Bytes.make WRAM256Length
      WRAM32 := Bytes.make WRAM32Length
      IOmem := Bytes.make IOLength
      Palette := Bytes.make PaletteLength
      VRAM := Bytes.make VRAMLenth
      OAM := Bytes.make OAMLength
      ROM := Bytes.make 0
      SRAM := Bytes.make SRAMLenth
      DISPCNT := 0, DISPSTAT := 0, VCOUNT := 0, KEYINPUT := 0
      IE := 0, IF := 0, WAITCNT := 0, IME := 0, HALTCNT := 0 }

/-- `MMU.LoadBIOS`. -/
def LoadBIOS (m : MMU) (data : List Nat) : MMU :=
  { m with BIOS := m.BIOS.copyFrom data }

/-- `MMU.LoadROM`: a fresh slice of the length of the data, filled with it. -/
def LoadROM (m : MMU) (data : List Nat) : MMU :=
  { m with ROM := (Bytes.make data.length).copyFrom data }

/-- `MMU.mirrorAddress`, case by case as in the source. -/
def mirrorAddress (addr : Nat) : Nat :=
  if 0x00000000 ≤ addr ∧ addr < 0x00004000 then addr
  else if 0x02000000 ≤ addr ∧ addr < 0x02040000 then addr
  else if 0x03000000 ≤ addr ∧ addr < 0x03008000 then addr
  else if 0x04000000 ≤ addr ∧ addr < 0x04000400 then addr
  else if 0x05000000 ≤ addr ∧ addr < 0x05000400 then addr
  else if 0x06000000 ≤ addr ∧ addr < 0x06018000 then
    (if 0x06010000 ≤ addr then addr - 0x8000 else addr)
  else if 0x07000000 ≤ addr ∧ addr < 0x07000400 then addr
  else if 0x08000000 ≤ addr ∧ addr < 0x0E000000 then addr
  else if 0x0E000000 ≤ addr then addr
  else addr

/-- `MMU.readIO8`; `addr` lies in the MMIO window, so `addr - IOStart` does not wrap. -/
def readIO8 (m : MMU) (addr : Nat) : Nat :=
  let offset := addr - IOStart
  if offset = 0x00 ∨ offset = 0x01 then (m.DISPCNT >>> ((offset &&& 1) * 8)) % 256
  else if offset = 0x04 ∨ offset = 0x05 then (m.DISPSTAT >>> ((offset &&& 1) * 8)) % 256
  else if offset = 0x06 ∨ offset = 0x07 then (m.VCOUNT >>> ((offset &&& 1) * 8)) % 256
  else if offset = 0x130 ∨ offset = 0x131 then (m.KEYINPUT >>> ((offset &&& 1) * 8)) % 256
  else if offset = 0x200 ∨ offset = 0x201 then (m.IE >>> ((offset &&& 1) * 8)) % 256
  else if offset = 0x202 ∨ offset = 0x203 then (m.IF >>> ((offset &&& 1) * 8)) % 256
  else if offset = 0x208 ∨ offset = 0x209 then (m.IME >>> ((offset &&& 1) * 8)) % 256
  else if offset < m.IOmem.len then m.IOmem.data offset % 256
  else 0

/-- `MMU.Read8`: `none` stands for an index-out-of-range panic. -/
def Read8 (m : MMU) (addr0 : Nat) : Option Nat :=
  let addr := mirrorAddress addr0
  if BIOSStart ≤ addr ∧ addr < BIOSStart + BIOSLength then m.BIOS.get? addr
  else if WRAM256Start ≤ addr ∧ addr < WRAM256Start + WRAM256Length then
    m.WRAM256.get? (addr - WRAM256Start)
  else if WRAM32Start ≤ addr ∧ addr < WRAM32Start + WRAM32Length then
    m.WRAM32.get? (addr - WRAM32Start)
  else if IOStart ≤ addr ∧ addr < IOStart + IOLength then some (m.readIO8 addr)
  else if PaletteStart ≤ addr ∧ addr < PaletteStart + PaletteLength then
    m.Palette.get? (addr - PaletteStart)
  else if VRAMStart ≤ addr ∧ addr < VRAMStart + VRAMLenth then m.VRAM.get? (addr - VRAMStart)
  else if OAMStart ≤ addr ∧ addr < OAMStart + OAMLength then m.OAM.get? (addr - OAMStart)
  else if ROMStart ≤ addr ∧ addr < (ROMStart + m.ROM.len % 2 ^ 32) % 2 ^ 32 then
    m.ROM.get? (addr - ROMStart)
  else if SRAMStart ≤ addr ∧ addr < SRAMStart + SRAMLenth then m.SRAM.get? (addr - SRAMStart)
  else some 0

/-- `MMU.Read16`: two byte reads, the second at `addr+1` (a `uint32` sum). -/
def Read16 (m : MMU) (addr : Nat) : Option Nat := do
  let lo ← m.Read8 addr
  let hi ← m.Read8 ((addr + 1) % 2 ^ 32)
  pure (lo ||| (hi <<< 8) % 2 ^ 16)

/-- `MMU.Read32`: two halfword reads, the second at `addr+2`. -/
def Read32 (m : MMU) (addr : Nat) : Option Nat := do
  let lo ← m.Read16 addr
  let hi ← m.Read16 ((addr + 2) % 2 ^ 32)
  pure (lo ||| (hi <<< 16) % 2 ^ 32)

/-- Go's `^x` on a `uint16`. -/
def not16 (x : Nat) : Nat := 0xFFFF ^^^ (x % 2 ^ 16)

/-- `MMU.writeIO8`; `val` is a `uint8`. -/
def writeIO8 (m : MMU) (addr val : Nat) : Option MMU :=
  let offset := addr - IOStart
  if offset = 0x00 then some { m with DISPCNT := (m.DISPCNT &&& 0xFF00) ||| val }
  else if offset = 0x01 then
    some { m with DISPCNT := (m.DISPCNT &&& 0x00FF) ||| (val <<< 8) % 2 ^ 16 }
  else if offset = 0x04 then some { m with DISPSTAT := (m.DISPSTAT &&& 0xFF00) ||| val }
  else if offset = 0x05 then
    some { m with DISPSTAT := (m.DISPSTAT &&& 0x00FF) ||| (val <<< 8) % 2 ^ 16 }
  else if offset = 0x130 ∨ offset = 0x131 then some m
  else if offset = 0x200 then some { m with IE := (m.IE &&& 0xFF00) ||| val }
  else if offset = 0x201 then some { m with IE := (m.IE &&& 0x00FF) ||| (val <<< 8) % 2 ^ 16 }
  else if offset = 0x202 then some { m with IF := m.IF &&& not16 val }
  else if offset = 0x203 then some { m with IF := m.IF &&& not16 ((val <<< 8) % 2 ^ 16) }
  else if offset = 0x208 then some { m with IME := val &&& 1 }
  else if offset = 0x301 then some { m with HALTCNT := val }
  else if offset < m.IOmem.len then
    (m.IOmem.set? offset val).map fun b => { m with IOmem := b }
  else some m

/-- `MMU.Write8`: `none` stands for an index-out-of-range panic. -/
def Write8 (m : MMU) (addr0 val : Nat) : Option MMU :=
  let addr := mirrorAddress addr0
  if BIOSStart ≤ addr ∧ addr < BIOSStart + BIOSLength then some m
  else if WRAM256Start ≤ addr ∧ addr < WRAM256Start + WRAM256Length then
    (m.WRAM256.set? (addr - WRAM256Start) val).map fun b => { m with WRAM256 := b }
  else if WRAM32Start ≤ addr ∧ addr < WRAM32Start + WRAM32Length then
    (m.WRAM32.set? (addr - WRAM32Start) val).map fun b => { m with WRAM32 := b }
  else if IOStart ≤ addr ∧ addr < IOStart + IOLength then m.writeIO8 addr val
  else if PaletteStart ≤ addr ∧ addr < PaletteStart + PaletteLength then
    (m.Palette.set? (addr - PaletteStart) val).map fun b => { m with Palette := b }
  else if VRAMStart ≤ addr ∧ addr < VRAMStart + VRAMLenth then
    (m.VRAM.set? (addr - VRAMStart) val).map fun b => { m with VRAM := b }
  else if OAMStart ≤ addr ∧ addr < OAMStart + OAMLength then
    (m.OAM.set? (addr - OAMStart) val).map fun b => { m with OAM := b }
  else if ROMStart ≤ addr then some m
  else if SRAMStart ≤ addr then
    (m.SRAM.set? (addr - SRAMStart) val).map fun b => { m with SRAM := b }
  else some m

/-- `MMU.Write16`: low byte at `addr`, high byte at `addr+1`. -/
def Write16 (m : MMU) (addr val : Nat) : Option MMU := do
  let m1 ← m.Write8 addr (val % 2 ^ 8)
  m1.Write8 ((addr + 1) % 2 ^ 32) ((val >>> 8) % 2 ^ 8)

/-- `MMU.Write32`: low halfword at `addr`, high halfword at `addr+2`. -/
def Write32 (m : MMU) (addr val : Nat) : Option MMU := do
  let m1 ← m.Write16 addr (val % 2 ^ 16)
  m1.Write16 ((addr + 2) % 2 ^ 32) ((val >>> 16) % 2 ^ 16)

/-- Rotate a 32-bit word right by `k` bits, `0 < k < 32`. -/
def ror32 (x k : Nat) : Nat := ((x >>> k) ||| (x <<< (32 - k))) % 2 ^ 32

/-- The region lengths fixed by `New`; `LoadBIOS`, `LoadROM`, `Reset` and the writes keep
them, and the ROM slice may have any length. -/
structure Sized (m : MMU) : Prop where
  bios : m.BIOS.len = BIOSLength
  wram256 : m.WRAM256.len = WRAM256Length
  wram32 : m.WRAM32.len = WRAM32Length
  io : m.IOmem.len = IOLength
  palette : m.Palette.len = PaletteLength
  vram : m.VRAM.len = VRAMLenth
  oam : m.OAM.len = OAMLength
  sram : m.SRAM.len = SRAMLenth

/-- Addresses backed by a plain array that both the read path and the write path reach:
on-board WRAM, on-chip WRAM, palette RAM, VRAM and OAM. -/
def PlainRAM (A : Nat) : Prop :=
  (WRAM256Start ≤ A ∧ A < WRAM256Start + WRAM256Length) ∨
  (WRAM32Start ≤ A ∧ A < WRAM32Start + WRAM32Length) ∨
  (PaletteStart ≤ A ∧ A < PaletteStart + PaletteLength) ∨
  (VRAMStart ≤ A ∧ A < VRAMStart + VRAMLenth) ∨
  (OAMStart ≤ A ∧ A < OAMStart + OAMLength)

instance (A : Nat) : Decidable (PlainRAM A) := by
  unfold PlainRAM; infer_instance

/-- An address inside one of the regions the read path serves: BIOS, the two WRAMs, the
MMIO window, palette RAM, VRAM, OAM, the loaded ROM bytes, or cartridge SRAM.  The bounds
are the constants of the source, so the MMIO window is `IOStart .. IOStart + 0x3FE`
(`IOLength = 0x3FF`) and `0x040003FF` counts as unmapped. -/
def Mapped (m : MMU) (A : Nat) : Prop :=
  (BIOSStart ≤ A ∧ A < BIOSStart + BIOSLength) ∨
  (WRAM256Start ≤ A ∧ A < WRAM256Start + WRAM256Length) ∨
  (WRAM32Start ≤ A ∧ A < WRAM32Start + WRAM32Length) ∨
  (IOStart ≤ A ∧ A < IOStart + IOLength) ∨
  (PaletteStart ≤ A ∧ A < PaletteStart + PaletteLength) ∨
  (VRAMStart ≤ A ∧ A < VRAMStart + VRAMLenth) ∨
  (OAMStart ≤ A ∧ A < OAMStart + OAMLength) ∨
  (ROMStart ≤ A ∧ A < ROMStart + m.ROM.len) ∨
  (SRAMStart ≤ A ∧ A < SRAMStart + SRAMLenth)

instance (m : MMU) (A : Nat) : Decidable (m.Mapped A) := by
  unfold Mapped; infer_instance

end MMU

/-! ## Input latch (`pkg/input/input.go`) -/

/-- The `Input` struct; `Keys` is the array `[10]bool`, read and written only at indices
`0..9` (every access is guarded by `key >= 0 && key < 10` or by the loop bound). -/
structure Input where
  KEYINPUT : Nat
  KEYCNT : Nat
  Keys : Nat → Bool

namespace Input

/-- `Input.Reset`. -/
def Reset (_i : Input) : Input :=
  { KEYINPUT := 0x03FF, KEYCNT := 0x0000, Keys := fun _ => false }

/-- `input.New`: a zero-valued struct, then `Reset`. -/
def New : Input := Reset { KEYINPUT := 0, KEYCNT := 0, Keys := fun _ => false }

/-- `Input.updateKEYINPUT`: start from `0x03FF` and clear bit `j` for each pressed key
(`x &^= 1 << j` on a `uint16`). -/
def updateKEYINPUT (i : Input) : Input :=
  let v := (List.range 10).foldl
    (fun k j => if i.Keys j then k &&& MMU.not16 ((1 <<< j) % 2 ^ 16) else k) 0x03FF
  { i with KEYINPUT := v }

/-- `Input.SetKey`; `key` is a Go `int`. -/
def SetKey (i : Input) (key : Int) (pressed : Bool) : Input :=
  if 0 ≤ key ∧ key < 10 then
    updateKEYINPUT { i with Keys := Function.update i.Keys key.toNat pressed }
  else i

/-- `Input.IsPressed`. -/
def IsPressed (i : Input) (key : Int) : Bool :=
  if 0 ≤ key ∧ key < 10 then i.Keys key.toNat else false

/-- `Input.GetKEYINPUT`. -/
def GetKEYINPUT (i : Input) : Nat := i.KEYINPUT

/-- `Input.SetKEYCNT`. -/
def SetKEYCNT (i : Input) (val : Nat) : Input := { i with KEYCNT := val }

/-- `Input.WriteKEYCNT`. -/
def WriteKEYCNT (i : Input) (val : Nat) : Input := { i with KEYCNT := val }

/-- `Input.WriteRegister`. -/
def WriteRegister (i : Input) (addr val : Nat) : Input :=
  if addr = 0x04000132 then i.WriteKEYCNT val else i

/-- `Input.CheckInterrupt`. -/
def CheckInterrupt (i : Input) : Bool :=
  if i.KEYCNT &&& 0x4000 = 0 then false
  else
    let irqCondition : Bool := decide (i.KEYCNT &&& 0x8000 ≠ 0)
    let keyMask := i.KEYCNT &&& 0x03FF
    let keysPressed := MMU.not16 i.KEYINPUT &&& 0x03FF
    if irqCondition then decide (keysPressed &&& keyMask = keyMask)
    else decide (keysPressed &&& keyMask ≠ 0)

/-- The latch and the key array agree: bit `b` of KEYINPUT is set exactly for `b < 10` with
key `b` released. -/
def Latched (i : Input) : Prop :=
  ∀ b, i.KEYINPUT.testBit b = (decide (b < 10) && !i.Keys b)

/-- The states the package can produce: `New`/`Reset`, then any sequence of its mutating
methods with 16-bit register values. -/
inductive Reachable : Input → Prop
  | reset (i : Input) : Reachable i.Reset
  | setKey {i : Input} (key : Int) (pressed : Bool) : Reachable i → Reachable (i.SetKey key pressed)
  | setKEYCNT {i : Input} (val : Nat) : val < 2 ^ 16 → Reachable i → Reachable (i.SetKEYCNT val)
  | writeKEYCNT {i : Input} (val : Nat) :
      val < 2 ^ 16 → Reachable i → Reachable (i.WriteKEYCNT val)
  | writeRegister {i : Input} (addr val : Nat) :
      val < 2 ^ 16 → Reachable i → Reachable (i.WriteRegister addr val)

/-- Example state: KEYCNT `0x4001` (IRQ enable, OR mode, key A selected), key A pressed. -/
def keyAIrq : Input := (New.WriteKEYCNT 0x4001).SetKey 0 true

end Input

/-! ## Timers (`pkg/timer/timer.go`) -/

/-- The `Timer` struct.  The arrays `[4]T` are functions of the channel index, used only at
indices `0..3` (every access is guarded by the loop bound, by `i < 3` for `i+1`, or by
`channel >= 0 && channel < 4`).  The callback field `RequestInterrupt` is represented by
`Requested`, the list of the `irq` arguments it has been called with, latest first. -/
structure Timer where
  CNT_L : Nat → Nat
  CNT_H : Nat → Nat
  Counter : Nat → Nat
  Reload : Nat → Nat
  Prescaler : Nat → Int
  CountUp : Nat → Bool
  IrqEnable : Nat → Bool
  Enable : Nat → Bool
  CycleCount : Nat → Int
  Requested : List Nat

namespace Timer

/-- `Timer.Reset`: the loop over the four channels assigns every array element. -/
def Reset (t : Timer) : Timer :=
  { CNT_L := fun i => if i < 4 then 0 else t.CNT_L i
    CNT_H := fun i => if i < 4 then 0 else t.CNT_H i
    Counter := fun i => if i < 4 then 0 else t.Counter i
    Reload := fun i => if i < 4 then 0 else t.Reload i
    Prescaler := fun i => if i < 4 then 1 else t.Prescaler i
    CountUp := fun i => if i < 4 then false else t.CountUp i
    IrqEnable := fun i => if i < 4 then false else t.IrqEnable i
    Enable := fun i => if i < 4 then false else t.Enable i
    CycleCount := fun i => if i < 4 then 0 else t.CycleCount i
    Requested := t.Requested }

/-- `timer.New`: a zero-valued struct with the callback installed, then `Reset`. -/
def New : Timer :=
  Reset
    { CNT_L := fun _ => 0, CNT_H := fun _ => 0, Counter := fun _ => 0, Reload := fun _ => 0
      Prescaler := fun _ => 0, CountUp := fun _ => false, IrqEnable := fun _ => false
      Enable := fun _ => false, CycleCount := fun _ => 0, Requested := [] }

/-- The cascade block of `Timer.Step`, run on an overflow of channel `i`:
`if i < 3 && t.CountUp[i+1] { t.Counter[i+1]++; ... }`. -/
def cascade (t : Timer) (i : Nat) : Timer :=
  if i < 3 ∧ t.CountUp (i + 1) = true then
    let t1 := { t with Counter := Function.update t.Counter (i + 1) ((t.Counter (i + 1) + 1) % 2 ^ 32) }
    if t1.Counter (i + 1) > 0xFFFF then
      let t2 := { t1 with Counter := Function.update t1.Counter (i + 1) (t1.Reload (i + 1)) }
      if t2.IrqEnable (i + 1) = true then
        { t2 with Requested := ((1 <<< (4 + i)) % 2 ^ 16) :: t2.Requested }
      else t2
    else t1
  else t

/-- One pass through the body of the inner loop of `Timer.Step` for channel `i`;
`prescalerCycles` is the local read before the loop. -/
def tick (t : Timer) (i : Nat) (prescalerCycles : Int) : Timer :=
  let t1 := { t with CycleCount := Function.update t.CycleCount i (t.CycleCount i - prescalerCycles) }
  let t2 := { t1 with Counter := Function.update t1.Counter i ((t1.Counter i + 1) % 2 ^ 32) }
  if t2.Counter i > 0xFFFF then
    let t3 := { t2 with Counter := Function.update t2.Counter i (t2.Reload i) }
    let t4 :=
      if t3.IrqEnable i = true then
        { t3 with Requested := ((1 <<< (3 + i)) % 2 ^ 16) :: t3.Requested }
      else t3
    t4.cascade i
  else t2

/-- The inner loop `for t.CycleCount[i] >= prescalerCycles { ... }`.  `none` means the
loop is still running when the fuel is used up. -/
def stepLoop (i : Nat) (prescalerCycles : Int) : Nat → Timer → Option Timer
  | 0, t => if t.CycleCount i ≥ prescalerCycles then none else some t
  | fuel + 1, t =>
    if t.CycleCount i ≥ prescalerCycles then stepLoop i prescalerCycles fuel (t.tick i prescalerCycles)
    else some t

/-- The body of the outer loop of `Timer.Step` for channel `i`.  The inner loop runs at most
`CycleCount[i]` times when the prescaler is positive, which is the fuel it is given. -/
def stepChannel (t : Timer) (i : Nat) (cycles : Int) : Option Timer :=
  if t.Enable i = false then some t
  else if t.CountUp i = true ∧ i > 0 then some t
  else
    let t1 := { t with CycleCount := Function.update t.CycleCount i (t.CycleCount i + cycles) }
    stepLoop i (t1.Prescaler i) (t1.CycleCount i).toNat t1

/-- `Timer.Step`: channels 0, 1, 2, 3 in order. -/
def Step (t : Timer) (cycles : Int) : Option Timer := do
  let t0 ← t.stepChannel 0 cycles
  let t1 ← t0.stepChannel 1 cycles
  let t2 ← t1.stepChannel 2 cycles
  t2.stepChannel 3 cycles

/-- A sequence of `Timer.Step` calls. -/
def StepAll (t : Timer) : List Int → Option Timer
  | [] => some t
  | c :: cs => (t.Step c).bind fun t1 => t1.StepAll cs

/-- `Timer.WriteCNT_L`; `channel` is a Go `int`. -/
def WriteCNT_L (t : Timer) (channel : Int) (val : Nat) : Timer :=
  if 0 ≤ channel ∧ channel < 4 then
    { t with Reload := Function.update t.Reload channel.toNat val }
  else t

/-- `Timer.WriteCNT_H`. -/
def WriteCNT_H (t : Timer) (channel : Int) (val : Nat) : Timer :=
  if channel < 0 ∨ channel ≥ 4 then t
  else
    let ch := channel.toNat
    let oldEnable := t.Enable ch
    let prescalerSel := val &&& 0x3
    let t1 := { t with CNT_H := Function.update t.CNT_H ch val }
    let t2 :=
      if prescalerSel = 0 then { t1 with Prescaler := Function.update t1.Prescaler ch 1 }
      else if prescalerSel = 1 then { t1 with Prescaler := Function.update t1.Prescaler ch 64 }
      else if prescalerSel = 2 then { t1 with Prescaler := Function.update t1.Prescaler ch 256 }
      else if prescalerSel = 3 then { t1 with Prescaler := Function.update t1.Prescaler ch 1024 }
      else t1
    let t3 :=
      { t2 with
        CountUp := Function.update t2.CountUp ch (decide (val &&& 0x04 ≠ 0))
        IrqEnable := Function.update t2.IrqEnable ch (decide (val &&& 0x40 ≠ 0))
        Enable := Function.update t2.Enable ch (decide (val &&& 0x80 ≠ 0)) }
    if oldEnable = false ∧ t3.Enable ch = true then
      { t3 with
        Counter := Function.update t3.Counter ch (t3.Reload ch)
        CycleCount := Function.update t3.CycleCount ch 0 }
    else t3

/-- `Timer.ReadCNT_L`. -/
def ReadCNT_L (t : Timer) (channel : Int) : Nat :=
  if 0 ≤ channel ∧ channel < 4 then t.Counter channel.toNat % 2 ^ 16 else 0

/-- The fields that a pass of the inner loop never assigns. -/
structure SameConfig (t t' : Timer) : Prop where
  reload : t'.Reload = t.Reload
  countUp : t'.CountUp = t.CountUp
  prescaler : t'.Prescaler = t.Prescaler
  enable : t'.Enable = t.Enable
  irqEnable : t'.IrqEnable = t.IrqEnable

/-- One increment of a counter with reload: what `Timer.Step` does to `Counter[j]` at each
`Counter[j]++` (`if Counter[j] > 0xFFFF { Counter[j] = Reload[j] }`). -/
def bump (reload c : Nat) : Nat :=
  if (c + 1) % 2 ^ 32 > 0xFFFF then reload else (c + 1) % 2 ^ 32

/-- The number of passes the inner loop of `Timer.Step` makes for channel `j` when it
runs: `floor((CycleCount[j] + cycles) / Prescaler[j])`, and none when that is negative. -/
def ticks (t : Timer) (j : Nat) (cycles : Int) : Nat :=
  ((t.CycleCount j + cycles) / t.Prescaler j).toNat

/-- Channel `j` takes the cycle tick in `Timer.Step`: neither of the two `continue`
statements applies to it. -/
def Runs (t : Timer) (j : Nat) : Prop :=
  t.Enable j = true ∧ ¬(t.CountUp j = true ∧ j > 0)

instance (t : Timer) (j : Nat) : Decidable (t.Runs j) := by
  unfold Runs; infer_instance

/-- Channel `j` overflows during `Timer.Step(cycles)`: it takes the cycle tick and one of
its passes finds `Counter[j] > 0xFFFF` after `Counter[j]++`. -/
def Overflowed (t : Timer) (j : Nat) (cycles : Int) : Prop :=
  t.Runs j ∧ ∃ k, k < t.ticks j cycles ∧
    ((bump (t.Reload j))^[k] (t.Counter j) + 1) % 2 ^ 32 > 0xFFFF

/-- The number of overflows among `n` successive increments of a counter holding `c`. -/
def overflowCount (reload : Nat) : Nat → Nat → Nat
  | _, 0 => 0
  | c, n + 1 =>
    (if (c + 1) % 2 ^ 32 > 0xFFFF then 1 else 0) + overflowCount reload (bump reload c) n

/-- What the body of the outer loop of `Timer.Step` for channel `j` does, from `u` to `u'`. -/
structure Stage (u u' : Timer) (j : Nat) (c : Int) : Prop where
  same : SameConfig u u'
  cycleCount_ne : ∀ m, m ≠ j → u'.CycleCount m = u.CycleCount m
  counter_ne : ∀ m, m ≠ j → m ≠ j + 1 → u'.Counter m = u.Counter m
  counter_next : u'.Counter (j + 1) ≠ u.Counter (j + 1) →
    u.Overflowed j c ∧ j < 3 ∧ u.CountUp (j + 1) = true
  idle : ¬u.Runs j → u' = u
  counter_self : u.Runs j → u'.Counter j = (bump (u.Reload j))^[u.ticks j c] (u.Counter j)
  cycleCount_self : u.Runs j →
    u'.CycleCount j = u.CycleCount j + c - (u.ticks j c : Int) * u.Prescaler j
  requested_self : u.Runs j →
    u'.Requested.count ((1 <<< (3 + j)) % 2 ^ 16) =
      u.Requested.count ((1 <<< (3 + j)) % 2 ^ 16) +
        (if u.IrqEnable j = true then overflowCount (u.Reload j) (u.Counter j) (u.ticks j c)
         else 0)
  requested_ne : ∀ m, m < 4 → m ≠ j → (m = j + 1 → u.CountUp m = false) →
    u'.Requested.count ((1 <<< (3 + m)) % 2 ^ 16) = u.Requested.count ((1 <<< (3 + m)) % 2 ^ 16)
  bounded : (∀ m, m < 4 → u.Reload m ≤ 0xFFFF) → (∀ m, m < 4 → u.Counter m ≤ 0xFFFF) →
    ∀ m, m < 4 → u'.Counter m ≤ 0xFFFF

/-- Example state: channel 0 enabled with prescaler 1 and reload 0, channel 1 enabled in
cascade mode (`TM0CNT_H = 0x80`, `TM1CNT_H = 0x84` after `New`). -/
def cascadePair : Timer := (New.WriteCNT_H 0 0x80).WriteCNT_H 1 0x84

/-- Example state: as `cascadePair`, with the reload value of channel 0 set to `0xFFFF`
before it is enabled. -/
def reloadPair : Timer := ((New.WriteCNT_L 0 0xFFFF).WriteCNT_H 0 0x80).WriteCNT_H 1 0x84

end Timer

/-! ## PPU registers (`pkg/ppu/ppu.go`) -/

/-- The read `b[i]` with a Go `int` index; a negative index panics like one past the end. -/
def Bytes.getInt? (b : Bytes) (i : Int) : Option Nat :=
  if 0 ≤ i then b.get? i.toNat else none

/-- The register and timing fields of the `PPU` struct.  Its `VRAM`, `Palette` and `OAM`
slices are the memory unit's own slices (passed to `ppu.New` by `gba.New`), so they are
read from the `MMU` component of the system state. -/
structure PPU where
  DISPCNT : Nat
  DISPSTAT : Nat
  VCOUNT : Nat
  FrameBuffer : Nat → Nat
  CurrentLine : Int
  CycleCount : Int
  HBlank : Bool
  VBlank : Bool

namespace PPU

/-- `PPU.Reset`. -/
def Reset (p : PPU) : PPU :=
  { p with
    DISPCNT := 0x0080, DISPSTAT := 0x0000, VCOUNT := 0x0000
    CurrentLine := 0, CycleCount := 0, HBlank := false, VBlank := false
    FrameBuffer := fun _ => 0 }

/-- `ppu.New`. -/
def New : PPU :=
  Reset
    { DISPCNT := 0, DISPSTAT := 0, VCOUNT := 0, FrameBuffer := fun _ => 0
      CurrentLine := 0, CycleCount := 0, HBlank := false, VBlank := false }

/-- `PPU.WriteRegister` at `0x04000000`: the only assignment to the PPU's `DISPCNT` besides
`Reset` and `SetDISPCNT`. -/
def SetDISPCNT (p : PPU) (val : Nat) : PPU := { p with DISPCNT := val }

/-- `PPU.SetDISPSTAT`: the three status flags are kept, the other bits are written. -/
def SetDISPSTAT (p : PPU) (val : Nat) : PPU :=
  { p with DISPSTAT := (p.DISPSTAT &&& 0x0007) ||| (val &&& 0xFFF8) }

/-- The length of `FrameBuffer`, `make([]uint16, ScreenWidth*ScreenHeight)` in `ppu.New`;
the slice is never reassigned. -/
def FrameBufferLen : Nat := 240 * 160

/-- The store `p.FrameBuffer[idx] = v` with an `int` index; `none` is the out-of-range
panic. -/
def setPixel (p : PPU) (idx : Int) (v : Nat) : Option PPU :=
  if 0 ≤ idx ∧ idx < FrameBufferLen then
    some { p with FrameBuffer := Function.update p.FrameBuffer idx.toNat v }
  else none

/-- The loop `for x := lo; x < lo + n; x++ { body }`; a panic in the body ends it. -/
def forX (body : Nat → PPU → Option PPU) : Nat → Nat → PPU → Option PPU
  | _, 0, p => some p
  | x, n + 1, p => (body x p).bind (forX body (x + 1) n)

/-- `PPU.getPaletteColor`; `idx` is a `uint8` and `offset` a `uint32`. -/
def getPaletteColor (palette : Bytes) (idx : Nat) : Option Nat :=
  let offset := (idx * 2) % 2 ^ 32
  if (offset + 1) % 2 ^ 32 < palette.len % 2 ^ 32 then do
    let lo ← palette.get? offset
    let hi ← palette.get? ((offset + 1) % 2 ^ 32)
    some (lo ||| ((hi <<< 8) % 2 ^ 16))
  else some 0

/-- `PPU.renderMode0`, which is also the body of `renderMode1` and `renderMode2`. -/
def renderMode0 (p : PPU) (palette : Bytes) : Option PPU :=
  forX (fun x q => do
    let c ← getPaletteColor palette 0
    q.setPixel (q.CurrentLine * 240 + x) c) 0 240 p

/-- `PPU.renderMode1`. -/
def renderMode1 (p : PPU) (palette : Bytes) : Option PPU :=
  forX (fun x q => do
    let c ← getPaletteColor palette 0
    q.setPixel (q.CurrentLine * 240 + x) c) 0 240 p

/-- `PPU.renderMode2`. -/
def renderMode2 (p : PPU) (palette : Bytes) : Option PPU :=
  forX (fun x q => do
    let c ← getPaletteColor palette 0
    q.setPixel (q.CurrentLine * 240 + x) c) 0 240 p

/-- `PPU.renderMode3`. -/
def renderMode3 (p : PPU) (vram : Bytes) : Option PPU :=
  if p.DISPCNT &&& 0x0010 ≠ 0 then some p
  else
    forX (fun x q =>
      let offset : Int := (q.CurrentLine * 240 + x) * 2
      if offset + 1 < vram.len then do
        let lo ← vram.getInt? offset
        let hi ← vram.getInt? (offset + 1)
        q.setPixel (q.CurrentLine * 240 + x) (lo ||| ((hi <<< 8) % 2 ^ 16))
      else some q) 0 240 p

/-- `PPU.renderMode4`. -/
def renderMode4 (p : PPU) (vram palette : Bytes) : Option PPU :=
  let frameOffset : Int := if p.DISPCNT &&& 0x0010 ≠ 0 then 0xA000 else 0
  forX (fun x q =>
    let offset : Int := frameOffset + q.CurrentLine * 240 + x
    if offset < vram.len then do
      let paletteIdx ← vram.getInt? offset
      let c ← getPaletteColor palette paletteIdx
      q.setPixel (q.CurrentLine * 240 + x) c
    else some q) 0 240 p

/-- `PPU.renderMode5`. -/
def renderMode5 (p : PPU) (vram : Bytes) : Option PPU :=
  if p.CurrentLine ≥ 128 then
    forX (fun x q => q.setPixel (q.CurrentLine * 240 + x) 0) 0 240 p
  else
    let frameOffset : Int := if p.DISPCNT &&& 0x0010 ≠ 0 then 0xA000 else 0
    (forX (fun x q =>
      let offset : Int := frameOffset + (q.CurrentLine * 160 + x) * 2
      if offset + 1 < vram.len then do
        let lo ← vram.getInt? offset
        let hi ← vram.getInt? (offset + 1)
        if x < 240 then q.setPixel (q.CurrentLine * 240 + x) (lo ||| ((hi <<< 8) % 2 ^ 16))
        else some q
      else some q) 0 160 p).bind
    (forX (fun x q => q.setPixel (q.CurrentLine * 240 + x) 0) 160 80)

/-- `PPU.RenderScanline`; `vram` and `palette` are the slices `p.VRAM` and `p.Palette`, which
the memory unit owns. -/
def RenderScanline (p : PPU) (vram palette : Bytes) : Option PPU :=
  let mode := p.DISPCNT &&& 0x0007
  if p.DISPCNT &&& 0x0080 ≠ 0 then
    forX (fun x q => q.setPixel (q.CurrentLine * 240 + x) 0x7FFF) 0 240 p
  else if mode = 0 then p.renderMode0 palette
  else if mode = 1 then p.renderMode1 palette
  else if mode = 2 then p.renderMode2 palette
  else if mode = 3 then p.renderMode3 vram
  else if mode = 4 then p.renderMode4 vram palette
  else if mode = 5 then p.renderMode5 vram
  else some p

/-- `PPU.Step`: the new state and the returned flag; `none` is a panic in
`RenderScanline`. -/
def Step (p : PPU) (vram palette : Bytes) (cycles : Int) : Option (PPU × Bool) :=
  let p1 := { p with CycleCount := p.CycleCount + cycles }
  if p1.VBlank = true then
    if p1.CycleCount ≥ 1232 then
      let p2 := { p1 with CycleCount := p1.CycleCount - 1232, CurrentLine := p1.CurrentLine + 1 }
      let p3 := { p2 with VCOUNT := (p2.CurrentLine % 2 ^ 16).toNat }
      if p3.CurrentLine ≥ 228 then
        some ({ p3 with
                CurrentLine := 0, VCOUNT := 0, VBlank := false
                DISPSTAT := p3.DISPSTAT &&& (0xFFFF ^^^ 0x0001) }, true)
      else some (p3, false)
    else some (p1, false)
  else if p1.HBlank = true then
    if p1.CycleCount ≥ 272 then
      let p2 := { p1 with
                  CycleCount := p1.CycleCount - 272, HBlank := false
                  DISPSTAT := p1.DISPSTAT &&& (0xFFFF ^^^ 0x0002)
                  CurrentLine := p1.CurrentLine + 1 }
      let p3 := { p2 with VCOUNT := (p2.CurrentLine % 2 ^ 16).toNat }
      if p3.CurrentLine ≥ 160 then
        let p4 := { p3 with VBlank := true, DISPSTAT := p3.DISPSTAT ||| 0x0001 }
        if p4.DISPSTAT &&& 0x0008 ≠ 0 then some (p4, true) else some (p4, false)
      else some (p3, false)
    else some (p1, false)
  else
    if p1.CycleCount ≥ 960 then
      let p2 := { p1 with
                  CycleCount := p1.CycleCount - 960, HBlank := true
                  DISPSTAT := p1.DISPSTAT ||| 0x0002 }
      if p2.DISPSTAT &&& 0x0010 ≠ 0 then some (p2, true)
      else if p2.VBlank = false then (p2.RenderScanline vram palette).map fun q => (q, false)
      else some (p2, false)
    else some (p1, false)

/-- The registers and timing fields of `q` are those of `p`: only the frame buffer may
differ. -/
def SameRegs (p q : PPU) : Prop := q = { p with FrameBuffer := q.FrameBuffer }

/-- The line counter is in step with `VCOUNT` and with the VBlank flag. -/
def LineInv (p : PPU) : Prop :=
  0 ≤ p.CurrentLine ∧ (p.VCOUNT : Int) = p.CurrentLine ∧
  (p.VBlank = false → p.CurrentLine < 160) ∧
  (p.VBlank = true → 160 ≤ p.CurrentLine ∧ p.CurrentLine ≤ 227 ∧ p.HBlank = false)

/-- The first `n` rows of the frame buffer are white. -/
def WhiteRows (p : PPU) (n : Nat) : Prop := ∀ i, i < n * 240 → p.FrameBuffer i = 0x7FFF

/-- A forced-blank frame under way with both IRQ enables clear: the rows above the current
line are white, and so is the current one once it is in HBlank. -/
def BlankFrame (p : PPU) : Prop :=
  p.DISPCNT &&& 0x0080 ≠ 0 ∧ p.DISPSTAT &&& 0x0008 = 0 ∧ p.DISPSTAT &&& 0x0010 = 0 ∧
  LineInv p ∧
  (p.VBlank = true → WhiteRows p 160) ∧
  (p.VBlank = false →
    WhiteRows p (p.CurrentLine.toNat + (if p.HBlank = true then 1 else 0)))

/-- The PPU is at the start of scanline `y` (no cycle of it counted yet, not in HBlank, the
VBlank flag as the line number demands) and both IRQ enables of `DISPSTAT` are clear. -/
def LineStart (p : PPU) (y : Nat) : Prop :=
  p.CurrentLine = (y : Int) ∧ p.VCOUNT = y ∧ p.CycleCount = 0 ∧ p.HBlank = false ∧
  p.VBlank = decide (160 ≤ y) ∧ p.DISPSTAT &&& 0x0008 = 0 ∧ p.DISPSTAT &&& 0x0010 = 0

instance (p : PPU) (y : Nat) : Decidable (p.LineStart y) := by
  unfold LineStart; infer_instance

/-- The PPU states reached from `ppu.New` by `Reset`, `Step` with any cycle count and any
memory contents, `SetDISPSTAT` and `SetDISPCNT`. -/
inductive Reachable : PPU → Prop
  | new : Reachable New
  | reset (p : PPU) : Reachable p → Reachable p.Reset
  | step (p : PPU) (vram palette : Bytes) (cycles : Int) (p' : PPU) (b : Bool) :
      Reachable p → p.Step vram palette cycles = some (p', b) → Reachable p'
  | setDISPSTAT (p : PPU) (val : Nat) : Reachable p → Reachable (p.SetDISPSTAT val)
  | setDISPCNT (p : PPU) (val : Nat) : Reachable p → Reachable (p.SetDISPCNT val)

/-- `Step` called with each cycle count of a list in turn, up to and including the first
call that returns `true` (frame complete); the flag tells whether one did. -/
def StepFrame (vram palette : Bytes) : PPU → List Int → Option (PPU × Bool)
  | p, [] => some (p, false)
  | p, c :: cs =>
    (p.Step vram palette c).bind fun r =>
      if r.2 = true then some r else StepFrame vram palette r.1 cs

/-- A schedule of `Step` calls for one frame: 160 scanlines of 960 and 272 cycles, then 68
blank lines of 1232 cycles. -/
def frameCycles : List Int :=
  (List.replicate 160 [960, 272]).flatten ++ List.replicate 68 1232

end PPU

/-! ## CPU (`pkg/cpu/cpu.go`, `pkg/cpu/thumb.go`) -/

def ModeUser : Nat := 0x10
def ModeFIQ : Nat := 0x11
def ModeIRQ : Nat := 0x12
def ModeSupervisor : Nat := 0x13
def ModeAbort : Nat := 0x17
def ModeUndefined : Nat := 0x1B
def ModeSystem : Nat := 0x1F

def FlagN : Nat := 1 <<< 31
def FlagZ : Nat := 1 <<< 30
def FlagC : Nat := 1 <<< 29
def FlagV : Nat := 1 <<< 28
def FlagI : Nat := 1 <<< 7
def FlagF : Nat := 1 <<< 6
def FlagT : Nat := 1 <<< 5

/-- Go's `^x` on a `uint32`. -/
def not32 (x : Nat) : Nat := 0xFFFFFFFF ^^^ (x % 2 ^ 32)

/-- Go's `a - b` on `uint32` values. -/
def sub32 (a b : Nat) : Nat := (a + (2 ^ 32 - b % 2 ^ 32)) % 2 ^ 32

/-- `boolToUint32`. -/
def boolToUint32 (b : Bool) : Nat := if b then 1 else 0

/-- The value of a 32-bit word read as a two's complement number. -/
def signed32 (x : Nat) : Int := if 2 ^ 31 ≤ x then (x : Int) - 2 ^ 32 else x

/-- The `CPU` struct; the arrays are functions on their indices.  The memory callbacks
`Read8` .. `Write32` are wired by `GBA.setupCallbacks` to the memory unit, which the
functions that fetch or load take as a parameter; no function of the package stores to
memory. -/
structure CPU where
  Regs : Nat → Nat
  RegsFIQ : Nat → Nat
  RegsIRQ : Nat → Nat
  RegsSVC : Nat → Nat
  RegsABT : Nat → Nat
  RegsUND : Nat → Nat
  CPSR : Nat
  SPSR : Nat
  SPSRfiq : Nat
  SPSRirq : Nat
  SPSRsvc : Nat
  SPSRabt : Nat
  SPSRund : Nat
  PC : Nat
  LR : Nat
  SP : Nat
  Pipeline : Nat → Nat
  Halted : Bool
  StepCount : Nat

namespace CPU

/-- `CPU.UpdateMode`: loads the fields `SP` and `LR` from the bank of the current mode and
copies `PC` to `Regs[15]`. -/
def UpdateMode (c : CPU) : CPU :=
  let mode := c.CPSR &&& 0x1F
  let c1 : CPU :=
    if mode = ModeFIQ then { c with SP := c.RegsFIQ 5, LR := c.RegsFIQ 6 }
    else if mode = ModeIRQ then { c with SP := c.RegsIRQ 0, LR := c.RegsIRQ 1 }
    else if mode = ModeSupervisor then { c with SP := c.RegsSVC 0, LR := c.RegsSVC 1 }
    else if mode = ModeAbort then { c with SP := c.RegsABT 0, LR := c.RegsABT 1 }
    else if mode = ModeUndefined then { c with SP := c.RegsUND 0, LR := c.RegsUND 1 }
    else { c with SP := c.Regs 13, LR := c.Regs 14 }
  { c1 with Regs := Function.update c1.Regs 15 c1.PC }

/-- `CPU.Reset`. -/
def Reset (c : CPU) : CPU :=
  let c1 : CPU := { c with Regs := fun _ => 0 }
  let c2 : CPU := { c1 with Regs := Function.update c1.Regs 13 0x03007F00 }
  let c3 : CPU := { c2 with RegsSVC := Function.update c2.RegsSVC 0 0x03007FE0 }
  let c4 : CPU := { c3 with RegsIRQ := Function.update c3.RegsIRQ 0 0x03007FA0 }
  let c5 : CPU := { c4 with CPSR := ModeSupervisor ||| FlagI ||| FlagF }
  let c6 : CPU := c5.UpdateMode
  { c6 with
    PC := 0
    Pipeline := Function.update (Function.update (Function.update c6.Pipeline 0 0) 1 0) 2 0
    Halted := false
    StepCount := 0 }

/-- `cpu.New`: a zero struct, reset. -/
def New : CPU :=
  Reset
    { Regs := fun _ => 0, RegsFIQ := fun _ => 0, RegsIRQ := fun _ => 0, RegsSVC := fun _ => 0
      RegsABT := fun _ => 0, RegsUND := fun _ => 0, CPSR := 0, SPSR := 0, SPSRfiq := 0
      SPSRirq := 0, SPSRsvc := 0, SPSRabt := 0, SPSRund := 0, PC := 0, LR := 0, SP := 0
      Pipeline := fun _ => 0, Halted := false, StepCount := 0 }

/-- `CPU.SaveMode`: stores the fields `SP` and `LR` into the bank of the current mode. -/
def SaveMode (c : CPU) : CPU :=
  let mode := c.CPSR &&& 0x1F
  if mode = ModeFIQ then
    { c with RegsFIQ := Function.update (Function.update c.RegsFIQ 5 c.SP) 6 c.LR }
  else if mode = ModeIRQ then
    { c with RegsIRQ := Function.update (Function.update c.RegsIRQ 0 c.SP) 1 c.LR }
  else if mode = ModeSupervisor then
    { c with RegsSVC := Function.update (Function.update c.RegsSVC 0 c.SP) 1 c.LR }
  else if mode = ModeAbort then
    { c with RegsABT := Function.update (Function.update c.RegsABT 0 c.SP) 1 c.LR }
  else if mode = ModeUndefined then
    { c with RegsUND := Function.update (Function.update c.RegsUND 0 c.SP) 1 c.LR }
  else
    { c with Regs := Function.update (Function.update c.Regs 13 c.SP) 14 c.LR }

/-- `CPU.SwitchMode`; `newMode` is a `uint32`.  The status register stored is the one
already carrying the new mode bits, and it goes to the saved status register of the old
mode. -/
def SwitchMode (c : CPU) (newMode : Nat) : CPU :=
  let c1 := c.SaveMode
  let oldMode := c1.CPSR &&& 0x1F
  let c2 : CPU := { c1 with CPSR := (c1.CPSR &&& not32 0x1F) ||| newMode }
  let c3 : CPU :=
    if oldMode = ModeFIQ then { c2 with SPSRfiq := c2.CPSR }
    else if oldMode = ModeIRQ then { c2 with SPSRirq := c2.CPSR }
    else if oldMode = ModeSupervisor then { c2 with SPSRsvc := c2.CPSR }
    else if oldMode = ModeAbort then { c2 with SPSRabt := c2.CPSR }
    else if oldMode = ModeUndefined then { c2 with SPSRund := c2.CPSR }
    else c2
  c3.UpdateMode

/-- `CPU.GetSPSR`. -/
def GetSPSR (c : CPU) : Nat :=
  let mode := c.CPSR &&& 0x1F
  if mode = ModeFIQ then c.SPSRfiq
  else if mode = ModeIRQ then c.SPSRirq
  else if mode = ModeSupervisor then c.SPSRsvc
  else if mode = ModeAbort then c.SPSRabt
  else if mode = ModeUndefined then c.SPSRund
  else c.CPSR

/-- `CPU.SetSPSR`. -/
def SetSPSR (c : CPU) (val : Nat) : CPU :=
  let mode := c.CPSR &&& 0x1F
  if mode = ModeFIQ then { c with SPSRfiq := val }
  else if mode = ModeIRQ then { c with SPSRirq := val }
  else if mode = ModeSupervisor then { c with SPSRsvc := val }
  else if mode = ModeAbort then { c with SPSRabt := val }
  else if mode = ModeUndefined then { c with SPSRund := val }
  else c

/-- `CPU.GetReg`; every caller passes a register number `0..15`. -/
def GetReg (c : CPU) (n : Nat) : Nat := if n = 15 then c.PC else c.Regs n

/-- `CPU.SetReg`. -/
def SetReg (c : CPU) (n val : Nat) : CPU :=
  if n = 15 then { c with PC := val &&& not32 1 }
  else { c with Regs := Function.update c.Regs n val }

/-- `CPU.InThumbMode`. -/
def InThumbMode (c : CPU) : Bool := decide (c.CPSR &&& FlagT ≠ 0)

/-- `CPU.SetFlag`. -/
def SetFlag (c : CPU) (flag : Nat) (set : Bool) : CPU :=
  if set then { c with CPSR := c.CPSR ||| flag }
  else { c with CPSR := c.CPSR &&& not32 flag }

/-- `CPU.GetFlag`. -/
def GetFlag (c : CPU) (flag : Nat) : Bool := decide (c.CPSR &&& flag ≠ 0)

/-- `CPU.SetNZ`. -/
def SetNZ (c : CPU) (val : Nat) : CPU :=
  (c.SetFlag FlagN (decide (val &&& 0x80000000 ≠ 0))).SetFlag FlagZ (decide (val = 0))

/-- `CPU.SetNZC`. -/
def SetNZC (c : CPU) (val : Nat) (carry : Bool) : CPU :=
  (c.SetNZ val).SetFlag FlagC carry

/-- `CPU.SetNZCV`. -/
def SetNZCV (c : CPU) (val : Nat) (carry overflow : Bool) : CPU :=
  (c.SetNZC val carry).SetFlag FlagV overflow

/-- `CPU.ConditionPassed`. -/
def ConditionPassed (c : CPU) (cond : Nat) : Bool :=
  let n := c.GetFlag FlagN
  let z := c.GetFlag FlagZ
  let cv := c.GetFlag FlagC
  let v := c.GetFlag FlagV
  if cond = 0x0 then z
  else if cond = 0x1 then !z
  else if cond = 0x2 then cv
  else if cond = 0x3 then !cv
  else if cond = 0x4 then n
  else if cond = 0x5 then !n
  else if cond = 0x6 then v
  else if cond = 0x7 then !v
  else if cond = 0x8 then cv && !z
  else if cond = 0x9 then !cv || z
  else if cond = 0xA then n == v
  else if cond = 0xB then n != v
  else if cond = 0xC then !z && (n == v)
  else if cond = 0xD then z || (n != v)
  else if cond = 0xE then true
  else false

/-- The statements `c.PC += n; c.Regs[15] = c.PC + n`, with `n = 4` in `executeARM` and
`n = 2` in `executeThumb`. -/
def advancePC (c : CPU) (n : Nat) : CPU :=
  let c1 : CPU := { c with PC := (c.PC + n) % 2 ^ 32 }
  { c1 with Regs := Function.update c1.Regs 15 ((c1.PC + n) % 2 ^ 32) }

/-- `CPU.shift`: the shifted value and the carry out. -/
def shift (c : CPU) (shiftType value shift : Nat) : Nat × Bool :=
  if shift = 0 then (value, c.GetFlag FlagC)
  else if shiftType = 0 then
    if shift ≥ 32 then (0, decide (value &&& 1 ≠ 0))
    else ((value <<< shift) % 2 ^ 32, decide ((value >>> (32 - shift)) &&& 1 ≠ 0))
  else if shiftType = 1 then
    if shift ≥ 32 then (0, decide (value &&& 0x80000000 ≠ 0))
    else (value >>> shift, decide ((value >>> (shift - 1)) &&& 1 ≠ 0))
  else if shiftType = 2 then
    if shift ≥ 32 then
      if value &&& 0x80000000 ≠ 0 then (0xFFFFFFFF, true) else (0, false)
    else
      let sign := value &&& 0x80000000
      let result := value >>> shift
      let result := if sign ≠ 0 then result ||| not32 (0xFFFFFFFF >>> shift) else result
      (result, decide ((value >>> (shift - 1)) &&& 1 ≠ 0))
  else if shiftType = 3 then
    let shift := shift &&& 31
    if shift = 0 then (value, c.GetFlag FlagC)
    else
      ((value >>> shift) ||| ((value <<< (32 - shift)) % 2 ^ 32),
        decide ((value >>> (shift - 1)) &&& 1 ≠ 0))
  else (value, false)

/-- The second operand and the shifter carry of a data-processing instruction: the first
block of `handleDataProcessing`.  For a shift by an immediate amount the amount 0 is
replaced by 32 before `shift` is called, whatever the shift type is. -/
def operand2 (c : CPU) (instr : Nat) : Nat × Bool :=
  if instr &&& 0x02000000 ≠ 0 then
    let imm := instr &&& 0xFF
    let rot := ((instr >>> 8) &&& 0xF) * 2
    let op2 := (imm >>> rot) ||| ((imm <<< (32 - rot)) % 2 ^ 32)
    if rot ≠ 0 then (op2, decide (op2 &&& 0x80000000 ≠ 0)) else (op2, c.GetFlag FlagC)
  else
    let rm := instr &&& 0xF
    let op2 := c.Regs rm
    let shiftType := (instr >>> 5) &&& 3
    if instr &&& 0x10 ≠ 0 then
      c.shift shiftType op2 (c.Regs ((instr >>> 8) &&& 0xF) &&& 0xFF)
    else
      let sh := (instr >>> 7) &&& 0x1F
      c.shift shiftType op2 (if sh = 0 then 32 else sh)

/-- The first operand of a data-processing instruction, `rnVal` in
`handleDataProcessing`. -/
def rnValue (c : CPU) (instr : Nat) : Nat :=
  let rn := (instr >>> 16) &&& 0xF
  if rn = 15 then (c.Regs rn + 4) % 2 ^ 32 else c.Regs rn

/-- The `switch opcode` of `handleDataProcessing`: the state (TST and TEQ store the shifter
carry at once), `result`, `resultCarry` and `overflow`. -/
def alu (c : CPU) (opcode rnVal op2 : Nat) (carry : Bool) : CPU × Nat × Bool × Bool :=
  if opcode = 0x0 then (c, rnVal &&& op2, false, false)
  else if opcode = 0x1 then (c, rnVal ^^^ op2, false, false)
  else if opcode = 0x2 then
    (c, sub32 rnVal op2, decide (rnVal ≥ op2),
      decide ((rnVal ^^^ op2) &&& 0x80000000 ≠ 0 ∧
        (rnVal ^^^ sub32 rnVal op2) &&& 0x80000000 ≠ 0))
  else if opcode = 0x3 then
    (c, sub32 op2 rnVal, decide (op2 ≥ rnVal),
      decide ((op2 ^^^ rnVal) &&& 0x80000000 ≠ 0 ∧
        (op2 ^^^ sub32 op2 rnVal) &&& 0x80000000 ≠ 0))
  else if opcode = 0x4 then
    (c, (rnVal + op2) % 2 ^ 32, decide ((rnVal + op2) % 2 ^ 32 < rnVal),
      decide ((rnVal ^^^ op2) &&& 0x80000000 = 0 ∧
        (rnVal ^^^ ((rnVal + op2) % 2 ^ 32)) &&& 0x80000000 ≠ 0))
  else if opcode = 0x5 then
    let result := (rnVal + op2 + boolToUint32 (c.GetFlag FlagC)) % 2 ^ 32
    (c, result, decide (result < rnVal ∨ (result = rnVal ∧ c.GetFlag FlagC = true)), false)
  else if opcode = 0x6 then
    let result := sub32 (sub32 rnVal op2) (boolToUint32 (!c.GetFlag FlagC))
    (c, result, decide (rnVal > op2 ∨ (rnVal = op2 ∧ c.GetFlag FlagC = true)), false)
  else if opcode = 0x7 then
    let result := sub32 (sub32 op2 rnVal) (boolToUint32 (!c.GetFlag FlagC))
    (c, result, decide (op2 > rnVal ∨ (op2 = rnVal ∧ c.GetFlag FlagC = true)), false)
  else if opcode = 0x8 then (c.SetFlag FlagC carry, rnVal &&& op2, false, false)
  else if opcode = 0x9 then (c.SetFlag FlagC carry, rnVal ^^^ op2, false, false)
  else if opcode = 0xA then
    (c, sub32 rnVal op2, decide (rnVal ≥ op2),
      decide ((rnVal ^^^ op2) &&& 0x80000000 ≠ 0 ∧
        (rnVal ^^^ sub32 rnVal op2) &&& 0x80000000 ≠ 0))
  else if opcode = 0xB then
    (c, (rnVal + op2) % 2 ^ 32, decide ((rnVal + op2) % 2 ^ 32 < rnVal),
      decide ((rnVal ^^^ op2) &&& 0x80000000 = 0 ∧
        (rnVal ^^^ ((rnVal + op2) % 2 ^ 32)) &&& 0x80000000 ≠ 0))
  else if opcode = 0xC then (c, rnVal ||| op2, false, false)
  else if opcode = 0xD then (c, op2, false, false)
  else if opcode = 0xE then (c, rnVal &&& not32 op2, false, false)
  else if opcode = 0xF then (c, not32 op2, false, false)
  else (c, 0, false, false)

/-- The block `if s == 1 && rd != 15 { ... }` of `handleDataProcessing`: the flags are set
from the result. -/
def setResultFlags (c : CPU) (opcode s rd result : Nat) (resultCarry overflow : Bool) : CPU :=
  if s = 1 ∧ rd ≠ 15 then
    if opcode ≥ 0x8 ∧ opcode ≤ 0xB then c.SetNZCV result resultCarry overflow
    else if opcode ≥ 0x2 ∧ opcode ≤ 0x7 then c.SetNZCV result resultCarry overflow
    else c.SetNZ result
  else c

/-- The block `if opcode != 0x8 && ... { c.Regs[rd] = result }` of
`handleDataProcessing`. -/
def writeResult (c : CPU) (opcode rd result : Nat) : CPU :=
  if opcode ≠ 0x8 ∧ opcode ≠ 0x9 ∧ opcode ≠ 0xA ∧ opcode ≠ 0xB then
    { c with Regs := Function.update c.Regs rd result }
  else c

/-- The statements `c.CPSR = c.GetSPSR(); c.UpdateMode()`. -/
def restoreCPSR (c : CPU) : CPU := ({ c with CPSR := c.GetSPSR } : CPU).UpdateMode

/-- The block `if rd == 15 { ... }` that ends `handleDataProcessing`. -/
def writeR15 (c : CPU) (s rd result : Nat) : CPU :=
  if rd = 15 then
    let c1 : CPU := if s = 1 then c.restoreCPSR else c
    let c2 : CPU := { c1 with PC := result &&& not32 3 }
    { c2 with Regs := Function.update c2.Regs 15 ((c2.PC + 4) % 2 ^ 32) }
  else c

/-- `CPU.handleDataProcessing`: the new state and the cycle count.  Its blocks are, in
order, `operand2`, `rnValue`, `alu`, `setResultFlags`, `writeResult` and `writeR15`. -/
def handleDataProcessing (c : CPU) (instr : Nat) : CPU × Int :=
  let opcode := (instr >>> 21) &&& 0xF
  let s := (instr >>> 20) &&& 1
  let rd := (instr >>> 12) &&& 0xF
  let op := c.operand2 instr
  let r := c.alu opcode (c.rnValue instr) op.1 op.2
  let c1 := r.1.setResultFlags opcode s rd r.2.1 r.2.2.1 r.2.2.2
  let c2 := c1.writeResult opcode rd r.2.1
  (c2.writeR15 s rd r.2.1, 1)

/-- `CPU.handlePSRTransfer`. -/
def handlePSRTransfer (c : CPU) (_instr : Nat) : CPU × Int := (c, 1)

/-- `CPU.handleMultiply`. -/
def handleMultiply (c : CPU) (_instr : Nat) : CPU × Int := (c, 1)

/-- `CPU.handleHalfwordTransfer`. -/
def handleHalfwordTransfer (c : CPU) (_instr : Nat) : CPU × Int := (c, 1)

/-- `CPU.handleSingleTransfer`. -/
def handleSingleTransfer (c : CPU) (_instr : Nat) : CPU × Int := (c, 1)

/-- `CPU.handleBlockTransfer`. -/
def handleBlockTransfer (c : CPU) (_instr : Nat) : CPU × Int := (c, 1)

/-- `CPU.handleBranch`: called by `executeARM` with `PC` still the address of the branch
instruction. -/
def handleBranch (c : CPU) (instr : Nat) : CPU × Int :=
  let link := (instr >>> 24) &&& 1
  let offset := instr &&& 0x00FFFFFF
  let offset := if offset &&& 0x00800000 ≠ 0 then offset ||| 0xFF000000 else offset
  let offset := (offset <<< 2) % 2 ^ 32
  let c1 : CPU := if link = 1 then { c with LR := sub32 c.PC 4 } else c
  let target := (c1.PC + offset) % 2 ^ 32
  let c2 : CPU := { c1 with PC := target }
  ({ c2 with Regs := Function.update c2.Regs 15 ((c2.PC + 4) % 2 ^ 32) }, 1)

/-- `CPU.handleSWI`. -/
def handleSWI (c : CPU) (_instr : Nat) : CPU × Int := (c, 1)

/-- `CPU.handleCoprocessorTransfer`. -/
def handleCoprocessorTransfer (c : CPU) (_instr : Nat) : CPU × Int := (c, 1)

/-- `CPU.executeARM`; the fetch goes to `MMU.Read32`, and `none` is a panic there. -/
def executeARM (c : CPU) (m : MMU) : Option (CPU × Int) :=
  (m.Read32 c.PC).map fun instr =>
    let cond := (instr >>> 28) &&& 0xF
    if c.ConditionPassed cond = false then (c.advancePC 4, 1)
    else if instr &&& 0x0E000000 = 0x00000000 ∧ instr &&& 0x00000010 ≠ 0x00000010 then
      (c.advancePC 4).handleDataProcessing instr
    else if instr &&& 0x0E000000 = 0x02000000 then (c.advancePC 4).handlePSRTransfer instr
    else if instr &&& 0x0E000090 = 0x00000090 then (c.advancePC 4).handleMultiply instr
    else if instr &&& 0x0E000F00 = 0x000000B0 ∨ instr &&& 0x0E000F00 = 0x000000D0 then
      (c.advancePC 4).handleHalfwordTransfer instr
    else if instr &&& 0x0E000000 = 0x08000000 then (c.advancePC 4).handleBlockTransfer instr
    else if instr &&& 0x0E000000 = 0x04000000 then (c.advancePC 4).handleSingleTransfer instr
    else if instr &&& 0x0E000000 = 0x0A000000 then c.handleBranch instr
    else if instr &&& 0x0F000000 = 0x0F000000 then (c.advancePC 4).handleSWI instr
    else if instr &&& 0x0E000000 = 0x0C000000 then
      (c.advancePC 4).handleCoprocessorTransfer instr
    else (c.advancePC 4, 1)

/-- `CPU.thumbAddSub`. -/
def thumbAddSub (c : CPU) (instr : Nat) : CPU × Int :=
  let op := (instr >>> 9) &&& 1
  let rnOffset := (instr >>> 6) &&& 7
  let rs := (instr >>> 3) &&& 7
  let rd := instr &&& 7
  let rsVal := c.Regs rs
  let operand := if instr &&& 0x0400 ≠ 0 then rnOffset else c.Regs rnOffset
  let r : CPU × Nat :=
    if op = 0 then
      let result := (rsVal + operand) % 2 ^ 32
      (((c.SetFlag FlagC (decide (result < rsVal))).SetFlag FlagV
          (decide ((rsVal ^^^ operand) &&& 0x80000000 = 0 ∧
            (rsVal ^^^ result) &&& 0x80000000 ≠ 0))), result)
    else
      let result := sub32 rsVal operand
      (((c.SetFlag FlagC (decide (rsVal ≥ operand))).SetFlag FlagV
          (decide ((rsVal ^^^ operand) &&& 0x80000000 ≠ 0 ∧
            (rsVal ^^^ result) &&& 0x80000000 ≠ 0))), result)
  let c1 := r.1.SetNZ r.2
  ({ c1 with Regs := Function.update c1.Regs rd r.2 }, 1)

/-- `CPU.thumbMoveShifted`. -/
def thumbMoveShifted (c : CPU) (instr : Nat) : CPU × Int :=
  let op := (instr >>> 11) &&& 3
  let offset := (instr >>> 6) &&& 0x1F
  let rs := (instr >>> 3) &&& 7
  let rd := instr &&& 7
  let value := c.Regs rs
  let r : Nat × Bool :=
    if op = 0 then
      if offset = 0 then (value, c.GetFlag FlagC)
      else ((value <<< offset) % 2 ^ 32, decide ((value >>> (32 - offset)) &&& 1 ≠ 0))
    else if op = 1 then
      let offset := if offset = 0 then 32 else offset
      (value >>> offset, decide ((value >>> (offset - 1)) &&& 1 ≠ 0))
    else if op = 2 then
      let offset := if offset = 0 then 32 else offset
      let sign := value &&& 0x80000000
      let result := value >>> offset
      let result := if sign ≠ 0 then result ||| not32 (0xFFFFFFFF >>> offset) else result
      (result, decide ((value >>> (offset - 1)) &&& 1 ≠ 0))
    else if op = 3 then
      if offset = 0 then (value, c.GetFlag FlagC)
      else
        ((value >>> offset) ||| ((value <<< (32 - offset)) % 2 ^ 32),
          decide ((value >>> (offset - 1)) &&& 1 ≠ 0))
    else (0, false)
  let c1 := c.SetNZC r.1 r.2
  ({ c1 with Regs := Function.update c1.Regs rd r.1 }, 1)

/-- `CPU.thumbMoveCompare`. -/
def thumbMoveCompare (c : CPU) (instr : Nat) : CPU × Int :=
  let op := (instr >>> 11) &&& 3
  let rd := (instr >>> 8) &&& 7
  let offset := instr &&& 0xFF
  let value := c.Regs rd
  let r : CPU × Nat :=
    if op = 0 then ({ c with Regs := Function.update c.Regs rd offset }, offset)
    else if op = 1 then
      let result := sub32 value offset
      ((c.SetFlag FlagC (decide (value ≥ offset))).SetFlag FlagV
        (decide ((value ^^^ offset) &&& 0x80000000 ≠ 0 ∧
          (value ^^^ result) &&& 0x80000000 ≠ 0)), result)
    else if op = 2 then
      let result := (value + offset) % 2 ^ 32
      let c1 := (c.SetFlag FlagC (decide (result < value))).SetFlag FlagV
        (decide ((value ^^^ offset) &&& 0x80000000 = 0 ∧
          (value ^^^ result) &&& 0x80000000 ≠ 0))
      ({ c1 with Regs := Function.update c1.Regs rd result }, result)
    else if op = 3 then
      let result := sub32 value offset
      ((c.SetFlag FlagC (decide (value ≥ offset))).SetFlag FlagV
        (decide ((value ^^^ offset) &&& 0x80000000 ≠ 0 ∧
          (value ^^^ result) &&& 0x80000000 ≠ 0)), result)
    else (c, 0)
  (r.1.SetNZ r.2, 1)

/-- The `switch op` of `thumbALU`: the state (the bit test stores its carry at once),
`result`, `carry` and `overflow`. -/
def thumbALUop (c : CPU) (op left right : Nat) : CPU × Nat × Bool × Bool :=
  if op = 0x0 then (c, left &&& right, false, false)
  else if op = 0x1 then (c, left ^^^ right, false, false)
  else if op = 0x2 then
    let shift := right &&& 0xFF
    if shift = 0 then (c, left, c.GetFlag FlagC, false)
    else if shift < 32 then
      (c, (left <<< shift) % 2 ^ 32, decide ((left >>> (32 - shift)) &&& 1 ≠ 0), false)
    else (c, 0, false, false)
  else if op = 0x3 then
    let shift := right &&& 0xFF
    if shift = 0 then (c, left, c.GetFlag FlagC, false)
    else if shift < 32 then
      (c, left >>> shift, decide ((left >>> (shift - 1)) &&& 1 ≠ 0), false)
    else (c, 0, decide (left &&& 0x80000000 ≠ 0), false)
  else if op = 0x4 then
    let shift := right &&& 0xFF
    if shift = 0 then (c, left, c.GetFlag FlagC, false)
    else if shift ≥ 32 then
      if left &&& 0x80000000 ≠ 0 then (c, 0xFFFFFFFF, true, false) else (c, 0, false, false)
    else
      let sign := left &&& 0x80000000
      let result := left >>> shift
      let result := if sign ≠ 0 then result ||| not32 (0xFFFFFFFF >>> shift) else result
      (c, result, decide ((left >>> (shift - 1)) &&& 1 ≠ 0), false)
  else if op = 0x5 then
    let shift := right &&& 0x1F
    if shift = 0 then (c, left, c.GetFlag FlagC, false)
    else
      (c, (left >>> shift) ||| ((left <<< (32 - shift)) % 2 ^ 32),
        decide ((left >>> (shift - 1)) &&& 1 ≠ 0), false)
  else if op = 0x6 then
    (c.SetFlag FlagC (decide (left &&& ((1 <<< (right &&& 0x1F)) % 2 ^ 32) ≠ 0)),
      left &&& right, false, false)
  else if op = 0x7 then (c, left &&& not32 right, false, false)
  else if op = 0x8 then
    (c, sub32 left right, decide (left ≥ right),
      decide ((left ^^^ right) &&& 0x80000000 ≠ 0 ∧
        (left ^^^ sub32 left right) &&& 0x80000000 ≠ 0))
  else if op = 0x9 then
    (c, (left + right) % 2 ^ 32, decide ((left + right) % 2 ^ 32 < left),
      decide ((left ^^^ right) &&& 0x80000000 = 0 ∧
        (left ^^^ ((left + right) % 2 ^ 32)) &&& 0x80000000 ≠ 0))
  else if op = 0xA then
    (c, sub32 left right, decide (left ≥ right),
      decide ((left ^^^ right) &&& 0x80000000 ≠ 0 ∧
        (left ^^^ sub32 left right) &&& 0x80000000 ≠ 0))
  else if op = 0xB then
    (c, (left + right) % 2 ^ 32, decide ((left + right) % 2 ^ 32 < left),
      decide ((left ^^^ right) &&& 0x80000000 = 0 ∧
        (left ^^^ ((left + right) % 2 ^ 32)) &&& 0x80000000 ≠ 0))
  else if op = 0xC then (c, left ||| right, false, false)
  else if op = 0xD then (c, right, false, false)
  else if op = 0xE then (c, left &&& not32 right, false, false)
  else if op = 0xF then (c, not32 right, false, false)
  else (c, 0, false, false)

/-- `CPU.thumbALU`. -/
def thumbALU (c : CPU) (instr : Nat) : CPU × Int :=
  let op := (instr >>> 6) &&& 0xF
  let rs := (instr >>> 3) &&& 7
  let rd := instr &&& 7
  let r := c.thumbALUop op (c.Regs rd) (c.Regs rs)
  let c1 := r.1.SetNZCV r.2.1 r.2.2.1 r.2.2.2
  if op ≠ 0x8 ∧ op ≠ 0xA ∧ op ≠ 0xB then
    ({ c1 with Regs := Function.update c1.Regs rd r.2.1 }, 1)
  else (c1, 1)

/-- `CPU.thumbHiReg`. -/
def thumbHiReg (c : CPU) (instr : Nat) : CPU × Int :=
  let op := (instr >>> 8) &&& 3
  let h1 := (instr >>> 7) &&& 1
  let h2 := (instr >>> 6) &&& 1
  let rs := (instr >>> 3) &&& 7
  let rd := instr &&& 7
  let rs := if h2 ≠ 0 then rs + 8 else rs
  let rd := if h1 ≠ 0 then rd + 8 else rd
  let rsVal := c.GetReg rs
  let rdVal := c.GetReg rd
  if op = 0x0 then
    let result := (rdVal + rsVal) % 2 ^ 32
    let c1 := c.SetReg rd result
    if rd = 15 then
      let c2 : CPU := { c1 with PC := result &&& not32 1 }
      ({ c2 with Regs := Function.update c2.Regs 15 ((c2.PC + 2) % 2 ^ 32) }, 1)
    else (c1, 1)
  else if op = 0x1 then
    let result := sub32 rdVal rsVal
    let c1 := c.SetFlag FlagN (decide (result &&& 0x80000000 ≠ 0))
    let c2 := c1.SetFlag FlagZ (decide (result = 0))
    let c3 := c2.SetFlag FlagC (decide (rdVal ≥ rsVal))
    (c3.SetFlag FlagV
      (decide ((rdVal ^^^ rsVal) &&& 0x80000000 ≠ 0 ∧ (rdVal ^^^ result) &&& 0x80000032 ≠ 0)),
      1)
  else if op = 0x2 then
    let c1 := c.SetReg rd rsVal
    if rd = 15 then
      let c2 : CPU := { c1 with PC := rsVal &&& not32 1 }
      ({ c2 with Regs := Function.update c2.Regs 15 ((c2.PC + 2) % 2 ^ 32) }, 1)
    else (c1, 1)
  else if op = 0x3 then
    let c1 : CPU := { c with PC := rsVal &&& not32 1 }
    let c2 : CPU := { c1 with Regs := Function.update c1.Regs 15 ((c1.PC + 2) % 2 ^ 32) }
    ({ c2 with CPSR := c2.CPSR ||| FlagT }, 1)
  else (c, 1)

/-- `CPU.thumbLoadPC`; the load goes to `MMU.Read32`. -/
def thumbLoadPC (c : CPU) (m : MMU) (instr : Nat) : Option (CPU × Int) :=
  let rd := (instr >>> 8) &&& 7
  let offset := ((instr &&& 0xFF) <<< 2) % 2 ^ 32
  let addr := ((c.PC &&& not32 3) + offset) % 2 ^ 32
  (m.Read32 addr).map fun v => ({ c with Regs := Function.update c.Regs rd v }, 1)

/-- `CPU.thumbLoadStoreReg`. -/
def thumbLoadStoreReg (c : CPU) (_instr : Nat) : CPU × Int := (c, 1)

/-- `CPU.thumbLoadStoreSign`. -/
def thumbLoadStoreSign (c : CPU) (_instr : Nat) : CPU × Int := (c, 1)

/-- `CPU.thumbLoadStoreImm`. -/
def thumbLoadStoreImm (c : CPU) (_instr : Nat) : CPU × Int := (c, 1)

/-- `CPU.thumbLoadStoreH`. -/
def thumbLoadStoreH (c : CPU) (_instr : Nat) : CPU × Int := (c, 1)

/-- `CPU.thumbLoadStoreSP`. -/
def thumbLoadStoreSP (c : CPU) (_instr : Nat) : CPU × Int := (c, 1)

/-- `CPU.thumbLoadAddr`. -/
def thumbLoadAddr (c : CPU) (_instr : Nat) : CPU × Int := (c, 1)

/-- `CPU.thumbAddSP`. -/
def thumbAddSP (c : CPU) (_instr : Nat) : CPU × Int := (c, 1)

/-- `CPU.thumbPushPop`. -/
def thumbPushPop (c : CPU) (_instr : Nat) : CPU × Int := (c, 1)

/-- `CPU.thumbBlockTransfer`. -/
def thumbBlockTransfer (c : CPU) (_instr : Nat) : CPU × Int := (c, 1)

/-- `CPU.thumbSWI`. -/
def thumbSWI (c : CPU) (_instr : Nat) : CPU × Int := (c, 1)

/-- `CPU.thumbCondBranch`. -/
def thumbCondBranch (c : CPU) (_instr : Nat) : CPU × Int := (c, 1)

/-- `CPU.thumbUncondBranch`. -/
def thumbUncondBranch (c : CPU) (_instr : Nat) : CPU × Int := (c, 1)

/-- `CPU.thumbLongBranch`. -/
def thumbLongBranch (c : CPU) (_instr : Nat) : CPU × Int := (c, 1)

/-- The `switch` of `executeThumb`, entered after the fetch and the advance of `PC`. -/
def dispatchThumb (c : CPU) (m : MMU) (instr : Nat) : Option (CPU × Int) :=
  if instr &&& 0xF800 = 0x1800 then some (c.thumbAddSub instr)
  else if instr &&& 0xE000 = 0x0000 then some (c.thumbMoveShifted instr)
  else if instr &&& 0xE000 = 0x2000 then some (c.thumbMoveCompare instr)
  else if instr &&& 0xFC00 = 0x4000 then some (c.thumbALU instr)
  else if instr &&& 0xFC00 = 0x4400 then some (c.thumbHiReg instr)
  else if instr &&& 0xF800 = 0x4800 then c.thumbLoadPC m instr
  else if instr &&& 0xF200 = 0x5000 then some (c.thumbLoadStoreReg instr)
  else if instr &&& 0xF200 = 0x5200 then some (c.thumbLoadStoreSign instr)
  else if instr &&& 0xE000 = 0x6000 then some (c.thumbLoadStoreImm instr)
  else if instr &&& 0xF000 = 0x8000 then some (c.thumbLoadStoreH instr)
  else if instr &&& 0xF000 = 0x9000 then some (c.thumbLoadStoreSP instr)
  else if instr &&& 0xF000 = 0xA000 then some (c.thumbLoadAddr instr)
  else if instr &&& 0xFF00 = 0xB000 then some (c.thumbAddSP instr)
  else if instr &&& 0xF600 = 0xB400 then some (c.thumbPushPop instr)
  else if instr &&& 0xF000 = 0xC000 then some (c.thumbBlockTransfer instr)
  else if instr &&& 0xFF00 = 0xDF00 then some (c.thumbSWI instr)
  else if instr &&& 0xF000 = 0xD000 then some (c.thumbCondBranch instr)
  else if instr &&& 0xF800 = 0xE000 then some (c.thumbUncondBranch instr)
  else if instr &&& 0xF800 = 0xE800 then some (c.thumbLongBranch instr)
  else some (c, 1)

/-- `CPU.executeThumb`; the fetch goes to `MMU.Read16`. -/
def executeThumb (c : CPU) (m : MMU) : Option (CPU × Int) :=
  (m.Read16 c.PC).bind fun instr => (c.advancePC 2).dispatchThumb m instr

/-- `CPU.Step`: the new state and the cycle count; `none` is a panic in a memory read. -/
def Step (c : CPU) (m : MMU) : Option (CPU × Int) :=
  if c.Halted = true then some (c, 1)
  else
    (if c.InThumbMode = true then c.executeThumb m else c.executeARM m).map fun r =>
      ({ r.1 with StepCount := (r.1.StepCount + 1) % 2 ^ 64 }, r.2)

/-- A freshly reset CPU with the exported field `PC` set to the start of the cartridge
ROM, `0x08000000`.  (`GBA.Reset` itself starts at `PC = 0`: the BIOS slice it tests is
never empty.) -/
def atROM : CPU := { CPU.New with PC := 0x08000000 }

/-- Every 32-bit register of the state holds a `uint32`. -/
def Sized (c : CPU) : Prop :=
  (∀ i, i < 16 → c.Regs i < 2 ^ 32) ∧ c.CPSR < 2 ^ 32 ∧ c.PC < 2 ^ 32 ∧ c.LR < 2 ^ 32 ∧
    c.SP < 2 ^ 32

instance (c : CPU) : Decidable c.Sized := by
  unfold Sized; infer_instance

end CPU

/-! ## DMA controller (`pkg/dma/dma.go`) -/

/-- The `DMA` struct.  The arrays `[4]T` are functions of the channel index.  The callbacks
`Read32`, `Write32`, `Read16` and `Write16` are the memory unit's methods (`gba.New`), so
the transfer functions take the `MMU` and return it; the callback `RequestInterrupt` is
represented by `Requested`, the list of the `irq` arguments it has been called with, latest
first. -/
structure DMA where
  SAD : Nat → Nat
  DAD : Nat → Nat
  CNT_L : Nat → Nat
  CNT_H : Nat → Nat
  Active : Nat → Bool
  InternalSource : Nat → Nat
  InternalDest : Nat → Nat
  InternalCount : Nat → Nat
  Requested : List Nat

namespace DMA

/-- `DMA.Reset`: the loop over the four channels assigns every array element. -/
def Reset (d : DMA) : DMA :=
  { SAD := fun i => if i < 4 then 0 else d.SAD i
    DAD := fun i => if i < 4 then 0 else d.DAD i
    CNT_L := fun i => if i < 4 then 0 else d.CNT_L i
    CNT_H := fun i => if i < 4 then 0 else d.CNT_H i
    Active := fun i => if i < 4 then false else d.Active i
    InternalSource := fun i => if i < 4 then 0 else d.InternalSource i
    InternalDest := fun i => if i < 4 then 0 else d.InternalDest i
    InternalCount := fun i => if i < 4 then 0 else d.InternalCount i
    Requested := d.Requested }

/-- `dma.New`: a zero-valued struct with the callbacks installed, then `Reset`. -/
def New : DMA :=
  Reset
    { SAD := fun _ => 0, DAD := fun _ => 0, CNT_L := fun _ => 0, CNT_H := fun _ => 0
      Active := fun _ => false, InternalSource := fun _ => 0, InternalDest := fun _ => 0
      InternalCount := fun _ => 0, Requested := [] }

/-- `DMA.WriteSAD`; `channel` is a Go `int`, guarded by `channel < 4` only, so a negative
index panics (`none`). -/
def WriteSAD (d : DMA) (channel : Int) (val : Nat) : Option DMA :=
  if channel < 4 then
    if 0 ≤ channel then
      some { d with SAD := Function.update d.SAD channel.toNat (val &&& 0x0FFFFFFF) }
    else none
  else some d

/-- `DMA.WriteDAD`. -/
def WriteDAD (d : DMA) (channel : Int) (val : Nat) : Option DMA :=
  if channel < 4 then
    if 0 ≤ channel then
      some { d with DAD := Function.update d.DAD channel.toNat (val &&& 0x0FFFFFFF) }
    else none
  else some d

/-- `DMA.WriteCNT_L`. -/
def WriteCNT_L (d : DMA) (channel : Int) (val : Nat) : Option DMA :=
  if channel < 4 then
    if 0 ≤ channel then some { d with CNT_L := Function.update d.CNT_L channel.toNat val }
    else none
  else some d

/-- `DMA.startTransfer`; every caller has indexed an array with `channel` before, so it is
a valid index here. -/
def startTransfer (d : DMA) (channel : Nat) : DMA :=
  let d1 := { d with InternalSource := Function.update d.InternalSource channel (d.SAD channel) }
  let d2 := { d1 with InternalDest := Function.update d1.InternalDest channel (d1.DAD channel) }
  let count0 := d2.CNT_L channel
  let count := if count0 = 0 then (if channel = 3 then 0x10000 else 0x4000) else count0
  let d3 := { d2 with InternalCount := Function.update d2.InternalCount channel count }
  let startTiming := (d3.CNT_H channel >>> 12) &&& 0x3
  if startTiming = 0 then { d3 with Active := Function.update d3.Active channel true }
  else d3

/-- `DMA.WriteCNT_H`. -/
def WriteCNT_H (d : DMA) (channel : Int) (val : Nat) : Option DMA :=
  if channel ≥ 4 then some d
  else if channel < 0 then none
  else
    let ch := channel.toNat
    let oldEnable := decide (d.CNT_H ch &&& 0x8000 ≠ 0)
    let d1 := { d with CNT_H := Function.update d.CNT_H ch val }
    if oldEnable = false ∧ val &&& 0x8000 ≠ 0 then some (d1.startTransfer ch)
    else some d1

/-- `DMA.adjustAddress`, in `uint32` arithmetic. -/
def adjustAddress (addr control transferType : Nat) : Nat :=
  let increment := if transferType = 2 ∨ transferType = 3 then 4 else 2
  if control = 0 then (addr + increment) % 2 ^ 32
  else if control = 1 then (addr + 2 ^ 32 - increment) % 2 ^ 32
  else if control = 2 then addr
  else if control = 3 then (addr + increment) % 2 ^ 32
  else addr

/-- The `if`/`else` chain at the head of the loop body of `DMA.transfer`: one unit is read
and written through the memory unit, a word for the transfer types 2 and 3, a halfword
otherwise. -/
def moveUnit (d : DMA) (m : MMU) (channel transferType : Nat) : Option MMU :=
  if transferType = 3 then
    (m.Read32 (d.InternalSource channel)).bind fun data =>
      m.Write32 (d.InternalDest channel) data
  else if transferType = 2 then
    (m.Read32 (d.InternalSource channel)).bind fun data =>
      m.Write32 (d.InternalDest channel) data
  else if transferType = 1 then
    (m.Read16 (d.InternalSource channel)).bind fun data =>
      m.Write16 (d.InternalDest channel) data
  else
    (m.Read16 (d.InternalSource channel)).bind fun data =>
      m.Write16 (d.InternalDest channel) data

/-- One pass through the body of the loop of `DMA.transfer`: the unit is moved, then both
internal addresses are adjusted. -/
def transferUnit (d : DMA) (m : MMU) (channel transferType sourceControl destControl : Nat) :
    Option (DMA × MMU) :=
  (d.moveUnit m channel transferType).bind fun m1 =>
    let src := adjustAddress (d.InternalSource channel) sourceControl transferType
    let d1 := { d with InternalSource := Function.update d.InternalSource channel src }
    let dst := adjustAddress (d1.InternalDest channel) destControl transferType
    let d2 := { d1 with InternalDest := Function.update d1.InternalDest channel dst }
    some (d2, m1)

/-- The loop `for i := uint32(0); i < words; i++` of `DMA.transfer`. -/
def transferLoop (channel transferType sourceControl destControl : Nat) :
    Nat → DMA → MMU → Option (DMA × MMU)
  | 0, d, m => some (d, m)
  | n + 1, d, m =>
    (d.transferUnit m channel transferType sourceControl destControl).bind fun r =>
      transferLoop channel transferType sourceControl destControl n r.1 r.2

/-- The part of `DMA.transfer` after the unit loop: the count is reduced by `words`, and on
reaching zero the channel is deactivated, the interrupt requested if enabled, and the
transfer started again if the repeat bit is set. -/
def complete (d1 : DMA) (channel words : Nat) : DMA :=
  let left := (d1.InternalCount channel + 2 ^ 32 - words) % 2 ^ 32
  let d2 := { d1 with InternalCount := Function.update d1.InternalCount channel left }
  if d2.InternalCount channel = 0 then
    let d3 := { d2 with Active := Function.update d2.Active channel false }
    let d4 :=
      if d3.CNT_H channel &&& 0x4000 ≠ 0 then
        { d3 with Requested := ((1 <<< (8 + channel)) % 2 ^ 16) :: d3.Requested }
      else d3
    if d4.CNT_H channel &&& 0x0200 ≠ 0 then d4.startTransfer channel else d4
  else d2

/-- `DMA.transfer`: the new controller state, the memory, and the returned cycle count. -/
def transfer (d : DMA) (m : MMU) (channel : Nat) : Option (DMA × MMU × Int) :=
  let transferType := (d.CNT_H channel >>> 10) &&& 0x3
  let sourceControl := (d.CNT_H channel >>> 7) &&& 0x3
  let destControl := (d.CNT_H channel >>> 5) &&& 0x3
  let words := if d.InternalCount channel > 16 then 16 else d.InternalCount channel
  (transferLoop channel transferType sourceControl destControl words d m).bind fun r =>
    some (r.1.complete channel words, r.2, (words : Int) * 2)

/-- The body of the loop of `DMA.Step` for channel `i`, with the cycles counted so far. -/
def stepChannel (r : DMA × MMU × Int) (i : Nat) : Option (DMA × MMU × Int) :=
  if r.1.Active i = true then
    (r.1.transfer r.2.1 i).map fun t => (t.1, t.2.1, r.2.2 + t.2.2)
  else some r

/-- `DMA.Step`: channels 0, 1, 2, 3 in order; the result carries the returned cycles. -/
def Step (d : DMA) (m : MMU) : Option (DMA × MMU × Int) := do
  let r0 ← stepChannel (d, m, 0) 0
  let r1 ← stepChannel r0 1
  let r2 ← stepChannel r1 2
  stepChannel r2 3

/-- The body of the loop of `DMA.Trigger` for channel `i`. -/
def triggerChannel (d : DMA) (startTiming : Int) (i : Nat) : DMA :=
  let timing : Int := (((d.CNT_H i >>> 12) &&& 0x3 : Nat) : Int)
  if timing = startTiming ∧ d.CNT_H i &&& 0x8000 ≠ 0 then
    let d1 := d.startTransfer i
    { d1 with Active := Function.update d1.Active i true }
  else d

/-- `DMA.Trigger`. -/
def Trigger (d : DMA) (startTiming : Int) : DMA :=
  (((d.triggerChannel startTiming 0).triggerChannel startTiming 1).triggerChannel
    startTiming 2).triggerChannel startTiming 3

/-- The register writes of a program that sets up channel `channel`: source, destination,
count, then the control word. -/
def setup (d : DMA) (channel : Int) (S D N cntH : Nat) : Option DMA := do
  let d1 ← d.WriteSAD channel S
  let d2 ← d1.WriteDAD channel D
  let d3 ← d2.WriteCNT_L channel N
  d3.WriteCNT_H channel cntH

/-- The number of units `DMA.transfer` moves for channel `j` in one call. -/
def words (d : DMA) (j : Nat) : Nat :=
  if d.InternalCount j > 16 then 16 else d.InternalCount j

/-- The controller after the unit loop of `DMA.transfer` for channel `j`: both internal
addresses have been adjusted `words` times. -/
def afterLoop (d : DMA) (j : Nat) : DMA :=
  let src := (fun a => adjustAddress a ((d.CNT_H j >>> 7) &&& 0x3) ((d.CNT_H j >>> 10) &&& 0x3))^[
    d.words j] (d.InternalSource j)
  let dst := (fun a => adjustAddress a ((d.CNT_H j >>> 5) &&& 0x3) ((d.CNT_H j >>> 10) &&& 0x3))^[
    d.words j] (d.InternalDest j)
  { d with
    InternalSource := Function.update d.InternalSource j src
    InternalDest := Function.update d.InternalDest j dst }

/-- The controller after the pass of the loop of `DMA.Step` for channel `j`. -/
def settle (d : DMA) (j : Nat) : DMA :=
  if d.Active j = true then (d.afterLoop j).complete j (d.words j) else d

/-- Example state: channels 0 and 1 set up for one halfword each and started at once. -/
def twoActive : DMA :=
  ((New.setup 0 0x02000000 0x02001000 1 0x8000).bind fun d =>
    d.setup 1 0x02002000 0x02003000 1 0x8000).getD New

/-- Example state: channel 0 set up for `N` halfwords from `0x02000000` to `0x02001000`
with the control word `cntH`. -/
def oneChannel (N cntH : Nat) : DMA :=
  (New.setup 0 0x02000000 0x02001000 N cntH).getD New

/-- Example memory: a fresh memory unit with the halfword `0xBEEF` stored at `0x0200001E`,
the last of 16 halfwords from `0x02000000`. -/
def sampleMemory : MMU := (MMU.New.Write16 0x0200001E 0xBEEF).getD MMU.New

end DMA

/-! ## Cartridge (`pkg/cartridge/cartridge.go`) -/

/-- The slice expression `b[lo:]`: the bytes from index `lo` on, or a panic (`none`) when
`lo` is above the length. -/
def Bytes.sliceFrom? (b : Bytes) (lo : Nat) : Option Bytes :=
  if lo ≤ b.len then some ⟨b.len - lo, fun i => b.data (lo + i)⟩ else none

/-- `binary.LittleEndian.Uint16`: the bounds check `_ = b[1]`, then
`uint16(b[0]) | uint16(b[1])<<8`. -/
def Bytes.Uint16? (b : Bytes) : Option Nat := do
  let _ ← b.get? 1
  let b0 ← b.get? 0
  let b1 ← b.get? 1
  some (b0 ||| b1 <<< 8)

/-- `binary.LittleEndian.Uint32`: the bounds check `_ = b[3]`, then the four bytes, lowest
first. -/
def Bytes.Uint32? (b : Bytes) : Option Nat := do
  let _ ← b.get? 3
  let b0 ← b.get? 0
  let b1 ← b.get? 1
  let b2 ← b.get? 2
  let b3 ← b.get? 3
  some (b0 ||| b1 <<< 8 ||| b2 <<< 16 ||| b3 <<< 24)

/-- The `Cartridge` struct: the ROM image.  The header strings (`Title`, `GameCode`,
`MakerCode`) and the `Version` byte are not used by the read methods. -/
structure Cartridge where
  ROM : Bytes

namespace Cartridge

/-- `Cartridge.Read8`; `addr` is a `uint32` and `uint32(len(c.ROM))` the length modulo
`2^32`. -/
def Read8 (c : Cartridge) (addr : Nat) : Option Nat :=
  if addr < c.ROM.len % 2 ^ 32 then c.ROM.get? addr else some 0

/-- `Cartridge.Read16`: the guard compares `addr+1`, computed in `uint32`, with the length;
`none` is a panic in `c.ROM[addr:]` or in the decoder. -/
def Read16 (c : Cartridge) (addr : Nat) : Option Nat :=
  if (addr + 1) % 2 ^ 32 < c.ROM.len % 2 ^ 32 then (c.ROM.sliceFrom? addr).bind Bytes.Uint16?
  else some 0

/-- `Cartridge.Read32`: the guard compares `addr+3`, computed in `uint32`, with the
length. -/
def Read32 (c : Cartridge) (addr : Nat) : Option Nat :=
  if (addr + 3) % 2 ^ 32 < c.ROM.len % 2 ^ 32 then (c.ROM.sliceFrom? addr).bind Bytes.Uint32?
  else some 0

/-- A cartridge of the smallest size `cartridge.Load` accepts (`0xC0` bytes), all zero. -/
def smallest : Cartridge := ⟨Bytes.make 0xC0⟩

end Cartridge

/-- `MMU.ReadBIOS`; `addr+3` is computed in `uint32`. -/
def MMU.ReadBIOS (m : MMU) (addr : Nat) : Option Nat :=
  if BIOSStart ≤ addr ∧ (addr + 3) % 2 ^ 32 < BIOSStart + BIOSLength then
    (m.BIOS.sliceFrom? addr).bind Bytes.Uint32?
  else some 0

/-! ## APU (`pkg/apu/apu.go`) -/

/-- Go `[]int16`: a length and the sample stored at each index. -/
structure Samples where
  len : Nat
  data : Nat → Int

/-- The store `b[i] = v` with a Go `int` index: a panic (`none`) when `i` is out of range. -/
def Samples.set? (b : Samples) (i : Int) (v : Int) : Option Samples :=
  if 0 ≤ i ∧ i < (b.len : Int) then some { b with data := Function.update b.data i.toNat v } else none

/-- The fields of the `APU` struct that `Step` reads or writes.  The other sound registers,
the wave RAM, the two FIFOs and `SampleCount` are not touched by it. -/
structure APU where
  SOUNDCNT_X : Nat
  CycleCount : Int
  SoundBuffer : Samples
  BufferPos : Int

namespace APU

def SampleRate : Int := 32768

def BufferSize : Nat := 4096

/-- The local `cyclesPerSample := 16777216 / SampleRate` of `APU.Step`. -/
def cyclesPerSample : Int := 16777216 / SampleRate

/-- `APU.Reset`, on the fields kept here. -/
def Reset (a : APU) : APU :=
  { SOUNDCNT_X := 0, CycleCount := 0, BufferPos := 0
    SoundBuffer := ⟨a.SoundBuffer.len, fun _ => 0⟩ }

/-- `apu.New`: a buffer of `BufferSize*2` samples, then `Reset`. -/
def New : APU :=
  Reset { SOUNDCNT_X := 0, CycleCount := 0, BufferPos := 0
          SoundBuffer := ⟨BufferSize * 2, fun _ => 0⟩ }

/-- `APU.generateLeftChannel`. -/
def generateLeftChannel (_a : APU) : Int := 0

/-- `APU.generateRightChannel`. -/
def generateRightChannel (_a : APU) : Int := 0

/-- `APU.generateSample`; `none` is a panic in one of the two stores. -/
def generateSample (a : APU) : Option APU :=
  let left : Int := if a.SOUNDCNT_X &&& 0x0080 ≠ 0 then a.generateLeftChannel else 0
  let right : Int := if a.SOUNDCNT_X &&& 0x0080 ≠ 0 then a.generateRightChannel else 0
  if a.BufferPos < (a.SoundBuffer.len : Int) - 1 then
    (a.SoundBuffer.set? a.BufferPos left).bind fun b1 =>
      (b1.set? (a.BufferPos + 1) right).bind fun b2 =>
        some { a with SoundBuffer := b2, BufferPos := a.BufferPos + 2 }
  else some a

/-- The loop `for a.CycleCount >= cyclesPerSample { ... }` of `APU.Step`.  `none` means a
panic in `generateSample`, or that the loop is still running when the fuel is used up. -/
def stepLoop : Nat → APU → Option APU
  | 0, a => if a.CycleCount ≥ cyclesPerSample then none else some a
  | fuel + 1, a =>
    if a.CycleCount ≥ cyclesPerSample then
      (generateSample { a with CycleCount := a.CycleCount - cyclesPerSample }).bind
        (stepLoop fuel)
    else some a

/-- `APU.Step`.  Every pass of the loop takes `cyclesPerSample` off `CycleCount`, so the loop
makes at most `CycleCount` passes, which is the fuel it is given. -/
def Step (a : APU) (cycles : Int) : Option APU :=
  let a1 := { a with CycleCount := a.CycleCount + cycles }
  stepLoop a1.CycleCount.toNat a1

/-- A sequence of `APU.Step` calls. -/
def StepAll (a : APU) : List Int → Option APU
  | [] => some a
  | c :: cs => (a.Step c).bind fun a1 => a1.StepAll cs

end APU

/-! ## The system (`pkg/gba/gba.go`) -/

/-- `MMU.CheckInterrupts`. -/
def MMU.CheckInterrupts (m : MMU) : Bool := decide (m.IME ≠ 0 ∧ m.IE &&& m.IF ≠ 0)

/-- The memory unit after `New` and `LoadROM` of a cartridge that holds one little-endian
32-bit word. -/
def MMU.withWord (w : Nat) : MMU :=
  MMU.New.LoadROM [w % 256, (w >>> 8) % 256, (w >>> 16) % 256, (w >>> 24) % 256]

/-- `MMU.RequestInterrupt`. -/
def MMU.RequestInterrupt (m : MMU) (irq : Nat) : MMU := { m with IF := m.IF ||| irq }

/-- The calls of the `RequestInterrupt` callback that a component has logged (latest
first), made on the memory unit in the order in which they were logged. -/
def MMU.deliver (m : MMU) (log : List Nat) : MMU :=
  log.foldr (fun irq m1 => m1.RequestInterrupt irq) m

/-- The `GBA` struct.  `FrameCount` (`int`) and `TotalCycles` (`int64`) are integers without
a bound; the `Cartridge` pointer is used by `Reset` and `LoadROM` only and is left out. -/
structure GBA where
  CPU : CPU
  MMU : MMU
  PPU : PPU
  APU : APU
  DMA : DMA
  Timer : Timer
  Input : Input
  FrameCount : Int
  TotalCycles : Int

namespace GBA

/-- `gba.New`. -/
def New : GBA :=
  { CPU := CPU.New, MMU := MMU.New, PPU := PPU.New, APU := APU.New, DMA := DMA.New
    Timer := Timer.New, Input := Input.New, FrameCount := 0, TotalCycles := 0 }

/-- The CPU's `Write8` callback, wired by `setupCallbacks` to `g.MMU.Write8`. -/
def CPUWrite8 (g : GBA) (addr val : Nat) : Option GBA :=
  (g.MMU.Write8 addr val).map fun m => { g with MMU := m }

/-- The CPU's `Write16` callback, wired by `setupCallbacks` to `g.MMU.Write16`. -/
def CPUWrite16 (g : GBA) (addr val : Nat) : Option GBA :=
  (g.MMU.Write16 addr val).map fun m => { g with MMU := m }

/-- The CPU's `Read16` callback, wired by `setupCallbacks` to `g.MMU.Read16`. -/
def CPURead16 (g : GBA) (addr : Nat) : Option Nat := g.MMU.Read16 addr

/-- `GBA.SetKey`. -/
def SetKey (g : GBA) (key : Int) (pressed : Bool) : GBA :=
  let inp := g.Input.SetKey key pressed
  { g with Input := inp, MMU := { g.MMU with KEYINPUT := inp.GetKEYINPUT } }

/-- A fresh system in which the CPU has cleared its I flag and interrupt 0 is enabled and
pending (`IME = IE = IF = 1`). -/
def pendingIRQ : GBA :=
  { GBA.New with
    CPU := CPU.New.SetFlag FlagI false
    MMU := { MMU.New with IME := 1, IE := 1, IF := 1 } }

/-- The state `pendingIRQ` with the CPU about to execute the instruction at
`0x08000100`. -/
def pendingIRQAt : GBA :=
  { pendingIRQ with CPU := { pendingIRQ.CPU with PC := 0x08000100 } }

/-- `GBA.handleInterrupt`. -/
def handleInterrupt (g : GBA) : GBA :=
  if g.CPU.GetFlag FlagI = true then g
  else if g.MMU.IME = 0 then g
  else if g.MMU.IE &&& g.MMU.IF = 0 then g
  else
    let c1 := (g.CPU.SaveMode).SwitchMode ModeIRQ
    let c2 := c1.SetSPSR c1.CPSR
    let c3 : LiveGBA.CPU := { c2 with CPSR := c2.CPSR ||| (FlagI ||| FlagT) }
    let c4 : LiveGBA.CPU := { c3 with LR := sub32 c3.PC 4 }
    let c5 : LiveGBA.CPU := { c4 with PC := 0x00000018 }
    { g with CPU := { c5 with Regs := Function.update c5.Regs 15 ((c5.PC + 4) % 2 ^ 32) } }

/-- `GBA.RequestInterrupt`, which `gba.New` installs as the `RequestInterrupt` callback of
the timers and of the DMA controller. -/
def RequestInterrupt (g : GBA) (irq : Nat) : GBA :=
  { g with MMU := g.MMU.RequestInterrupt irq }

/-- The call `g.Timer.Step(cycles)` with its callback.  The timers start with an empty log
and the interrupts they request are made on the memory unit; `Timer.Step` does not read the
memory unit, so making them after it gives the same state. -/
def stepTimer (g : GBA) (cycles : Int) : Option GBA :=
  (({ g.Timer with Requested := [] } : LiveGBA.Timer).Step cycles).map fun t =>
    { g with Timer := t, MMU := g.MMU.deliver t.Requested }

/-- The call `g.APU.Step(cycles)`. -/
def stepAPU (g : GBA) (cycles : Int) : Option GBA :=
  (g.APU.Step cycles).map fun a => { g with APU := a }

/-- The body of the loop of `DMA.Step` for channel `i` with the callbacks of `gba.New`:
`DMA.transfer` requests its interrupt after the last unit has been moved, so the request is
made on the memory the transfer leaves. -/
def dmaChannel (r : LiveGBA.DMA × LiveGBA.MMU) (i : Nat) :
    Option (LiveGBA.DMA × LiveGBA.MMU) :=
  if r.1.Active i = true then
    (({ r.1 with Requested := [] } : LiveGBA.DMA).transfer r.2 i).map fun t =>
      (t.1, t.2.1.deliver t.1.Requested)
  else some r

/-- `DMA.Step` with the callbacks of `gba.New`: channels 0, 1, 2, 3 in order. -/
def dmaStep (d : LiveGBA.DMA) (m : LiveGBA.MMU) : Option (LiveGBA.DMA × LiveGBA.MMU) := do
  let r0 ← dmaChannel (d, m) 0
  let r1 ← dmaChannel r0 1
  let r2 ← dmaChannel r1 2
  dmaChannel r2 3

/-- The call `g.DMA.Step()`; the cycle count it returns is dropped. -/
def stepDMA (g : GBA) : Option GBA :=
  (dmaStep g.DMA g.MMU).map fun r => { g with DMA := r.1, MMU := r.2 }

/-- The call `g.PPU.Step(cycles)`; the PPU's `VRAM` and `Palette` are the slices of the
memory unit (`gba.New`). -/
def stepPPU (g : GBA) (cycles : Int) : Option (GBA × Bool) :=
  (g.PPU.Step g.MMU.VRAM g.MMU.Palette cycles).map fun r => ({ g with PPU := r.1 }, r.2)

/-- The statement `if g.MMU.CheckInterrupts() { g.handleInterrupt() }`. -/
def serviceInterrupts (g : GBA) : GBA :=
  if g.MMU.CheckInterrupts = true then g.handleInterrupt else g

/-- The block of `GBA.Step` run when `PPU.Step` has returned `frame`. -/
def endFrame (g : GBA) (frame : Bool) : GBA :=
  if frame = true then ({ g with FrameCount := g.FrameCount + 1 }).serviceInterrupts else g

/-- `GBA.Step`: the new state and the returned cycle count; `none` is a panic or a loop
that does not end in one of the components. -/
def Step (g : GBA) : Option (GBA × Int) :=
  (g.CPU.Step g.MMU).bind fun r =>
    let g1 := { g with CPU := r.1, TotalCycles := g.TotalCycles + r.2 }
    (g1.stepTimer r.2).bind fun g2 =>
      (g2.stepAPU r.2).bind fun g3 =>
        g3.stepDMA.bind fun g4 =>
          (g4.stepPPU r.2).bind fun p =>
            some ((p.1.endFrame p.2).serviceInterrupts, r.2)

/-- `n` calls of `GBA.Step` in a row: the final state and the returned cycle counts in the
order of the calls. -/
def run : Nat → GBA → Option (GBA × List Int)
  | 0, g => some (g, [])
  | n + 1, g => g.Step.bind fun r => (run n r.1).map fun s => (s.1, r.2 :: s.2)

/-- The timers as `GBA.Step` calls them, for each cycle count of a list in turn. -/
def timerRun (t : LiveGBA.Timer) : List Int → Option LiveGBA.Timer
  | [] => some t
  | c :: cs =>
    (({ t with Requested := [] } : LiveGBA.Timer).Step c).bind fun t1 => timerRun t1 cs

/-- The PPU stepped with each cycle count of a list in turn, each time on the memory unit
listed with it; the frame flags are dropped. -/
def ppuRun (p : LiveGBA.PPU) : List (LiveGBA.MMU × Int) → Option LiveGBA.PPU
  | [] => some p
  | mc :: rest => (p.Step mc.1.VRAM mc.1.Palette mc.2).bind fun r => ppuRun r.1 rest

/-- The state is one the constructors and methods leave: the memory regions have their
allocated lengths, the timer prescalers are positive, the sample buffer position is not
negative, and the PPU line counter is in step with its flags. -/
def Ready (g : GBA) : Prop :=
  g.MMU.Sized ∧ (∀ i, i < 4 → 1 ≤ g.Timer.Prescaler i) ∧ 0 ≤ g.APU.BufferPos ∧
    g.PPU.LineInv

end GBA

/-! ### Case analysis without rewriting -/

theorem ite_eq_cases {α : Sort _} {c : Prop} [Decidable c] {t e x : α}
    (ht : c → t = x) (he : ¬c → e = x) : ite c t e = x := by
  by_cases h : c
  · rw [if_pos h]; exact ht h
  · rw [if_neg h]; exact he h

theorem ite_congr_cases {α : Sort _} {c : Prop} [Decidable c] {t e t' e' : α}
    (ht : c → t = t') (he : ¬c → e = e') : ite c t e = ite c t' e' := by
  by_cases h : c
  · rw [if_pos h, if_pos h]; exact ht h
  · rw [if_neg h, if_neg h]; exact he h

theorem isSome_ite_cases {α : Type _} {c : Prop} [Decidable c] {t e : Option α}
    (ht : c → t.isSome = true) (he : ¬c → e.isSome = true) : (ite c t e).isSome = true := by
  by_cases h : c
  · rw [if_pos h]; exact ht h
  · rw [if_neg h]; exact he h

theorem ite_lt_cases {c : Prop} [Decidable c] {t e n : Nat}
    (ht : c → t < n) (he : ¬c → e < n) : ite c t e < n := by
  by_cases h : c
  · rw [if_pos h]; exact ht h
  · rw [if_neg h]; exact he h

theorem ite_some_cases {α : Type _} {c : Prop} [Decidable c] {t e : Option α} {P : α → Prop}
    (ht : c → ∀ v, t = some v → P v) (he : ¬c → ∀ v, e = some v → P v) :
    ∀ v, ite c t e = some v → P v := by
  by_cases h : c
  · rw [if_pos h]; exact ht h
  · rw [if_neg h]; exact he h

/-! ### Basic facts about the address decoder -/

theorem Bytes.get?_lt (b : Bytes) (i : Nat) : ∀ v, b.get? i = some v → v < 256 := by
  intro v hv
  unfold Bytes.get? at hv
  by_cases h : i < b.len
  · rw [if_pos h] at hv
    cases hv
    exact Nat.mod_lt _ (by norm_num)
  · rw [if_neg h] at hv
    cases hv

theorem Bytes.isSome_get? {b : Bytes} {i : Nat} (h : i < b.len) : (b.get? i).isSome = true := by
  unfold Bytes.get?
  rw [if_pos h]; rfl

theorem Bytes.get?_of_lt {b : Bytes} {i : Nat} (h : i < b.len) :
    b.get? i = some (b.data i % 256) := by
  simp [Bytes.get?, h]

theorem Bytes.set?_of_lt {b : Bytes} {i : Nat} (v : Nat) (h : i < b.len) :
    b.set? i v = some { b with data := Function.update b.data i v } := by
  simp [Bytes.set?, h]

theorem Bytes.get?_update_same (b : Bytes) (i v : Nat) (h : i < b.len) :
    Bytes.get? ⟨b.len, Function.update b.data i v⟩ i = some (v % 256) := by
  unfold Bytes.get?
  rw [if_pos h]
  show some (Function.update b.data i v i % 256) = _
  rw [Function.update_same]

theorem Bytes.get?_update_ne (b : Bytes) {i j : Nat} (v : Nat) (h : j ≠ i) :
    Bytes.get? ⟨b.len, Function.update b.data i v⟩ j = b.get? j := by
  unfold Bytes.get?
  show (if j < b.len then some (Function.update b.data i v j % 256) else none) = _
  rw [Function.update_noteq h]

namespace MMU

/-- The decoder only moves the upper 32 KiB window of VRAM. -/
theorem mirrorAddress_eq (a : Nat) :
    mirrorAddress a = if 0x06010000 ≤ a ∧ a < 0x06018000 then a - 0x8000 else a := by
  by_cases h : 0x06010000 ≤ a ∧ a < 0x06018000
  · rw [if_pos h]
    unfold mirrorAddress
    repeat' (first | omega | (apply ite_eq_cases <;> intro _))
  · rw [if_neg h]
    unfold mirrorAddress
    repeat' (first | omega | (apply ite_eq_cases <;> intro _))

theorem mirrorAddress_of_window {a : Nat} (h : 0x06010000 ≤ a ∧ a < 0x06018000) :
    mirrorAddress a = a - 0x8000 := by
  rw [mirrorAddress_eq, if_pos h]

theorem mirrorAddress_of_not_window {a : Nat} (h : ¬(0x06010000 ≤ a ∧ a < 0x06018000)) :
    mirrorAddress a = a := by
  rw [mirrorAddress_eq, if_neg h]

/-- The decoded address never lies in the upper VRAM window. -/
theorem mirrorAddress_not_window (a : Nat) :
    ¬(0x06010000 ≤ mirrorAddress a ∧ mirrorAddress a < 0x06018000) := by
  by_cases h : 0x06010000 ≤ a ∧ a < 0x06018000
  · rw [mirrorAddress_of_window h]; omega
  · rw [mirrorAddress_of_not_window h]; exact h

theorem mirrorAddress_idem (a : Nat) : mirrorAddress (mirrorAddress a) = mirrorAddress a :=
  mirrorAddress_of_not_window (mirrorAddress_not_window a)

/-- A byte write whose decoded address is below on-board WRAM or anywhere from `ROMStart`
upwards is dropped. -/
theorem Write8_dropped (m : MMU) (A V : Nat)
    (h : A < 0x02000000 ∨ 0x08000000 ≤ A) : m.Write8 A V = some m := by
  have hma : mirrorAddress A = A := mirrorAddress_of_not_window (by omega)
  unfold Write8
  simp only [hma, BIOSStart, BIOSLength, WRAM256Start, WRAM256Length, WRAM32Start,
    WRAM32Length, IOStart, IOLength, PaletteStart, PaletteLength, VRAMStart, VRAMLenth,
    OAMStart, OAMLength, ROMStart, SRAMStart, SRAMLenth]
  repeat' (first | omega | with_reducible rfl | (with_reducible apply ite_eq_cases <;> intro _))

theorem Read8_WRAM256 (m : MMU) {A : Nat}
    (h : WRAM256Start ≤ mirrorAddress A ∧ mirrorAddress A < WRAM256Start + WRAM256Length) :
    m.Read8 A = m.WRAM256.get? (mirrorAddress A - WRAM256Start) := by
  unfold Read8
  simp only [BIOSStart, BIOSLength, WRAM256Start, WRAM256Length, WRAM32Start,
    WRAM32Length, IOStart, IOLength, PaletteStart, PaletteLength, VRAMStart, VRAMLenth,
    OAMStart, OAMLength, ROMStart, SRAMStart, SRAMLenth] at h ⊢
  repeat' (first | omega | with_reducible rfl | (with_reducible apply ite_eq_cases <;> intro _))

theorem Write8_WRAM256 (m : MMU) {A : Nat} (V : Nat)
    (h : WRAM256Start ≤ mirrorAddress A ∧ mirrorAddress A < WRAM256Start + WRAM256Length) :
    m.Write8 A V =
      (m.WRAM256.set? (mirrorAddress A - WRAM256Start) V).map fun b => { m with WRAM256 := b } := by
  unfold Write8
  simp only [BIOSStart, BIOSLength, WRAM256Start, WRAM256Length, WRAM32Start,
    WRAM32Length, IOStart, IOLength, PaletteStart, PaletteLength, VRAMStart, VRAMLenth,
    OAMStart, OAMLength, ROMStart, SRAMStart, SRAMLenth] at h ⊢
  repeat' (first | omega | with_reducible rfl | (with_reducible apply ite_eq_cases <;> intro _))

theorem Read8_WRAM32 (m : MMU) {A : Nat}
    (h : WRAM32Start ≤ mirrorAddress A ∧ mirrorAddress A < WRAM32Start + WRAM32Length) :
    m.Read8 A = m.WRAM32.get? (mirrorAddress A - WRAM32Start) := by
  unfold Read8
  simp only [BIOSStart, BIOSLength, WRAM256Start, WRAM256Length, WRAM32Start,
    WRAM32Length, IOStart, IOLength, PaletteStart, PaletteLength, VRAMStart, VRAMLenth,
    OAMStart, OAMLength, ROMStart, SRAMStart, SRAMLenth] at h ⊢
  repeat' (first | omega | with_reducible rfl | (with_reducible apply ite_eq_cases <;> intro _))

theorem Write8_WRAM32 (m : MMU) {A : Nat} (V : Nat)
    (h : WRAM32Start ≤ mirrorAddress A ∧ mirrorAddress A < WRAM32Start + WRAM32Length) :
    m.Write8 A V =
      (m.WRAM32.set? (mirrorAddress A - WRAM32Start) V).map fun b => { m with WRAM32 := b } := by
  unfold Write8
  simp only [BIOSStart, BIOSLength, WRAM256Start, WRAM256Length, WRAM32Start,
    WRAM32Length, IOStart, IOLength, PaletteStart, PaletteLength, VRAMStart, VRAMLenth,
    OAMStart, OAMLength, ROMStart, SRAMStart, SRAMLenth] at h ⊢
  repeat' (first | omega | with_reducible rfl | (with_reducible apply ite_eq_cases <;> intro _))

theorem Read8_Palette (m : MMU) {A : Nat}
    (h : PaletteStart ≤ mirrorAddress A ∧ mirrorAddress A < PaletteStart + PaletteLength) :
    m.Read8 A = m.Palette.get? (mirrorAddress A - PaletteStart) := by
  unfold Read8
  simp only [BIOSStart, BIOSLength, WRAM256Start, WRAM256Length, WRAM32Start,
    WRAM32Length, IOStart, IOLength, PaletteStart, PaletteLength, VRAMStart, VRAMLenth,
    OAMStart, OAMLength, ROMStart, SRAMStart, SRAMLenth] at h ⊢
  repeat' (first | omega | with_reducible rfl | (with_reducible apply ite_eq_cases <;> intro _))

theorem Write8_Palette (m : MMU) {A : Nat} (V : Nat)
    (h : PaletteStart ≤ mirrorAddress A ∧ mirrorAddress A < PaletteStart + PaletteLength) :
    m.Write8 A V =
      (m.Palette.set? (mirrorAddress A - PaletteStart) V).map fun b => { m with Palette := b } := by
  unfold Write8
  simp only [BIOSStart, BIOSLength, WRAM256Start, WRAM256Length, WRAM32Start,
    WRAM32Length, IOStart, IOLength, PaletteStart, PaletteLength, VRAMStart, VRAMLenth,
    OAMStart, OAMLength, ROMStart, SRAMStart, SRAMLenth] at h ⊢
  repeat' (first | omega | with_reducible rfl | (with_reducible apply ite_eq_cases <;> intro _))

theorem Read8_VRAM (m : MMU) {A : Nat}
    (h : VRAMStart ≤ mirrorAddress A ∧ mirrorAddress A < VRAMStart + VRAMLenth) :
    m.Read8 A = m.VRAM.get? (mirrorAddress A - VRAMStart) := by
  unfold Read8
  simp only [BIOSStart, BIOSLength, WRAM256Start, WRAM256Length, WRAM32Start,
    WRAM32Length, IOStart, IOLength, PaletteStart, PaletteLength, VRAMStart, VRAMLenth,
    OAMStart, OAMLength, ROMStart, SRAMStart, SRAMLenth] at h ⊢
  repeat' (first | omega | with_reducible rfl | (with_reducible apply ite_eq_cases <;> intro _))

theorem Write8_VRAM (m : MMU) {A : Nat} (V : Nat)
    (h : VRAMStart ≤ mirrorAddress A ∧ mirrorAddress A < VRAMStart + VRAMLenth) :
    m.Write8 A V =
      (m.VRAM.set? (mirrorAddress A - VRAMStart) V).map fun b => { m with VRAM := b } := by
  unfold Write8
  simp only [BIOSStart, BIOSLength, WRAM256Start, WRAM256Length, WRAM32Start,
    WRAM32Length, IOStart, IOLength, PaletteStart, PaletteLength, VRAMStart, VRAMLenth,
    OAMStart, OAMLength, ROMStart, SRAMStart, SRAMLenth] at h ⊢
  repeat' (first | omega | with_reducible rfl | (with_reducible apply ite_eq_cases <;> intro _))

theorem Read8_OAM (m : MMU) {A : Nat}
    (h : OAMStart ≤ mirrorAddress A ∧ mirrorAddress A < OAMStart + OAMLength) :
    m.Read8 A = m.OAM.get? (mirrorAddress A - OAMStart) := by
  unfold Read8
  simp only [BIOSStart, BIOSLength, WRAM256Start, WRAM256Length, WRAM32Start,
    WRAM32Length, IOStart, IOLength, PaletteStart, PaletteLength, VRAMStart, VRAMLenth,
    OAMStart, OAMLength, ROMStart, SRAMStart, SRAMLenth] at h ⊢
  repeat' (first | omega | with_reducible rfl | (with_reducible apply ite_eq_cases <;> intro _))

theorem Write8_OAM (m : MMU) {A : Nat} (V : Nat)
    (h : OAMStart ≤ mirrorAddress A ∧ mirrorAddress A < OAMStart + OAMLength) :
    m.Write8 A V =
      (m.OAM.set? (mirrorAddress A - OAMStart) V).map fun b => { m with OAM := b } := by
  unfold Write8
  simp only [BIOSStart, BIOSLength, WRAM256Start, WRAM256Length, WRAM32Start,
    WRAM32Length, IOStart, IOLength, PaletteStart, PaletteLength, VRAMStart, VRAMLenth,
    OAMStart, OAMLength, ROMStart, SRAMStart, SRAMLenth] at h ⊢
  repeat' (first | omega | with_reducible rfl | (with_reducible apply ite_eq_cases <;> intro _))

theorem PlainRAM_mirrorAddress {A : Nat} (hA : PlainRAM A) : PlainRAM (mirrorAddress A) := by
  unfold PlainRAM at *
  simp only [WRAM256Start, WRAM256Length, WRAM32Start,
    WRAM32Length, PaletteStart, PaletteLength, VRAMStart, VRAMLenth, OAMStart, OAMLength] at *
  by_cases h : 0x06010000 ≤ A ∧ A < 0x06018000
  · rw [mirrorAddress_of_window h]; omega
  · rw [mirrorAddress_of_not_window h]; exact hA

/-- A byte write to plain RAM succeeds, keeps the region lengths, is read back at the same
address, and is invisible at every address that decodes elsewhere. -/
theorem Write8_plain (m : MMU) (hm : m.Sized) (A V : Nat) (hA : PlainRAM A) :
    ∃ m', m.Write8 A V = some m' ∧ m'.Sized ∧ m'.Read8 A = some (V % 256) ∧
      ∀ B, mirrorAddress B ≠ mirrorAddress A → m'.Read8 B = m.Read8 B := by
  obtain ⟨h1, h2, h3, h4, h5, h6, h7, h8⟩ := hm
  have hA' := PlainRAM_mirrorAddress hA
  unfold PlainRAM at hA'
  rcases hA' with h | h | h | h | h
  · have hlt : mirrorAddress A - WRAM256Start < m.WRAM256.len := by
      rw [h2]; simp only [BIOSStart, BIOSLength, WRAM256Start, WRAM256Length, WRAM32Start,
    WRAM32Length, IOStart, IOLength, PaletteStart, PaletteLength, VRAMStart, VRAMLenth,
    OAMStart, OAMLength, ROMStart, SRAMStart, SRAMLenth] at h ⊢; omega
    rw [Write8_WRAM256 m V h, Bytes.set?_of_lt V hlt]
    refine ⟨_, rfl, ⟨h1, h2, h3, h4, h5, h6, h7, h8⟩, ?_, ?_⟩
    · rw [Read8_WRAM256 _ h]
      exact Bytes.get?_update_same _ _ _ hlt
    · intro B hB
      unfold Read8
      simp only [BIOSStart, BIOSLength, WRAM256Start, WRAM256Length, WRAM32Start,
    WRAM32Length, IOStart, IOLength, PaletteStart, PaletteLength, VRAMStart, VRAMLenth,
    OAMStart, OAMLength, ROMStart, SRAMStart, SRAMLenth] at h ⊢
      repeat' (first
        | with_reducible rfl
        | (with_reducible apply ite_congr_cases <;> intro _)
        | (unfold readIO8; with_reducible rfl)
        | (apply Bytes.get?_update_ne; omega))
  · have hlt : mirrorAddress A - WRAM32Start < m.WRAM32.len := by
      rw [h3]; simp only [BIOSStart, BIOSLength, WRAM256Start, WRAM256Length, WRAM32Start,
    WRAM32Length, IOStart, IOLength, PaletteStart, PaletteLength, VRAMStart, VRAMLenth,
    OAMStart, OAMLength, ROMStart, SRAMStart, SRAMLenth] at h ⊢; omega
    rw [Write8_WRAM32 m V h, Bytes.set?_of_lt V hlt]
    refine ⟨_, rfl, ⟨h1, h2, h3, h4, h5, h6, h7, h8⟩, ?_, ?_⟩
    · rw [Read8_WRAM32 _ h]
      exact Bytes.get?_update_same _ _ _ hlt
    · intro B hB
      unfold Read8
      simp only [BIOSStart, BIOSLength, WRAM256Start, WRAM256Length, WRAM32Start,
    WRAM32Length, IOStart, IOLength, PaletteStart, PaletteLength, VRAMStart, VRAMLenth,
    OAMStart, OAMLength, ROMStart, SRAMStart, SRAMLenth] at h ⊢
      repeat' (first
        | with_reducible rfl
        | (with_reducible apply ite_congr_cases <;> intro _)
        | (unfold readIO8; with_reducible rfl)
        | (apply Bytes.get?_update_ne; omega))
  · have hlt : mirrorAddress A - PaletteStart < m.Palette.len := by
      rw [h5]; simp only [BIOSStart, BIOSLength, WRAM256Start, WRAM256Length, WRAM32Start,
    WRAM32Length, IOStart, IOLength, PaletteStart, PaletteLength, VRAMStart, VRAMLenth,
    OAMStart, OAMLength, ROMStart, SRAMStart, SRAMLenth] at h ⊢; omega
    rw [Write8_Palette m V h, Bytes.set?_of_lt V hlt]
    refine ⟨_, rfl, ⟨h1, h2, h3, h4, h5, h6, h7, h8⟩, ?_, ?_⟩
    · rw [Read8_Palette _ h]
      exact Bytes.get?_update_same _ _ _ hlt
    · intro B hB
      unfold Read8
      simp only [BIOSStart, BIOSLength, WRAM256Start, WRAM256Length, WRAM32Start,
    WRAM32Length, IOStart, IOLength, PaletteStart, PaletteLength, VRAMStart, VRAMLenth,
    OAMStart, OAMLength, ROMStart, SRAMStart, SRAMLenth] at h ⊢
      repeat' (first
        | with_reducible rfl
        | (with_reducible apply ite_congr_cases <;> intro _)
        | (unfold readIO8; with_reducible rfl)
        | (apply Bytes.get?_update_ne; omega))
  · have hlt : mirrorAddress A - VRAMStart < m.VRAM.len := by
      rw [h6]; simp only [BIOSStart, BIOSLength, WRAM256Start, WRAM256Length, WRAM32Start,
    WRAM32Length, IOStart, IOLength, PaletteStart, PaletteLength, VRAMStart, VRAMLenth,
    OAMStart, OAMLength, ROMStart, SRAMStart, SRAMLenth] at h ⊢; omega
    rw [Write8_VRAM m V h, Bytes.set?_of_lt V hlt]
    refine ⟨_, rfl, ⟨h1, h2, h3, h4, h5, h6, h7, h8⟩, ?_, ?_⟩
    · rw [Read8_VRAM _ h]
      exact Bytes.get?_update_same _ _ _ hlt
    · intro B hB
      unfold Read8
      simp only [BIOSStart, BIOSLength, WRAM256Start, WRAM256Length, WRAM32Start,
    WRAM32Length, IOStart, IOLength, PaletteStart, PaletteLength, VRAMStart, VRAMLenth,
    OAMStart, OAMLength, ROMStart, SRAMStart, SRAMLenth] at h ⊢
      repeat' (first
        | with_reducible rfl
        | (with_reducible apply ite_congr_cases <;> intro _)
        | (unfold readIO8; with_reducible rfl)
        | (apply Bytes.get?_update_ne; omega))
  · have hlt : mirrorAddress A - OAMStart < m.OAM.len := by
      rw [h7]; simp only [BIOSStart, BIOSLength, WRAM256Start, WRAM256Length, WRAM32Start,
    WRAM32Length, IOStart, IOLength, PaletteStart, PaletteLength, VRAMStart, VRAMLenth,
    OAMStart, OAMLength, ROMStart, SRAMStart, SRAMLenth] at h ⊢; omega
    rw [Write8_OAM m V h, Bytes.set?_of_lt V hlt]
    refine ⟨_, rfl, ⟨h1, h2, h3, h4, h5, h6, h7, h8⟩, ?_, ?_⟩
    · rw [Read8_OAM _ h]
      exact Bytes.get?_update_same _ _ _ hlt
    · intro B hB
      unfold Read8
      simp only [BIOSStart, BIOSLength, WRAM256Start, WRAM256Length, WRAM32Start,
    WRAM32Length, IOStart, IOLength, PaletteStart, PaletteLength, VRAMStart, VRAMLenth,
    OAMStart, OAMLength, ROMStart, SRAMStart, SRAMLenth] at h ⊢
      repeat' (first
        | with_reducible rfl
        | (with_reducible apply ite_congr_cases <;> intro _)
        | (unfold readIO8; with_reducible rfl)
        | (apply Bytes.get?_update_ne; omega))

theorem Sized_New : New.Sized := by
  constructor <;> rfl

theorem Sized_LoadROM {m : MMU} (hm : m.Sized) (data : List Nat) : (m.LoadROM data).Sized := by
  obtain ⟨h1, h2, h3, h4, h5, h6, h7, h8⟩ := hm
  exact ⟨h1, h2, h3, h4, h5, h6, h7, h8⟩

theorem Sized_LoadBIOS {m : MMU} (hm : m.Sized) (data : List Nat) : (m.LoadBIOS data).Sized := by
  obtain ⟨h1, h2, h3, h4, h5, h6, h7, h8⟩ := hm
  exact ⟨h1, h2, h3, h4, h5, h6, h7, h8⟩

/-- With the region lengths of `New`, no byte read indexes outside its slice. -/
theorem Read8_isSome (m : MMU) (hm : m.Sized) (A : Nat) : (m.Read8 A).isSome = true := by
  obtain ⟨h1, h2, h3, h4, h5, h6, h7, h8⟩ := hm
  unfold Read8
  simp only [BIOSStart, BIOSLength, WRAM256Start, WRAM256Length, WRAM32Start,
    WRAM32Length, IOStart, IOLength, PaletteStart, PaletteLength, VRAMStart, VRAMLenth,
    OAMStart, OAMLength, ROMStart, SRAMStart, SRAMLenth, Nat.reducePow]
    at h1 h2 h3 h5 h6 h7 h8 ⊢
  repeat' (first
    | exact Option.isSome_some
    | (with_reducible apply isSome_ite_cases <;> intro _)
    | (apply Bytes.isSome_get?; omega))

theorem Read16_isSome (m : MMU) (hm : m.Sized) (A : Nat) : (m.Read16 A).isSome = true := by
  obtain ⟨a, ha⟩ := Option.isSome_iff_exists.mp (Read8_isSome m hm A)
  obtain ⟨b, hb⟩ := Option.isSome_iff_exists.mp (Read8_isSome m hm ((A + 1) % 2 ^ 32))
  unfold Read16
  rw [ha, hb]; rfl

theorem Read32_isSome (m : MMU) (hm : m.Sized) (A : Nat) : (m.Read32 A).isSome = true := by
  obtain ⟨a, ha⟩ := Option.isSome_iff_exists.mp (Read16_isSome m hm A)
  obtain ⟨b, hb⟩ := Option.isSome_iff_exists.mp (Read16_isSome m hm ((A + 2) % 2 ^ 32))
  unfold Read32
  rw [ha, hb]; rfl

/-- A byte read outside every region yields zero. -/
theorem Read8_unmapped (m : MMU) (A : Nat) (h : ¬ m.Mapped A) : m.Read8 A = some 0 := by
  unfold Mapped at h
  simp only [BIOSStart, BIOSLength, WRAM256Start, WRAM256Length, WRAM32Start,
    WRAM32Length, IOStart, IOLength, PaletteStart, PaletteLength, VRAMStart, VRAMLenth,
    OAMStart, OAMLength, ROMStart, SRAMStart, SRAMLenth] at h
  have hma : mirrorAddress A = A := mirrorAddress_of_not_window (by omega)
  unfold Read8
  simp only [hma, BIOSStart, BIOSLength, WRAM256Start, WRAM256Length, WRAM32Start,
    WRAM32Length, IOStart, IOLength, PaletteStart, PaletteLength, VRAMStart, VRAMLenth,
    OAMStart, OAMLength, ROMStart, SRAMStart, SRAMLenth, Nat.reducePow]
  repeat' (first | omega | with_reducible rfl | (with_reducible apply ite_eq_cases <;> intro _))

/-- A byte write outside every region changes nothing. -/
theorem Write8_unmapped (m : MMU) (A V : Nat) (h : ¬ m.Mapped A) : m.Write8 A V = some m := by
  unfold Mapped at h
  simp only [BIOSStart, BIOSLength, WRAM256Start, WRAM256Length, WRAM32Start,
    WRAM32Length, IOStart, IOLength, PaletteStart, PaletteLength, VRAMStart, VRAMLenth,
    OAMStart, OAMLength, ROMStart, SRAMStart, SRAMLenth] at h
  have hma : mirrorAddress A = A := mirrorAddress_of_not_window (by omega)
  unfold Write8
  simp only [hma, BIOSStart, BIOSLength, WRAM256Start, WRAM256Length, WRAM32Start,
    WRAM32Length, IOStart, IOLength, PaletteStart, PaletteLength, VRAMStart, VRAMLenth,
    OAMStart, OAMLength, ROMStart, SRAMStart, SRAMLenth]
  repeat' (first | omega | with_reducible rfl | (with_reducible apply ite_eq_cases <;> intro _))

theorem Read8_mmio (m : MMU) {A : Nat}
    (h : IOStart ≤ mirrorAddress A ∧ mirrorAddress A < IOStart + IOLength) :
    m.Read8 A = some (m.readIO8 (mirrorAddress A)) := by
  unfold Read8
  simp only [BIOSStart, BIOSLength, WRAM256Start, WRAM256Length, WRAM32Start,
    WRAM32Length, IOStart, IOLength, PaletteStart, PaletteLength, VRAMStart, VRAMLenth,
    OAMStart, OAMLength, ROMStart, SRAMStart, SRAMLenth] at h ⊢
  repeat' (first | omega | with_reducible rfl | (with_reducible apply ite_eq_cases <;> intro _))

theorem Write8_mmio (m : MMU) {A : Nat} (V : Nat)
    (h : IOStart ≤ mirrorAddress A ∧ mirrorAddress A < IOStart + IOLength) :
    m.Write8 A V = m.writeIO8 (mirrorAddress A) V := by
  unfold Write8
  simp only [BIOSStart, BIOSLength, WRAM256Start, WRAM256Length, WRAM32Start,
    WRAM32Length, IOStart, IOLength, PaletteStart, PaletteLength, VRAMStart, VRAMLenth,
    OAMStart, OAMLength, ROMStart, SRAMStart, SRAMLenth] at h ⊢
  repeat' (first | omega | with_reducible rfl | (with_reducible apply ite_eq_cases <;> intro _))

/-- In the MMIO window the decoder is the identity. -/
theorem mirrorAddress_mmio {A : Nat} (h : IOStart ≤ A ∧ A < IOStart + IOLength) :
    mirrorAddress A = A := by
  simp only [IOStart, IOLength] at h
  exact mirrorAddress_of_not_window (by omega)

theorem testBit_0xFFFF (i : Nat) : (0xFFFF : Nat).testBit i = decide (i < 16) := by
  have : (0xFFFF : Nat) = 2 ^ 16 - 1 := by norm_num
  rw [this, Nat.testBit_two_pow_sub_one]

theorem testBit_not16 (x i : Nat) :
    (not16 x).testBit i = (decide (i < 16) && !x.testBit i) := by
  unfold not16
  rw [Nat.testBit_xor, testBit_0xFFFF, Nat.testBit_mod_two_pow]
  by_cases h : i < 16 <;> simp [h]

theorem not16_of_lt {x : Nat} (h : x < 2 ^ 16) : not16 x = 0xFFFF ^^^ x := by
  unfold not16
  rw [Nat.mod_eq_of_lt h]

/-- Clearing with the low byte and then with the high byte clears with the halfword. -/
theorem and_not16_bytes (IF0 V : Nat) :
    (IF0 &&& not16 (V % 2 ^ 8)) &&& not16 ((((V >>> 8) % 2 ^ 8) <<< 8) % 2 ^ 16)
      = IF0 &&& not16 V := by
  apply Nat.eq_of_testBit_eq
  intro i
  simp only [Nat.testBit_and, testBit_not16, Nat.testBit_mod_two_pow, Nat.testBit_shiftLeft,
    Nat.testBit_shiftRight]
  by_cases h8 : i < 8
  · have h16 : i < 16 := by omega
    have : ¬ (i ≥ 8) := by omega
    simp [h8, h16, this]
  · have hge : i ≥ 8 := by omega
    by_cases h16 : i < 16
    · have : i - 8 < 8 := by omega
      have e : 8 + (i - 8) = i := by omega
      simp [h8, h16, hge, this, e]
    · simp [h8, h16, hge]

theorem Write16_of_Write8 {m m1 : MMU} {A V : Nat} (h : m.Write8 A (V % 2 ^ 8) = some m1) :
    m.Write16 A V = m1.Write8 ((A + 1) % 2 ^ 32) ((V >>> 8) % 2 ^ 8) := by
  unfold Write16
  rw [h]; rfl

theorem Write32_of_Write16 {m m1 : MMU} {A V : Nat} (h : m.Write16 A (V % 2 ^ 16) = some m1) :
    m.Write32 A V = m1.Write16 ((A + 2) % 2 ^ 32) ((V >>> 16) % 2 ^ 16) := by
  unfold Write32
  rw [h]; rfl

theorem Read16_of_Read8 {m : MMU} {A lo hi : Nat} (h1 : m.Read8 A = some lo)
    (h2 : m.Read8 ((A + 1) % 2 ^ 32) = some hi) :
    m.Read16 A = some (lo ||| (hi <<< 8) % 2 ^ 16) := by
  unfold Read16
  rw [h1, h2]; rfl

theorem Read32_of_Read16 {m : MMU} {A lo hi : Nat} (h1 : m.Read16 A = some lo)
    (h2 : m.Read16 ((A + 2) % 2 ^ 32) = some hi) :
    m.Read32 A = some (lo ||| (hi <<< 16) % 2 ^ 32) := by
  unfold Read32
  rw [h1, h2]; rfl

theorem writeIO8_IF_lo (m : MMU) (v : Nat) :
    m.writeIO8 0x04000202 v = some { m with IF := m.IF &&& not16 v } := rfl

theorem writeIO8_IF_hi (m : MMU) (v : Nat) :
    m.writeIO8 0x04000203 v = some { m with IF := m.IF &&& not16 ((v <<< 8) % 2 ^ 16) } := rfl

theorem readIO8_lt (m : MMU) (a : Nat) : m.readIO8 a < 256 := by
  unfold readIO8
  simp only []
  repeat' (first
    | (with_reducible apply ite_lt_cases <;> intro _)
    | exact Nat.mod_lt _ (by norm_num)
    | exact (by norm_num : (0 : Nat) < 256))

/-- Every byte read is a `uint8`. -/
theorem Read8_lt (m : MMU) (A : Nat) : ∀ v, m.Read8 A = some v → v < 256 := by
  unfold Read8
  simp only []
  repeat' (first
    | (with_reducible apply ite_some_cases <;> intro _)
    | with_reducible exact Bytes.get?_lt _ _
    | (intro v hv; rw [← Option.some.inj hv]
       first | with_reducible exact readIO8_lt _ _ | exact (by norm_num : (0 : Nat) < 256)))

/-- Consecutive addresses never decode to the same byte. -/
theorem mirrorAddress_succ_ne (A : Nat) : mirrorAddress (A + 1) ≠ mirrorAddress A := by
  rw [mirrorAddress_eq, mirrorAddress_eq]
  by_cases h1 : 0x06010000 ≤ A + 1 ∧ A + 1 < 0x06018000 <;>
  by_cases h2 : 0x06010000 ≤ A ∧ A < 0x06018000
  · rw [if_pos h1, if_pos h2]; omega
  · rw [if_pos h1, if_neg h2]; omega
  · rw [if_neg h1, if_pos h2]; omega
  · rw [if_neg h1, if_neg h2]; omega

theorem or_shift8 {lo hi : Nat} (h1 : lo < 256) (h2 : hi < 256) :
    lo ||| (hi <<< 8) % 2 ^ 16 = lo + hi * 2 ^ 8 := by
  have hlt : hi <<< 8 < 2 ^ 16 := by rw [Nat.shiftLeft_eq]; omega
  rw [Nat.mod_eq_of_lt hlt, Nat.shiftLeft_eq, Nat.or_comm, Nat.mul_comm,
    ← Nat.mul_add_lt_is_or (by omega : lo < 2 ^ 8)]
  omega

theorem or_shift16 {lo hi : Nat} (h1 : lo < 2 ^ 16) (h2 : hi < 2 ^ 16) :
    lo ||| (hi <<< 16) % 2 ^ 32 = lo + hi * 2 ^ 16 := by
  have hlt : hi <<< 16 < 2 ^ 32 := by rw [Nat.shiftLeft_eq]; omega
  rw [Nat.mod_eq_of_lt hlt, Nat.shiftLeft_eq, Nat.or_comm, Nat.mul_comm,
    ← Nat.mul_add_lt_is_or h1]
  omega

/-- `Read16` is the little-endian value of the two bytes at `A` and `A+1`. -/
theorem Read16_bytes (m : MMU) (hm : m.Sized) (A : Nat) :
    ∃ b0 b1, m.Read8 A = some b0 ∧ m.Read8 ((A + 1) % 2 ^ 32) = some b1 ∧
      b0 < 256 ∧ b1 < 256 ∧ m.Read16 A = some (b0 + b1 * 2 ^ 8) := by
  obtain ⟨b0, h0⟩ := Option.isSome_iff_exists.mp (Read8_isSome m hm A)
  obtain ⟨b1, h1⟩ := Option.isSome_iff_exists.mp (Read8_isSome m hm ((A + 1) % 2 ^ 32))
  have l0 := Read8_lt m _ _ h0
  have l1 := Read8_lt m _ _ h1
  refine ⟨b0, b1, h0, h1, l0, l1, ?_⟩
  rw [Read16_of_Read8 h0 h1, or_shift8 l0 l1]

end MMU

/-! ### Register bytes -/

theorem testBit_0xFF00 (i : Nat) :
    (0xFF00 : Nat).testBit i = (decide (i ≥ 8) && decide (i - 8 < 8)) := by
  have : (0xFF00 : Nat) = (2 ^ 8 - 1) <<< 8 := by decide
  rw [this, Nat.testBit_shiftLeft, Nat.testBit_two_pow_sub_one]

theorem testBit_0x00FF (i : Nat) : (0x00FF : Nat).testBit i = decide (i < 8) := by
  have : (0x00FF : Nat) = 2 ^ 8 - 1 := by norm_num
  rw [this, Nat.testBit_two_pow_sub_one]

/-- Writing the low byte and then the high byte of a 16-bit register leaves the halfword. -/
theorem reg16_bytes (D V : Nat) (hV : V < 2 ^ 16) :
    (((D &&& 0xFF00) ||| V % 2 ^ 8) &&& 0x00FF) ||| (((V >>> 8) % 2 ^ 8) <<< 8) % 2 ^ 16 = V := by
  apply Nat.eq_of_testBit_eq
  intro i
  simp only [Nat.testBit_or, Nat.testBit_and, Nat.testBit_mod_two_pow, Nat.testBit_shiftLeft,
    Nat.testBit_shiftRight, testBit_0xFF00, testBit_0x00FF]
  by_cases h8 : i < 8
  · have : ¬ (i ≥ 8) := by omega
    simp [h8, this]
  · have hge : i ≥ 8 := by omega
    by_cases h16 : i < 16
    · have : i - 8 < 8 := by omega
      have e : 8 + (i - 8) = i := by omega
      simp [h8, h16, hge, this, e]
    · have h16' : 2 ^ 16 ≤ 2 ^ i := Nat.pow_le_pow_right (by norm_num) (by omega)
      simp [h8, h16, hge, Nat.testBit_lt_two_pow (lt_of_lt_of_le hV h16')]

/-- A 16-bit value is the little-endian value of its two bytes. -/
theorem halfword_of_bytes {V : Nat} (hV : V < 2 ^ 16) :
    (V % 256) ||| (((V >>> 8) % 256) <<< 8) % 2 ^ 16 = V := by
  rw [MMU.or_shift8 (Nat.mod_lt _ (by norm_num)) (Nat.mod_lt _ (by norm_num)),
    Nat.shiftRight_eq_div_pow]
  omega

namespace MMU

theorem mirrorAddress_of_mmio (A : Nat) (h : 0x04000000 ≤ A ∧ A < 0x040003FF) :
    mirrorAddress A = A := mirrorAddress_of_not_window (by omega)

/-- A byte read in the MMIO window goes to `readIO8`. -/
theorem Read8_mmio_at (m : MMU) (A : Nat) (h : 0x04000000 ≤ A ∧ A < 0x040003FF) :
    m.Read8 A = some (m.readIO8 A) := by
  have hm := mirrorAddress_of_mmio A h
  rw [Read8_mmio m (by rw [hm]; simp only [IOStart, IOLength]; omega), hm]

/-- A byte write in the MMIO window goes to `writeIO8`. -/
theorem Write8_mmio_at (m : MMU) (A V : Nat) (h : 0x04000000 ≤ A ∧ A < 0x040003FF) :
    m.Write8 A V = m.writeIO8 A V := by
  have hm := mirrorAddress_of_mmio A h
  rw [Write8_mmio m V (by rw [hm]; simp only [IOStart, IOLength]; omega), hm]

theorem writeIO8_DISPCNT_lo (m : MMU) (v : Nat) :
    m.writeIO8 0x04000000 v = some { m with DISPCNT := (m.DISPCNT &&& 0xFF00) ||| v } := rfl

theorem writeIO8_DISPCNT_hi (m : MMU) (v : Nat) :
    m.writeIO8 0x04000001 v =
      some { m with DISPCNT := (m.DISPCNT &&& 0x00FF) ||| (v <<< 8) % 2 ^ 16 } := rfl

theorem writeIO8_0x102 (m : MMU) (v : Nat) :
    m.writeIO8 0x04000102 v =
      if 0x102 < m.IOmem.len then (m.IOmem.set? 0x102 v).map (fun b => { m with IOmem := b })
      else some m := rfl

theorem writeIO8_0x103 (m : MMU) (v : Nat) :
    m.writeIO8 0x04000103 v =
      if 0x103 < m.IOmem.len then (m.IOmem.set? 0x103 v).map (fun b => { m with IOmem := b })
      else some m := rfl

theorem readIO8_0x102 (m : MMU) :
    m.readIO8 0x04000102 = if 0x102 < m.IOmem.len then m.IOmem.data 0x102 % 256 else 0 := rfl

theorem readIO8_0x103 (m : MMU) :
    m.readIO8 0x04000103 = if 0x103 < m.IOmem.len then m.IOmem.data 0x103 % 256 else 0 := rfl

theorem readIO8_DISPCNT_lo (m : MMU) : m.readIO8 0x04000000 = m.DISPCNT % 256 := rfl

theorem readIO8_DISPCNT_hi (m : MMU) : m.readIO8 0x04000001 = (m.DISPCNT >>> 8) % 256 := rfl

theorem readIO8_KEYINPUT_lo (m : MMU) : m.readIO8 0x04000130 = m.KEYINPUT % 256 := rfl

theorem readIO8_KEYINPUT_hi (m : MMU) : m.readIO8 0x04000131 = (m.KEYINPUT >>> 8) % 256 := rfl

/-- A halfword write to DISPCNT stores the value in the memory unit's own `DISPCNT`. -/
theorem Write16_DISPCNT (m : MMU) (V : Nat) (hV : V < 2 ^ 16) :
    m.Write16 0x04000000 V = some { m with DISPCNT := V } := by
  have e1 : m.Write8 0x04000000 (V % 2 ^ 8) =
      some { m with DISPCNT := (m.DISPCNT &&& 0xFF00) ||| V % 2 ^ 8 } := by
    rw [Write8_mmio_at m _ _ (by omega)]; exact writeIO8_DISPCNT_lo m _
  have e2 : ∀ m1 : MMU, m1.Write8 ((0x04000000 + 1) % 2 ^ 32) ((V >>> 8) % 2 ^ 8) =
      some { m1 with DISPCNT := (m1.DISPCNT &&& 0x00FF) ||| (((V >>> 8) % 2 ^ 8) <<< 8) % 2 ^ 16 } := by
    intro m1
    rw [Write8_mmio_at m1 _ _ (by omega)]; exact writeIO8_DISPCNT_hi m1 _
  rw [Write16_of_Write8 e1, e2]
  show some { m with DISPCNT := _ } = _
  rw [reg16_bytes _ _ hV]

/-- A halfword read of a 16-bit register field at an even MMIO address, given its bytes. -/
theorem Read16_reg (m : MMU) (A R : Nat) (hA : 0x04000000 ≤ A ∧ A + 1 < 0x040003FF)
    (hR : R < 2 ^ 16) (hlo : m.readIO8 A = R % 256) (hhi : m.readIO8 (A + 1) = (R >>> 8) % 256) :
    m.Read16 A = some R := by
  have h1 : m.Read8 A = some (R % 256) := by
    rw [Read8_mmio_at m A (by omega), hlo]
  have h2 : m.Read8 ((A + 1) % 2 ^ 32) = some ((R >>> 8) % 256) := by
    rw [Nat.mod_eq_of_lt (by omega), Read8_mmio_at m (A + 1) (by omega), hhi]
  rw [Read16_of_Read8 h1 h2, halfword_of_bytes hR]

/-- A halfword write at `0x04000102` (TM0CNT_H) lands in the `IO` array. -/
theorem Write16_0x102 (m : MMU) (hm : m.Sized) (V : Nat) :
    m.Write16 0x04000102 V = some { m with IOmem := ⟨m.IOmem.len,
      Function.update (Function.update m.IOmem.data 0x102 (V % 2 ^ 8)) 0x103
        ((V >>> 8) % 2 ^ 8)⟩ } := by
  have hlen : m.IOmem.len = 0x3FF := hm.io
  have e1 : m.Write8 0x04000102 (V % 2 ^ 8) =
      some { m with IOmem := ⟨m.IOmem.len, Function.update m.IOmem.data 0x102 (V % 2 ^ 8)⟩ } := by
    rw [Write8_mmio_at m _ _ (by omega), writeIO8_0x102, if_pos (by omega),
      Bytes.set?_of_lt _ (by omega)]
    rfl
  rw [Write16_of_Write8 e1]
  rw [Write8_mmio_at _ _ _ (by omega)]
  show writeIO8 _ 0x04000103 _ = _
  rw [writeIO8_0x103, if_pos (by show 0x103 < m.IOmem.len; omega),
    Bytes.set?_of_lt _ (by show 0x103 < m.IOmem.len; omega)]
  rfl

end MMU

/-! ### The key latch -/

namespace Input

/-- One step of the loop of `updateKEYINPUT` clears bit `j` exactly when key `j` is pressed. -/
theorem clear_step_testBit (keys : Nat → Bool) (j k b : Nat) (hj : j < 16) (hk : k < 2 ^ 16) :
    (if keys j then k &&& MMU.not16 ((1 <<< j) % 2 ^ 16) else k).testBit b
      = (k.testBit b && !(keys j && decide (b = j))) := by
  by_cases hkey : keys j = true
  · rw [if_pos hkey, Nat.testBit_and, MMU.testBit_not16, Nat.testBit_mod_two_pow,
      Nat.one_shiftLeft, Nat.testBit_two_pow, hkey]
    by_cases hb : b < 16
    · by_cases hbj : b = j
      · subst hbj; simp [hb]
      · have : ¬ j = b := fun h => hbj h.symm
        simp [hb, hbj, this]
    · have h16 : 2 ^ 16 ≤ 2 ^ b := Nat.pow_le_pow_right (by norm_num) (by omega)
      simp [hb, Nat.testBit_lt_two_pow (lt_of_lt_of_le hk h16)]
  · rw [if_neg hkey]
    simp [hkey]

theorem clear_step_lt (keys : Nat → Bool) (j k : Nat) (hk : k < 2 ^ 16) :
    (if keys j then k &&& MMU.not16 ((1 <<< j) % 2 ^ 16) else k) < 2 ^ 16 := by
  by_cases hkey : keys j = true
  · rw [if_pos hkey]
    exact lt_of_le_of_lt Nat.and_le_left hk
  · rw [if_neg hkey]; exact hk

theorem clear_fold_testBit (keys : Nat → Bool) (l : List Nat) (hl : ∀ j ∈ l, j < 16) :
    ∀ (k b : Nat), k < 2 ^ 16 →
      (l.foldl (fun k j => if keys j then k &&& MMU.not16 ((1 <<< j) % 2 ^ 16) else k) k).testBit b
        = (k.testBit b && l.all (fun j => !(keys j && decide (b = j)))) := by
  induction l with
  | nil => intro k b _; simp
  | cons j l ih =>
    intro k b hk
    rw [List.foldl_cons, ih (fun x hx => hl x (List.mem_cons_of_mem _ hx)) _ b
      (clear_step_lt keys j k hk), clear_step_testBit keys j k b (hl j (List.mem_cons_self _ _)) hk,
      List.all_cons, Bool.and_assoc]

theorem all_range_ne (keys : Nat → Bool) (b n : Nat) :
    (List.range n).all (fun j => !(keys j && decide (b = j))) = !(decide (b < n) && keys b) := by
  induction n with
  | zero => simp
  | succ n ih =>
    rw [List.range_succ, List.all_append, ih]
    by_cases h1 : b < n
    · have : ¬ b = n := by omega
      have h2 : b < n + 1 := by omega
      simp [h1, h2, this]
    · by_cases h2 : b = n
      · subst h2; simp
      · have h3 : ¬ b < n + 1 := by omega
        simp [h1, h2, h3]

theorem testBit_0x03FF (b : Nat) : (0x03FF : Nat).testBit b = decide (b < 10) := by
  have : (0x03FF : Nat) = 2 ^ 10 - 1 := by norm_num
  rw [this, Nat.testBit_two_pow_sub_one]

/-- After `updateKEYINPUT`, bit `b` of KEYINPUT is set exactly for `b < 10` with key `b`
released. -/
theorem updateKEYINPUT_testBit (i : Input) (b : Nat) :
    (i.updateKEYINPUT).KEYINPUT.testBit b = (decide (b < 10) && !i.Keys b) := by
  unfold updateKEYINPUT
  simp only []
  rw [clear_fold_testBit i.Keys (List.range 10) (fun j hj => by
      have := List.mem_range.mp hj; omega) _ b (by norm_num), all_range_ne, testBit_0x03FF]
  by_cases h : b < 10 <;> simp [h]

/-- Every reachable state has the latch in step with the key array. -/
theorem Reachable.latched {i : Input} (h : i.Reachable) : i.Latched := by
  induction h with
  | reset i =>
    intro b
    show (0x03FF : Nat).testBit b = (decide (b < 10) && !false)
    rw [testBit_0x03FF]; simp
  | setKey key pressed _ ih =>
    unfold SetKey
    by_cases hk : 0 ≤ key ∧ key < 10
    · rw [if_pos hk]
      intro b
      exact updateKEYINPUT_testBit _ b
    · rw [if_neg hk]; exact ih
  | setKEYCNT val _ _ ih => exact ih
  | writeKEYCNT val _ _ ih => exact ih
  | writeRegister addr val _ _ ih =>
    unfold WriteRegister
    by_cases ha : addr = 0x04000132
    · rw [if_pos ha]; exact ih
    · rw [if_neg ha]; exact ih

theorem Reachable_New : New.Reachable :=
  Reachable.reset { KEYINPUT := 0, KEYCNT := 0, Keys := fun _ => false }

theorem Reachable.keycnt_lt {i : Input} (h : i.Reachable) : i.KEYCNT < 2 ^ 16 := by
  induction h with
  | reset i => show (0 : Nat) < 2 ^ 16; norm_num
  | setKey key pressed _ ih =>
    unfold SetKey
    by_cases hk : 0 ≤ key ∧ key < 10
    · rw [if_pos hk]; exact ih
    · rw [if_neg hk]; exact ih
  | setKEYCNT val hv _ _ => exact hv
  | writeKEYCNT val hv _ _ => exact hv
  | writeRegister addr val hv _ ih =>
    unfold WriteRegister
    by_cases ha : addr = 0x04000132
    · rw [if_pos ha]; exact hv
    · rw [if_neg ha]; exact ih

theorem Latched.lt {i : Input} (h : i.Latched) : i.KEYINPUT < 2 ^ 10 := by
  apply Nat.lt_pow_two_of_testBit
  intro b hb
  rw [h b]
  have : ¬ b < 10 := by omega
  simp [this]

/-- `SetKey` with a key in range, seen on the bits of KEYINPUT. -/
theorem SetKey_testBit (i : Input) (k : Nat) (hk : k < 10) (pressed : Bool) (b : Nat) :
    (i.SetKey k pressed).KEYINPUT.testBit b
      = (decide (b < 10) && !(Function.update i.Keys k pressed b)) := by
  unfold SetKey
  rw [if_pos (by omega), updateKEYINPUT_testBit]
  simp

theorem and_two_pow_eq_zero_iff (x n : Nat) : x &&& 2 ^ n = 0 ↔ x.testBit n = false := by
  constructor
  · intro h
    have := congrArg (fun y => Nat.testBit y n) h
    simpa [Nat.testBit_and, Nat.testBit_two_pow_self] using this
  · intro h
    apply Nat.eq_of_testBit_eq
    intro b
    rw [Nat.testBit_and, Nat.testBit_two_pow, Nat.zero_testBit]
    by_cases hb : n = b
    · subst hb; simp [h]
    · simp [hb]

theorem keysPressed_testBit {i : Input} (hl : i.Latched) (b : Nat) :
    (MMU.not16 i.KEYINPUT &&& 0x03FF).testBit b = (decide (b < 10) && i.Keys b) := by
  rw [Nat.testBit_and, MMU.testBit_not16, testBit_0x03FF, hl b]
  by_cases h : b < 10
  · have : b < 16 := by omega
    simp [h, this]
  · simp [h]

theorem keyMask_testBit (x b : Nat) :
    (x &&& 0x03FF).testBit b = (decide (b < 10) && x.testBit b) := by
  rw [Nat.testBit_and, testBit_0x03FF, Bool.and_comm]

theorem and_eq_right_iff (a m : Nat) :
    a &&& m = m ↔ ∀ b, m.testBit b = true → a.testBit b = true := by
  constructor
  · intro h b hb
    have := congrArg (fun y => Nat.testBit y b) h
    simp only [Nat.testBit_and, hb, Bool.and_true] at this
    exact this
  · intro h
    apply Nat.eq_of_testBit_eq
    intro b
    rw [Nat.testBit_and]
    by_cases hb : m.testBit b = true
    · rw [hb, h b hb]; rfl
    · simp [hb]

theorem ne_zero_iff_testBit (x : Nat) : x ≠ 0 ↔ ∃ b, x.testBit b = true := by
  constructor
  · exact Nat.ne_zero_implies_bit_true
  · rintro ⟨b, hb⟩ h
    rw [h, Nat.zero_testBit] at hb
    exact Bool.false_ne_true hb

end Input

/-! ### Timers -/

namespace Timer

theorem SameConfig.refl (t : Timer) : SameConfig t t := ⟨rfl, rfl, rfl, rfl, rfl⟩

theorem SameConfig.trans {a b c : Timer} (h1 : SameConfig a b) (h2 : SameConfig b c) :
    SameConfig a c :=
  ⟨h2.reload.trans h1.reload, h2.countUp.trans h1.countUp, h2.prescaler.trans h1.prescaler,
    h2.enable.trans h1.enable, h2.irqEnable.trans h1.irqEnable⟩

theorem cascade_sameConfig (t : Timer) (i : Nat) : SameConfig t (t.cascade i) := by
  unfold cascade
  simp only []
  split_ifs <;> exact ⟨rfl, rfl, rfl, rfl, rfl⟩

theorem cascade_CycleCount (t : Timer) (i : Nat) : (t.cascade i).CycleCount = t.CycleCount := by
  unfold cascade
  simp only []
  split_ifs <;> rfl

theorem cascade_Counter_ne (t : Timer) (i j : Nat) (hj : j ≠ i + 1) :
    (t.cascade i).Counter j = t.Counter j := by
  unfold cascade
  simp only []
  split_ifs <;> simp [Function.update, hj]

theorem cascade_Counter_next (t : Timer) (i : Nat) (hi : i < 3) (hc : t.CountUp (i + 1) = true) :
    (t.cascade i).Counter (i + 1) = bump (t.Reload (i + 1)) (t.Counter (i + 1)) := by
  unfold cascade bump
  simp only []
  rw [if_pos ⟨hi, hc⟩]
  simp only [Function.update_same]
  split_ifs <;> first | omega | simp [Function.update]

theorem tick_sameConfig (t : Timer) (i : Nat) (p : Int) : SameConfig t (t.tick i p) := by
  unfold tick
  simp only []
  split_ifs
  · exact ⟨(cascade_sameConfig _ i).reload, (cascade_sameConfig _ i).countUp,
      (cascade_sameConfig _ i).prescaler, (cascade_sameConfig _ i).enable,
      (cascade_sameConfig _ i).irqEnable⟩
  · exact ⟨(cascade_sameConfig _ i).reload, (cascade_sameConfig _ i).countUp,
      (cascade_sameConfig _ i).prescaler, (cascade_sameConfig _ i).enable,
      (cascade_sameConfig _ i).irqEnable⟩
  · exact ⟨rfl, rfl, rfl, rfl, rfl⟩

theorem tick_CycleCount (t : Timer) (i : Nat) (p : Int) :
    (t.tick i p).CycleCount = Function.update t.CycleCount i (t.CycleCount i - p) := by
  unfold tick
  simp only []
  split_ifs
  · rw [cascade_CycleCount]
  · rw [cascade_CycleCount]
  · rfl

theorem tick_Counter_self (t : Timer) (i : Nat) (p : Int) :
    (t.tick i p).Counter i = bump (t.Reload i) (t.Counter i) := by
  unfold tick bump
  simp only [Function.update_same]
  split_ifs
  · rw [cascade_Counter_ne _ _ _ (by omega)]; simp [Function.update]
  · rw [cascade_Counter_ne _ _ _ (by omega)]; simp [Function.update]
  · simp [Function.update]

theorem tick_Counter_next (t : Timer) (i : Nat) (p : Int) (hi : i < 3)
    (hc : t.CountUp (i + 1) = true) :
    (t.tick i p).Counter (i + 1) =
      if (t.Counter i + 1) % 2 ^ 32 > 0xFFFF then bump (t.Reload (i + 1)) (t.Counter (i + 1))
      else t.Counter (i + 1) := by
  unfold tick
  simp only [Function.update_same]
  split_ifs
  · refine (cascade_Counter_next _ i hi ?_).trans ?_
    · exact hc
    · simp [Function.update]
  · refine (cascade_Counter_next _ i hi ?_).trans ?_
    · exact hc
    · simp [Function.update]
  · simp [Function.update]

theorem tick_Counter_other (t : Timer) (i j : Nat) (p : Int) (h1 : j ≠ i) (h2 : j ≠ i + 1) :
    (t.tick i p).Counter j = t.Counter j := by
  unfold tick
  simp only [Function.update_same]
  split_ifs
  · rw [cascade_Counter_ne _ _ _ h2]; simp [Function.update, h1]
  · rw [cascade_Counter_ne _ _ _ h2]; simp [Function.update, h1]
  · simp [Function.update, h1]

/-- What `n` passes of the inner loop for channel 0 do when channel 0 reloads with `0` and
channel 1 counts up. -/
theorem tick0_iterate (t : Timer) (p : Int) (hr : t.Reload 0 = 0) (hc : t.Counter 0 ≤ 0xFFFF)
    (hu : t.CountUp 1 = true) (n : Nat) :
    SameConfig t ((fun u : Timer => u.tick 0 p)^[n] t) ∧
    ((fun u : Timer => u.tick 0 p)^[n] t).Counter 0 = (t.Counter 0 + n) % 0x10000 ∧
    ((fun u : Timer => u.tick 0 p)^[n] t).Counter 1
      = (bump (t.Reload 1))^[(t.Counter 0 + n) / 0x10000] (t.Counter 1) ∧
    ((fun u : Timer => u.tick 0 p)^[n] t).CycleCount 0 = t.CycleCount 0 - n * p ∧
    (∀ j, j ≠ 0 → ((fun u : Timer => u.tick 0 p)^[n] t).CycleCount j = t.CycleCount j) := by
  induction n with
  | zero =>
    refine ⟨SameConfig.refl t, ?_, ?_, ?_, fun _ _ => rfl⟩
    · show t.Counter 0 = _; omega
    · have : (t.Counter 0 + 0) / 0x10000 = 0 := by omega
      rw [this]; rfl
    · show t.CycleCount 0 = _; simp
  | succ n ih =>
    obtain ⟨hs, h0, h1, hcc, hoth⟩ := ih
    rw [Function.iterate_succ_apply']
    generalize (fun u : Timer => u.tick 0 p)^[n] t = tn at hs h0 h1 hcc hoth ⊢
    refine ⟨hs.trans (tick_sameConfig tn 0 p), ?_, ?_, ?_, ?_⟩
    · rw [tick_Counter_self, hs.reload, hr, h0]
      unfold bump
      split_ifs <;> omega
    · have hcu : tn.CountUp (0 + 1) = true := by rw [hs.countUp]; exact hu
      have := tick_Counter_next tn 0 p (by norm_num) hcu
      simp only [Nat.zero_add] at this
      rw [this, h0, h1, hs.reload]
      by_cases hov : ((t.Counter 0 + n) % 0x10000 + 1) % 2 ^ 32 > 0xFFFF
      · rw [if_pos hov]
        have : (t.Counter 0 + (n + 1)) / 0x10000 = (t.Counter 0 + n) / 0x10000 + 1 := by omega
        rw [this, Function.iterate_succ_apply']
      · rw [if_neg hov]
        have : (t.Counter 0 + (n + 1)) / 0x10000 = (t.Counter 0 + n) / 0x10000 := by omega
        rw [this]
    · rw [tick_CycleCount, Function.update_same, hcc]
      push_cast
      ring
    · intro j hj
      rw [tick_CycleCount, Function.update_noteq hj, hoth j hj]

/-- Passes of the inner loop for channel 2 or 3 leave channels 0 and 1 alone. -/
theorem tick_high_iterate (t : Timer) (i : Nat) (hi : 2 ≤ i) (p : Int) (n : Nat) :
    SameConfig t ((fun u : Timer => u.tick i p)^[n] t) ∧
    ((fun u : Timer => u.tick i p)^[n] t).Counter 0 = t.Counter 0 ∧
    ((fun u : Timer => u.tick i p)^[n] t).Counter 1 = t.Counter 1 ∧
    ((fun u : Timer => u.tick i p)^[n] t).CycleCount 0 = t.CycleCount 0 := by
  induction n with
  | zero => exact ⟨SameConfig.refl t, rfl, rfl, rfl⟩
  | succ n ih =>
    obtain ⟨hs, h0, h1, hcc⟩ := ih
    rw [Function.iterate_succ_apply']
    generalize (fun u : Timer => u.tick i p)^[n] t = tn at hs h0 h1 hcc ⊢
    refine ⟨hs.trans (tick_sameConfig tn i p), ?_, ?_, ?_⟩
    · rw [tick_Counter_other _ _ _ _ (by omega) (by omega), h0]
    · rw [tick_Counter_other _ _ _ _ (by omega) (by omega), h1]
    · rw [tick_CycleCount, Function.update_noteq (by omega), hcc]

/-- With a positive prescaler and fuel of at least `CycleCount[i]`, the inner loop ends, after
`CycleCount[i] / prescaler` passes. -/
theorem stepLoop_eq (i : Nat) (p : Int) (hp : 1 ≤ p) :
    ∀ (fuel : Nat) (t : Timer), (t.CycleCount i).toNat ≤ fuel →
      stepLoop i p fuel t = some ((fun u : Timer => u.tick i p)^[(t.CycleCount i / p).toNat] t) := by
  intro fuel
  induction fuel with
  | zero =>
    intro t hf
    have hlt : t.CycleCount i < p := by omega
    have hz : (t.CycleCount i / p).toNat = 0 := by
      have := Int.ediv_lt_of_lt_mul (by omega : (0 : Int) < p) (by omega : t.CycleCount i < 1 * p)
      omega
    unfold stepLoop
    rw [if_neg (by omega), hz]; rfl
  | succ fuel ih =>
    intro t hf
    unfold stepLoop
    by_cases hge : t.CycleCount i ≥ p
    · rw [if_pos hge, ih _ (by rw [tick_CycleCount, Function.update_same]; omega)]
      rw [tick_CycleCount, Function.update_same]
      have hdiv : (t.CycleCount i - p) / p = t.CycleCount i / p - 1 := by
        have := Int.add_mul_ediv_right (t.CycleCount i) (-1) (by omega : p ≠ 0)
        simpa [sub_eq_add_neg] using this
      have hpos : 1 ≤ t.CycleCount i / p := Int.le_ediv_of_mul_le (by omega) (by omega)
      have hn : (t.CycleCount i / p).toNat = ((t.CycleCount i - p) / p).toNat + 1 := by
        rw [hdiv]; omega
      rw [hn, Function.iterate_succ_apply]
    · rw [if_neg hge]
      have hz : (t.CycleCount i / p).toNat = 0 := by
        have := Int.ediv_lt_of_lt_mul (by omega : (0 : Int) < p)
          (by omega : t.CycleCount i < 1 * p)
        omega
      rw [hz]; rfl

theorem stepChannel_zero (t : Timer) (c : Int) (he : t.Enable 0 = true)
    (hp : 1 ≤ t.Prescaler 0) :
    t.stepChannel 0 c = some ((fun u : Timer => u.tick 0 (t.Prescaler 0))^[((t.CycleCount 0 + c) /
      t.Prescaler 0).toNat]
        { t with CycleCount := Function.update t.CycleCount 0 (t.CycleCount 0 + c) }) := by
  have h := stepLoop_eq 0 (t.Prescaler 0) hp _
    { t with CycleCount := Function.update t.CycleCount 0 (t.CycleCount 0 + c) } (le_refl _)
  unfold stepChannel
  rw [if_neg (by simp [he]), if_neg (by intro h; exact absurd h.2 (by norm_num))]
  simp only [Function.update_same] at h ⊢
  exact h

theorem stepChannel_cascaded (t : Timer) (i : Nat) (c : Int) (hi : 0 < i)
    (hu : t.CountUp i = true) : t.stepChannel i c = some t := by
  unfold stepChannel
  by_cases he : t.Enable i = false
  · rw [if_pos he]
  · rw [if_neg he, if_pos ⟨hu, hi⟩]

theorem stepChannel_high (t : Timer) (i : Nat) (c : Int) (hi : 2 ≤ i) (hp : 1 ≤ t.Prescaler i) :
    ∃ t', t.stepChannel i c = some t' ∧ SameConfig t t' ∧ t'.Counter 0 = t.Counter 0 ∧
      t'.Counter 1 = t.Counter 1 ∧ t'.CycleCount 0 = t.CycleCount 0 := by
  unfold stepChannel
  by_cases he : t.Enable i = false
  · rw [if_pos he]; exact ⟨t, rfl, SameConfig.refl t, rfl, rfl, rfl⟩
  · rw [if_neg he]
    by_cases hc : t.CountUp i = true ∧ i > 0
    · rw [if_pos hc]; exact ⟨t, rfl, SameConfig.refl t, rfl, rfl, rfl⟩
    · rw [if_neg hc]
      have h := stepLoop_eq i (t.Prescaler i) hp _
        { t with CycleCount := Function.update t.CycleCount i (t.CycleCount i + c) } (le_refl _)
      obtain ⟨hs, h0, h1, hcc⟩ := tick_high_iterate
        { t with CycleCount := Function.update t.CycleCount i (t.CycleCount i + c) } i hi
        (t.Prescaler i) ((t.CycleCount i + c) / t.Prescaler i).toNat
      simp only [Function.update_same] at h ⊢
      refine ⟨_, h, ⟨hs.reload, hs.countUp, hs.prescaler, hs.enable, hs.irqEnable⟩, h0, h1, ?_⟩
      rw [hcc]
      exact Function.update_noteq (by omega) _ _

/-- One call of `Step` with channel 0 running (reload 0) and channel 1 cascaded. -/
theorem Step_cascade (t : Timer) (c : Int) (he : t.Enable 0 = true) (hu : t.CountUp 1 = true)
    (hr : t.Reload 0 = 0) (hc : t.Counter 0 ≤ 0xFFFF) (hp : ∀ i, i < 4 → 1 ≤ t.Prescaler i) :
    ∃ t', t.Step c = some t' ∧ SameConfig t t' ∧
      t'.Counter 0 = (t.Counter 0 + ((t.CycleCount 0 + c) / t.Prescaler 0).toNat) % 0x10000 ∧
      t'.Counter 1 = (bump (t.Reload 1))^[(t.Counter 0 +
        ((t.CycleCount 0 + c) / t.Prescaler 0).toNat) / 0x10000] (t.Counter 1) ∧
      t'.CycleCount 0 = t.CycleCount 0 + c -
        (((t.CycleCount 0 + c) / t.Prescaler 0).toNat : Int) * t.Prescaler 0 := by
  obtain ⟨hs, h0, h1, hcc, _⟩ := tick0_iterate
    { t with CycleCount := Function.update t.CycleCount 0 (t.CycleCount 0 + c) } (t.Prescaler 0)
    hr hc hu ((t.CycleCount 0 + c) / t.Prescaler 0).toNat
  have e0 := stepChannel_zero t c he (hp 0 (by norm_num))
  generalize (fun u : Timer => u.tick 0 (t.Prescaler 0))^[((t.CycleCount 0 + c) /
      t.Prescaler 0).toNat]
        { t with CycleCount := Function.update t.CycleCount 0 (t.CycleCount 0 + c) } = ta
    at hs h0 h1 hcc e0
  have e1 := stepChannel_cascaded ta 1 c (by norm_num) (by rw [hs.countUp]; exact hu)
  obtain ⟨tb, e2, hsb, hb0, hb1, hbc⟩ := stepChannel_high ta 2 c (le_refl _)
    (by rw [hs.prescaler]; exact hp 2 (by norm_num))
  obtain ⟨tc, e3, hsc, hc0, hc1, hcc3⟩ := stepChannel_high tb 3 c (by norm_num)
    (by rw [hsb.prescaler, hs.prescaler]; exact hp 3 (by norm_num))
  refine ⟨tc, ?_, ?_, ?_, ?_, ?_⟩
  · unfold Step
    rw [e0]
    show (ta.stepChannel 1 c >>= fun t1 => _) = _
    rw [e1]
    show (ta.stepChannel 2 c >>= fun t2 => _) = _
    rw [e2]
    exact e3
  · exact ⟨hsc.reload.trans (hsb.reload.trans hs.reload),
      hsc.countUp.trans (hsb.countUp.trans hs.countUp),
      hsc.prescaler.trans (hsb.prescaler.trans hs.prescaler),
      hsc.enable.trans (hsb.enable.trans hs.enable),
      hsc.irqEnable.trans (hsb.irqEnable.trans hs.irqEnable)⟩
  · rw [hc0, hb0, h0]
  · rw [hc1, hb1, h1]
  · rw [hcc3, hbc, hcc]
    simp only [Function.update_same]

/-- Any sequence of `Step` calls with channel 0 running (reload 0) and channel 1 cascaded:
channel 0 has counted `N` prescaled increments and channel 1 one increment per overflow. -/
theorem StepAll_cascade (cs : List Int) :
    ∀ (t : Timer), t.Enable 0 = true → t.CountUp 1 = true → t.Reload 0 = 0 →
      t.Counter 0 ≤ 0xFFFF → (∀ i, i < 4 → 1 ≤ t.Prescaler i) →
      0 ≤ t.CycleCount 0 → t.CycleCount 0 < t.Prescaler 0 → (∀ c ∈ cs, 0 ≤ c) →
      ∃ t', t.StepAll cs = some t' ∧
        t'.Counter 0 = (t.Counter 0 +
          ((t.CycleCount 0 + cs.sum) / t.Prescaler 0).toNat) % 0x10000 ∧
        t'.Counter 1 = (bump (t.Reload 1))^[(t.Counter 0 +
          ((t.CycleCount 0 + cs.sum) / t.Prescaler 0).toNat) / 0x10000] (t.Counter 1) := by
  induction cs with
  | nil =>
    intro t _ _ _ hc hp h0 hlt _
    have hz : ((t.CycleCount 0 + ([] : List Int).sum) / t.Prescaler 0).toNat = 0 := by
      rw [List.sum_nil, Int.add_zero, Int.ediv_eq_zero_of_lt h0 hlt]; rfl
    refine ⟨t, rfl, ?_, ?_⟩
    · rw [hz]; omega
    · rw [hz]
      have : (t.Counter 0 + 0) / 0x10000 = 0 := by omega
      rw [this]; rfl
  | cons c cs ih =>
    intro t he hu hr hc hp h0 hlt hcs
    have hc0 : 0 ≤ c := hcs c (List.mem_cons_self _ _)
    have hcs' : ∀ x ∈ cs, 0 ≤ x := fun x hx => hcs x (List.mem_cons_of_mem _ hx)
    have hS : 0 ≤ cs.sum := List.sum_nonneg hcs'
    have hp0 : 0 < t.Prescaler 0 := by have := hp 0 (by norm_num); omega
    obtain ⟨t1, e1, hs, k0, k1, kc⟩ := Step_cascade t c he hu hr hc hp
    have hq0 : 0 ≤ (t.CycleCount 0 + c) / t.Prescaler 0 :=
      Int.ediv_nonneg (by omega) (by omega)
    have hq1 := Int.ediv_mul_le (t.CycleCount 0 + c) (by omega : t.Prescaler 0 ≠ 0)
    have hq2 := Int.lt_ediv_add_one_mul_self (t.CycleCount 0 + c) hp0
    have hqn : (((t.CycleCount 0 + c) / t.Prescaler 0).toNat : Int)
        = (t.CycleCount 0 + c) / t.Prescaler 0 := Int.toNat_of_nonneg hq0
    rw [hqn] at kc
    have hcc0 : 0 ≤ t1.CycleCount 0 := by rw [kc]; linarith
    have hcc1 : t1.CycleCount 0 < t1.Prescaler 0 := by
      rw [kc, hs.prescaler]
      have : ((t.CycleCount 0 + c) / t.Prescaler 0 + 1) * t.Prescaler 0
          = (t.CycleCount 0 + c) / t.Prescaler 0 * t.Prescaler 0 + t.Prescaler 0 := by ring
      linarith
    obtain ⟨t2, e2, m0, m1⟩ := ih t1 (by rw [hs.enable]; exact he) (by rw [hs.countUp]; exact hu)
      (by rw [hs.reload]; exact hr) (by rw [k0]; omega)
      (by intro i hi; rw [hs.prescaler]; exact hp i hi) hcc0 hcc1 hcs'
    have hdiv : (t1.CycleCount 0 + cs.sum) / t1.Prescaler 0
        = (t.CycleCount 0 + (c :: cs).sum) / t.Prescaler 0
          - (t.CycleCount 0 + c) / t.Prescaler 0 := by
      rw [kc, hs.prescaler, List.sum_cons]
      have := Int.add_mul_ediv_right (t.CycleCount 0 + (c + cs.sum))
        (-((t.CycleCount 0 + c) / t.Prescaler 0)) (by omega : t.Prescaler 0 ≠ 0)
      rw [show t.CycleCount 0 + c - (t.CycleCount 0 + c) / t.Prescaler 0 * t.Prescaler 0 + cs.sum
          = t.CycleCount 0 + (c + cs.sum)
            + -((t.CycleCount 0 + c) / t.Prescaler 0) * t.Prescaler 0 by ring, this]
      exact Int.sub_eq_add_neg.symm
    have hmono : (t.CycleCount 0 + c) / t.Prescaler 0
        ≤ (t.CycleCount 0 + (c :: cs).sum) / t.Prescaler 0 := by
      apply Int.ediv_le_ediv hp0
      rw [List.sum_cons]; omega
    have hN : ((t.CycleCount 0 + c) / t.Prescaler 0).toNat
        + ((t1.CycleCount 0 + cs.sum) / t1.Prescaler 0).toNat
        = ((t.CycleCount 0 + (c :: cs).sum) / t.Prescaler 0).toNat := by
      rw [hdiv]; omega
    refine ⟨t2, ?_, ?_, ?_⟩
    · show (t.Step c).bind _ = _
      rw [e1]; exact e2
    · rw [m0, k0, ← hN]; omega
    · rw [m1, k1, k0, hs.reload, ← Function.iterate_add_apply, ← hN]
      congr 1
      omega

end Timer

/-! ## Claims on the memory unit -/

/-- C1: a byte written to cartridge SRAM is not read back.  `Write8` tests
`addr >= ROMStart` before `addr >= SRAMStart`, so the store to `0x0E000000` is dropped and
the following `Read8` still sees the zero byte left by `New`. -/
theorem C1_sram_write_not_read_back :
    (MMU.New.Write8 0x0E000000 0xAB).bind (fun m => m.Read8 0x0E000000) = some 0 := by
  decide

/-- C2: with the region lengths allocated by `New` (kept by `LoadROM`), `Read8`, `Read16`
and `Read32` return a value at every address, never an out-of-range index; at an address in
no mapped region `Read8` is `0` and `Write8` returns the state unchanged. -/
theorem C2_reads_total_and_unmapped_inert (m : MMU) (hm : m.Sized) (A : Nat) :
    (∃ v, m.Read8 A = some v) ∧ (∃ v, m.Read16 A = some v) ∧ (∃ v, m.Read32 A = some v) ∧
      (¬ m.Mapped A → m.Read8 A = some 0 ∧ ∀ V, m.Write8 A V = some m) :=
  ⟨Option.isSome_iff_exists.mp (MMU.Read8_isSome m hm A),
   Option.isSome_iff_exists.mp (MMU.Read16_isSome m hm A),
   Option.isSome_iff_exists.mp (MMU.Read32_isSome m hm A),
   fun h => ⟨MMU.Read8_unmapped m A h, fun V => MMU.Write8_unmapped m A V h⟩⟩

/-- Witness for C2: a three-byte ROM loaded into a fresh memory unit, address `0x0A000000`. -/
theorem C2_reads_total_and_unmapped_inert_witness :
    ((MMU.New.LoadROM [1, 2, 3]).Sized ∧ ¬ (MMU.New.LoadROM [1, 2, 3]).Mapped 0x0A000000) ∧
    ((∃ v, (MMU.New.LoadROM [1, 2, 3]).Read8 0x0A000000 = some v) ∧
      (∃ v, (MMU.New.LoadROM [1, 2, 3]).Read16 0x0A000000 = some v) ∧
      (∃ v, (MMU.New.LoadROM [1, 2, 3]).Read32 0x0A000000 = some v) ∧
      (¬ (MMU.New.LoadROM [1, 2, 3]).Mapped 0x0A000000 →
        (MMU.New.LoadROM [1, 2, 3]).Read8 0x0A000000 = some 0 ∧
        ∀ V, (MMU.New.LoadROM [1, 2, 3]).Write8 0x0A000000 V = some (MMU.New.LoadROM [1, 2, 3]))) :=
  ⟨⟨MMU.Sized_LoadROM MMU.Sized_New _, by decide⟩,
   C2_reads_total_and_unmapped_inert _ (MMU.Sized_LoadROM MMU.Sized_New _) _⟩

/-- C3: a byte, halfword or word write at an address in the BIOS range
`0x00000000-0x00003FFF` or the cartridge ROM range `0x08000000-0x09FFFFFF` returns the
very same state: no region array and no register changes. -/
theorem C3_readonly_regions_drop_writes (m : MMU) (A V : Nat)
    (hA : A ≤ 0x00003FFF ∨ (0x08000000 ≤ A ∧ A ≤ 0x09FFFFFF)) :
    m.Write8 A V = some m ∧ m.Write16 A V = some m ∧ m.Write32 A V = some m := by
  have w8 : ∀ B W, (B < 0x02000000 ∨ 0x08000000 ≤ B) → m.Write8 B W = some m :=
    fun B W h => MMU.Write8_dropped m B W h
  have w16 : ∀ B W, (B < 0x01000000 ∨ (0x08000000 ≤ B ∧ B < 0x0B000000)) →
      m.Write16 B W = some m := by
    intro B W h
    unfold MMU.Write16
    rw [w8 B _ (by omega)]
    exact w8 _ _ (by omega)
  refine ⟨w8 A V (by omega), w16 A V (by omega), ?_⟩
  unfold MMU.Write32
  rw [w16 A _ (by omega)]
  exact w16 _ _ (by omega)

/-- Witness for C3: the last BIOS byte, where the halfword and word writes run past the
end of the region. -/
theorem C3_readonly_regions_drop_writes_witness :
    (0x3FFF ≤ 0x00003FFF ∨ (0x08000000 ≤ 0x3FFF ∧ 0x3FFF ≤ 0x09FFFFFF)) ∧
    (MMU.New.Write8 0x3FFF 0x12345678 = some MMU.New ∧
      MMU.New.Write16 0x3FFF 0x12345678 = some MMU.New ∧
      MMU.New.Write32 0x3FFF 0x12345678 = some MMU.New) :=
  ⟨by decide, C3_readonly_regions_drop_writes MMU.New 0x3FFF 0x12345678 (by decide)⟩

/-- C4: an address in `0x06010000 ≤ A < 0x06018000` is decoded `0x8000` lower, so `Read8`
returns what it returns at `A - 0x8000` and `Write8` produces the same result state as
the write at `A - 0x8000`. -/
theorem C4_vram_upper_window_mirrors (m : MMU) (A V : Nat)
    (h1 : 0x06010000 ≤ A) (h2 : A < 0x06018000) :
    m.Read8 A = m.Read8 (A - 0x8000) ∧ m.Write8 A V = m.Write8 (A - 0x8000) V := by
  have hA : MMU.mirrorAddress A = A - 0x8000 := MMU.mirrorAddress_of_window ⟨h1, h2⟩
  have hB : MMU.mirrorAddress (A - 0x8000) = A - 0x8000 :=
    MMU.mirrorAddress_of_not_window (by omega)
  constructor
  · unfold MMU.Read8
    rw [hA, hB]
  · unfold MMU.Write8
    rw [hA, hB]

/-- Witness for C4: the first address of the mirrored window. -/
theorem C4_vram_upper_window_mirrors_witness :
    0x06010000 ≤ 0x06010000 ∧ 0x06010000 < 0x06018000 ∧
    (MMU.New.Read8 0x06010000 = MMU.New.Read8 (0x06010000 - 0x8000) ∧
      MMU.New.Write8 0x06010000 0x5A = MMU.New.Write8 (0x06010000 - 0x8000) 0x5A) :=
  ⟨by decide, by decide, C4_vram_upper_window_mirrors MMU.New 0x06010000 0x5A (by decide) (by decide)⟩

/-- C5: a halfword write of `V` to IF (`0x04000202`) leaves `IF = IF0 AND NOT V`: every
bit written as 1 is cleared, every other bit keeps its value; IE, IME and the rest of the
state are unchanged. -/
theorem C5_IF_write_one_to_clear (m : MMU) (V : Nat) (hV : V < 2 ^ 16) (hIF : m.IF < 2 ^ 16) :
    ∃ m', m.Write16 0x04000202 V = some m' ∧
      m' = { m with IF := m.IF &&& (0xFFFF ^^^ V) } ∧
      (∀ i, m'.IF.testBit i = (m.IF.testBit i && !V.testBit i)) ∧
      m'.IE = m.IE ∧ m'.IME = m.IME := by
  have e1 : m.Write8 0x04000202 (V % 2 ^ 8) = some { m with IF := m.IF &&& MMU.not16 (V % 2 ^ 8) } := by
    have hm : MMU.mirrorAddress 0x04000202 = 0x04000202 :=
      MMU.mirrorAddress_of_not_window (by omega)
    rw [MMU.Write8_mmio m _ (by rw [hm]; decide), hm]
    exact MMU.writeIO8_IF_lo m _
  have e2 : ∀ m1 : MMU, m1.Write8 ((0x04000202 + 1) % 2 ^ 32) ((V >>> 8) % 2 ^ 8) =
      some { m1 with IF := m1.IF &&& MMU.not16 ((((V >>> 8) % 2 ^ 8) <<< 8) % 2 ^ 16) } := by
    intro m1
    have hm : MMU.mirrorAddress ((0x04000202 + 1) % 2 ^ 32) = 0x04000203 :=
      MMU.mirrorAddress_of_not_window (by omega)
    rw [MMU.Write8_mmio m1 _ (by rw [hm]; decide), hm]
    exact MMU.writeIO8_IF_hi m1 _
  have hIFval : (m.IF &&& MMU.not16 (V % 2 ^ 8)) &&&
      MMU.not16 ((((V >>> 8) % 2 ^ 8) <<< 8) % 2 ^ 16) = m.IF &&& (0xFFFF ^^^ V) := by
    rw [MMU.and_not16_bytes, MMU.not16_of_lt hV]
  refine ⟨{ m with IF := m.IF &&& (0xFFFF ^^^ V) }, ?_, rfl, ?_, rfl, rfl⟩
  · rw [MMU.Write16_of_Write8 e1, e2]
    show some { m with IF := _ } = _
    rw [hIFval]
  · intro i
    show (m.IF &&& (0xFFFF ^^^ V)).testBit i = _
    rw [Nat.testBit_and, Nat.testBit_xor, MMU.testBit_0xFFFF]
    by_cases h : i < 16
    · simp [h]
    · have h16 : 2 ^ 16 ≤ 2 ^ i := Nat.pow_le_pow_right (by norm_num) (by omega)
      rw [Nat.testBit_lt_two_pow (lt_of_lt_of_le hIF h16),
        Nat.testBit_lt_two_pow (lt_of_lt_of_le hV h16)]
      simp

/-- Witness for C5: pending mask `0x00FF`, acknowledging `0x0155`. -/
theorem C5_IF_write_one_to_clear_witness :
    (0x0155 < 2 ^ 16 ∧ ({ MMU.New with IF := 0x00FF } : MMU).IF < 2 ^ 16) ∧
    ∃ m', ({ MMU.New with IF := 0x00FF } : MMU).Write16 0x04000202 0x0155 = some m' ∧
      m' = { ({ MMU.New with IF := 0x00FF } : MMU) with
        IF := ({ MMU.New with IF := 0x00FF } : MMU).IF &&& (0xFFFF ^^^ 0x0155) } ∧
      (∀ i, m'.IF.testBit i =
        (({ MMU.New with IF := 0x00FF } : MMU).IF.testBit i && !(0x0155 : Nat).testBit i)) ∧
      m'.IE = ({ MMU.New with IF := 0x00FF } : MMU).IE ∧
      m'.IME = ({ MMU.New with IF := 0x00FF } : MMU).IME :=
  ⟨⟨by decide, by decide⟩,
   C5_IF_write_one_to_clear { MMU.New with IF := 0x00FF } 0x0155 (by decide) (by decide)⟩

/-- C6, as stated, fails: after the word `0x04030201` is stored at `0x02000000`, the word
read at `0x02000001` is `0x00040302` (the bytes at `..01` to `..04`), not the aligned word
rotated right by 8 bits (`0x01040302`); and a halfword `0x1234` written at the odd address
`0x02000001` is not stored at `0x02000000`, where a halfword read then gives `0x3400`. -/
theorem C6_no_rotation_no_alignment_counterexample :
    ((MMU.New.Write32 0x02000000 0x04030201).bind (fun m => m.Read32 0x02000001)
        ≠ (MMU.New.Write32 0x02000000 0x04030201).bind
            (fun m => (m.Read32 0x02000000).map (fun w => MMU.ror32 w 8)) ∧
      (MMU.New.Write32 0x02000000 0x04030201).bind (fun m => m.Read32 0x02000001)
        = some 0x00040302 ∧
      (MMU.New.Write32 0x02000000 0x04030201).bind
        (fun m => (m.Read32 0x02000000).map (fun w => MMU.ror32 w 8)) = some 0x01040302) ∧
    ((MMU.New.Write16 0x02000001 0x1234).bind (fun m => m.Read16 0x02000000) ≠ some 0x1234 ∧
      (MMU.New.Write16 0x02000001 0x1234).bind (fun m => m.Read16 0x02000000) = some 0x3400 ∧
      (MMU.New.Write16 0x02000001 0x1234).bind (fun m => m.Read8 0x02000002) = some 0x12) := by
  decide

/-- C6, amended: at every address `A`, aligned or not, `Read32` returns the little-endian
value of the four bytes at `A`, `A+1`, `A+2`, `A+3` (no rotation); and `Write16` at every
`A` whose two bytes lie in plain RAM, odd `A` included, stores the low byte of `V` at `A`
and the high byte at `A+1` and touches no other byte (the low address bit is not ignored). -/
theorem C6_bytewise_wide_access (m : MMU) (hm : m.Sized) (A V : Nat) (hV : V < 2 ^ 16) :
    (∃ b0 b1 b2 b3, m.Read8 A = some b0 ∧ m.Read8 ((A + 1) % 2 ^ 32) = some b1 ∧
      m.Read8 ((A + 2) % 2 ^ 32) = some b2 ∧ m.Read8 ((A + 3) % 2 ^ 32) = some b3 ∧
      m.Read32 A = some (b0 + b1 * 2 ^ 8 + b2 * 2 ^ 16 + b3 * 2 ^ 24)) ∧
    (MMU.PlainRAM A → MMU.PlainRAM (A + 1) →
      ∃ m', m.Write16 A V = some m' ∧ m'.Read8 A = some (V % 256) ∧
        m'.Read8 (A + 1) = some (V / 256) ∧
        ∀ B, MMU.mirrorAddress B ≠ MMU.mirrorAddress A →
          MMU.mirrorAddress B ≠ MMU.mirrorAddress (A + 1) → m'.Read8 B = m.Read8 B) := by
  constructor
  · obtain ⟨b0, b1, h0, h1, l0, l1, e01⟩ := MMU.Read16_bytes m hm A
    obtain ⟨b2, b3, h2, h3, l2, l3, e23⟩ := MMU.Read16_bytes m hm ((A + 2) % 2 ^ 32)
    have hA3 : ((A + 2) % 2 ^ 32 + 1) % 2 ^ 32 = (A + 3) % 2 ^ 32 := by omega
    rw [hA3] at h3
    refine ⟨b0, b1, b2, b3, h0, h1, h2, h3, ?_⟩
    rw [MMU.Read32_of_Read16 e01 e23, MMU.or_shift16 (by omega) (by omega)]
    congr 1
    omega
  · intro hA hA1
    have hlt : A + 1 < 2 ^ 32 := by
      unfold MMU.PlainRAM at hA1
      simp only [WRAM256Start, WRAM256Length, WRAM32Start, WRAM32Length, PaletteStart,
        PaletteLength, VRAMStart, VRAMLenth, OAMStart, OAMLength] at hA1
      omega
    obtain ⟨m1, w1, s1, r1, f1⟩ := MMU.Write8_plain m hm A (V % 2 ^ 8) hA
    obtain ⟨m2, w2, _, r2, f2⟩ := MMU.Write8_plain m1 s1 (A + 1) ((V >>> 8) % 2 ^ 8) hA1
    refine ⟨m2, ?_, ?_, ?_, ?_⟩
    · rw [MMU.Write16_of_Write8 w1, Nat.mod_eq_of_lt hlt]
      exact w2
    · rw [f2 A (Ne.symm (MMU.mirrorAddress_succ_ne A)), r1]
      congr 1
      omega
    · rw [r2, Nat.shiftRight_eq_div_pow]
      congr 1
      omega
    · intro B hB hB1
      rw [f2 B hB1, f1 B hB]

/-- Witness for C6: a halfword stored at the odd on-board WRAM address `0x02000001`. -/
theorem C6_bytewise_wide_access_witness :
    (MMU.New.Sized ∧ 0x1234 < 2 ^ 16 ∧ MMU.PlainRAM 0x02000001 ∧
      MMU.PlainRAM (0x02000001 + 1)) ∧
    ((∃ b0 b1 b2 b3, MMU.New.Read8 0x02000001 = some b0 ∧
        MMU.New.Read8 ((0x02000001 + 1) % 2 ^ 32) = some b1 ∧
        MMU.New.Read8 ((0x02000001 + 2) % 2 ^ 32) = some b2 ∧
        MMU.New.Read8 ((0x02000001 + 3) % 2 ^ 32) = some b3 ∧
        MMU.New.Read32 0x02000001 = some (b0 + b1 * 2 ^ 8 + b2 * 2 ^ 16 + b3 * 2 ^ 24)) ∧
      (MMU.PlainRAM 0x02000001 → MMU.PlainRAM (0x02000001 + 1) →
        ∃ m', MMU.New.Write16 0x02000001 0x1234 = some m' ∧
          m'.Read8 0x02000001 = some (0x1234 % 256) ∧
          m'.Read8 (0x02000001 + 1) = some (0x1234 / 256) ∧
          ∀ B, MMU.mirrorAddress B ≠ MMU.mirrorAddress 0x02000001 →
            MMU.mirrorAddress B ≠ MMU.mirrorAddress (0x02000001 + 1) →
            m'.Read8 B = MMU.New.Read8 B)) :=
  ⟨⟨MMU.Sized_New, by decide, by decide, by decide⟩,
   C6_bytewise_wide_access MMU.New MMU.Sized_New 0x02000001 0x1234 (by decide)⟩

/-! ## Claims on the system wiring -/

/-- C7, as stated, fails: in the system built by `gba.New`, a bus write of `0x0403` to
`0x04000000` leaves the PPU's `DISPCNT` at its reset value `0x0080` (only the memory
unit's own `DISPCNT` becomes `0x0403`), and a bus write of `0x0080` to `0x04000102` leaves
timer channel 0 disabled, whereas `Timer.WriteCNT_H(0, 0x0080)` enables it. -/
theorem C7_bus_write_not_forwarded_counterexample :
    ((GBA.New.CPUWrite16 0x04000000 0x0403).map (fun g => g.PPU.DISPCNT) ≠ some 0x0403 ∧
      (GBA.New.CPUWrite16 0x04000000 0x0403).map (fun g => (g.PPU.DISPCNT, g.MMU.DISPCNT))
        = some (0x0080, 0x0403)) ∧
    ((GBA.New.CPUWrite16 0x04000102 0x0080).map (fun g => g.Timer.Enable 0)
        ≠ some ((GBA.New.Timer.WriteCNT_H 0 0x0080).Enable 0) ∧
      (GBA.New.CPUWrite16 0x04000102 0x0080).map (fun g => g.Timer.Enable 0) = some false ∧
      (GBA.New.Timer.WriteCNT_H 0 0x0080).Enable 0 = true) := by
  decide

/-- C7, amended: a bus write to a memory-mapped register is kept inside the memory unit.
After a halfword write of `V` to `0x04000000` the memory unit's own `DISPCNT` is `V` and a
halfword bus read returns `V`; after a halfword write of `V` to `0x04000102` the two bytes
are in the memory unit's `IO` array and a halfword bus read returns `V`.  In both cases
the PPU (with the `DISPCNT` that `RenderScanline` reads), the timers and the input latch
are unchanged. -/
theorem C7_bus_write_stays_in_memory_unit (g : GBA) (hm : g.MMU.Sized) (V : Nat)
    (hV : V < 2 ^ 16) :
    (∃ g', g.CPUWrite16 0x04000000 V = some g' ∧ g'.MMU.DISPCNT = V ∧
      g'.CPURead16 0x04000000 = some V ∧
      g'.PPU = g.PPU ∧ g'.Timer = g.Timer ∧ g'.Input = g.Input) ∧
    (∃ g', g.CPUWrite16 0x04000102 V = some g' ∧
      g'.CPURead16 0x04000102 = some V ∧
      g'.PPU = g.PPU ∧ g'.Timer = g.Timer ∧ g'.Input = g.Input) := by
  constructor
  · refine ⟨{ g with MMU := { g.MMU with DISPCNT := V } }, ?_, rfl, ?_, rfl, rfl, rfl⟩
    · unfold GBA.CPUWrite16
      rw [MMU.Write16_DISPCNT _ _ hV]; rfl
    · unfold GBA.CPURead16
      exact MMU.Read16_reg _ _ V (by omega) hV (MMU.readIO8_DISPCNT_lo _)
        (MMU.readIO8_DISPCNT_hi _)
  · have hlen : g.MMU.IOmem.len = 0x3FF := hm.io
    refine ⟨{ g with MMU := { g.MMU with IOmem := ⟨g.MMU.IOmem.len,
      Function.update (Function.update g.MMU.IOmem.data 0x102 (V % 2 ^ 8)) 0x103
        ((V >>> 8) % 2 ^ 8)⟩ } }, ?_, ?_, rfl, rfl, rfl⟩
    · unfold GBA.CPUWrite16
      rw [MMU.Write16_0x102 _ hm V]; rfl
    unfold GBA.CPURead16
    refine MMU.Read16_reg _ _ V (by omega) hV ?_ ?_
    · rw [MMU.readIO8_0x102, if_pos (by show 0x102 < g.MMU.IOmem.len; omega)]
      show Function.update (Function.update g.MMU.IOmem.data 0x102 (V % 2 ^ 8)) 0x103
        ((V >>> 8) % 2 ^ 8) 0x102 % 256 = _
      rw [Function.update_noteq (by decide), Function.update_same]
      omega
    · show MMU.readIO8 _ 0x04000103 = _
      rw [MMU.readIO8_0x103, if_pos (by show 0x103 < g.MMU.IOmem.len; omega)]
      show Function.update (Function.update g.MMU.IOmem.data 0x102 (V % 2 ^ 8)) 0x103
        ((V >>> 8) % 2 ^ 8) 0x103 % 256 = _
      rw [Function.update_same]
      omega

/-- Witness for C7: the system built by `gba.New`, value `0x0403`. -/
theorem C7_bus_write_stays_in_memory_unit_witness :
    (GBA.New.MMU.Sized ∧ 0x0403 < 2 ^ 16) ∧
    ((∃ g', GBA.New.CPUWrite16 0x04000000 0x0403 = some g' ∧ g'.MMU.DISPCNT = 0x0403 ∧
        g'.CPURead16 0x04000000 = some 0x0403 ∧
        g'.PPU = GBA.New.PPU ∧ g'.Timer = GBA.New.Timer ∧ g'.Input = GBA.New.Input) ∧
      (∃ g', GBA.New.CPUWrite16 0x04000102 0x0403 = some g' ∧
        g'.CPURead16 0x04000102 = some 0x0403 ∧
        g'.PPU = GBA.New.PPU ∧ g'.Timer = GBA.New.Timer ∧ g'.Input = GBA.New.Input)) :=
  ⟨⟨MMU.Sized_New, by decide⟩,
   C7_bus_write_stays_in_memory_unit GBA.New MMU.Sized_New 0x0403 (by decide)⟩

/-! ## Claims on the input latch -/

/-- C8: for an input latch reachable from `Reset` and a key `k` in `0..9`, after
`SetKey(k, pressed)` bit `k` of KEYINPUT is `0` when pressed and `1` when released, every
other bit is what it was before the call, bits `10` and above are `0` before and after, and
after `GBA.SetKey` a halfword read of `0x04000130` through the memory unit returns the
latch's KEYINPUT. -/
theorem C8_key_latch (g : GBA) (hr : g.Input.Reachable) (k : Nat) (hk : k < 10)
    (pressed : Bool) :
    (g.Input.SetKey k pressed).KEYINPUT.testBit k = !pressed ∧
    (∀ j, j ≠ k → (g.Input.SetKey k pressed).KEYINPUT.testBit j = g.Input.KEYINPUT.testBit j) ∧
    (∀ j, 10 ≤ j → g.Input.KEYINPUT.testBit j = false ∧
      (g.Input.SetKey k pressed).KEYINPUT.testBit j = false) ∧
    (g.SetKey k pressed).Input = g.Input.SetKey k pressed ∧
    (g.SetKey k pressed).MMU.Read16 0x04000130 = some (g.Input.SetKey k pressed).KEYINPUT := by
  have hl := hr.latched
  have hl' : (g.Input.SetKey k pressed).Latched := (Input.Reachable.setKey k pressed hr).latched
  refine ⟨?_, ?_, ?_, rfl, ?_⟩
  · rw [Input.SetKey_testBit _ k hk, Function.update_same]
    simp [hk]
  · intro j hj
    rw [Input.SetKey_testBit _ k hk, Function.update_noteq hj, hl j]
  · intro j hj
    have : ¬ j < 10 := by omega
    constructor
    · rw [hl j]; simp [this]
    · rw [hl' j]; simp [this]
  · have hlt : (g.Input.SetKey k pressed).KEYINPUT < 2 ^ 16 :=
      lt_trans hl'.lt (by norm_num)
    exact MMU.Read16_reg _ _ _ (by omega) hlt (MMU.readIO8_KEYINPUT_lo _)
      (MMU.readIO8_KEYINPUT_hi _)

/-- Witness for C8: pressing key A (`0`) in the system built by `gba.New`. -/
theorem C8_key_latch_witness :
    (GBA.New.Input.Reachable ∧ 0 < 10) ∧
    ((GBA.New.Input.SetKey (0 : Nat) true).KEYINPUT.testBit 0 = !true ∧
    (∀ j, j ≠ 0 → (GBA.New.Input.SetKey (0 : Nat) true).KEYINPUT.testBit j
      = GBA.New.Input.KEYINPUT.testBit j) ∧
    (∀ j, 10 ≤ j → GBA.New.Input.KEYINPUT.testBit j = false ∧
      (GBA.New.Input.SetKey (0 : Nat) true).KEYINPUT.testBit j = false) ∧
    (GBA.New.SetKey (0 : Nat) true).Input = GBA.New.Input.SetKey (0 : Nat) true ∧
    (GBA.New.SetKey (0 : Nat) true).MMU.Read16 0x04000130
      = some (GBA.New.Input.SetKey (0 : Nat) true).KEYINPUT) :=
  ⟨⟨Input.Reachable_New, by decide⟩,
   C8_key_latch GBA.New Input.Reachable_New 0 (by decide) true⟩

/-- C9: for a reachable input latch, `CheckInterrupt` is true exactly when KEYCNT bit 14
is set and, among the keys selected by KEYCNT bits `0..9`, all are pressed when bit 15 is
set (AND mode) or at least one is pressed when bit 15 is clear (OR mode); a key is pressed
exactly when its KEYINPUT bit is `0`. -/
theorem C9_key_interrupt_condition (i : Input) (hr : i.Reachable) :
    (i.CheckInterrupt = true ↔
      i.KEYCNT.testBit 14 = true ∧
        (if i.KEYCNT.testBit 15 = true then
          ∀ k, k < 10 → i.KEYCNT.testBit k = true → i.Keys k = true
        else ∃ k, k < 10 ∧ i.KEYCNT.testBit k = true ∧ i.Keys k = true)) ∧
    (∀ k, k < 10 → (i.Keys k = true ↔ i.KEYINPUT.testBit k = false)) := by
  have hl := hr.latched
  constructor
  · have e14 : (0x4000 : Nat) = 2 ^ 14 := by norm_num
    have e15 : (0x8000 : Nat) = 2 ^ 15 := by norm_num
    unfold Input.CheckInterrupt
    simp only []
    rw [e14, e15]
    by_cases h14 : i.KEYCNT &&& 2 ^ 14 = 0
    · rw [if_pos h14]
      have := (Input.and_two_pow_eq_zero_iff _ _).mp h14
      simp [this]
    · rw [if_neg h14]
      have b14 : i.KEYCNT.testBit 14 = true := by
        by_contra hc
        exact h14 ((Input.and_two_pow_eq_zero_iff _ _).mpr (by simpa using hc))
      by_cases h15 : i.KEYCNT &&& 2 ^ 15 = 0
      · have b15 : i.KEYCNT.testBit 15 = false := (Input.and_two_pow_eq_zero_iff _ _).mp h15
        have hd : decide (i.KEYCNT &&& 2 ^ 15 ≠ 0) = false := decide_eq_false (fun h => h h15)
        rw [hd]
        simp only [Bool.false_eq_true, if_false, b14, b15, true_and, decide_eq_true_eq]
        rw [Input.ne_zero_iff_testBit]
        constructor
        · rintro ⟨b, hb⟩
          rw [Nat.testBit_and, Input.keysPressed_testBit hl, Input.keyMask_testBit] at hb
          simp only [Bool.and_eq_true, decide_eq_true_eq] at hb
          exact ⟨b, hb.1.1, hb.2.2, hb.1.2⟩
        · rintro ⟨b, hb, hc, hk⟩
          refine ⟨b, ?_⟩
          rw [Nat.testBit_and, Input.keysPressed_testBit hl, Input.keyMask_testBit]
          simp [hb, hc, hk]
      · have b15 : i.KEYCNT.testBit 15 = true := by
          by_contra hc
          exact h15 ((Input.and_two_pow_eq_zero_iff _ _).mpr (by simpa using hc))
        have hd : decide (i.KEYCNT &&& 2 ^ 15 ≠ 0) = true := decide_eq_true h15
        rw [hd]
        simp only [if_true, b14, b15, true_and, decide_eq_true_eq]
        rw [Input.and_eq_right_iff]
        constructor
        · intro h k hk hc
          have := h k (by rw [Input.keyMask_testBit]; simp [hk, hc])
          rw [Input.keysPressed_testBit hl] at this
          simp only [Bool.and_eq_true, decide_eq_true_eq] at this
          exact this.2
        · intro h b hb
          rw [Input.keyMask_testBit] at hb
          simp only [Bool.and_eq_true, decide_eq_true_eq] at hb
          rw [Input.keysPressed_testBit hl]
          simp [hb.1, h b hb.1 hb.2]
  · intro k hk
    rw [hl k]
    simp [hk]

/-- Witness for C9: KEYCNT `0x4001` (IRQ enable, OR mode, key A selected) with key A pressed. -/
theorem C9_key_interrupt_condition_witness :
    Input.keyAIrq.Reachable ∧
    ((Input.keyAIrq.CheckInterrupt = true ↔
      Input.keyAIrq.KEYCNT.testBit 14 = true ∧
        (if Input.keyAIrq.KEYCNT.testBit 15 = true then
          ∀ k, k < 10 → Input.keyAIrq.KEYCNT.testBit k = true →
            Input.keyAIrq.Keys k = true
        else ∃ k, k < 10 ∧ Input.keyAIrq.KEYCNT.testBit k = true ∧
          Input.keyAIrq.Keys k = true)) ∧
    (∀ k, k < 10 → (Input.keyAIrq.Keys k = true ↔
      Input.keyAIrq.KEYINPUT.testBit k = false))) :=
  ⟨Input.Reachable.setKey 0 true (Input.Reachable.writeKEYCNT 0x4001 (by decide)
      Input.Reachable_New),
   C9_key_interrupt_condition _ (Input.Reachable.setKey 0 true
      (Input.Reachable.writeKEYCNT 0x4001 (by decide) Input.Reachable_New))⟩

/-! ## Claims on the timers -/

/-- C10, as stated, fails: with channel 0 enabled (prescaler 1, reload `0xFFFF`) and channel 1
enabled in cascade mode, a single `Step(1)` is one prescaled increment of channel 0 and
already increments channel 1 from `0` to `1`, although `1 / 0x10000 = 0`. -/
theorem C10_cascade_reload_counterexample :
    (Timer.reloadPair.Enable 0 = true ∧ Timer.reloadPair.CountUp 0 = false ∧
      Timer.reloadPair.Enable 1 = true ∧ Timer.reloadPair.CountUp 1 = true ∧
      Timer.reloadPair.Prescaler 0 = 1 ∧ Timer.reloadPair.CycleCount 0 = 0 ∧
      Timer.reloadPair.Counter 1 = 0) ∧
    (Timer.reloadPair.StepAll [1]).map (fun t => t.Counter 1)
      ≠ some ((Timer.bump (Timer.reloadPair.Reload 1))^[1 / 0x10000]
          (Timer.reloadPair.Counter 1)) ∧
    (Timer.reloadPair.StepAll [1]).map (fun t => (t.Counter 0, t.Counter 1))
      = some (0xFFFF, 1) := by
  decide

/-- C10, amended: with channel 0 enabled with reload value `0` and channel 1 in cascade
mode, every sequence of `Step` calls with non-negative cycle counts returns, and if `n` is
the number of prescaled increments of channel 0 (the accumulated cycles divided by the
prescaler) and `c0` its starting counter, channel 0 ends at `(c0 + n) mod 0x10000` and
channel 1 has been incremented exactly `(c0 + n) / 0x10000` times, once per overflow of
channel 0; starting from `c0 = 0` that is `n / 0x10000`.  The prescalers are positive and
the cycle remainder of channel 0 is below its prescaler, as they are after `Reset`,
`WriteCNT_H` and every `Step`. -/
theorem C10_cascade_once_per_overflow (t : Timer) (cs : List Int)
    (he : t.Enable 0 = true) (hu : t.CountUp 1 = true) (hr : t.Reload 0 = 0)
    (hc : t.Counter 0 ≤ 0xFFFF) (hp : ∀ i, i < 4 → 1 ≤ t.Prescaler i)
    (h0 : 0 ≤ t.CycleCount 0) (hlt : t.CycleCount 0 < t.Prescaler 0) (hcs : ∀ c ∈ cs, 0 ≤ c) :
    ∃ t', t.StepAll cs = some t' ∧
      t'.Counter 0 = (t.Counter 0 +
        ((t.CycleCount 0 + cs.sum) / t.Prescaler 0).toNat) % 0x10000 ∧
      t'.Counter 1 = (Timer.bump (t.Reload 1))^[(t.Counter 0 +
        ((t.CycleCount 0 + cs.sum) / t.Prescaler 0).toNat) / 0x10000] (t.Counter 1) ∧
      (t.Counter 0 = 0 →
        t'.Counter 1 = (Timer.bump (t.Reload 1))^[
          ((t.CycleCount 0 + cs.sum) / t.Prescaler 0).toNat / 0x10000] (t.Counter 1)) := by
  obtain ⟨t', e, k0, k1⟩ := Timer.StepAll_cascade cs t he hu hr hc hp h0 hlt hcs
  refine ⟨t', e, k0, k1, ?_⟩
  intro hz
  rw [k1, hz, Nat.zero_add]

/-- Witness for C10: channel 0 enabled with prescaler 1, channel 1 enabled in cascade mode,
two `Step` calls of `0x8000` cycles each. -/
theorem C10_cascade_once_per_overflow_witness :
    (Timer.cascadePair.Enable 0 = true ∧
      Timer.cascadePair.CountUp 1 = true ∧
      Timer.cascadePair.Reload 0 = 0 ∧
      Timer.cascadePair.Counter 0 ≤ 0xFFFF ∧
      (∀ i, i < 4 → 1 ≤ Timer.cascadePair.Prescaler i) ∧
      0 ≤ Timer.cascadePair.CycleCount 0 ∧
      Timer.cascadePair.CycleCount 0
        < Timer.cascadePair.Prescaler 0 ∧
      (∀ c ∈ ([0x8000, 0x8000] : List Int), 0 ≤ c) ∧
      Timer.cascadePair.Counter 0 = 0) ∧
    ∃ t', Timer.cascadePair.StepAll [0x8000, 0x8000] = some t' ∧
      t'.Counter 0 = (Timer.cascadePair.Counter 0 +
        ((Timer.cascadePair.CycleCount 0
          + ([0x8000, 0x8000] : List Int).sum) /
          Timer.cascadePair.Prescaler 0).toNat) % 0x10000 ∧
      t'.Counter 1 = (Timer.bump (Timer.cascadePair.Reload 1))^[
        (Timer.cascadePair.Counter 0 +
        ((Timer.cascadePair.CycleCount 0
          + ([0x8000, 0x8000] : List Int).sum) /
          Timer.cascadePair.Prescaler 0).toNat) / 0x10000]
        (Timer.cascadePair.Counter 1) ∧
      (Timer.cascadePair.Counter 0 = 0 →
        t'.Counter 1 = (Timer.bump (Timer.cascadePair.Reload 1))^[
          ((Timer.cascadePair.CycleCount 0
            + ([0x8000, 0x8000] : List Int).sum) /
            Timer.cascadePair.Prescaler 0).toNat / 0x10000]
          (Timer.cascadePair.Counter 1)) :=
  ⟨⟨by decide, by decide, by decide, by decide, by decide, by decide, by decide, by decide,
     by decide⟩,
   C10_cascade_once_per_overflow Timer.cascadePair
     [0x8000, 0x8000] (by decide) (by decide) (by decide) (by decide) (by decide) (by decide)
     (by decide) (by decide)⟩

/-! ### Timers: the four passes of `Step` -/

namespace Timer

/-- The counter of the next channel after one pass of the inner loop of channel `j`. -/
theorem tick_Counter_succ (t : Timer) (j : Nat) (p : Int) :
    (t.tick j p).Counter (j + 1) =
      if (t.Counter j + 1) % 2 ^ 32 > 0xFFFF ∧ j < 3 ∧ t.CountUp (j + 1) = true then
        bump (t.Reload (j + 1)) (t.Counter (j + 1))
      else t.Counter (j + 1) := by
  by_cases hc : j < 3 ∧ t.CountUp (j + 1) = true
  · rw [tick_Counter_next t j p hc.1 hc.2]
    by_cases ho : (t.Counter j + 1) % 2 ^ 32 > 0xFFFF
    · rw [if_pos ho, if_pos ⟨ho, hc⟩]
    · rw [if_neg ho, if_neg (fun h => ho h.1)]
  · rw [if_neg (fun h => hc h.2)]
    unfold tick
    simp only [Function.update_same]
    have hcas : ∀ u : Timer, u.CountUp = t.CountUp → (u.cascade j).Counter (j + 1) = u.Counter (j + 1) := by
      intro u hu
      unfold cascade
      rw [if_neg (by rw [hu]; exact hc)]
    split_ifs
    · refine (hcas _ ?_).trans ?_
      · rfl
      · simp [Function.update]
    · refine (hcas _ ?_).trans ?_
      · rfl
      · simp [Function.update]
    · simp [Function.update]

theorem bump_le (r c : Nat) (hr : r ≤ 0xFFFF) : bump r c ≤ 0xFFFF := by
  unfold bump
  split_ifs with h
  · exact hr
  · omega

theorem bump_iterate_of_le (r : Nat) (n : Nat) : ∀ c, c + n ≤ 0xFFFF → (bump r)^[n] c = c + n := by
  induction n with
  | zero => intro c _; rfl
  | succ n ih =>
    intro c hc
    have hb : bump r c = c + 1 := by
      unfold bump
      rw [if_neg (by omega)]
      omega
    rw [Function.iterate_succ_apply, hb, ih (c + 1) (by omega)]
    omega

theorem tick_Counter_le (t : Timer) (j : Nat) (p : Int)
    (hr : ∀ m, m < 4 → t.Reload m ≤ 0xFFFF) (hc : ∀ m, m < 4 → t.Counter m ≤ 0xFFFF)
    (hj : j < 4) : ∀ m, m < 4 → (t.tick j p).Counter m ≤ 0xFFFF := by
  intro m hm
  by_cases h1 : m = j
  · subst h1
    rw [tick_Counter_self]
    exact bump_le _ _ (hr m hm)
  · by_cases h2 : m = j + 1
    · subst h2
      rw [tick_Counter_succ]
      split_ifs
      · exact bump_le _ _ (hr _ hm)
      · exact hc _ hm
    · rw [tick_Counter_other t j m p h1 h2]
      exact hc m hm

/-- The interrupt requests of the cascade block for the line of channel `m`. -/
theorem cascade_Requested (t : Timer) (j m : Nat) (hj : j < 4) (hm : m < 4)
    (hcu : m = j + 1 → t.CountUp m = false) :
    (t.cascade j).Requested.count ((1 <<< (3 + m)) % 2 ^ 16) =
      t.Requested.count ((1 <<< (3 + m)) % 2 ^ 16) := by
  unfold cascade
  by_cases hc : j < 3 ∧ t.CountUp (j + 1) = true
  · rw [if_pos hc]
    have hne : m ≠ j + 1 := by
      intro h
      have := hcu h
      rw [h] at this
      rw [this] at hc
      exact Bool.false_ne_true hc.2
    have hbit : ((1 <<< (3 + m)) % 2 ^ 16 : Nat) ≠ (1 <<< (4 + j)) % 2 ^ 16 := by
      interval_cases j <;> interval_cases m <;> omega
    simp only []
    split_ifs
    · exact List.count_cons_of_ne hbit _
    · rfl
    · rfl
  · rw [if_neg hc]

/-- The interrupt requests of one pass of the inner loop of channel `j` for its own line. -/
theorem tick_Requested_self (t : Timer) (j : Nat) (p : Int) (hj : j < 4) :
    (t.tick j p).Requested.count ((1 <<< (3 + j)) % 2 ^ 16) =
      t.Requested.count ((1 <<< (3 + j)) % 2 ^ 16) +
        (if (t.Counter j + 1) % 2 ^ 32 > 0xFFFF ∧ t.IrqEnable j = true then 1 else 0) := by
  unfold tick
  simp only [Function.update_same]
  by_cases ho : (t.Counter j + 1) % 2 ^ 32 > 0xFFFF
  · rw [if_pos ho]
    by_cases hi : t.IrqEnable j = true
    · rw [if_pos hi, if_pos ⟨ho, hi⟩]
      refine (cascade_Requested _ j j hj hj (by omega)).trans ?_
      exact List.count_cons_self _ _
    · rw [if_neg hi, if_neg (fun h => hi h.2)]
      exact cascade_Requested _ j j hj hj (by omega)
  · rw [if_neg ho, if_neg (fun h => ho h.1)]
    rfl

/-- The interrupt requests of one pass of the inner loop of channel `j` for another line. -/
theorem tick_Requested_ne (t : Timer) (j m : Nat) (p : Int) (hj : j < 4) (hm : m < 4)
    (hne : m ≠ j) (hcu : m = j + 1 → t.CountUp m = false) :
    (t.tick j p).Requested.count ((1 <<< (3 + m)) % 2 ^ 16) =
      t.Requested.count ((1 <<< (3 + m)) % 2 ^ 16) := by
  have hbit : ((1 <<< (3 + m)) % 2 ^ 16 : Nat) ≠ (1 <<< (3 + j)) % 2 ^ 16 := by
    interval_cases j <;> interval_cases m <;> omega
  unfold tick
  simp only [Function.update_same]
  by_cases ho : (t.Counter j + 1) % 2 ^ 32 > 0xFFFF
  · rw [if_pos ho]
    by_cases hi : t.IrqEnable j = true
    · rw [if_pos hi]
      refine (cascade_Requested _ j m hj hm ?_).trans ?_
      · exact hcu
      · exact List.count_cons_of_ne hbit _
    · rw [if_neg hi]
      refine (cascade_Requested _ j m hj hm ?_).trans ?_
      · exact hcu
      · rfl
  · rw [if_neg ho]

/-- The interrupt requests and the counter bound after `n` passes of the inner loop. -/
theorem tick_iterate_requested (j : Nat) (hj : j < 4) (p : Int) (n : Nat) : ∀ (t : Timer),
    ((fun u : Timer => u.tick j p)^[n] t).Requested.count ((1 <<< (3 + j)) % 2 ^ 16) =
      t.Requested.count ((1 <<< (3 + j)) % 2 ^ 16) +
        (if t.IrqEnable j = true then overflowCount (t.Reload j) (t.Counter j) n else 0) ∧
    (∀ m, m < 4 → m ≠ j → (m = j + 1 → t.CountUp m = false) →
      ((fun u : Timer => u.tick j p)^[n] t).Requested.count ((1 <<< (3 + m)) % 2 ^ 16) =
        t.Requested.count ((1 <<< (3 + m)) % 2 ^ 16)) ∧
    ((∀ m, m < 4 → t.Reload m ≤ 0xFFFF) → (∀ m, m < 4 → t.Counter m ≤ 0xFFFF) →
      ∀ m, m < 4 → ((fun u : Timer => u.tick j p)^[n] t).Counter m ≤ 0xFFFF) := by
  induction n with
  | zero =>
    intro t
    refine ⟨?_, fun _ _ _ _ => rfl, fun _ hc => hc⟩
    show _ = _ + (if t.IrqEnable j = true then 0 else 0)
    rw [ite_self]; rfl
  | succ n ih =>
    intro t
    obtain ⟨h1, h2, h3⟩ := ih (t.tick j p)
    have hts := tick_sameConfig t j p
    rw [Function.iterate_succ_apply]
    refine ⟨?_, ?_, ?_⟩
    · rw [h1, tick_Requested_self t j p hj, hts.irqEnable, hts.reload, tick_Counter_self]
      have e : overflowCount (t.Reload j) (t.Counter j) (n + 1) =
          (if (t.Counter j + 1) % 2 ^ 32 > 0xFFFF then 1 else 0) +
            overflowCount (t.Reload j) (bump (t.Reload j) (t.Counter j)) n := rfl
      rw [e]
      by_cases hi : t.IrqEnable j = true
      · simp only [hi, and_true, if_true]
        omega
      · simp [hi]
    · intro m hm hne hcu
      rw [h2 m hm hne (by rw [hts.countUp]; exact hcu), tick_Requested_ne t j m p hj hm hne hcu]
    · intro hr hc
      exact h3 (by rw [hts.reload]; exact hr) (tick_Counter_le t j p hr hc hj)

/-- The effect of `n` passes of the inner loop of channel `j`. -/
theorem tick_iterate (j : Nat) (p : Int) (n : Nat) : ∀ (t : Timer),
    SameConfig t ((fun u : Timer => u.tick j p)^[n] t) ∧
    ((fun u : Timer => u.tick j p)^[n] t).Counter j = (bump (t.Reload j))^[n] (t.Counter j) ∧
    ((fun u : Timer => u.tick j p)^[n] t).CycleCount j = t.CycleCount j - n * p ∧
    (∀ m, m ≠ j → ((fun u : Timer => u.tick j p)^[n] t).CycleCount m = t.CycleCount m) ∧
    (∀ m, m ≠ j → m ≠ j + 1 → ((fun u : Timer => u.tick j p)^[n] t).Counter m = t.Counter m) ∧
    (((fun u : Timer => u.tick j p)^[n] t).Counter (j + 1) ≠ t.Counter (j + 1) →
      (∃ k, k < n ∧ ((bump (t.Reload j))^[k] (t.Counter j) + 1) % 2 ^ 32 > 0xFFFF) ∧
        j < 3 ∧ t.CountUp (j + 1) = true) := by
  induction n with
  | zero =>
    intro t
    refine ⟨SameConfig.refl t, rfl, ?_, fun _ _ => rfl, fun _ _ _ => rfl, fun h => absurd rfl h⟩
    show t.CycleCount j = _; simp
  | succ n ih =>
    intro t
    obtain ⟨hs, h0, hcc, hoth, hcn, hnx⟩ := ih (t.tick j p)
    have hts := tick_sameConfig t j p
    rw [Function.iterate_succ_apply]
    refine ⟨hts.trans hs, ?_, ?_, ?_, ?_, ?_⟩
    · rw [h0, hts.reload, tick_Counter_self, Function.iterate_succ_apply]
    · rw [hcc, tick_CycleCount, Function.update_same]
      push_cast; ring
    · intro m hm
      rw [hoth m hm, tick_CycleCount, Function.update_noteq hm]
    · intro m hm hm1
      rw [hcn m hm hm1, tick_Counter_other t j m p hm hm1]
    · intro hne
      by_cases hstep : (t.tick j p).Counter (j + 1) = t.Counter (j + 1)
      · rw [← hstep] at hne
        obtain ⟨⟨k, hk, hov⟩, h3, hcu⟩ := hnx hne
        rw [hts.reload, tick_Counter_self] at hov
        rw [hts.countUp] at hcu
        exact ⟨⟨k + 1, by omega, by rw [Function.iterate_succ_apply]; exact hov⟩, h3, hcu⟩
      · rw [tick_Counter_succ] at hstep
        by_cases hc : (t.Counter j + 1) % 2 ^ 32 > 0xFFFF ∧ j < 3 ∧ t.CountUp (j + 1) = true
        · exact ⟨⟨0, by omega, hc.1⟩, hc.2.1, hc.2.2⟩
        · rw [if_neg hc] at hstep
          exact absurd rfl hstep

/-- Each pass of the outer loop of `Timer.Step` ends when the prescaler is positive, with
the effects collected in `Stage`. -/
theorem stepChannel_stage (u : Timer) (j : Nat) (hj : j < 4) (c : Int)
    (hp : 1 ≤ u.Prescaler j) :
    ∃ u', u.stepChannel j c = some u' ∧ Stage u u' j c := by
  by_cases hr : u.Runs j
  · have hl := stepLoop_eq j (u.Prescaler j) hp _
      { u with CycleCount := Function.update u.CycleCount j (u.CycleCount j + c) } (le_refl _)
    obtain ⟨hs, h0, hcc, hoth, hcn, hnx⟩ := tick_iterate j (u.Prescaler j) (u.ticks j c)
      { u with CycleCount := Function.update u.CycleCount j (u.CycleCount j + c) }
    obtain ⟨hq1, hq2, hq3⟩ := tick_iterate_requested j hj (u.Prescaler j) (u.ticks j c)
      { u with CycleCount := Function.update u.CycleCount j (u.CycleCount j + c) }
    simp only [Function.update_same] at hl h0 hcc hnx
    refine ⟨_, ?_, ⟨⟨hs.reload, hs.countUp, hs.prescaler, hs.enable, hs.irqEnable⟩, ?_, hcn, ?_,
      fun h => absurd hr h, fun _ => h0, fun _ => hcc, fun _ => hq1, hq2, hq3⟩⟩
    · unfold stepChannel
      rw [if_neg (by rw [hr.1]; exact Bool.noConfusion), if_neg hr.2]
      simp only [Function.update_same, ticks]
      exact hl
    · intro m hm
      rw [hoth m hm]
      exact Function.update_noteq hm _ _
    · intro hne
      obtain ⟨hk, h3, hcu⟩ := hnx hne
      exact ⟨⟨hr, hk⟩, h3, hcu⟩
  · refine ⟨u, ?_, ⟨SameConfig.refl u, fun _ _ => rfl, fun _ _ _ => rfl, fun h => absurd rfl h,
      fun _ => rfl, fun h => absurd h hr, fun h => absurd h hr, fun h => absurd h hr,
      fun _ _ _ _ => rfl, fun _ hc => hc⟩⟩
    unfold stepChannel
    by_cases he : u.Enable j = false
    · rw [if_pos he]
    · rw [if_neg he]
      have he' : u.Enable j = true := by simpa using he
      have hc : u.CountUp j = true ∧ j > 0 := by
        by_contra hcon
        exact hr ⟨he', hcon⟩
      rw [if_pos hc]

/-- `Timer.Step` ends when the four prescalers are positive; its four passes in order. -/
theorem Step_stages (t : Timer) (c : Int) (hp : ∀ i, i < 4 → 1 ≤ t.Prescaler i) :
    ∃ t1 t2 t3 t4, t.Step c = some t4 ∧ Stage t t1 0 c ∧ Stage t1 t2 1 c ∧ Stage t2 t3 2 c ∧
      Stage t3 t4 3 c := by
  obtain ⟨t1, e1, s1⟩ := stepChannel_stage t 0 (by norm_num) c (hp 0 (by norm_num))
  obtain ⟨t2, e2, s2⟩ := stepChannel_stage t1 1 (by norm_num) c
    (by rw [s1.same.prescaler]; exact hp 1 (by norm_num))
  obtain ⟨t3, e3, s3⟩ := stepChannel_stage t2 2 (by norm_num) c
    (by rw [s2.same.prescaler, s1.same.prescaler]; exact hp 2 (by norm_num))
  obtain ⟨t4, e4, s4⟩ := stepChannel_stage t3 3 (by norm_num) c
    (by rw [s3.same.prescaler, s2.same.prescaler, s1.same.prescaler]; exact hp 3 (by norm_num))
  refine ⟨t1, t2, t3, t4, ?_, s1, s2, s3, s4⟩
  unfold Step
  rw [e1]
  show (t1.stepChannel 1 c >>= fun u => _) = _
  rw [e2]
  show (t2.stepChannel 2 c >>= fun u => _) = _
  rw [e3]
  exact e4

theorem Stage.runs {u u' : Timer} {j : Nat} {c : Int} (s : Stage u u' j c) (m : Nat) :
    u'.Runs m ↔ u.Runs m := by
  unfold Runs
  rw [s.same.enable, s.same.countUp]

/-- An earlier pass leaves alone the counter of a channel that takes the cycle tick. -/
theorem Stage.counter_of_runs {u u' : Timer} {j : Nat} {c : Int} (s : Stage u u' j c)
    (m : Nat) (hm : j < m) (hr : u.Runs m) : u'.Counter m = u.Counter m := by
  by_cases hj : m = j + 1
  · subst hj
    by_contra hne
    exact hr.2 ⟨(s.counter_next hne).2.2, by omega⟩
  · exact s.counter_ne m (by omega) hj

/-- An earlier pass does not change whether a later channel overflows. -/
theorem Stage.overflowed {u u' : Timer} {j : Nat} {c : Int} (s : Stage u u' j c)
    (m : Nat) (hm : j < m) (h : u'.Overflowed m c) : u.Overflowed m c := by
  obtain ⟨hr, k, hk, hov⟩ := h
  have hr' := (s.runs m).mp hr
  unfold ticks at hk
  rw [s.same.prescaler, s.cycleCount_ne m (by omega)] at hk
  rw [s.same.reload, s.counter_of_runs m hm hr'] at hov
  exact ⟨hr', k, hk, hov⟩

/-- A pass changes the counter of a cascaded channel only by an overflow of the channel
just below it, and never its cycle count. -/
theorem Stage.cascaded {u u' : Timer} {j : Nat} {c : Int} (s : Stage u u' j c)
    (i : Nat) (hi : 0 < i) (hcu : u.CountUp i = true) :
    u'.CycleCount i = u.CycleCount i ∧
      (u'.Counter i ≠ u.Counter i → j + 1 = i ∧ u.Overflowed j c) := by
  have hnr : ¬u.Runs i := fun h => h.2 ⟨hcu, hi⟩
  by_cases hj : j = i
  · subst hj
    rw [s.idle hnr]
    exact ⟨rfl, fun h => absurd rfl h⟩
  · refine ⟨s.cycleCount_ne i (fun h => hj h.symm), fun hne => ?_⟩
    by_cases hj1 : i = j + 1
    · subst hj1
      exact ⟨rfl, (s.counter_next hne).1⟩
    · exact absurd (s.counter_ne i (fun h => hj h.symm) hj1) hne

/-- An earlier pass leaves channel `i` as it was when channel `i` takes the cycle tick. -/
theorem Stage.before {u u' : Timer} {j : Nat} {c : Int} (s : Stage u u' j c)
    (i : Nat) (hi : i < 4) (hji : j < i) (hr : u.Runs i) :
    u'.Counter i = u.Counter i ∧ u'.CycleCount i = u.CycleCount i ∧
      u'.Requested.count ((1 <<< (3 + i)) % 2 ^ 16) =
        u.Requested.count ((1 <<< (3 + i)) % 2 ^ 16) := by
  refine ⟨s.counter_of_runs i hji hr, s.cycleCount_ne i (by omega),
    s.requested_ne i hi (by omega) (fun _ => ?_)⟩
  by_contra hcon
  exact hr.2 ⟨by simpa using hcon, by omega⟩

/-- A later pass leaves channel `i` as it was. -/
theorem Stage.after {u u' : Timer} {j : Nat} {c : Int} (s : Stage u u' j c)
    (i : Nat) (hi : i < 4) (hij : i < j) :
    u'.Counter i = u.Counter i ∧ u'.CycleCount i = u.CycleCount i ∧
      u'.Requested.count ((1 <<< (3 + i)) % 2 ^ 16) =
        u.Requested.count ((1 <<< (3 + i)) % 2 ^ 16) :=
  ⟨s.counter_ne i (by omega) (by omega), s.cycleCount_ne i (by omega),
    s.requested_ne i hi (by omega) (fun h => by omega)⟩

/-- The pass of channel `i` itself, in terms of a state `t` that agrees with `u` on it. -/
theorem Stage.own {u u' : Timer} {i : Nat} {c : Int} (s : Stage u u' i c) (hr : u.Runs i)
    (t : Timer) (hs : SameConfig t u) (h1 : u.Counter i = t.Counter i)
    (h2 : u.CycleCount i = t.CycleCount i)
    (h3 : u.Requested.count ((1 <<< (3 + i)) % 2 ^ 16) =
      t.Requested.count ((1 <<< (3 + i)) % 2 ^ 16)) :
    u'.Counter i = (bump (t.Reload i))^[t.ticks i c] (t.Counter i) ∧
    u'.CycleCount i = t.CycleCount i + c - (t.ticks i c : Int) * t.Prescaler i ∧
    u'.Requested.count ((1 <<< (3 + i)) % 2 ^ 16) =
      t.Requested.count ((1 <<< (3 + i)) % 2 ^ 16) +
        (if t.IrqEnable i = true then overflowCount (t.Reload i) (t.Counter i) (t.ticks i c)
         else 0) := by
  have ht : u.ticks i c = t.ticks i c := by
    unfold ticks
    rw [h2, hs.prescaler]
  refine ⟨?_, ?_, ?_⟩
  · rw [s.counter_self hr, ht, hs.reload, h1]
  · rw [s.cycleCount_self hr, ht, hs.prescaler, h2]
  · rw [s.requested_self hr, ht, hs.reload, hs.irqEnable, h1, h3]

/-- The result of `Timer.Step` for a channel that takes the cycle tick. -/
theorem Step_runs (t : Timer) (cycles : Int) (i : Nat) (hi : i < 4) (hr : t.Runs i)
    (hp : ∀ m, m < 4 → 1 ≤ t.Prescaler m) :
    ∃ t', t.Step cycles = some t' ∧
      t'.Counter i = (bump (t.Reload i))^[t.ticks i cycles] (t.Counter i) ∧
      t'.CycleCount i = t.CycleCount i + cycles - (t.ticks i cycles : Int) * t.Prescaler i ∧
      t'.Requested.count ((1 <<< (3 + i)) % 2 ^ 16) =
        t.Requested.count ((1 <<< (3 + i)) % 2 ^ 16) +
          (if t.IrqEnable i = true then
            overflowCount (t.Reload i) (t.Counter i) (t.ticks i cycles)
           else 0) ∧
      ((∀ m, m < 4 → t.Reload m ≤ 0xFFFF) → (∀ m, m < 4 → t.Counter m ≤ 0xFFFF) →
        ∀ m, m < 4 → t'.Counter m ≤ 0xFFFF) := by
  obtain ⟨t1, t2, t3, t4, e, s1, s2, s3, s4⟩ := Step_stages t cycles hp
  have hb : (∀ m, m < 4 → t.Reload m ≤ 0xFFFF) → (∀ m, m < 4 → t.Counter m ≤ 0xFFFF) →
      ∀ m, m < 4 → t4.Counter m ≤ 0xFFFF := by
    intro hrl hc
    have r1 : ∀ m, m < 4 → t1.Reload m ≤ 0xFFFF := by rw [s1.same.reload]; exact hrl
    have r2 : ∀ m, m < 4 → t2.Reload m ≤ 0xFFFF := by rw [s2.same.reload]; exact r1
    have r3 : ∀ m, m < 4 → t3.Reload m ≤ 0xFFFF := by rw [s3.same.reload]; exact r2
    exact s4.bounded r3 (s3.bounded r2 (s2.bounded r1 (s1.bounded hrl hc)))
  have hr1 : t1.Runs i := (s1.runs i).mpr hr
  have hr2 : t2.Runs i := (s2.runs i).mpr hr1
  have hr3 : t3.Runs i := (s3.runs i).mpr hr2
  refine ⟨t4, e, ?_⟩
  suffices h : t4.Counter i = (bump (t.Reload i))^[t.ticks i cycles] (t.Counter i) ∧
      t4.CycleCount i = t.CycleCount i + cycles - (t.ticks i cycles : Int) * t.Prescaler i ∧
      t4.Requested.count ((1 <<< (3 + i)) % 2 ^ 16) =
        t.Requested.count ((1 <<< (3 + i)) % 2 ^ 16) +
          (if t.IrqEnable i = true then
            overflowCount (t.Reload i) (t.Counter i) (t.ticks i cycles)
           else 0) from ⟨h.1, h.2.1, h.2.2, hb⟩
  interval_cases i
  · obtain ⟨o1, o2, o3⟩ := s1.own hr t (SameConfig.refl t) rfl rfl rfl
    obtain ⟨a1, a2, a3⟩ := s2.after 0 (by norm_num) (by norm_num)
    obtain ⟨b1, b2, b3⟩ := s3.after 0 (by norm_num) (by norm_num)
    obtain ⟨c1, c2, c3⟩ := s4.after 0 (by norm_num) (by norm_num)
    exact ⟨by rw [c1, b1, a1, o1], by rw [c2, b2, a2, o2], by rw [c3, b3, a3, o3]⟩
  · obtain ⟨p1, p2, p3⟩ := s1.before 1 (by norm_num) (by norm_num) hr
    obtain ⟨o1, o2, o3⟩ := s2.own hr1 t s1.same p1 p2 p3
    obtain ⟨b1, b2, b3⟩ := s3.after 1 (by norm_num) (by norm_num)
    obtain ⟨c1, c2, c3⟩ := s4.after 1 (by norm_num) (by norm_num)
    exact ⟨by rw [c1, b1, o1], by rw [c2, b2, o2], by rw [c3, b3, o3]⟩
  · obtain ⟨p1, p2, p3⟩ := s1.before 2 (by norm_num) (by norm_num) hr
    obtain ⟨q1, q2, q3⟩ := s2.before 2 (by norm_num) (by norm_num) hr1
    obtain ⟨o1, o2, o3⟩ := s3.own hr2 t (s1.same.trans s2.same) (q1.trans p1) (q2.trans p2)
      (q3.trans p3)
    obtain ⟨c1, c2, c3⟩ := s4.after 2 (by norm_num) (by norm_num)
    exact ⟨by rw [c1, o1], by rw [c2, o2], by rw [c3, o3]⟩
  · obtain ⟨p1, p2, p3⟩ := s1.before 3 (by norm_num) (by norm_num) hr
    obtain ⟨q1, q2, q3⟩ := s2.before 3 (by norm_num) (by norm_num) hr1
    obtain ⟨r1, r2, r3⟩ := s3.before 3 (by norm_num) (by norm_num) hr2
    exact s4.own hr3 t ((s1.same.trans s2.same).trans s3.same) (r1.trans (q1.trans p1))
      (r2.trans (q2.trans p2)) (r3.trans (q3.trans p3))

end Timer

/-- C11: when every prescaler is positive, `Timer.Step(cycles)` returns, and for a
channel `i` in `1..3` whose cascade flag is set it never changes `CycleCount[i]` and changes
`Counter[i]` only if channel `i-1` overflowed during that call; an enabled channel 0 counts
the prescaled cycles whatever its cascade flag is. -/
theorem C11_cascaded_channel_counts_overflows_only (t : Timer) (cycles : Int)
    (hp : ∀ i, i < 4 → 1 ≤ t.Prescaler i) :
    ∃ t', t.Step cycles = some t' ∧
      (∀ i, 1 ≤ i → i < 4 → t.CountUp i = true →
        t'.CycleCount i = t.CycleCount i ∧
        (t'.Counter i ≠ t.Counter i → t.Overflowed (i - 1) cycles)) ∧
      (t.Enable 0 = true →
        t'.Counter 0 = (Timer.bump (t.Reload 0))^[t.ticks 0 cycles] (t.Counter 0) ∧
        t'.CycleCount 0 = t.CycleCount 0 + cycles - (t.ticks 0 cycles : Int) * t.Prescaler 0) := by
  obtain ⟨t1, t2, t3, t4, e, s1, s2, s3, s4⟩ := Timer.Step_stages t cycles hp
  refine ⟨t4, e, ?_, ?_⟩
  · intro i hi1 hi4 hcu
    have c1 := s1.cascaded i (by omega) hcu
    have c2 := s2.cascaded i (by omega) (by rw [s1.same.countUp]; exact hcu)
    have c3 := s3.cascaded i (by omega) (by rw [s2.same.countUp, s1.same.countUp]; exact hcu)
    have c4 := s4.cascaded i (by omega)
      (by rw [s3.same.countUp, s2.same.countUp, s1.same.countUp]; exact hcu)
    refine ⟨by rw [c4.1, c3.1, c2.1, c1.1], fun hne => ?_⟩
    by_cases h1 : t1.Counter i = t.Counter i
    · by_cases h2 : t2.Counter i = t1.Counter i
      · by_cases h3 : t3.Counter i = t2.Counter i
        · have h4 : t4.Counter i ≠ t3.Counter i := by
            rw [h3, h2, h1]; exact hne
          obtain ⟨hj, _⟩ := c4.2 h4
          omega
        · obtain ⟨hj, ho⟩ := c3.2 h3
          have : i - 1 = 2 := by omega
          rw [this]
          exact s1.overflowed 2 (by norm_num) (s2.overflowed 2 (by norm_num) ho)
      · obtain ⟨hj, ho⟩ := c2.2 h2
        have : i - 1 = 1 := by omega
        rw [this]
        exact s1.overflowed 1 (by norm_num) ho
    · obtain ⟨hj, ho⟩ := c1.2 h1
      have : i - 1 = 0 := by omega
      rw [this]
      exact ho
  · intro he
    have hr : t.Runs 0 := ⟨he, fun h => absurd h.2 (by norm_num)⟩
    constructor
    · rw [s4.counter_ne 0 (by norm_num) (by norm_num), s3.counter_ne 0 (by norm_num) (by norm_num),
        s2.counter_ne 0 (by norm_num) (by norm_num), s1.counter_self hr]
    · rw [s4.cycleCount_ne 0 (by norm_num), s3.cycleCount_ne 0 (by norm_num),
        s2.cycleCount_ne 0 (by norm_num), s1.cycleCount_self hr]


/-- Witness for C11: channel 0 enabled with prescaler 1, channel 1 in cascade mode, one
`Step` of `0x10000` cycles. -/
theorem C11_cascaded_channel_counts_overflows_only_witness :
    (∀ i, i < 4 → 1 ≤ Timer.cascadePair.Prescaler i) ∧
    ∃ t', Timer.cascadePair.Step 0x10000 = some t' ∧
      (∀ i, 1 ≤ i → i < 4 → Timer.cascadePair.CountUp i = true →
        t'.CycleCount i = Timer.cascadePair.CycleCount i ∧
        (t'.Counter i ≠ Timer.cascadePair.Counter i →
          Timer.cascadePair.Overflowed (i - 1) 0x10000)) ∧
      (Timer.cascadePair.Enable 0 = true →
        t'.Counter 0 = (Timer.bump (Timer.cascadePair.Reload 0))^[
          Timer.cascadePair.ticks 0 0x10000] (Timer.cascadePair.Counter 0) ∧
        t'.CycleCount 0 = Timer.cascadePair.CycleCount 0 + 0x10000 -
          (Timer.cascadePair.ticks 0 0x10000 : Int) * Timer.cascadePair.Prescaler 0) :=
  ⟨by decide, C11_cascaded_channel_counts_overflows_only Timer.cascadePair 0x10000 (by decide)⟩

/-- C12: for an enabled channel `i` that is not in cascade mode, in a state whose prescalers
are positive and whose counters and reload values fit 16 bits, `Timer.Step(cycles)` returns
with `Counter[i]` advanced by `floor((CycleCount[i] + cycles) / Prescaler[i])` increments, each
of which replaces a value past `0xFFFF` by the reload value; `RequestInterrupt` is called with
bit `3+i` once per such overflow when the channel's IRQ enable is set and not at all
otherwise; and every counter is at most `0xFFFF` afterwards. -/
theorem C12_step_counts_prescaled_ticks (t : Timer) (cycles : Int) (i : Nat) (hi : i < 4)
    (he : t.Enable i = true) (hcu : t.CountUp i = false)
    (hp : ∀ m, m < 4 → 1 ≤ t.Prescaler m)
    (hr : ∀ m, m < 4 → t.Reload m ≤ 0xFFFF) (hc : ∀ m, m < 4 → t.Counter m ≤ 0xFFFF) :
    ∃ t', t.Step cycles = some t' ∧
      t.ticks i cycles = ((t.CycleCount i + cycles) / t.Prescaler i).toNat ∧
      t'.Counter i = (Timer.bump (t.Reload i))^[t.ticks i cycles] (t.Counter i) ∧
      (∀ c, c ≤ 0xFFFF → Timer.bump (t.Reload i) c = if c = 0xFFFF then t.Reload i else c + 1) ∧
      (t.Counter i + t.ticks i cycles ≤ 0xFFFF →
        t'.Counter i = t.Counter i + t.ticks i cycles) ∧
      t'.CycleCount i = t.CycleCount i + cycles - (t.ticks i cycles : Int) * t.Prescaler i ∧
      t'.Requested.count ((1 <<< (3 + i)) % 2 ^ 16) =
        t.Requested.count ((1 <<< (3 + i)) % 2 ^ 16) +
          (if t.IrqEnable i = true then
            Timer.overflowCount (t.Reload i) (t.Counter i) (t.ticks i cycles)
           else 0) ∧
      ∀ m, m < 4 → t'.Counter m ≤ 0xFFFF := by
  have hrun : t.Runs i := ⟨he, fun h => by rw [hcu] at h; exact Bool.false_ne_true h.1⟩
  obtain ⟨t', e, h1, h2, h3, h4⟩ := Timer.Step_runs t cycles i hi hrun hp
  refine ⟨t', e, rfl, h1, ?_, ?_, h2, h3, h4 hr hc⟩
  · intro c hc'
    unfold Timer.bump
    by_cases h : c = 0xFFFF
    · subst h
      rw [if_pos rfl, if_pos (by norm_num)]
    · rw [if_neg h, if_neg (by omega)]
      omega
  · intro hle
    rw [h1, Timer.bump_iterate_of_le _ _ _ hle]

/-- Witness for C12: channel 0 of `reloadPair` (enabled, prescaler 1, reload and counter
`0xFFFF`), one `Step` of 3 cycles. -/
theorem C12_step_counts_prescaled_ticks_witness :
    ((0 : Nat) < 4 ∧ Timer.reloadPair.Enable 0 = true ∧ Timer.reloadPair.CountUp 0 = false ∧
      (∀ m, m < 4 → 1 ≤ Timer.reloadPair.Prescaler m) ∧
      (∀ m, m < 4 → Timer.reloadPair.Reload m ≤ 0xFFFF) ∧
      (∀ m, m < 4 → Timer.reloadPair.Counter m ≤ 0xFFFF)) ∧
    ∃ t', Timer.reloadPair.Step 3 = some t' ∧
      Timer.reloadPair.ticks 0 3 =
        ((Timer.reloadPair.CycleCount 0 + 3) / Timer.reloadPair.Prescaler 0).toNat ∧
      t'.Counter 0 = (Timer.bump (Timer.reloadPair.Reload 0))^[Timer.reloadPair.ticks 0 3]
        (Timer.reloadPair.Counter 0) ∧
      (∀ c, c ≤ 0xFFFF → Timer.bump (Timer.reloadPair.Reload 0) c =
        if c = 0xFFFF then Timer.reloadPair.Reload 0 else c + 1) ∧
      (Timer.reloadPair.Counter 0 + Timer.reloadPair.ticks 0 3 ≤ 0xFFFF →
        t'.Counter 0 = Timer.reloadPair.Counter 0 + Timer.reloadPair.ticks 0 3) ∧
      t'.CycleCount 0 = Timer.reloadPair.CycleCount 0 + 3 -
        (Timer.reloadPair.ticks 0 3 : Int) * Timer.reloadPair.Prescaler 0 ∧
      t'.Requested.count ((1 <<< (3 + 0)) % 2 ^ 16) =
        Timer.reloadPair.Requested.count ((1 <<< (3 + 0)) % 2 ^ 16) +
          (if Timer.reloadPair.IrqEnable 0 = true then
            Timer.overflowCount (Timer.reloadPair.Reload 0) (Timer.reloadPair.Counter 0)
              (Timer.reloadPair.ticks 0 3)
           else 0) ∧
      ∀ m, m < 4 → t'.Counter m ≤ 0xFFFF :=
  ⟨⟨by decide, by decide, by decide, by decide, by decide, by decide⟩,
   C12_step_counts_prescaled_ticks Timer.reloadPair 3 0 (by decide) (by decide) (by decide)
     (by decide) (by decide) (by decide)⟩

/-- C13: for a channel `i` in `0..3` and any value `V`, `Timer.WriteCNT_H(i, V)` sets
`Counter[i]` to `Reload[i]` and `CycleCount[i]` to 0 when the channel was disabled and `V`
has bit 7 set, and leaves both unchanged otherwise; the prescaler becomes 1, 64, 256 or 1024
as `V & 3` is 0, 1, 2 or 3; the reload values are kept and the channel is enabled exactly
when bit 7 of `V` is set. -/
theorem C13_WriteCNT_H_reload_on_enable (t : Timer) (i : Nat) (hi : i < 4) (V : Nat) :
    ((t.Enable i = false ∧ V.testBit 7 = true) →
      (t.WriteCNT_H i V).Counter i = t.Reload i ∧ (t.WriteCNT_H i V).CycleCount i = 0) ∧
    (¬(t.Enable i = false ∧ V.testBit 7 = true) →
      (t.WriteCNT_H i V).Counter i = t.Counter i ∧
      (t.WriteCNT_H i V).CycleCount i = t.CycleCount i) ∧
    (t.WriteCNT_H i V).Prescaler i =
      (if V &&& 3 = 0 then 1 else if V &&& 3 = 1 then 64 else if V &&& 3 = 2 then 256
       else 1024) ∧
    (t.WriteCNT_H i V).Reload = t.Reload ∧
    (t.WriteCNT_H i V).Enable i = V.testBit 7 := by
  have h3 : V &&& 3 < 4 := by
    have : V &&& 3 = V % 2 ^ 2 := Nat.and_pow_two_sub_one_eq_mod V 2
    rw [this]; exact Nat.mod_lt _ (by norm_num)
  have e7 : (0x80 : Nat) = 2 ^ 7 := by norm_num
  have hbit : decide (V &&& 0x80 ≠ 0) = V.testBit 7 := by
    rw [e7]
    by_cases hb : V.testBit 7 = true
    · rw [hb]
      exact decide_eq_true (fun h => by
        rw [(Input.and_two_pow_eq_zero_iff V 7).mp h] at hb; exact Bool.false_ne_true hb)
    · have hb' : V.testBit 7 = false := by simpa using hb
      rw [hb']
      exact decide_eq_false (fun h => h ((Input.and_two_pow_eq_zero_iff V 7).mpr hb'))
  have hch : ((i : Int)).toNat = i := Int.toNat_ofNat i
  have hneg : ¬((i : Int) < 0) := by omega
  have hi4 : ¬(4 ≤ i) := by omega
  have hcases : V &&& 3 = 0 ∨ V &&& 3 = 1 ∨ V &&& 3 = 2 ∨ V &&& 3 = 3 := by omega
  by_cases hold : t.Enable i = false ∧ V.testBit 7 = true
  · rcases hcases with h | h | h | h <;>
      simp [Timer.WriteCNT_H, hch, hbit, h, hold, hneg, hi4]
  · rcases hcases with h | h | h | h <;>
      simp [Timer.WriteCNT_H, hch, hbit, h, hold, hneg, hi4]

/-- Witness for C13: enabling channel 0 of a fresh timer with `V = 0x80`. -/
theorem C13_WriteCNT_H_reload_on_enable_witness :
    (0 : Nat) < 4 ∧
    (((Timer.New.Enable 0 = false ∧ (0x80 : Nat).testBit 7 = true) →
        (Timer.New.WriteCNT_H (0 : Nat) 0x80).Counter 0 = Timer.New.Reload 0 ∧
        (Timer.New.WriteCNT_H (0 : Nat) 0x80).CycleCount 0 = 0) ∧
      (¬(Timer.New.Enable 0 = false ∧ (0x80 : Nat).testBit 7 = true) →
        (Timer.New.WriteCNT_H (0 : Nat) 0x80).Counter 0 = Timer.New.Counter 0 ∧
        (Timer.New.WriteCNT_H (0 : Nat) 0x80).CycleCount 0 = Timer.New.CycleCount 0) ∧
      (Timer.New.WriteCNT_H (0 : Nat) 0x80).Prescaler 0 =
        (if (0x80 : Nat) &&& 3 = 0 then 1 else if (0x80 : Nat) &&& 3 = 1 then 64
         else if (0x80 : Nat) &&& 3 = 2 then 256 else 1024) ∧
      (Timer.New.WriteCNT_H (0 : Nat) 0x80).Reload = Timer.New.Reload ∧
      (Timer.New.WriteCNT_H (0 : Nat) 0x80).Enable 0 = (0x80 : Nat).testBit 7) :=
  ⟨by decide, C13_WriteCNT_H_reload_on_enable Timer.New 0 (by decide) 0x80⟩

/-! ### PPU: scanline rendering and line timing -/

namespace PPU

theorem or_and_of_disjoint (d f k : Nat) (h : f &&& k = 0) : (d ||| f) &&& k = d &&& k := by
  apply Nat.eq_of_testBit_eq
  intro i
  have hi := congrArg (fun n => Nat.testBit n i) h
  simp only [Nat.testBit_and, Nat.testBit_or, Nat.zero_testBit] at hi ⊢
  cases hd : d.testBit i <;> cases hf : f.testBit i <;> cases hk : k.testBit i <;>
    simp_all

theorem and_and_of_sub (d m k : Nat) (h : m &&& k = k) : (d &&& m) &&& k = d &&& k := by
  rw [Nat.and_assoc, h]

/-- Entering VBlank does not touch the VBlank-IRQ enable bit that is tested next. -/
theorem vblank_flag_irq (d : Nat) :
    ((d &&& (0xFFFF ^^^ 0x0002)) ||| 0x0001) &&& 0x0008 = d &&& 0x0008 := by
  rw [or_and_of_disjoint _ _ _ (by decide), and_and_of_sub _ _ _ (by decide)]

/-- Entering HBlank does not touch the HBlank-IRQ enable bit that is tested next. -/
theorem hblank_flag_irq (d : Nat) : (d ||| 0x0002) &&& 0x0010 = d &&& 0x0010 :=
  or_and_of_disjoint _ _ _ (by decide)

theorem setPixel_eq (p : PPU) (idx : Int) (v : Nat) (h0 : 0 ≤ idx) (h1 : idx < 38400) :
    p.setPixel idx v = some { p with FrameBuffer := Function.update p.FrameBuffer idx.toNat v } := by
  unfold setPixel FrameBufferLen
  rw [if_pos ⟨h0, by push_cast; omega⟩]

theorem getPaletteColor_some (palette : Bytes) (idx : Nat) :
    ∃ c, getPaletteColor palette idx = some c := by
  unfold getPaletteColor
  simp only []
  have hlt : idx * 2 % 2 ^ 32 + 1 < 2 ^ 32 := by omega
  by_cases h : (idx * 2 % 2 ^ 32 + 1) % 2 ^ 32 < palette.len % 2 ^ 32
  · rw [if_pos h]
    rw [Nat.mod_eq_of_lt hlt] at h ⊢
    have hl : palette.len % 2 ^ 32 ≤ palette.len := Nat.mod_le _ _
    have g0 : palette.get? (idx * 2 % 2 ^ 32) = some (palette.data (idx * 2 % 2 ^ 32) % 256) := by
      unfold Bytes.get?; rw [if_pos (by omega)]
    have g1 : palette.get? (idx * 2 % 2 ^ 32 + 1) =
        some (palette.data (idx * 2 % 2 ^ 32 + 1) % 256) := by
      unfold Bytes.get?; rw [if_pos (by omega)]
    rw [g0, g1]
    exact ⟨_, rfl⟩
  · rw [if_neg h]
    exact ⟨_, rfl⟩

/-- A loop whose body keeps a property of the state, and succeeds in every state that has
it, succeeds and keeps it. -/
theorem forX_some (body : Nat → PPU → Option PPU) (P : PPU → Prop) (hi : Nat)
    (hb : ∀ x q, x < hi → P q → ∃ q', body x q = some q' ∧ P q') :
    ∀ (n lo : Nat) (p : PPU), lo + n ≤ hi → P p → ∃ p', forX body lo n p = some p' ∧ P p' := by
  intro n
  induction n with
  | zero => intro lo p _ hp; exact ⟨p, rfl, hp⟩
  | succ n ih =>
    intro lo p hle hp
    obtain ⟨q, e, hq⟩ := hb lo p (by omega) hp
    obtain ⟨p', e', hp'⟩ := ih (lo + 1) q (by omega) hq
    refine ⟨p', ?_, hp'⟩
    show (body lo p).bind _ = _
    rw [e]
    exact e'

theorem SameRegs.same (p : PPU) : SameRegs p p := rfl

theorem SameRegs.update {p q : PPU} (h : SameRegs p q) (f : Nat → Nat) :
    SameRegs p { q with FrameBuffer := f } := by
  unfold SameRegs at h ⊢
  rw [h]

theorem SameRegs.setPixel {p q : PPU} (h : SameRegs p q) (y : Nat) (hy : p.CurrentLine = y)
    (hy160 : y < 160) (x : Nat) (hx : x < 240) (v : Nat) :
    ∃ q', q.setPixel (q.CurrentLine * 240 + x) v = some q' ∧ SameRegs p q' := by
  have hq : q.CurrentLine = y := by rw [h]; exact hy
  rw [hq]
  exact ⟨_, setPixel_eq q _ v (by omega) (by omega), h.update _⟩

/-- The fill loops: `n` consecutive pixels of row `y` from column `lo` on are set to `v`,
and nothing else changes. -/
theorem forX_fill (v : Nat) (y : Nat) (hy : y < 160) :
    ∀ (n lo : Nat) (p : PPU), p.CurrentLine = y → lo + n ≤ 240 →
      forX (fun x q => q.setPixel (q.CurrentLine * 240 + x) v) lo n p =
        some { p with FrameBuffer := fun i =>
          if y * 240 + lo ≤ i ∧ i < y * 240 + lo + n then v else p.FrameBuffer i } := by
  intro n
  induction n with
  | zero =>
    intro lo p _ _
    show some p = _
    congr 1
    have : (fun i => if y * 240 + lo ≤ i ∧ i < y * 240 + lo + 0 then v else p.FrameBuffer i) =
        p.FrameBuffer := by
      funext i
      rw [if_neg (by omega)]
    rw [this]
  | succ n ih =>
    intro lo p hp hle
    show (p.setPixel (p.CurrentLine * 240 + lo) v).bind _ = _
    rw [setPixel_eq p _ v (by rw [hp]; omega) (by rw [hp]; omega)]
    show forX _ (lo + 1) n _ = _
    refine (ih (lo + 1) _ ?_ (by omega)).trans ?_
    · exact hp
    congr 2
    funext i
    have e : (p.CurrentLine * 240 + (lo : Int)).toNat = y * 240 + lo := by rw [hp]; omega
    show (if y * 240 + (lo + 1) ≤ i ∧ i < y * 240 + (lo + 1) + n then v
      else Function.update p.FrameBuffer (p.CurrentLine * 240 + (lo : Int)).toNat v i) = _
    rw [e, Function.update_apply]
    by_cases h2 : y * 240 + (lo + 1) ≤ i ∧ i < y * 240 + (lo + 1) + n
    · have hB : y * 240 + lo ≤ i ∧ i < y * 240 + lo + (n + 1) := by omega
      rw [if_pos h2, if_pos hB]
    · rw [if_neg h2]
      by_cases h1 : i = y * 240 + lo
      · have hB : y * 240 + lo ≤ i ∧ i < y * 240 + lo + (n + 1) := by omega
        rw [if_pos h1, if_pos hB]
      · have hB : ¬(y * 240 + lo ≤ i ∧ i < y * 240 + lo + (n + 1)) := by omega
        rw [if_neg h1, if_neg hB]

theorem getInt?_some (b : Bytes) (i : Int) (h0 : 0 ≤ i) (h1 : i < b.len) :
    b.getInt? i = some (b.data i.toNat % 256) := by
  unfold Bytes.getInt? Bytes.get?
  rw [if_pos h0, if_pos (by omega)]

theorem bind_eq_of_some {α β : Type} {a : Option α} {v : α} (h : a = some v)
    (f : α → Option β) : (a >>= f) = f v := by
  subst h; rfl

theorem renderMode0_some (p : PPU) (palette : Bytes) (y : Nat) (hy : p.CurrentLine = y)
    (hy160 : y < 160) : ∃ q, p.renderMode0 palette = some q ∧ SameRegs p q := by
  unfold renderMode0
  refine forX_some _ (SameRegs p) 240 ?_ 240 0 p (by norm_num) (SameRegs.same p)
  intro x q hx hq
  obtain ⟨c, hc⟩ := getPaletteColor_some palette 0
  rw [bind_eq_of_some hc]
  exact hq.setPixel y hy hy160 x hx c

theorem renderMode3_some (p : PPU) (vram : Bytes) (y : Nat) (hy : p.CurrentLine = y)
    (hy160 : y < 160) : ∃ q, p.renderMode3 vram = some q ∧ SameRegs p q := by
  unfold renderMode3
  by_cases hf : p.DISPCNT &&& 0x0010 ≠ 0
  · rw [if_pos hf]
    exact ⟨p, rfl, SameRegs.same p⟩
  · rw [if_neg hf]
    refine forX_some _ (SameRegs p) 240 ?_ 240 0 p (by norm_num) (SameRegs.same p)
    intro x q hx hq
    have hqy : q.CurrentLine = y := by rw [hq]; exact hy
    simp only [hqy]
    by_cases hg : ((y : Int) * 240 + x) * 2 + 1 < vram.len
    · rw [if_pos hg, bind_eq_of_some (getInt?_some vram _ (by omega) (by omega))]
      rw [bind_eq_of_some (getInt?_some vram _ (by omega) hg)]
      have := hq.setPixel y hy hy160 x hx
      rw [hqy] at this
      exact this _
    · rw [if_neg hg]
      exact ⟨q, rfl, hq⟩

theorem renderMode4_some (p : PPU) (vram palette : Bytes) (y : Nat) (hy : p.CurrentLine = y)
    (hy160 : y < 160) : ∃ q, p.renderMode4 vram palette = some q ∧ SameRegs p q := by
  unfold renderMode4
  simp only []
  have hfo : (0 : Int) ≤ (if p.DISPCNT &&& 0x0010 ≠ 0 then 0xA000 else 0) := by
    split_ifs <;> norm_num
  generalize (if p.DISPCNT &&& 0x0010 ≠ 0 then (0xA000 : Int) else 0) = fo at hfo
  refine forX_some _ (SameRegs p) 240 ?_ 240 0 p (by norm_num) (SameRegs.same p)
  intro x q hx hq
  have hqy : q.CurrentLine = y := by rw [hq]; exact hy
  simp only [hqy]
  by_cases hg : fo + (y : Int) * 240 + x < vram.len
  · rw [if_pos hg, bind_eq_of_some (getInt?_some vram _ (by omega) hg)]
    obtain ⟨c, hc⟩ := getPaletteColor_some palette
      (vram.data (fo + (y : Int) * 240 + x).toNat % 256)
    rw [bind_eq_of_some hc]
    have := hq.setPixel y hy hy160 x hx
    rw [hqy] at this
    exact this _
  · rw [if_neg hg]
    exact ⟨q, rfl, hq⟩

theorem renderMode5_some (p : PPU) (vram : Bytes) (y : Nat) (hy : p.CurrentLine = y)
    (hy160 : y < 160) : ∃ q, p.renderMode5 vram = some q ∧ SameRegs p q := by
  have hfill : ∀ lo n, lo + n ≤ 240 → ∀ r, SameRegs p r →
      ∃ q, forX (fun x q => q.setPixel (q.CurrentLine * 240 + x) 0) lo n r = some q ∧
        SameRegs p q := by
    intro lo n hle r hr
    refine forX_some _ (SameRegs p) 240 ?_ n lo r hle hr
    intro x q hx hq
    exact hq.setPixel y hy hy160 x hx 0
  have key : ∀ (o : Option PPU) (g : PPU → Option PPU), (∃ r, o = some r ∧ SameRegs p r) →
      (∀ r, SameRegs p r → ∃ q, g r = some q ∧ SameRegs p q) →
      ∃ q, o.bind g = some q ∧ SameRegs p q := by
    rintro o g ⟨r, rfl, hr⟩ hg
    exact hg r hr
  unfold renderMode5
  by_cases h128 : p.CurrentLine ≥ 128
  · rw [if_pos h128]
    exact hfill 0 240 (by norm_num) p (SameRegs.same p)
  · rw [if_neg h128]
    simp only []
    have hfo : (0 : Int) ≤ (if p.DISPCNT &&& 0x0010 ≠ 0 then 0xA000 else 0) := by
      split_ifs <;> norm_num
    generalize (if p.DISPCNT &&& 0x0010 ≠ 0 then (0xA000 : Int) else 0) = fo at hfo
    refine key _ _ ?_ ?_
    · refine forX_some _ (SameRegs p) 160 ?_ 160 0 p (by norm_num) (SameRegs.same p)
      intro x q hx hq
      have hqy : q.CurrentLine = y := by rw [hq]; exact hy
      simp only [hqy]
      by_cases hg : fo + ((y : Int) * 160 + x) * 2 + 1 < vram.len
      · rw [if_pos hg, bind_eq_of_some (getInt?_some vram _ (by omega) (by omega))]
        rw [bind_eq_of_some (getInt?_some vram _ (by omega) hg)]
        rw [if_pos (by omega)]
        have := hq.setPixel y hy hy160 x (by omega)
        rw [hqy] at this
        exact this _
      · rw [if_neg hg]
        exact ⟨q, rfl, hq⟩
    · intro r hr
      exact hfill 160 80 (by norm_num) r hr

/-- `RenderScanline` does not panic on a visible line, and changes the frame buffer only. -/
theorem RenderScanline_some (p : PPU) (vram palette : Bytes) (y : Nat) (hy : p.CurrentLine = y)
    (hy160 : y < 160) : ∃ q, p.RenderScanline vram palette = some q ∧ SameRegs p q := by
  unfold RenderScanline
  simp only []
  by_cases hfb : p.DISPCNT &&& 0x0080 ≠ 0
  · rw [if_pos hfb, forX_fill 0x7FFF y hy160 240 0 p hy (by norm_num)]
    exact ⟨_, rfl, rfl⟩
  · rw [if_neg hfb]
    split_ifs
    · exact renderMode0_some p palette y hy hy160
    · exact renderMode0_some p palette y hy hy160
    · exact renderMode0_some p palette y hy hy160
    · exact renderMode3_some p vram y hy hy160
    · exact renderMode4_some p vram palette y hy hy160
    · exact renderMode5_some p vram y hy hy160
    · exact ⟨p, rfl, SameRegs.same p⟩

/-- `RenderScanline` with the forced-blank bit set. -/
theorem RenderScanline_forced (p : PPU) (vram palette : Bytes) (y : Nat)
    (hy : p.CurrentLine = y) (hy160 : y < 160) (hfb : p.DISPCNT &&& 0x0080 ≠ 0) :
    p.RenderScanline vram palette =
      some { p with FrameBuffer := fun i =>
        if y * 240 ≤ i ∧ i < y * 240 + 240 then 0x7FFF else p.FrameBuffer i } := by
  unfold RenderScanline
  simp only []
  rw [if_pos hfb, forX_fill 0x7FFF y hy160 240 0 p hy (by norm_num)]
  rfl

/-- The nine ways through `PPU.Step`. -/
theorem Step_cases (p : PPU) (vram palette : Bytes) (cycles : Int) :
    (p.VBlank = true ∧ p.CycleCount + cycles < 1232 ∧
      p.Step vram palette cycles =
        some ({ p with CycleCount := p.CycleCount + cycles }, false)) ∨
    (p.VBlank = true ∧ p.CycleCount + cycles ≥ 1232 ∧ p.CurrentLine + 1 < 228 ∧
      p.Step vram palette cycles =
        some ({ p with
                CycleCount := p.CycleCount + cycles - 1232, CurrentLine := p.CurrentLine + 1
                VCOUNT := ((p.CurrentLine + 1) % 2 ^ 16).toNat }, false)) ∨
    (p.VBlank = true ∧ p.CycleCount + cycles ≥ 1232 ∧ p.CurrentLine + 1 ≥ 228 ∧
      p.Step vram palette cycles =
        some ({ p with
                CycleCount := p.CycleCount + cycles - 1232, CurrentLine := 0, VCOUNT := 0
                VBlank := false, DISPSTAT := p.DISPSTAT &&& (0xFFFF ^^^ 0x0001) }, true)) ∨
    (p.VBlank = false ∧ p.HBlank = true ∧ p.CycleCount + cycles < 272 ∧
      p.Step vram palette cycles =
        some ({ p with CycleCount := p.CycleCount + cycles }, false)) ∨
    (p.VBlank = false ∧ p.HBlank = true ∧ p.CycleCount + cycles ≥ 272 ∧
      p.CurrentLine + 1 < 160 ∧
      p.Step vram palette cycles =
        some ({ p with
                CycleCount := p.CycleCount + cycles - 272, HBlank := false
                DISPSTAT := p.DISPSTAT &&& (0xFFFF ^^^ 0x0002)
                CurrentLine := p.CurrentLine + 1
                VCOUNT := ((p.CurrentLine + 1) % 2 ^ 16).toNat }, false)) ∨
    (p.VBlank = false ∧ p.HBlank = true ∧ p.CycleCount + cycles ≥ 272 ∧
      p.CurrentLine + 1 ≥ 160 ∧
      p.Step vram palette cycles =
        some ({ p with
                CycleCount := p.CycleCount + cycles - 272, HBlank := false
                DISPSTAT := (p.DISPSTAT &&& (0xFFFF ^^^ 0x0002)) ||| 0x0001
                CurrentLine := p.CurrentLine + 1
                VCOUNT := ((p.CurrentLine + 1) % 2 ^ 16).toNat
                VBlank := true }, decide (p.DISPSTAT &&& 0x0008 ≠ 0))) ∨
    (p.VBlank = false ∧ p.HBlank = false ∧ p.CycleCount + cycles < 960 ∧
      p.Step vram palette cycles =
        some ({ p with CycleCount := p.CycleCount + cycles }, false)) ∨
    (p.VBlank = false ∧ p.HBlank = false ∧ p.CycleCount + cycles ≥ 960 ∧
      p.DISPSTAT &&& 0x0010 ≠ 0 ∧
      p.Step vram palette cycles =
        some ({ p with
                CycleCount := p.CycleCount + cycles - 960, HBlank := true
                DISPSTAT := p.DISPSTAT ||| 0x0002 }, true)) ∨
    (p.VBlank = false ∧ p.HBlank = false ∧ p.CycleCount + cycles ≥ 960 ∧
      p.DISPSTAT &&& 0x0010 = 0 ∧
      p.Step vram palette cycles =
        (RenderScanline { p with
            CycleCount := p.CycleCount + cycles - 960, HBlank := true
            DISPSTAT := p.DISPSTAT ||| 0x0002 } vram palette).map fun q => (q, false)) := by
  unfold Step
  simp only []
  by_cases hv : p.VBlank = true
  · rw [if_pos hv]
    by_cases hc : p.CycleCount + cycles ≥ 1232
    · rw [if_pos hc]
      by_cases hl : p.CurrentLine + 1 ≥ 228
      · rw [if_pos hl]
        exact Or.inr (Or.inr (Or.inl ⟨hv, hc, hl, rfl⟩))
      · rw [if_neg hl]
        exact Or.inr (Or.inl ⟨hv, hc, by omega, rfl⟩)
    · rw [if_neg hc]
      exact Or.inl ⟨hv, by omega, rfl⟩
  · rw [if_neg hv]
    have hv' : p.VBlank = false := by simpa using hv
    by_cases hh : p.HBlank = true
    · rw [if_pos hh]
      by_cases hc : p.CycleCount + cycles ≥ 272
      · rw [if_pos hc]
        by_cases hl : p.CurrentLine + 1 ≥ 160
        · rw [if_pos hl]
          refine Or.inr (Or.inr (Or.inr (Or.inr (Or.inr (Or.inl ⟨hv', hh, hc, hl, ?_⟩)))))
          rw [vblank_flag_irq]
          by_cases hi : p.DISPSTAT &&& 0x0008 ≠ 0
          · rw [if_pos hi, decide_eq_true hi]
          · rw [if_neg hi, decide_eq_false hi]
        · rw [if_neg hl]
          exact Or.inr (Or.inr (Or.inr (Or.inr (Or.inl ⟨hv', hh, hc, by omega, rfl⟩))))
      · rw [if_neg hc]
        exact Or.inr (Or.inr (Or.inr (Or.inl ⟨hv', hh, by omega, rfl⟩)))
    · rw [if_neg hh]
      have hh' : p.HBlank = false := by simpa using hh
      by_cases hc : p.CycleCount + cycles ≥ 960
      · rw [if_pos hc, hblank_flag_irq]
        by_cases hi : p.DISPSTAT &&& 0x0010 ≠ 0
        · rw [if_pos hi]
          exact Or.inr (Or.inr (Or.inr (Or.inr (Or.inr (Or.inr (Or.inr (Or.inl
            ⟨hv', hh', hc, hi, rfl⟩)))))))
        · rw [if_neg hi, if_pos hv']
          exact Or.inr (Or.inr (Or.inr (Or.inr (Or.inr (Or.inr (Or.inr (Or.inr
            ⟨hv', hh', hc, by simpa using hi, rfl⟩)))))))
      · rw [if_neg hc]
        exact Or.inr (Or.inr (Or.inr (Or.inr (Or.inr (Or.inr (Or.inl
          ⟨hv', hh', by omega, rfl⟩))))))

/-- In a state that satisfies `LineInv`, `Step` returns, keeps `LineInv`, and returns `true`
in exactly three situations. -/
theorem Step_total (p : PPU) (h : LineInv p) (vram palette : Bytes) (cycles : Int) :
    ∃ p' b, p.Step vram palette cycles = some (p', b) ∧ LineInv p' ∧
      (b = true ↔
        (p.VCOUNT = 227 ∧ p'.VCOUNT = 0) ∨
        (p.VBlank = false ∧ p'.VBlank = true ∧ p.DISPSTAT &&& 0x0008 ≠ 0) ∨
        (p.HBlank = false ∧ p'.HBlank = true ∧ p.DISPSTAT &&& 0x0010 ≠ 0)) := by
  obtain ⟨h0, h1, h2, h3⟩ := h
  rcases Step_cases p vram palette cycles with ⟨hv, _, e⟩ | ⟨hv, _, hl, e⟩ | ⟨hv, _, hl, e⟩ |
    ⟨hv, hh, _, e⟩ | ⟨hv, hh, _, hl, e⟩ | ⟨hv, hh, _, hl, e⟩ | ⟨hv, hh, _, e⟩ |
    ⟨hv, hh, _, hi, e⟩ | ⟨hv, hh, _, hi, e⟩
  · obtain ⟨k1, k2, k3⟩ := h3 hv
    refine ⟨_, _, e, ⟨h0, h1, h2, h3⟩, ?_⟩
    dsimp only
    constructor
    · intro hb; cases hb
    · rintro (⟨a, b⟩ | ⟨a, _, _⟩ | ⟨_, a, _⟩)
      · omega
      · rw [hv] at a; cases a
      · rw [k3] at a; cases a
  · obtain ⟨k1, k2, k3⟩ := h3 hv
    refine ⟨_, _, e, ⟨?_, ?_, ?_, ?_⟩, ?_⟩
    · dsimp only; omega
    · dsimp only; omega
    · dsimp only; intro a; rw [hv] at a; cases a
    · dsimp only; intro _; exact ⟨by omega, by omega, k3⟩
    · dsimp only
      constructor
      · intro hb; cases hb
      · rintro (⟨a, b⟩ | ⟨a, _, _⟩ | ⟨_, a, _⟩)
        · omega
        · rw [hv] at a; cases a
        · rw [k3] at a; cases a
  · obtain ⟨k1, k2, k3⟩ := h3 hv
    refine ⟨_, _, e, ⟨?_, ?_, ?_, ?_⟩, ?_⟩
    · dsimp only; omega
    · dsimp only; rfl
    · dsimp only; intro _; norm_num
    · dsimp only; intro a; cases a
    · dsimp only
      constructor
      · intro _
        exact Or.inl ⟨by omega, rfl⟩
      · intro _; rfl
  · have k := h2 hv
    refine ⟨_, _, e, ⟨h0, h1, h2, h3⟩, ?_⟩
    dsimp only
    constructor
    · intro hb; cases hb
    · rintro (⟨a, b⟩ | ⟨_, a, _⟩ | ⟨a, _, _⟩)
      · omega
      · rw [hv] at a; cases a
      · rw [hh] at a; cases a
  · have k := h2 hv
    refine ⟨_, _, e, ⟨?_, ?_, ?_, ?_⟩, ?_⟩
    · dsimp only; omega
    · dsimp only; omega
    · dsimp only; intro _; omega
    · dsimp only; intro a; rw [hv] at a; cases a
    · dsimp only
      constructor
      · intro hb; cases hb
      · rintro (⟨a, b⟩ | ⟨_, a, _⟩ | ⟨a, _, _⟩)
        · omega
        · rw [hv] at a; cases a
        · rw [hh] at a; cases a
  · have k := h2 hv
    refine ⟨_, _, e, ⟨?_, ?_, ?_, ?_⟩, ?_⟩
    · dsimp only; omega
    · dsimp only; omega
    · dsimp only; intro a; cases a
    · dsimp only; intro _; exact ⟨by omega, by omega, rfl⟩
    · dsimp only
      constructor
      · intro hb
        exact Or.inr (Or.inl ⟨hv, rfl, of_decide_eq_true hb⟩)
      · rintro (⟨a, b⟩ | ⟨_, _, a⟩ | ⟨a, _, _⟩)
        · omega
        · exact decide_eq_true a
        · rw [hh] at a; cases a
  · have k := h2 hv
    refine ⟨_, _, e, ⟨h0, h1, h2, h3⟩, ?_⟩
    dsimp only
    constructor
    · intro hb; cases hb
    · rintro (⟨a, b⟩ | ⟨_, a, _⟩ | ⟨_, a, _⟩)
      · omega
      · rw [hv] at a; cases a
      · rw [hh] at a; cases a
  · have k := h2 hv
    refine ⟨_, _, e, ⟨h0, h1, h2, fun a => by dsimp only at a; rw [hv] at a; cases a⟩, ?_⟩
    dsimp only
    constructor
    · intro _
      exact Or.inr (Or.inr ⟨hh, rfl, hi⟩)
    · intro _; rfl
  · have k := h2 hv
    obtain ⟨q, hq, hs⟩ := RenderScanline_some
      { p with
        CycleCount := p.CycleCount + cycles - 960, HBlank := true
        DISPSTAT := p.DISPSTAT ||| 0x0002 } vram palette p.CurrentLine.toNat
      (Int.toNat_of_nonneg h0).symm (by omega)
    rw [hq] at e
    unfold SameRegs at hs
    refine ⟨q, false, e, ?_, ?_⟩
    · rw [hs]
      exact ⟨h0, h1, h2, fun a => by dsimp only at a; rw [hv] at a; cases a⟩
    · rw [hs]
      dsimp only
      constructor
      · intro hb; cases hb
      · rintro (⟨a, b⟩ | ⟨_, a, _⟩ | ⟨_, _, a⟩)
        · omega
        · rw [hv] at a; cases a
        · exact absurd hi a

theorem LineInv_New : LineInv New :=
  ⟨le_refl _, rfl, fun _ => by decide, fun h => by cases h⟩

/-- Every reachable PPU state satisfies `LineInv`. -/
theorem Reachable.lineInv {p : PPU} (h : Reachable p) : LineInv p := by
  induction h with
  | new => exact LineInv_New
  | reset p _ _ =>
    exact ⟨le_refl _, rfl, fun _ => show (0 : Int) < 160 by norm_num, fun h => by cases h⟩
  | step p vram palette cycles p' b _ hs ih =>
    obtain ⟨q, c, e, hq, _⟩ := Step_total p ih vram palette cycles
    rw [e] at hs
    have := Option.some.inj hs
    rw [← (Prod.mk.inj this).1]
    exact hq
  | setDISPSTAT p val _ ih => exact ih
  | setDISPCNT p val _ ih => exact ih

theorem BlankFrame_New : BlankFrame New := by
  refine ⟨by decide, by decide, by decide, LineInv_New, fun h => (by cases h), fun _ i hi => ?_⟩
  have e : (New.CurrentLine.toNat + if New.HBlank = true then 1 else 0) * 240 = 0 := by decide
  rw [e] at hi
  exact absurd hi (Nat.not_lt_zero _)

/-- One `Step` of a forced-blank frame: the frame stays one, and is all white when `Step`
returns `true`. -/
theorem BlankFrame.step {p : PPU} (h : BlankFrame p) (vram palette : Bytes) (cycles : Int) :
    ∃ p' b, p.Step vram palette cycles = some (p', b) ∧
      (b = false → BlankFrame p') ∧ (b = true → WhiteRows p' 160) := by
  obtain ⟨hfb, h8, h10, hli, hwv, hwl⟩ := h
  have hli' := hli
  obtain ⟨h0, h1, h2, h3⟩ := hli'
  have m8 : ∀ m : Nat, m &&& 0x0008 = 0x0008 → (p.DISPSTAT &&& m) &&& 0x0008 = 0 := by
    intro m hm; rw [and_and_of_sub _ _ _ hm, h8]
  have m10 : ∀ m : Nat, m &&& 0x0010 = 0x0010 → (p.DISPSTAT &&& m) &&& 0x0010 = 0 := by
    intro m hm; rw [and_and_of_sub _ _ _ hm, h10]
  rcases Step_cases p vram palette cycles with ⟨hv, _, e⟩ | ⟨hv, _, hl, e⟩ | ⟨hv, _, hl, e⟩ |
    ⟨hv, hh, _, e⟩ | ⟨hv, hh, _, hl, e⟩ | ⟨hv, hh, _, hl, e⟩ | ⟨hv, hh, _, e⟩ |
    ⟨hv, hh, _, hi, e⟩ | ⟨hv, hh, _, hi, e⟩
  · obtain ⟨k1, k2, k3⟩ := h3 hv
    exact ⟨_, _, e, fun _ => ⟨hfb, h8, h10, hli, hwv, hwl⟩, fun hb => by cases hb⟩
  · obtain ⟨k1, k2, k3⟩ := h3 hv
    refine ⟨_, _, e, fun _ => ⟨hfb, h8, h10, ⟨?_, ?_, ?_, ?_⟩, hwv, ?_⟩, fun hb => by cases hb⟩
    · dsimp only; omega
    · dsimp only; omega
    · dsimp only; intro a; rw [hv] at a; cases a
    · dsimp only; intro _; exact ⟨by omega, by omega, k3⟩
    · dsimp only; intro a; rw [hv] at a; cases a
  · exact ⟨_, _, e, fun hb => (by cases hb), fun _ => hwv hv⟩
  · exact ⟨_, _, e, fun _ => ⟨hfb, h8, h10, hli, hwv, hwl⟩, fun hb => by cases hb⟩
  · have k := h2 hv
    have hw := hwl hv
    rw [if_pos hh] at hw
    refine ⟨_, _, e, fun _ => ⟨hfb, m8 _ (by decide), m10 _ (by decide), ⟨?_, ?_, ?_, ?_⟩,
      ?_, ?_⟩, fun hb => by cases hb⟩
    · dsimp only; omega
    · dsimp only; omega
    · dsimp only; intro _; omega
    · dsimp only; intro a; rw [hv] at a; cases a
    · dsimp only; intro a; rw [hv] at a; cases a
    · dsimp only
      intro _
      have e1 : (p.CurrentLine + 1).toNat + (if false = true then 1 else 0) =
          p.CurrentLine.toNat + 1 := by
        rw [if_neg (by decide)]; omega
      rw [e1]
      exact hw
  · have k := h2 hv
    have hw := hwl hv
    rw [if_pos hh] at hw
    have e160 : p.CurrentLine.toNat + 1 = 160 := by omega
    rw [e160] at hw
    have hb8 : ((p.DISPSTAT &&& (0xFFFF ^^^ 0x0002)) ||| 0x0001) &&& 0x0008 = 0 := by
      rw [vblank_flag_irq]; exact h8
    have hb10 : ((p.DISPSTAT &&& (0xFFFF ^^^ 0x0002)) ||| 0x0001) &&& 0x0010 = 0 := by
      rw [or_and_of_disjoint _ _ _ (by decide)]; exact m10 _ (by decide)
    refine ⟨_, _, e, fun _ => ⟨hfb, hb8, hb10, ⟨?_, ?_, ?_, ?_⟩, fun _ => hw, ?_⟩,
      fun _ => hw⟩
    · dsimp only; omega
    · dsimp only; omega
    · dsimp only; intro a; cases a
    · dsimp only; intro _; exact ⟨by omega, by omega, rfl⟩
    · dsimp only; intro a; cases a
  · exact ⟨_, _, e, fun _ => ⟨hfb, h8, h10, hli, hwv, hwl⟩, fun hb => by cases hb⟩
  · exact absurd h10 hi
  · have k := h2 hv
    have hw := hwl hv
    rw [if_neg (by rw [hh]; decide), Nat.add_zero] at hw
    have hy : p.CurrentLine = (p.CurrentLine.toNat : Int) := (Int.toNat_of_nonneg h0).symm
    have hr := RenderScanline_forced
      { p with
        CycleCount := p.CycleCount + cycles - 960, HBlank := true
        DISPSTAT := p.DISPSTAT ||| 0x0002 } vram palette p.CurrentLine.toNat hy (by omega) hfb
    rw [hr] at e
    have hb8 : (p.DISPSTAT ||| 0x0002) &&& 0x0008 = 0 := by
      rw [or_and_of_disjoint _ _ _ (by decide)]; exact h8
    have hb10 : (p.DISPSTAT ||| 0x0002) &&& 0x0010 = 0 := by
      rw [hblank_flag_irq]; exact h10
    refine ⟨_, _, e, fun _ => ⟨hfb, hb8, hb10, ⟨h0, h1, h2, ?_⟩, ?_, ?_⟩,
      fun hb => by cases hb⟩
    · dsimp only; intro a; rw [hv] at a; cases a
    · dsimp only; intro a; rw [hv] at a; cases a
    · dsimp only
      intro _ i hi'
      rw [if_pos rfl] at hi'
      show (if p.CurrentLine.toNat * 240 ≤ i ∧ i < p.CurrentLine.toNat * 240 + 240 then 0x7FFF
        else p.FrameBuffer i) = 0x7FFF
      by_cases hrow : p.CurrentLine.toNat * 240 ≤ i ∧ i < p.CurrentLine.toNat * 240 + 240
      · rw [if_pos hrow]
      · rw [if_neg hrow]
        exact hw i (by omega)

/-- A run of `Step` calls on a forced-blank frame does not panic, and when it ends with the
frame-complete flag the whole frame buffer is white. -/
theorem BlankFrame.stepFrame (vram palette : Bytes) (cs : List Int) :
    ∀ p, BlankFrame p → ∃ p' b, StepFrame vram palette p cs = some (p', b) ∧
      (b = true → WhiteRows p' 160) := by
  induction cs with
  | nil => intro p _; exact ⟨p, false, rfl, fun hb => by cases hb⟩
  | cons c cs ih =>
    intro p hp
    obtain ⟨p1, b1, e, hf, ht⟩ := hp.step vram palette c
    cases b1 with
    | true =>
      refine ⟨p1, true, ?_, ht⟩
      show (p.Step vram palette c).bind _ = _
      rw [e]; rfl
    | false =>
      obtain ⟨p2, b2, e2, h2⟩ := ih p1 (hf rfl)
      refine ⟨p2, b2, ?_, h2⟩
      show (p.Step vram palette c).bind _ = _
      rw [e]
      exact e2

theorem BlankFrame.step_eq {p : PPU} (h : BlankFrame p) {vram palette : Bytes} {cycles : Int}
    {p' : PPU} {b : Bool} (e : p.Step vram palette cycles = some (p', b)) :
    (b = false → BlankFrame p') ∧ (b = true → WhiteRows p' 160) := by
  obtain ⟨q, c, e', hf, ht⟩ := h.step vram palette cycles
  rw [e] at e'
  have := Prod.mk.inj (Option.some.inj e')
  rw [this.1, this.2]
  exact ⟨hf, ht⟩

theorem StepFrame_cons_false (vram palette : Bytes) (p p1 : PPU) (c : Int) (cs : List Int)
    (e : p.Step vram palette c = some (p1, false)) :
    StepFrame vram palette p (c :: cs) = StepFrame vram palette p1 cs := by
  show (p.Step vram palette c).bind _ = _
  rw [e]
  rfl

theorem StepFrame_cons_true (vram palette : Bytes) (p p1 : PPU) (c : Int) (cs : List Int)
    (e : p.Step vram palette c = some (p1, true)) :
    StepFrame vram palette p (c :: cs) = some (p1, true) := by
  show (p.Step vram palette c).bind _ = _
  rw [e]
  rfl

/-- One visible scanline of the schedule: 960 cycles to HBlank, 272 to the next line. -/
theorem BlankFrame.visible_line (vram palette : Bytes) (p : PPU) (y : Nat) (hb : BlankFrame p)
    (hc : p.CycleCount = 0) (hh : p.HBlank = false) (hy : p.CurrentLine = y) (hy160 : y < 160)
    (rest : List Int) :
    ∃ p2, StepFrame vram palette p (960 :: 272 :: rest) = StepFrame vram palette p2 rest ∧
      BlankFrame p2 ∧ p2.CycleCount = 0 ∧ p2.HBlank = false ∧ p2.CurrentLine = (y + 1 : Nat) := by
  have hv : p.VBlank = false := by
    by_contra hcon
    have := (hb.2.2.2.1.2.2.2 (by simpa using hcon)).1
    omega
  -- the first call renders the line and enters HBlank
  obtain ⟨p1, b1, e1, -⟩ := hb.step vram palette 960
  have hb1 := hb.step_eq e1
  rcases Step_cases p vram palette 960 with ⟨a, _, _⟩ | ⟨a, _, _, _⟩ | ⟨a, _, _, _⟩ |
    ⟨_, a, _, _⟩ | ⟨_, a, _, _, _⟩ | ⟨_, a, _, _, _⟩ | ⟨_, _, a, _⟩ |
    ⟨_, _, _, a, _⟩ | ⟨_, _, _, _, e⟩
  · rw [hv] at a; cases a
  · rw [hv] at a; cases a
  · rw [hv] at a; cases a
  · rw [hh] at a; cases a
  · rw [hh] at a; cases a
  · rw [hh] at a; cases a
  · omega
  · exact absurd hb.2.2.1 a
  · obtain ⟨q, hq, hs⟩ := RenderScanline_some
      { p with
        CycleCount := p.CycleCount + 960 - 960, HBlank := true
        DISPSTAT := p.DISPSTAT ||| 0x0002 } vram palette y hy hy160
    rw [hq] at e
    rw [e] at e1
    have h1 := Prod.mk.inj (Option.some.inj e1)
    unfold SameRegs at hs
    have hbf : b1 = false := h1.2.symm
    have hp1 : BlankFrame p1 := hb1.1 hbf
    have f1 : p1.VBlank = false := by rw [← h1.1, hs]; exact hv
    have f2 : p1.HBlank = true := by rw [← h1.1, hs]
    have f3 : p1.CycleCount = 0 := by
      rw [← h1.1, hs]; show p.CycleCount + 960 - 960 = 0; omega
    have f4 : p1.CurrentLine = y := by rw [← h1.1, hs]; exact hy
    have s1 : StepFrame vram palette p (960 :: 272 :: rest) =
        StepFrame vram palette p1 (272 :: rest) :=
      StepFrame_cons_false vram palette p p1 960 _ (by rw [e, h1.1]; rfl)
    rw [s1]
    obtain ⟨p2, b2, e2, -⟩ := hp1.step vram palette 272
    have hb2 := hp1.step_eq e2
    rcases Step_cases p1 vram palette 272 with ⟨a, _, _⟩ | ⟨a, _, _, _⟩ | ⟨a, _, _, _⟩ |
      ⟨_, _, a, _⟩ | ⟨_, _, _, hl, e'⟩ | ⟨_, _, _, hl, e'⟩ | ⟨_, a, _, _⟩ |
      ⟨_, a, _, _, _⟩ | ⟨_, a, _, _, _⟩
    · rw [f1] at a; cases a
    · rw [f1] at a; cases a
    · rw [f1] at a; cases a
    · omega
    · rw [e'] at e2
      have h2 := Prod.mk.inj (Option.some.inj e2)
      refine ⟨p2, StepFrame_cons_false vram palette p1 p2 272 _ (by rw [e', h2.1]),
        hb2.1 h2.2.symm, ?_, ?_, ?_⟩
      · rw [← h2.1]; show p1.CycleCount + 272 - 272 = 0; omega
      · rw [← h2.1]
      · rw [← h2.1]; show p1.CurrentLine + 1 = _; rw [f4]; push_cast; rfl
    · have hd : decide (p1.DISPSTAT &&& 0x0008 ≠ 0) = false :=
        decide_eq_false (fun hne => hne hp1.2.1)
      rw [hd] at e'
      rw [e'] at e2
      have h2 := Prod.mk.inj (Option.some.inj e2)
      refine ⟨p2, StepFrame_cons_false vram palette p1 p2 272 _ (by rw [e', h2.1]),
        hb2.1 h2.2.symm, ?_, ?_, ?_⟩
      · rw [← h2.1]; show p1.CycleCount + 272 - 272 = 0; omega
      · rw [← h2.1]
      · rw [← h2.1]; show p1.CurrentLine + 1 = _; rw [f4]; push_cast; rfl
    · rw [f2] at a; cases a
    · rw [f2] at a; cases a
    · rw [f2] at a; cases a

/-- The first `k` scanlines of the schedule. -/
theorem BlankFrame.visible_lines (vram palette : Bytes) (rest : List Int) (k : Nat) :
    ∀ (p : PPU) (y : Nat), BlankFrame p → p.CycleCount = 0 → p.HBlank = false →
      p.CurrentLine = y → y + k ≤ 160 →
      ∃ p2, StepFrame vram palette p ((List.replicate k [960, 272]).flatten ++ rest) =
          StepFrame vram palette p2 rest ∧
        BlankFrame p2 ∧ p2.CycleCount = 0 ∧ p2.HBlank = false ∧
        p2.CurrentLine = (y + k : Nat) := by
  induction k with
  | zero => intro p y hb hc hh hy _; exact ⟨p, rfl, hb, hc, hh, hy⟩
  | succ k ih =>
    intro p y hb hc hh hy hle
    obtain ⟨p1, e1, hb1, hc1, hh1, hy1⟩ := hb.visible_line vram palette p y hc hh hy (by omega)
      ((List.replicate k [960, 272]).flatten ++ rest)
    obtain ⟨p2, e2, hb2, hc2, hh2, hy2⟩ := ih p1 (y + 1) hb1 hc1 hh1 hy1 (by omega)
    refine ⟨p2, ?_, hb2, hc2, hh2, ?_⟩
    · rw [← e2, ← e1]
      rfl
    · rw [hy2]
      congr 1
      omega

/-- One blank line of the schedule. -/
theorem BlankFrame.blank_line (vram palette : Bytes) (p : PPU) (y : Nat) (hb : BlankFrame p)
    (hc : p.CycleCount = 0) (hy : p.CurrentLine = y) (hy160 : 160 ≤ y) (hy227 : y < 227)
    (rest : List Int) :
    ∃ p2, StepFrame vram palette p (1232 :: rest) = StepFrame vram palette p2 rest ∧
      BlankFrame p2 ∧ p2.CycleCount = 0 ∧ p2.CurrentLine = (y + 1 : Nat) := by
  have hv : p.VBlank = true := by
    by_contra hcon
    have := hb.2.2.2.1.2.2.1 (by simpa using hcon)
    omega
  obtain ⟨p1, b1, e1, -⟩ := hb.step vram palette 1232
  have hb1 := hb.step_eq e1
  rcases Step_cases p vram palette 1232 with ⟨_, a, _⟩ | ⟨_, _, _, e⟩ | ⟨_, _, a, _⟩ |
    ⟨a, _, _, _⟩ | ⟨a, _, _, _, _⟩ | ⟨a, _, _, _, _⟩ | ⟨a, _, _, _⟩ |
    ⟨a, _, _, _, _⟩ | ⟨a, _, _, _, _⟩
  · omega
  · rw [e] at e1
    have h1 := Prod.mk.inj (Option.some.inj e1)
    refine ⟨p1, StepFrame_cons_false vram palette p p1 1232 _ (by rw [e, h1.1]),
      hb1.1 h1.2.symm, ?_, ?_⟩
    · rw [← h1.1]; show p.CycleCount + 1232 - 1232 = 0; omega
    · rw [← h1.1]; show p.CurrentLine + 1 = _; rw [hy]; push_cast; rfl
  · omega
  · rw [hv] at a; cases a
  · rw [hv] at a; cases a
  · rw [hv] at a; cases a
  · rw [hv] at a; cases a
  · rw [hv] at a; cases a
  · rw [hv] at a; cases a

/-- The blank lines of the schedule before the last one. -/
theorem BlankFrame.blank_lines (vram palette : Bytes) (rest : List Int) (k : Nat) :
    ∀ (p : PPU) (y : Nat), BlankFrame p → p.CycleCount = 0 → p.CurrentLine = y → 160 ≤ y →
      y + k ≤ 227 →
      ∃ p2, StepFrame vram palette p (List.replicate k 1232 ++ rest) =
          StepFrame vram palette p2 rest ∧
        BlankFrame p2 ∧ p2.CycleCount = 0 ∧ p2.CurrentLine = (y + k : Nat) := by
  induction k with
  | zero => intro p y hb hc hy _ _; exact ⟨p, rfl, hb, hc, hy⟩
  | succ k ih =>
    intro p y hb hc hy hge hle
    obtain ⟨p1, e1, hb1, hc1, hy1⟩ := hb.blank_line vram palette p y hc hy hge (by omega)
      (List.replicate k 1232 ++ rest)
    obtain ⟨p2, e2, hb2, hc2, hy2⟩ := ih p1 (y + 1) hb1 hc1 hy1 (by omega) (by omega)
    refine ⟨p2, ?_, hb2, hc2, ?_⟩
    · rw [← e2, ← e1]
      rfl
    · rw [hy2]
      congr 1
      omega

/-- The last blank line: `Step` wraps the line counter and returns `true`. -/
theorem BlankFrame.wrap (vram palette : Bytes) (p : PPU) (hb : BlankFrame p)
    (hc : p.CycleCount = 0) (hy : p.CurrentLine = 227) (rest : List Int) :
    ∃ p', StepFrame vram palette p (1232 :: rest) = some (p', true) := by
  have hv : p.VBlank = true := by
    by_contra hcon
    have := hb.2.2.2.1.2.2.1 (by simpa using hcon)
    omega
  rcases Step_cases p vram palette 1232 with ⟨_, a, _⟩ | ⟨_, _, a, _⟩ | ⟨_, _, _, e⟩ |
    ⟨a, _, _, _⟩ | ⟨a, _, _, _, _⟩ | ⟨a, _, _, _, _⟩ | ⟨a, _, _, _⟩ |
    ⟨a, _, _, _, _⟩ | ⟨a, _, _, _, _⟩
  · omega
  · omega
  · exact ⟨_, StepFrame_cons_true vram palette p _ 1232 rest e⟩
  · rw [hv] at a; cases a
  · rw [hv] at a; cases a
  · rw [hv] at a; cases a
  · rw [hv] at a; cases a
  · rw [hv] at a; cases a
  · rw [hv] at a; cases a

/-- The schedule `frameCycles` runs a forced-blank frame from its start to the
frame-complete flag. -/
theorem BlankFrame.frameCycles_complete (vram palette : Bytes) :
    ∃ p', StepFrame vram palette New frameCycles = some (p', true) := by
  have e68 : List.replicate 68 (1232 : Int) = List.replicate 67 1232 ++ [1232] := by decide
  unfold frameCycles
  rw [e68]
  obtain ⟨p1, e1, hb1, hc1, _, hy1⟩ := BlankFrame.visible_lines vram palette
    (List.replicate 67 1232 ++ [1232]) 160 New 0 BlankFrame_New rfl rfl rfl (by norm_num)
  obtain ⟨p2, e2, hb2, hc2, hy2⟩ := BlankFrame.blank_lines vram palette [1232] 67 p1 160 hb1 hc1
    hy1 (by norm_num) (by norm_num)
  obtain ⟨p', e'⟩ := BlankFrame.wrap vram palette p2 hb2 hc2 hy2 []
  exact ⟨p', by rw [e1, e2, e']⟩

end PPU

/-- C17: in every PPU state reachable from `New` by `Reset`, `Step` (any cycle count, any
memory contents), `SetDISPSTAT` and `SetDISPCNT`, `VCOUNT` equals `CurrentLine`, and exactly
one of `VCOUNT < 160` with VBlank clear and `VCOUNT ≥ 160` with VBlank set holds. -/
theorem C17_vcount_line_vblank (p : PPU) (h : PPU.Reachable p) :
    (p.VCOUNT : Int) = p.CurrentLine ∧
    Xor' (p.VCOUNT < 160 ∧ p.VBlank = false) (p.VCOUNT ≥ 160 ∧ p.VBlank = true) := by
  obtain ⟨h0, h1, h2, h3⟩ := h.lineInv
  refine ⟨h1, ?_⟩
  cases hv : p.VBlank with
  | false =>
    have := h2 hv
    exact Or.inl ⟨⟨by omega, rfl⟩, fun a => by cases a.2⟩
  | true =>
    have := (h3 hv).1
    exact Or.inr ⟨⟨by omega, rfl⟩, fun a => by cases a.2⟩

/-- Witness for C17: the state after `New`, `SetDISPSTAT(0x0018)` and `SetDISPCNT(0x0403)`. -/
theorem C17_vcount_line_vblank_witness :
    PPU.Reachable ((PPU.New.SetDISPSTAT 0x0018).SetDISPCNT 0x0403) ∧
    (((PPU.New.SetDISPSTAT 0x0018).SetDISPCNT 0x0403).VCOUNT : Int) =
      ((PPU.New.SetDISPSTAT 0x0018).SetDISPCNT 0x0403).CurrentLine ∧
    Xor' (((PPU.New.SetDISPSTAT 0x0018).SetDISPCNT 0x0403).VCOUNT < 160 ∧
        ((PPU.New.SetDISPSTAT 0x0018).SetDISPCNT 0x0403).VBlank = false)
      (((PPU.New.SetDISPSTAT 0x0018).SetDISPCNT 0x0403).VCOUNT ≥ 160 ∧
        ((PPU.New.SetDISPSTAT 0x0018).SetDISPCNT 0x0403).VBlank = true) :=
  ⟨PPU.Reachable.setDISPCNT _ _ (PPU.Reachable.setDISPSTAT _ _ PPU.Reachable.new),
   C17_vcount_line_vblank _
     (PPU.Reachable.setDISPCNT _ _ (PPU.Reachable.setDISPSTAT _ _ PPU.Reachable.new))⟩

/-- C18, counterexample: after `New` and `SetDISPSTAT(0x0010)` (HBlank-IRQ enable set) the
state is reachable with `VCOUNT = 0`, and `Step(960)` returns `true` although `VCOUNT` is
still 0 afterwards: nothing wrapped from 227. -/
theorem C18_true_without_wrap_counterexample :
    PPU.Reachable (PPU.New.SetDISPSTAT 0x0010) ∧
    (PPU.New.SetDISPSTAT 0x0010).VCOUNT = 0 ∧
    ∃ p', (PPU.New.SetDISPSTAT 0x0010).Step (Bytes.make 0x18000) (Bytes.make 0x400) 960 =
        some (p', true) ∧
      p'.VCOUNT = 0 ∧
      ¬((PPU.New.SetDISPSTAT 0x0010).VCOUNT = 227 ∧ p'.VCOUNT = 0) := by
  refine ⟨PPU.Reachable.setDISPSTAT _ _ PPU.Reachable.new, rfl, ?_⟩
  rcases PPU.Step_cases (PPU.New.SetDISPSTAT 0x0010) (Bytes.make 0x18000) (Bytes.make 0x400) 960
    with ⟨a, _, _⟩ | ⟨a, _, _, _⟩ | ⟨a, _, _, _⟩ | ⟨_, a, _, _⟩ | ⟨_, a, _, _, _⟩ |
      ⟨_, a, _, _, _⟩ | ⟨_, _, a, _⟩ | ⟨_, _, _, _, e⟩ | ⟨_, _, _, a, _⟩
  · cases a
  · cases a
  · cases a
  · cases a
  · cases a
  · cases a
  · exact absurd a (by decide)
  · exact ⟨_, e, rfl, fun h => absurd h.1 (by decide)⟩
  · exact absurd a (by decide)

/-- C18, amended: in every reachable PPU state `VCOUNT ≤ 227` and `Step` returns; it
returns `true` exactly when the call wrapped `VCOUNT` from 227 to 0, or entered VBlank with
the VBlank-IRQ enable (DISPSTAT bit 3) set, or entered HBlank with the HBlank-IRQ enable
(DISPSTAT bit 4) set; with both enables clear it returns `true` exactly on the wrap. -/
theorem C18_step_true_iff_wrap_or_irq (p : PPU) (h : PPU.Reachable p) (vram palette : Bytes)
    (cycles : Int) :
    p.VCOUNT ≤ 227 ∧
    ∃ p' b, p.Step vram palette cycles = some (p', b) ∧
      (b = true ↔
        (p.VCOUNT = 227 ∧ p'.VCOUNT = 0) ∨
        (p.VBlank = false ∧ p'.VBlank = true ∧ p.DISPSTAT &&& 0x0008 ≠ 0) ∨
        (p.HBlank = false ∧ p'.HBlank = true ∧ p.DISPSTAT &&& 0x0010 ≠ 0)) ∧
      (p.DISPSTAT &&& 0x0008 = 0 → p.DISPSTAT &&& 0x0010 = 0 →
        (b = true ↔ p.VCOUNT = 227 ∧ p'.VCOUNT = 0)) := by
  have hl := h.lineInv
  obtain ⟨p', b, e, _, hb⟩ := PPU.Step_total p hl vram palette cycles
  obtain ⟨h0, h1, h2, h3⟩ := hl
  refine ⟨?_, p', b, e, hb, ?_⟩
  · cases hv : p.VBlank with
    | false => have := h2 hv; omega
    | true => have := (h3 hv).2.1; omega
  · intro h8 h10
    rw [hb]
    constructor
    · rintro (a | ⟨_, _, a⟩ | ⟨_, _, a⟩)
      · exact a
      · exact absurd h8 a
      · exact absurd h10 a
    · intro a
      exact Or.inl a

/-- Witness for C18: the reachable state of the counterexample, `Step(960)`. -/
theorem C18_step_true_iff_wrap_or_irq_witness :
    PPU.Reachable (PPU.New.SetDISPSTAT 0x0010) ∧
    (PPU.New.SetDISPSTAT 0x0010).VCOUNT ≤ 227 ∧
    ∃ p' b, (PPU.New.SetDISPSTAT 0x0010).Step (Bytes.make 0x18000) (Bytes.make 0x400) 960 =
        some (p', b) ∧
      (b = true ↔
        ((PPU.New.SetDISPSTAT 0x0010).VCOUNT = 227 ∧ p'.VCOUNT = 0) ∨
        ((PPU.New.SetDISPSTAT 0x0010).VBlank = false ∧ p'.VBlank = true ∧
          (PPU.New.SetDISPSTAT 0x0010).DISPSTAT &&& 0x0008 ≠ 0) ∨
        ((PPU.New.SetDISPSTAT 0x0010).HBlank = false ∧ p'.HBlank = true ∧
          (PPU.New.SetDISPSTAT 0x0010).DISPSTAT &&& 0x0010 ≠ 0)) ∧
      ((PPU.New.SetDISPSTAT 0x0010).DISPSTAT &&& 0x0008 = 0 →
        (PPU.New.SetDISPSTAT 0x0010).DISPSTAT &&& 0x0010 = 0 →
        (b = true ↔ (PPU.New.SetDISPSTAT 0x0010).VCOUNT = 227 ∧ p'.VCOUNT = 0)) :=
  ⟨PPU.Reachable.setDISPSTAT _ _ PPU.Reachable.new,
   C18_step_true_iff_wrap_or_irq _ (PPU.Reachable.setDISPSTAT _ _ PPU.Reachable.new)
     (Bytes.make 0x18000) (Bytes.make 0x400) 960⟩

/-- C19, the code at the failing input: in the visible state after `New` and
`SetDISPSTAT(0x0010)` (line 0, forced blank, HBlank-IRQ enable set), `Step(960)` sets HBlank
and the HBlank flag and returns `true`, but leaves the frame buffer as it was: pixel 0 of
line 0 is still 0, whereas `RenderScanline` in the resulting state makes it `0x7FFF`. -/
theorem C19_hblank_irq_skips_render :
    (PPU.New.SetDISPSTAT 0x0010).HBlank = false ∧
    (PPU.New.SetDISPSTAT 0x0010).VBlank = false ∧
    (PPU.New.SetDISPSTAT 0x0010).CurrentLine = 0 ∧
    (PPU.New.SetDISPSTAT 0x0010).CycleCount + 960 ≥ 960 ∧
    ∃ p', (PPU.New.SetDISPSTAT 0x0010).Step (Bytes.make 0x18000) (Bytes.make 0x400) 960 =
        some (p', true) ∧
      p'.HBlank = true ∧ p'.DISPSTAT &&& 0x0002 ≠ 0 ∧
      p'.FrameBuffer = (PPU.New.SetDISPSTAT 0x0010).FrameBuffer ∧
      p'.FrameBuffer 0 = 0 ∧
      ∃ q, p'.RenderScanline (Bytes.make 0x18000) (Bytes.make 0x400) = some q ∧
        q.FrameBuffer 0 = 0x7FFF := by
  refine ⟨rfl, rfl, rfl, by decide, ?_⟩
  rcases PPU.Step_cases (PPU.New.SetDISPSTAT 0x0010) (Bytes.make 0x18000) (Bytes.make 0x400) 960
    with ⟨a, _, _⟩ | ⟨a, _, _, _⟩ | ⟨a, _, _, _⟩ | ⟨_, a, _, _⟩ | ⟨_, a, _, _, _⟩ |
      ⟨_, a, _, _, _⟩ | ⟨_, _, a, _⟩ | ⟨_, _, _, _, e⟩ | ⟨_, _, _, a, _⟩
  · cases a
  · cases a
  · cases a
  · cases a
  · cases a
  · cases a
  · exact absurd a (by decide)
  · refine ⟨_, e, rfl, by decide, rfl, rfl, ?_⟩
    exact ⟨_, PPU.RenderScanline_forced _ (Bytes.make 0x18000) (Bytes.make 0x400) 0 rfl
      (by norm_num) (by decide), rfl⟩
  · exact absurd a (by decide)

/-- C20: with the forced-blank bit of `DISPCNT` set and `CurrentLine = y < 160`,
`RenderScanline` returns, sets the 240 pixels of row `y` to `0x7FFF` and changes nothing
else, whatever the mode bits are; and from a reset state with `DISPCNT = 0x0080`, every run
of `Step` calls returns, the whole frame buffer is white whenever the run ends with the
frame-complete flag, and the schedule `frameCycles` is such a run. -/
theorem C20_forced_blank_fills_white (p : PPU) (vram palette : Bytes) (y : Nat)
    (hfb : p.DISPCNT &&& 0x0080 ≠ 0) (hy : p.CurrentLine = y) (hy160 : y < 160)
    (p0 : PPU) (cs : List Int) :
    (∃ q, p.RenderScanline vram palette = some q ∧
      (∀ x, x < 240 → q.FrameBuffer (y * 240 + x) = 0x7FFF) ∧
      (∀ i, (i < y * 240 ∨ y * 240 + 240 ≤ i) → q.FrameBuffer i = p.FrameBuffer i) ∧
      PPU.SameRegs p q) ∧
    (∃ p' b, PPU.StepFrame vram palette (p0.Reset.SetDISPCNT 0x0080) cs = some (p', b) ∧
      (b = true → ∀ i, i < 240 * 160 → p'.FrameBuffer i = 0x7FFF)) ∧
    (∃ p', PPU.StepFrame vram palette (p0.Reset.SetDISPCNT 0x0080) PPU.frameCycles =
        some (p', true) ∧
      ∀ i, i < 240 * 160 → p'.FrameBuffer i = 0x7FFF) := by
  have hstart : p0.Reset.SetDISPCNT 0x0080 = PPU.New := rfl
  rw [hstart]
  refine ⟨⟨_, PPU.RenderScanline_forced p vram palette y hy hy160 hfb, ?_, ?_, rfl⟩, ?_, ?_⟩
  · intro x hx
    show (if y * 240 ≤ y * 240 + x ∧ y * 240 + x < y * 240 + 240 then 0x7FFF else _) = 0x7FFF
    rw [if_pos ⟨by omega, by omega⟩]
  · intro i hi
    show (if y * 240 ≤ i ∧ i < y * 240 + 240 then 0x7FFF else p.FrameBuffer i) = _
    rw [if_neg (by omega)]
  · obtain ⟨p', b, e, hw⟩ := PPU.BlankFrame.stepFrame vram palette cs PPU.New PPU.BlankFrame_New
    exact ⟨p', b, e, fun hb i hi => hw hb i (by omega)⟩
  · obtain ⟨p', e⟩ := PPU.BlankFrame.frameCycles_complete vram palette
    obtain ⟨q, b, e', hw⟩ := PPU.BlankFrame.stepFrame vram palette PPU.frameCycles PPU.New
      PPU.BlankFrame_New
    rw [e] at e'
    have h1 := Prod.mk.inj (Option.some.inj e')
    refine ⟨p', e, fun i hi => ?_⟩
    rw [h1.1]
    exact hw h1.2.symm i (by omega)

/-- Witness for C20: a fresh PPU (forced blank, line 0), and the schedule of one frame. -/
theorem C20_forced_blank_fills_white_witness :
    (PPU.New.DISPCNT &&& 0x0080 ≠ 0 ∧ PPU.New.CurrentLine = (0 : Nat) ∧ 0 < 160) ∧
    (∃ q, PPU.New.RenderScanline (Bytes.make 0x18000) (Bytes.make 0x400) = some q ∧
      (∀ x, x < 240 → q.FrameBuffer (0 * 240 + x) = 0x7FFF) ∧
      (∀ i, (i < 0 * 240 ∨ 0 * 240 + 240 ≤ i) → q.FrameBuffer i = PPU.New.FrameBuffer i) ∧
      PPU.SameRegs PPU.New q) ∧
    (∃ p' b, PPU.StepFrame (Bytes.make 0x18000) (Bytes.make 0x400)
        (PPU.New.Reset.SetDISPCNT 0x0080) PPU.frameCycles = some (p', b) ∧
      (b = true → ∀ i, i < 240 * 160 → p'.FrameBuffer i = 0x7FFF)) ∧
    (∃ p', PPU.StepFrame (Bytes.make 0x18000) (Bytes.make 0x400)
        (PPU.New.Reset.SetDISPCNT 0x0080) PPU.frameCycles = some (p', true) ∧
      ∀ i, i < 240 * 160 → p'.FrameBuffer i = 0x7FFF) :=
  ⟨⟨by decide, rfl, by decide⟩,
   C20_forced_blank_fills_white PPU.New (Bytes.make 0x18000) (Bytes.make 0x400) 0 (by decide)
     rfl (by decide) PPU.New PPU.frameCycles⟩


/-! ### Writes keep the region lengths -/

namespace MMU

theorem isSome_map_set? {b : Bytes} {i : Nat} (v : Nat) (f : Bytes → MMU) (h : i < b.len) :
    ((b.set? i v).map f).isSome = true := by
  rw [Bytes.set?_of_lt v h]; rfl

theorem writeIO8_isSome (m : MMU) (addr V : Nat) : (m.writeIO8 addr V).isSome = true := by
  unfold writeIO8
  simp only []
  repeat' (first
    | (with_reducible apply isSome_ite_cases <;> intro _)
    | (with_reducible exact Option.isSome_some)
    | (with_reducible apply isSome_map_set?; assumption))

theorem writeIO8_sized (m : MMU) (hm : m.Sized) (addr V : Nat) :
    ∀ m', m.writeIO8 addr V = some m' → m'.Sized := by
  obtain ⟨h1, h2, h3, h4, h5, h6, h7, h8⟩ := hm
  unfold writeIO8
  simp only []
  repeat' (first
    | (with_reducible apply ite_some_cases <;> intro _)
    | (intro m' hm'
       rw [Bytes.set?_of_lt _ (by assumption)] at hm'
       rw [← Option.some.inj hm']
       exact ⟨h1, h2, h3, h4, h5, h6, h7, h8⟩)
    | (intro m' hm'
       rw [← Option.some.inj hm']
       exact ⟨h1, h2, h3, h4, h5, h6, h7, h8⟩))

/-- With the region lengths of `New`, a byte write does not panic and keeps the lengths. -/
theorem Write8_sized (m : MMU) (hm : m.Sized) (A V : Nat) :
    ∃ m', m.Write8 A V = some m' ∧ m'.Sized := by
  by_cases hp : PlainRAM A
  · obtain ⟨m', e, hs, _⟩ := Write8_plain m hm A V hp
    exact ⟨m', e, hs⟩
  · by_cases hM : m.Mapped A
    · unfold PlainRAM at hp
      unfold Mapped at hM
      by_cases hio : IOStart ≤ A ∧ A < IOStart + IOLength
      · have hma := mirrorAddress_mmio hio
        rw [Write8_mmio m V (by rw [hma]; exact hio)]
        obtain ⟨m', e⟩ := Option.isSome_iff_exists.mp (writeIO8_isSome m (mirrorAddress A) V)
        exact ⟨m', e, writeIO8_sized m hm _ V m' e⟩
      · refine ⟨m, Write8_dropped m A V ?_, hm⟩
        simp only [BIOSStart, BIOSLength, WRAM256Start, WRAM256Length, WRAM32Start,
          WRAM32Length, IOStart, IOLength, PaletteStart, PaletteLength, VRAMStart, VRAMLenth,
          OAMStart, OAMLength, ROMStart, SRAMStart, SRAMLenth] at hp hM hio
        omega
    · exact ⟨m, Write8_unmapped m A V hM, hm⟩

theorem Write16_sized (m : MMU) (hm : m.Sized) (A V : Nat) :
    ∃ m', m.Write16 A V = some m' ∧ m'.Sized := by
  obtain ⟨m1, e1, h1⟩ := Write8_sized m hm A (V % 2 ^ 8)
  obtain ⟨m2, e2, h2⟩ := Write8_sized m1 h1 ((A + 1) % 2 ^ 32) ((V >>> 8) % 2 ^ 8)
  exact ⟨m2, by rw [Write16_of_Write8 e1, e2], h2⟩

theorem Write32_sized (m : MMU) (hm : m.Sized) (A V : Nat) :
    ∃ m', m.Write32 A V = some m' ∧ m'.Sized := by
  obtain ⟨m1, e1, h1⟩ := Write16_sized m hm A (V % 2 ^ 16)
  obtain ⟨m2, e2, h2⟩ := Write16_sized m1 h1 ((A + 2) % 2 ^ 32) ((V >>> 16) % 2 ^ 16)
  exact ⟨m2, by rw [Write32_of_Write16 e1, e2], h2⟩

end MMU

/-! ### DMA: the register effects of `Step` -/

namespace DMA

theorem bind_some_eq {α β : Type} {a : Option α} {v : α} (h : a = some v)
    (f : α → Option β) : (a >>= f) = f v := by
  subst h; rfl

theorem bind_of_some {α β : Type} {a : Option α} {v : α} (h : a = some v)
    (f : α → Option β) : a.bind f = f v := by
  subst h; rfl

/-- Moving one unit goes through and keeps the region lengths of the memory. -/
theorem moveUnit_sized (d : DMA) (m : MMU) (hm : m.Sized) (ch tt : Nat) :
    ∃ m', d.moveUnit m ch tt = some m' ∧ m'.Sized := by
  have h16 : ∃ m1, ((m.Read16 (d.InternalSource ch)).bind fun data =>
      m.Write16 (d.InternalDest ch) data) = some m1 ∧ m1.Sized := by
    obtain ⟨v, hv⟩ := Option.isSome_iff_exists.mp (MMU.Read16_isSome m hm (d.InternalSource ch))
    rw [bind_of_some hv]
    exact MMU.Write16_sized m hm _ _
  have h32 : ∃ m1, ((m.Read32 (d.InternalSource ch)).bind fun data =>
      m.Write32 (d.InternalDest ch) data) = some m1 ∧ m1.Sized := by
    obtain ⟨v, hv⟩ := Option.isSome_iff_exists.mp (MMU.Read32_isSome m hm (d.InternalSource ch))
    rw [bind_of_some hv]
    exact MMU.Write32_sized m hm _ _
  unfold moveUnit
  by_cases h3 : tt = 3
  · rw [if_pos h3]; exact h32
  · rw [if_neg h3]
    by_cases h2 : tt = 2
    · rw [if_pos h2]; exact h32
    · rw [if_neg h2]
      by_cases h1 : tt = 1
      · rw [if_pos h1]; exact h16
      · rw [if_neg h1]; exact h16

/-- One unit of a transfer goes through, keeps the region lengths of the memory, and
adjusts the two internal addresses. -/
theorem transferUnit_regs (d : DMA) (m : MMU) (hm : m.Sized) (ch tt sc dc : Nat) :
    ∃ m', d.transferUnit m ch tt sc dc =
        some ({ d with
                InternalSource := Function.update d.InternalSource ch
                  (adjustAddress (d.InternalSource ch) sc tt)
                InternalDest := Function.update d.InternalDest ch
                  (adjustAddress (d.InternalDest ch) dc tt) }, m') ∧ m'.Sized := by
  obtain ⟨m1, e1, h1⟩ := moveUnit_sized d m hm ch tt
  refine ⟨m1, ?_, h1⟩
  unfold transferUnit
  rw [bind_of_some e1]

/-- The unit loop goes through, keeps the region lengths of the memory, and adjusts the two
internal addresses `n` times. -/
theorem transferLoop_regs (ch tt sc dc : Nat) (n : Nat) :
    ∀ (d : DMA) (m : MMU), m.Sized →
      ∃ m', transferLoop ch tt sc dc n d m =
          some ({ d with
                  InternalSource := Function.update d.InternalSource ch
                    ((fun a => adjustAddress a sc tt)^[n] (d.InternalSource ch))
                  InternalDest := Function.update d.InternalDest ch
                    ((fun a => adjustAddress a dc tt)^[n] (d.InternalDest ch)) }, m') ∧
        m'.Sized := by
  induction n with
  | zero =>
    intro d m hm
    refine ⟨m, ?_, hm⟩
    show some (d, m) = _
    simp only [Function.iterate_zero, id_eq, Function.update_eq_self]
  | succ n ih =>
    intro d m hm
    obtain ⟨m1, e1, h1⟩ := transferUnit_regs d m hm ch tt sc dc
    obtain ⟨m2, e2, h2⟩ := ih _ m1 h1
    refine ⟨m2, ?_, h2⟩
    show (d.transferUnit m ch tt sc dc).bind _ = _
    rw [e1]
    show transferLoop ch tt sc dc n _ m1 = _
    rw [e2]
    simp only [Function.update_same, Function.update_idem, Function.iterate_succ_apply]

/-- `DMA.transfer` goes through on a memory with the region lengths of `New`; what it
leaves in the controller does not depend on the memory contents. -/
theorem transfer_regs (d : DMA) (m : MMU) (hm : m.Sized) (ch : Nat) :
    ∃ m', d.transfer m ch =
        some ((d.afterLoop ch).complete ch (d.words ch), m', ((d.words ch : Nat) : Int) * 2) ∧
      m'.Sized := by
  obtain ⟨m', e, h⟩ := transferLoop_regs ch ((d.CNT_H ch >>> 10) &&& 0x3)
    ((d.CNT_H ch >>> 7) &&& 0x3) ((d.CNT_H ch >>> 5) &&& 0x3) (d.words ch) d m hm
  refine ⟨m', ?_, h⟩
  unfold transfer
  simp only []
  unfold words at e
  rw [e]
  rfl

theorem stepChannel_regs (d : DMA) (m : MMU) (hm : m.Sized) (c : Int) (i : Nat) :
    ∃ m' c', stepChannel (d, m, c) i = some (d.settle i, m', c') ∧ m'.Sized := by
  unfold stepChannel settle
  by_cases ha : d.Active i = true
  · obtain ⟨m', e, h⟩ := transfer_regs d m hm i
    simp only []
    rw [if_pos ha, if_pos ha, e]
    exact ⟨m', _, rfl, h⟩
  · simp only []
    rw [if_neg ha, if_neg ha]
    exact ⟨m, c, rfl, hm⟩

/-- `DMA.Step` goes through on a memory with the region lengths of `New`, and runs the pass
of every channel in turn. -/
theorem Step_regs (d : DMA) (m : MMU) (hm : m.Sized) :
    ∃ m' c, d.Step m = some ((((d.settle 0).settle 1).settle 2).settle 3, m', c) ∧
      m'.Sized := by
  obtain ⟨m0, c0, e0, h0⟩ := stepChannel_regs d m hm 0 0
  obtain ⟨m1, c1, e1, h1⟩ := stepChannel_regs (d.settle 0) m0 h0 c0 1
  obtain ⟨m2, c2, e2, h2⟩ := stepChannel_regs ((d.settle 0).settle 1) m1 h1 c1 2
  obtain ⟨m3, c3, e3, h3⟩ := stepChannel_regs (((d.settle 0).settle 1).settle 2) m2 h2 c2 3
  refine ⟨m3, c3, ?_, h3⟩
  unfold Step
  rw [bind_some_eq e0, bind_some_eq e1, bind_some_eq e2]
  exact e3

theorem startTransfer_other (d : DMA) (i k : Nat) (hk : k ≠ i) :
    (d.startTransfer i).CNT_H = d.CNT_H ∧ (d.startTransfer i).Active k = d.Active k ∧
    (d.startTransfer i).InternalCount k = d.InternalCount k ∧
    (d.startTransfer i).InternalSource k = d.InternalSource k ∧
    (d.startTransfer i).InternalDest k = d.InternalDest k := by
  unfold startTransfer
  simp only []
  split_ifs <;> simp [Function.update, hk]

theorem complete_other (d : DMA) (i w k : Nat) (hk : k ≠ i) :
    (d.complete i w).CNT_H = d.CNT_H ∧ (d.complete i w).Active k = d.Active k ∧
    (d.complete i w).InternalCount k = d.InternalCount k ∧
    (d.complete i w).InternalSource k = d.InternalSource k ∧
    (d.complete i w).InternalDest k = d.InternalDest k := by
  unfold complete
  simp only []
  split_ifs
  · obtain ⟨a, b, c, e, f⟩ := startTransfer_other
      { d with
        InternalCount := Function.update d.InternalCount i
          ((d.InternalCount i + 2 ^ 32 - w) % 2 ^ 32)
        Active := Function.update d.Active i false
        Requested := ((1 <<< (8 + i)) % 2 ^ 16) :: d.Requested } i k hk
    exact ⟨a, by rw [b]; simp [Function.update, hk], by rw [c]; simp [Function.update, hk],
      e, f⟩
  · simp [Function.update, hk]
  · obtain ⟨a, b, c, e, f⟩ := startTransfer_other
      { d with
        InternalCount := Function.update d.InternalCount i
          ((d.InternalCount i + 2 ^ 32 - w) % 2 ^ 32)
        Active := Function.update d.Active i false } i k hk
    exact ⟨a, by rw [b]; simp [Function.update, hk], by rw [c]; simp [Function.update, hk],
      e, f⟩
  · simp [Function.update, hk]
  · simp [Function.update, hk]

/-- The pass of channel `i` leaves the registers of every other channel alone. -/
theorem settle_other (d : DMA) (i k : Nat) (hk : k ≠ i) :
    (d.settle i).CNT_H = d.CNT_H ∧ (d.settle i).Active k = d.Active k ∧
    (d.settle i).InternalCount k = d.InternalCount k ∧
    (d.settle i).InternalSource k = d.InternalSource k ∧
    (d.settle i).InternalDest k = d.InternalDest k := by
  unfold settle
  by_cases ha : d.Active i = true
  · rw [if_pos ha]
    obtain ⟨a, b, c, e, f⟩ := complete_other (d.afterLoop i) i (d.words i) k hk
    refine ⟨a, b, c, ?_, ?_⟩
    · rw [e]; unfold afterLoop; simp [Function.update, hk]
    · rw [f]; unfold afterLoop; simp [Function.update, hk]
  · rw [if_neg ha]
    exact ⟨rfl, rfl, rfl, rfl, rfl⟩

/-- The pass of an active channel `k` whose transfer does not end, or ends with the repeat
bit clear. -/
theorem settle_self (d : DMA) (k : Nat) (ha : d.Active k = true)
    (hc : (d.InternalCount k + 2 ^ 32 - d.words k) % 2 ^ 32 ≠ 0 ∨ d.CNT_H k &&& 0x0200 = 0) :
    (d.settle k).InternalCount k = (d.InternalCount k + 2 ^ 32 - d.words k) % 2 ^ 32 ∧
    (d.settle k).InternalSource k =
      (fun a => adjustAddress a ((d.CNT_H k >>> 7) &&& 0x3) ((d.CNT_H k >>> 10) &&& 0x3))^[
        d.words k] (d.InternalSource k) ∧
    (d.settle k).InternalDest k =
      (fun a => adjustAddress a ((d.CNT_H k >>> 5) &&& 0x3) ((d.CNT_H k >>> 10) &&& 0x3))^[
        d.words k] (d.InternalDest k) ∧
    (d.settle k).Active k =
      decide ((d.InternalCount k + 2 ^ 32 - d.words k) % 2 ^ 32 ≠ 0) := by
  unfold settle
  rw [if_pos ha]
  unfold complete afterLoop
  simp only [Function.update_same]
  by_cases hl : (d.InternalCount k + 2 ^ 32 - d.words k) % 2 ^ 32 = 0
  · have hr : d.CNT_H k &&& 0x0200 = 0 := by
      rcases hc with h | h
      · exact absurd hl h
      · exact h
    have hd : decide ((d.InternalCount k + 2 ^ 32 - d.words k) % 2 ^ 32 ≠ 0) = false :=
      decide_eq_false (fun h => h hl)
    rw [if_pos hl, hd]
    by_cases h4 : d.CNT_H k &&& 0x4000 ≠ 0
    · rw [if_pos h4]
      simp only []
      rw [if_neg (fun h => h hr)]
      refine ⟨?_, ?_, ?_, ?_⟩ <;> simp only [Function.update_same]
    · rw [if_neg h4]
      simp only []
      rw [if_neg (fun h => h hr)]
      refine ⟨?_, ?_, ?_, ?_⟩ <;> simp only [Function.update_same]
  · have hd : decide ((d.InternalCount k + 2 ^ 32 - d.words k) % 2 ^ 32 ≠ 0) = true :=
      decide_eq_true hl
    rw [if_neg hl, hd]
    refine ⟨?_, ?_, ?_, ha⟩ <;> simp only [Function.update_same]

/-- The same, for a state that agrees on channel `k` with the state `d` at the call. -/
theorem settle_self_of_eq (u d : DMA) (k : Nat) (h1 : u.CNT_H = d.CNT_H)
    (h2 : u.Active k = d.Active k) (h3 : u.InternalCount k = d.InternalCount k)
    (h4 : u.InternalSource k = d.InternalSource k) (h5 : u.InternalDest k = d.InternalDest k)
    (ha : d.Active k = true)
    (hc : (d.InternalCount k + 2 ^ 32 - d.words k) % 2 ^ 32 ≠ 0 ∨ d.CNT_H k &&& 0x0200 = 0) :
    (u.settle k).InternalCount k = (d.InternalCount k + 2 ^ 32 - d.words k) % 2 ^ 32 ∧
    (u.settle k).InternalSource k =
      (fun a => adjustAddress a ((d.CNT_H k >>> 7) &&& 0x3) ((d.CNT_H k >>> 10) &&& 0x3))^[
        d.words k] (d.InternalSource k) ∧
    (u.settle k).InternalDest k =
      (fun a => adjustAddress a ((d.CNT_H k >>> 5) &&& 0x3) ((d.CNT_H k >>> 10) &&& 0x3))^[
        d.words k] (d.InternalDest k) ∧
    (u.settle k).Active k =
      decide ((d.InternalCount k + 2 ^ 32 - d.words k) % 2 ^ 32 ≠ 0) := by
  have hw : u.words k = d.words k := by unfold words; rw [h3]
  have := settle_self u k (by rw [h2]; exact ha) (by rw [h3, hw, h1]; exact hc)
  rw [h1, h3, h4, h5, hw] at this
  exact this

/-- After the four passes of `DMA.Step`, an active channel `k` has made its own transfer,
whatever the other channels did. -/
theorem settle_all (d : DMA) (k : Nat) (hk : k < 4) (ha : d.Active k = true)
    (hc : (d.InternalCount k + 2 ^ 32 - d.words k) % 2 ^ 32 ≠ 0 ∨ d.CNT_H k &&& 0x0200 = 0) :
    ((((d.settle 0).settle 1).settle 2).settle 3).InternalCount k =
      (d.InternalCount k + 2 ^ 32 - d.words k) % 2 ^ 32 ∧
    ((((d.settle 0).settle 1).settle 2).settle 3).InternalSource k =
      (fun a => adjustAddress a ((d.CNT_H k >>> 7) &&& 0x3) ((d.CNT_H k >>> 10) &&& 0x3))^[
        d.words k] (d.InternalSource k) ∧
    ((((d.settle 0).settle 1).settle 2).settle 3).InternalDest k =
      (fun a => adjustAddress a ((d.CNT_H k >>> 5) &&& 0x3) ((d.CNT_H k >>> 10) &&& 0x3))^[
        d.words k] (d.InternalDest k) ∧
    ((((d.settle 0).settle 1).settle 2).settle 3).Active k =
      decide ((d.InternalCount k + 2 ^ 32 - d.words k) % 2 ^ 32 ≠ 0) := by
  interval_cases k
  · obtain ⟨s1, s2, s3, s4⟩ := settle_self d 0 ha hc
    obtain ⟨_, a2, a3, a4, a5⟩ := settle_other (d.settle 0) 1 0 (by norm_num)
    obtain ⟨_, b2, b3, b4, b5⟩ := settle_other ((d.settle 0).settle 1) 2 0 (by norm_num)
    obtain ⟨_, c2, c3, c4, c5⟩ := settle_other (((d.settle 0).settle 1).settle 2) 3 0
      (by norm_num)
    exact ⟨by rw [c3, b3, a3, s1], by rw [c4, b4, a4, s2], by rw [c5, b5, a5, s3],
      by rw [c2, b2, a2, s4]⟩
  · obtain ⟨p1, p2, p3, p4, p5⟩ := settle_other d 0 1 (by norm_num)
    obtain ⟨s1, s2, s3, s4⟩ := settle_self_of_eq (d.settle 0) d 1 p1 p2 p3 p4 p5 ha hc
    obtain ⟨_, b2, b3, b4, b5⟩ := settle_other ((d.settle 0).settle 1) 2 1 (by norm_num)
    obtain ⟨_, c2, c3, c4, c5⟩ := settle_other (((d.settle 0).settle 1).settle 2) 3 1
      (by norm_num)
    exact ⟨by rw [c3, b3, s1], by rw [c4, b4, s2], by rw [c5, b5, s3], by rw [c2, b2, s4]⟩
  · obtain ⟨p1, p2, p3, p4, p5⟩ := settle_other d 0 2 (by norm_num)
    obtain ⟨q1, q2, q3, q4, q5⟩ := settle_other (d.settle 0) 1 2 (by norm_num)
    obtain ⟨s1, s2, s3, s4⟩ := settle_self_of_eq ((d.settle 0).settle 1) d 2 (q1.trans p1)
      (q2.trans p2) (q3.trans p3) (q4.trans p4) (q5.trans p5) ha hc
    obtain ⟨_, c2, c3, c4, c5⟩ := settle_other (((d.settle 0).settle 1).settle 2) 3 2
      (by norm_num)
    exact ⟨by rw [c3, s1], by rw [c4, s2], by rw [c5, s3], by rw [c2, s4]⟩
  · obtain ⟨p1, p2, p3, p4, p5⟩ := settle_other d 0 3 (by norm_num)
    obtain ⟨q1, q2, q3, q4, q5⟩ := settle_other (d.settle 0) 1 3 (by norm_num)
    obtain ⟨r1, r2, r3, r4, r5⟩ := settle_other ((d.settle 0).settle 1) 2 3 (by norm_num)
    exact settle_self_of_eq (((d.settle 0).settle 1).settle 2) d 3 (r1.trans (q1.trans p1))
      (r2.trans (q2.trans p2)) (r3.trans (q3.trans p3)) (r4.trans (q4.trans p4))
      (r5.trans (q5.trans p5)) ha hc

/-- When the count reaches zero, `DMA.transfer` leaves the channel active exactly if the
repeat bit is set and the start timing is immediate; otherwise the channel is inactive. -/
theorem complete_Active (d : DMA) (ch w : Nat)
    (h0 : (d.InternalCount ch + 2 ^ 32 - w) % 2 ^ 32 = 0) :
    (d.complete ch w).Active ch =
      decide (d.CNT_H ch &&& 0x0200 ≠ 0 ∧ (d.CNT_H ch >>> 12) &&& 0x3 = 0) := by
  unfold complete
  simp only [Function.update_same]
  rw [if_pos h0]
  by_cases hr : d.CNT_H ch &&& 0x0200 ≠ 0
  · by_cases h4 : d.CNT_H ch &&& 0x4000 ≠ 0
    · rw [if_pos h4]
      simp only []
      rw [if_pos hr]
      unfold startTransfer
      simp only []
      by_cases ht : (d.CNT_H ch >>> 12) &&& 0x3 = 0
      · rw [if_pos ht, decide_eq_true ⟨hr, ht⟩]
        simp only [Function.update_same]
      · rw [if_neg ht, decide_eq_false (fun h => ht h.2)]
        simp only [Function.update_same]
    · rw [if_neg h4]
      simp only []
      rw [if_pos hr]
      unfold startTransfer
      simp only []
      by_cases ht : (d.CNT_H ch >>> 12) &&& 0x3 = 0
      · rw [if_pos ht, decide_eq_true ⟨hr, ht⟩]
        simp only [Function.update_same]
      · rw [if_neg ht, decide_eq_false (fun h => ht h.2)]
        simp only [Function.update_same]
  · rw [decide_eq_false (fun h => hr h.1)]
    by_cases h4 : d.CNT_H ch &&& 0x4000 ≠ 0
    · rw [if_pos h4]
      simp only []
      rw [if_neg hr]
      simp only [Function.update_same]
    · rw [if_neg h4]
      simp only []
      rw [if_neg hr]
      simp only [Function.update_same]

end DMA

/-! ### DMA: a halfword transfer copies memory -/

namespace MMU

/-- Addresses less than `0x8000` apart never decode to the same byte. -/
theorem mirrorAddress_ne_of_near {a b : Nat} (hne : a ≠ b) (h1 : a < b + 0x8000)
    (h2 : b < a + 0x8000) : mirrorAddress a ≠ mirrorAddress b := by
  rw [mirrorAddress_eq, mirrorAddress_eq]
  by_cases ha : 0x06010000 ≤ a ∧ a < 0x06018000 <;>
  by_cases hb : 0x06010000 ≤ b ∧ b < 0x06018000
  · rw [if_pos ha, if_pos hb]; omega
  · rw [if_pos ha, if_neg hb]; omega
  · rw [if_neg ha, if_pos hb]; omega
  · rw [if_neg ha, if_neg hb]; omega

/-- A halfword write to plain RAM stores the low byte at `A` and the high byte at `A+1`,
and is invisible at every address that decodes elsewhere. -/
theorem Write16_plain (m : MMU) (hm : m.Sized) (A V : Nat) (hlt : A + 1 < 2 ^ 32)
    (hA : PlainRAM A) (hA1 : PlainRAM (A + 1)) :
    ∃ m', m.Write16 A V = some m' ∧ m'.Sized ∧
      m'.Read8 A = some (V % 2 ^ 8) ∧ m'.Read8 (A + 1) = some ((V >>> 8) % 2 ^ 8) ∧
      ∀ B, mirrorAddress B ≠ mirrorAddress A → mirrorAddress B ≠ mirrorAddress (A + 1) →
        m'.Read8 B = m.Read8 B := by
  obtain ⟨m1, e1, s1, r1, o1⟩ := Write8_plain m hm A (V % 2 ^ 8) hA
  obtain ⟨m2, e2, s2, r2, o2⟩ := Write8_plain m1 s1 (A + 1) ((V >>> 8) % 2 ^ 8) hA1
  have hmod : (A + 1) % 2 ^ 32 = A + 1 := Nat.mod_eq_of_lt hlt
  refine ⟨m2, ?_, s2, ?_, ?_, ?_⟩
  · rw [Write16_of_Write8 e1, hmod, e2]
  · rw [o2 A (fun h => mirrorAddress_succ_ne A h.symm), r1]
    congr 1
    exact Nat.mod_eq_of_lt (Nat.mod_lt _ (by norm_num))
  · rw [r2]
    congr 1
    exact Nat.mod_eq_of_lt (Nat.mod_lt _ (by norm_num))
  · intro B hB hB1
    rw [o2 B hB1, o1 B hB]

end MMU

namespace DMA

/-- Moving one halfword: the two bytes at the destination become those of the source, and
no other byte changes. -/
theorem moveUnit_copy (d : DMA) (m : MMU) (hm : m.Sized) (ch tt : Nat) (htt : tt = 0 ∨ tt = 1)
    (s t : Nat) (hs : d.InternalSource ch = s) (ht : d.InternalDest ch = t)
    (hs32 : s + 1 < 2 ^ 32) (ht32 : t + 1 < 2 ^ 32)
    (hp0 : MMU.PlainRAM t) (hp1 : MMU.PlainRAM (t + 1)) :
    ∃ m', d.moveUnit m ch tt = some m' ∧ m'.Sized ∧
      m'.Read8 t = m.Read8 s ∧ m'.Read8 (t + 1) = m.Read8 (s + 1) ∧
      ∀ B, MMU.mirrorAddress B ≠ MMU.mirrorAddress t →
        MMU.mirrorAddress B ≠ MMU.mirrorAddress (t + 1) → m'.Read8 B = m.Read8 B := by
  obtain ⟨b0, b1, r0, r1, l0, l1, r16⟩ := MMU.Read16_bytes m hm s
  rw [Nat.mod_eq_of_lt hs32] at r1
  obtain ⟨m', e, hs', w0, w1, wo⟩ := MMU.Write16_plain m hm t (b0 + b1 * 2 ^ 8) ht32 hp0 hp1
  have hmove : d.moveUnit m ch tt = some m' := by
    unfold moveUnit
    rw [hs, ht]
    rcases htt with h | h
    · rw [if_neg (by omega), if_neg (by omega), if_neg (by omega), bind_of_some r16]
      exact e
    · rw [if_neg (by omega), if_neg (by omega), if_pos h, bind_of_some r16]
      exact e
  refine ⟨m', hmove, hs', ?_, ?_, wo⟩
  · rw [w0, r0]
    congr 1
    omega
  · rw [w1, r1]
    congr 1
    rw [Nat.shiftRight_eq_div_pow]
    omega

theorem adjustAddress_inc (a tt : Nat) (htt : tt = 0 ∨ tt = 1) (ha : a + 2 < 2 ^ 32) :
    adjustAddress a 0 tt = a + 2 := by
  have hinc : (if tt = 2 ∨ tt = 3 then 4 else 2) = 2 := if_neg (by omega)
  unfold adjustAddress
  show (if (0 : Nat) = 0 then (a + (if tt = 2 ∨ tt = 3 then 4 else 2)) % 2 ^ 32 else _) = _
  rw [if_pos rfl, hinc]
  exact Nat.mod_eq_of_lt ha

/-- The unit loop of a halfword transfer with both addresses incrementing copies `2 * n`
bytes and changes no other byte. -/
theorem transferLoop_copy (ch tt : Nat) (htt : tt = 0 ∨ tt = 1) (n : Nat) :
    ∀ (d : DMA) (m : MMU) (s t : Nat), m.Sized → d.InternalSource ch = s →
      d.InternalDest ch = t → s + 2 * n < 2 ^ 32 → t + 2 * n < 2 ^ 32 → 2 * n ≤ 0x8000 →
      (∀ k, k < 2 * n → MMU.PlainRAM (t + k)) →
      (∀ a b, a < 2 * n → b < 2 * n →
        MMU.mirrorAddress (s + a) ≠ MMU.mirrorAddress (t + b)) →
      ∃ d' m', transferLoop ch tt 0 0 n d m = some (d', m') ∧ m'.Sized ∧
        (∀ k, k < 2 * n → m'.Read8 (t + k) = m.Read8 (s + k)) ∧
        (∀ B, (∀ k, k < 2 * n → MMU.mirrorAddress B ≠ MMU.mirrorAddress (t + k)) →
          m'.Read8 B = m.Read8 B) := by
  induction n with
  | zero =>
    intro d m s t hm _ _ _ _ _ _ _
    exact ⟨d, m, rfl, hm, fun k hk => absurd hk (by omega), fun _ _ => rfl⟩
  | succ n ih =>
    intro d m s t hm hs ht hs32 ht32 hsmall hp hdisj
    obtain ⟨m1, e1, s1, w0, w1, wo⟩ := moveUnit_copy d m hm ch tt htt s t hs ht (by omega)
      (by omega) (by simpa using hp 0 (by omega)) (hp 1 (by omega))
    have hunit : d.transferUnit m ch tt 0 0 =
        some ({ d with
                InternalSource := Function.update d.InternalSource ch (s + 2)
                InternalDest := Function.update d.InternalDest ch (t + 2) }, m1) := by
      unfold transferUnit
      rw [bind_of_some e1]
      simp only []
      rw [hs, ht, adjustAddress_inc s tt htt (by omega), adjustAddress_inc t tt htt (by omega)]
    obtain ⟨d', m', e', s', c1, c2⟩ := ih
      { d with
        InternalSource := Function.update d.InternalSource ch (s + 2)
        InternalDest := Function.update d.InternalDest ch (t + 2) } m1 (s + 2) (t + 2) s1
      (by simp only [Function.update_same]) (by simp only [Function.update_same])
      (by omega) (by omega) (by omega)
      (fun k hk => by
        have := hp (k + 2) (by omega)
        rwa [show t + (k + 2) = t + 2 + k by omega] at this)
      (fun a b ha hb => by
        have := hdisj (a + 2) (b + 2) (by omega) (by omega)
        rwa [show s + (a + 2) = s + 2 + a by omega,
          show t + (b + 2) = t + 2 + b by omega] at this)
    refine ⟨d', m', ?_, s', ?_, ?_⟩
    · show (d.transferUnit m ch tt 0 0).bind _ = _
      rw [hunit]
      exact e'
    · intro k hk
      by_cases hk0 : k = 0
      · subst hk0
        rw [Nat.add_zero, Nat.add_zero, c2 t (fun j hj =>
          MMU.mirrorAddress_ne_of_near (by omega) (by omega) (by omega)), w0]
      · by_cases hk1 : k = 1
        · subst hk1
          rw [c2 (t + 1) (fun j hj =>
            MMU.mirrorAddress_ne_of_near (by omega) (by omega) (by omega)), w1]
        · have e : k = (k - 2) + 2 := by omega
          have hc := c1 (k - 2) (by omega)
          rw [show t + 2 + (k - 2) = t + k by omega,
            show s + 2 + (k - 2) = s + k by omega] at hc
          rw [hc]
          apply wo
          · have := hdisj k 0 hk (by omega)
            rwa [Nat.add_zero] at this
          · exact hdisj k 1 hk (by omega)
    · intro B hB
      rw [c2 B (fun j hj => by
        have := hB (j + 2) (by omega)
        rwa [show t + (j + 2) = t + 2 + j by omega] at this)]
      apply wo
      · have := hB 0 (by omega)
        rwa [Nat.add_zero] at this
      · exact hB 1 (by omega)

theorem stepChannel_idle (r : DMA × MMU × Int) (i : Nat) (h : r.1.Active i = false) :
    stepChannel r i = some r := by
  unfold stepChannel
  rw [if_neg (by rw [h]; exact Bool.false_ne_true)]

theorem stepChannel_run (d : DMA) (m : MMU) (c : Int) (i : Nat) (d1 : DMA) (m1 : MMU)
    (c1 : Int) (ha : d.Active i = true) (e : d.transfer m i = some (d1, m1, c1)) :
    stepChannel (d, m, c) i = some (d1, m1, c + c1) := by
  unfold stepChannel
  simp only []
  rw [if_pos ha, e]
  rfl

/-- `Step` when exactly one channel is active before and none after its transfer. -/
theorem Step_single (d : DMA) (m : MMU) (ch : Nat) (hch : ch < 4) (ha : d.Active ch = true)
    (hoth : ∀ k, k < 4 → k ≠ ch → d.Active k = false) (d1 : DMA) (m1 : MMU) (c1 : Int)
    (e : d.transfer m ch = some (d1, m1, c1))
    (hoth1 : ∀ k, k < 4 → k ≠ ch → d1.Active k = false) :
    d.Step m = some (d1, m1, 0 + c1) := by
  unfold Step
  interval_cases ch
  · rw [bind_some_eq (stepChannel_run d m 0 0 d1 m1 c1 ha e),
      bind_some_eq (stepChannel_idle _ 1 (hoth1 1 (by norm_num) (by norm_num))),
      bind_some_eq (stepChannel_idle _ 2 (hoth1 2 (by norm_num) (by norm_num)))]
    exact stepChannel_idle _ 3 (hoth1 3 (by norm_num) (by norm_num))
  · rw [bind_some_eq (stepChannel_idle _ 0 (hoth 0 (by norm_num) (by norm_num))),
      bind_some_eq (stepChannel_run d m 0 1 d1 m1 c1 ha e),
      bind_some_eq (stepChannel_idle _ 2 (hoth1 2 (by norm_num) (by norm_num)))]
    exact stepChannel_idle _ 3 (hoth1 3 (by norm_num) (by norm_num))
  · rw [bind_some_eq (stepChannel_idle _ 0 (hoth 0 (by norm_num) (by norm_num))),
      bind_some_eq (stepChannel_idle _ 1 (hoth 1 (by norm_num) (by norm_num))),
      bind_some_eq (stepChannel_run d m 0 2 d1 m1 c1 ha e)]
    exact stepChannel_idle _ 3 (hoth1 3 (by norm_num) (by norm_num))
  · rw [bind_some_eq (stepChannel_idle _ 0 (hoth 0 (by norm_num) (by norm_num))),
      bind_some_eq (stepChannel_idle _ 1 (hoth 1 (by norm_num) (by norm_num))),
      bind_some_eq (stepChannel_idle _ 2 (hoth 2 (by norm_num) (by norm_num)))]
    exact stepChannel_run d m 0 3 d1 m1 c1 ha e

/-- A transfer that ends with the repeat bit clear: the channel is inactive, and the
interrupt is requested exactly if bit 14 of `CNT_H` is set. -/
theorem complete_done (d : DMA) (ch w : Nat)
    (h0 : (d.InternalCount ch + 2 ^ 32 - w) % 2 ^ 32 = 0) (hr : d.CNT_H ch &&& 0x0200 = 0) :
    (d.complete ch w).Active ch = false ∧
    (d.complete ch w).Requested =
      (if d.CNT_H ch &&& 0x4000 ≠ 0 then ((1 <<< (8 + ch)) % 2 ^ 16) :: d.Requested
       else d.Requested) ∧
    (d.complete ch w).InternalCount ch = 0 := by
  unfold complete
  simp only [Function.update_same]
  rw [if_pos h0]
  by_cases h4 : d.CNT_H ch &&& 0x4000 ≠ 0
  · rw [if_pos h4, if_pos h4]
    simp only []
    rw [if_neg (fun h => h hr)]
    refine ⟨?_, rfl, ?_⟩ <;> simp only [Function.update_same]
    exact h0
  · rw [if_neg h4, if_neg h4]
    simp only []
    rw [if_neg (fun h => h hr)]
    refine ⟨?_, rfl, ?_⟩ <;> simp only [Function.update_same]
    exact h0

theorem and_mask28 {x : Nat} (h : x < 2 ^ 28) : x &&& 0x0FFFFFFF = x := by
  have e : (0x0FFFFFFF : Nat) = 2 ^ 28 - 1 := by norm_num
  rw [e, Nat.and_pow_two_sub_one_eq_mod, Nat.mod_eq_of_lt h]

theorem WriteSAD_eq (d : DMA) (ch : Nat) (hch : ch < 4) (S : Nat) (hS : S < 2 ^ 28) :
    d.WriteSAD ch S = some { d with SAD := Function.update d.SAD ch S } := by
  unfold WriteSAD
  rw [if_pos (by omega), if_pos (by omega), Int.toNat_ofNat, and_mask28 hS]

theorem WriteDAD_eq (d : DMA) (ch : Nat) (hch : ch < 4) (D : Nat) (hD : D < 2 ^ 28) :
    d.WriteDAD ch D = some { d with DAD := Function.update d.DAD ch D } := by
  unfold WriteDAD
  rw [if_pos (by omega), if_pos (by omega), Int.toNat_ofNat, and_mask28 hD]

theorem WriteCNT_L_eq (d : DMA) (ch : Nat) (hch : ch < 4) (N : Nat) :
    d.WriteCNT_L ch N = some { d with CNT_L := Function.update d.CNT_L ch N } := by
  unfold WriteCNT_L
  rw [if_pos (by omega), if_pos (by omega), Int.toNat_ofNat]

theorem WriteCNT_H_start (d : DMA) (ch : Nat) (hch : ch < 4) (cntH : Nat)
    (hold : d.CNT_H ch &&& 0x8000 = 0) (hen : cntH &&& 0x8000 ≠ 0) :
    d.WriteCNT_H ch cntH =
      some (startTransfer { d with CNT_H := Function.update d.CNT_H ch cntH } ch) := by
  have hd : decide (d.CNT_H ch &&& 0x8000 ≠ 0) = false := decide_eq_false (fun h => h hold)
  unfold WriteCNT_H
  simp only []
  rw [if_neg (by omega), if_neg (by omega), Int.toNat_ofNat, hd, if_pos ⟨rfl, hen⟩]

/-- The register writes that set up and start an immediate transfer on channel `ch`. -/
theorem setup_immediate (d : DMA) (ch : Nat) (hch : ch < 4) (S D N cntH : Nat)
    (hS : S < 2 ^ 28) (hD : D < 2 ^ 28) (hN : N ≠ 0) (hold : d.CNT_H ch &&& 0x8000 = 0)
    (hen : cntH &&& 0x8000 ≠ 0) (htm : (cntH >>> 12) &&& 0x3 = 0) :
    d.setup ch S D N cntH =
      some { d with
             SAD := Function.update d.SAD ch S
             DAD := Function.update d.DAD ch D
             CNT_L := Function.update d.CNT_L ch N
             CNT_H := Function.update d.CNT_H ch cntH
             InternalSource := Function.update d.InternalSource ch S
             InternalDest := Function.update d.InternalDest ch D
             InternalCount := Function.update d.InternalCount ch N
             Active := Function.update d.Active ch true } := by
  unfold setup
  rw [bind_some_eq (WriteSAD_eq d ch hch S hS), bind_some_eq (WriteDAD_eq _ ch hch D hD),
    bind_some_eq (WriteCNT_L_eq _ ch hch N)]
  refine (WriteCNT_H_start _ ch hch cntH ?_ hen).trans ?_
  · exact hold
  · unfold startTransfer
    simp only [Function.update_same]
    rw [if_neg hN, if_pos htm]

theorem PlainRAM_lt {A : Nat} (h : MMU.PlainRAM A) : A < 0x07000400 := by
  unfold MMU.PlainRAM at h
  simp only [WRAM256Start, WRAM256Length, WRAM32Start, WRAM32Length, PaletteStart,
    PaletteLength, VRAMStart, VRAMLenth, OAMStart, OAMLength] at h
  omega

/-- A halfword transfer of `N ≤ 16` units with both addresses incrementing, immediate start
and the repeat bit clear: the register writes followed by one `Step` copy the `2 * N` bytes
at `S` to `D`, change no other byte, leave the channel inactive, and request the interrupt
exactly if bit 14 of the control word is set. -/
theorem setup_Step_copies (d : DMA) (m : MMU) (hm : m.Sized) (ch : Nat) (hch : ch < 4)
    (S D N cntH : Nat) (hN1 : 1 ≤ N) (hN16 : N ≤ 16)
    (hold : d.CNT_H ch &&& 0x8000 = 0) (hen : cntH &&& 0x8000 ≠ 0)
    (htt : (cntH >>> 10) &&& 0x3 = 0 ∨ (cntH >>> 10) &&& 0x3 = 1)
    (hsc : (cntH >>> 7) &&& 0x3 = 0) (hdc : (cntH >>> 5) &&& 0x3 = 0)
    (htm : (cntH >>> 12) &&& 0x3 = 0) (hrep : cntH &&& 0x0200 = 0)
    (hoth : ∀ k, k < 4 → k ≠ ch → d.Active k = false)
    (hS : ∀ k, k < 2 * N → MMU.PlainRAM (S + k))
    (hD : ∀ k, k < 2 * N → MMU.PlainRAM (D + k))
    (hdisj : ∀ a b, a < 2 * N → b < 2 * N →
      MMU.mirrorAddress (S + a) ≠ MMU.mirrorAddress (D + b)) :
    ∃ d0 d' m' c, d.setup ch S D N cntH = some d0 ∧ d0.Step m = some (d', m', c) ∧
      m'.Sized ∧
      (∀ k, k < 2 * N → m'.Read8 (D + k) = m.Read8 (S + k)) ∧
      (∀ B, (∀ k, k < 2 * N → MMU.mirrorAddress B ≠ MMU.mirrorAddress (D + k)) →
        m'.Read8 B = m.Read8 B) ∧
      d'.Active ch = false ∧ d'.InternalCount ch = 0 ∧
      d'.Requested =
        (if cntH &&& 0x4000 ≠ 0 then ((1 <<< (8 + ch)) % 2 ^ 16) :: d.Requested
         else d.Requested) := by
  have hSlt := PlainRAM_lt (hS (2 * N - 1) (by omega))
  have hDlt := PlainRAM_lt (hD (2 * N - 1) (by omega))
  have he := setup_immediate d ch hch S D N cntH (by omega) (by omega) (by omega) hold hen htm
  generalize hd0 : ({ d with
      SAD := Function.update d.SAD ch S
      DAD := Function.update d.DAD ch D
      CNT_L := Function.update d.CNT_L ch N
      CNT_H := Function.update d.CNT_H ch cntH
      InternalSource := Function.update d.InternalSource ch S
      InternalDest := Function.update d.InternalDest ch D
      InternalCount := Function.update d.InternalCount ch N
      Active := Function.update d.Active ch true } : DMA) = d0 at he
  have f1 : d0.CNT_H ch = cntH := by rw [← hd0]; simp only [Function.update_same]
  have f2 : d0.InternalCount ch = N := by rw [← hd0]; simp only [Function.update_same]
  have f3 : d0.InternalSource ch = S := by rw [← hd0]; simp only [Function.update_same]
  have f4 : d0.InternalDest ch = D := by rw [← hd0]; simp only [Function.update_same]
  have f5 : d0.Active ch = true := by rw [← hd0]; simp only [Function.update_same]
  have f6 : ∀ k, k < 4 → k ≠ ch → d0.Active k = false := by
    intro k hk hne
    rw [← hd0]
    show Function.update d.Active ch true k = false
    rw [Function.update_noteq hne]
    exact hoth k hk hne
  have f7 : d0.Requested = d.Requested := by rw [← hd0]
  have hw : (if d0.InternalCount ch > 16 then 16 else d0.InternalCount ch) = N := by
    rw [f2, if_neg (by omega)]
  -- the unit loop
  obtain ⟨mR, eR, _⟩ := transferLoop_regs ch ((cntH >>> 10) &&& 0x3) 0 0 N d0 m hm
  obtain ⟨d1, m', eC, hs', c1, c2⟩ := transferLoop_copy ch ((cntH >>> 10) &&& 0x3) htt N d0 m S D
    hm f3 f4 (by omega) (by omega) (by omega) hD hdisj
  rw [eR] at eC
  have hinj := Prod.mk.inj (Option.some.inj eC)
  rw [hinj.2] at eR
  generalize hd1 : ({ d0 with
      InternalSource := Function.update d0.InternalSource ch
        ((fun a => adjustAddress a 0 ((cntH >>> 10) &&& 0x3))^[N] (d0.InternalSource ch))
      InternalDest := Function.update d0.InternalDest ch
        ((fun a => adjustAddress a 0 ((cntH >>> 10) &&& 0x3))^[N] (d0.InternalDest ch)) } :
        DMA) = dl at eR
  have g1 : dl.CNT_H ch = cntH := by rw [← hd1]; exact f1
  have g2 : dl.InternalCount ch = N := by rw [← hd1]; exact f2
  have g3 : dl.Requested = d.Requested := by rw [← hd1]; exact f7
  have g4 : ∀ k, dl.Active k = d0.Active k := by intro k; rw [← hd1]
  have htr : d0.transfer m ch = some (dl.complete ch N, m', ((N : Nat) : Int) * 2) := by
    unfold transfer
    simp only []
    rw [hw, f1, hsc, hdc, eR]
    rfl
  have hleft : (dl.InternalCount ch + 2 ^ 32 - N) % 2 ^ 32 = 0 := by
    rw [g2]; omega
  obtain ⟨k1, k2, k3⟩ := complete_done dl ch N hleft (by rw [g1]; exact hrep)
  have hoth1 : ∀ k, k < 4 → k ≠ ch → (dl.complete ch N).Active k = false := by
    intro k hk hne
    rw [(complete_other dl ch N k hne).2.1, g4, f6 k hk hne]
  refine ⟨d0, dl.complete ch N, m', _, he, Step_single d0 m ch hch f5 f6 _ _ _ htr hoth1, hs',
    c1, c2, k1, k3, ?_⟩
  rw [k2, g1, g3]

end DMA



/-- C14, the code at a failing input: channel 0 with `SAD = 0x02000000`, `DAD = 0x02001000`,
count 16 and `CNT_H = 0x8200` (enable, halfword, increment/increment, immediate, repeat bit
set, written over a clear enable bit), on a memory holding `0xBEEF` in the last source
halfword.  One `Step` copies the halfwords (the count had reached zero) and requests no
interrupt, but leaves the channel active with the count latched again; with
`CNT_H = 0x8000` (repeat clear) the same call leaves it inactive. -/
theorem C14_repeat_bit_leaves_channel_active :
    (DMA.oneChannel 16 0x8200).SAD 0 = 0x02000000 ∧
    (DMA.oneChannel 16 0x8200).DAD 0 = 0x02001000 ∧
    (DMA.oneChannel 16 0x8200).CNT_L 0 = 16 ∧
    ((DMA.oneChannel 16 0x8200).CNT_H 0 >>> 10) &&& 0x3 = 0 ∧
    ((DMA.oneChannel 16 0x8200).CNT_H 0 >>> 7) &&& 0x3 = 0 ∧
    ((DMA.oneChannel 16 0x8200).CNT_H 0 >>> 5) &&& 0x3 = 0 ∧
    ((DMA.oneChannel 16 0x8200).CNT_H 0 >>> 12) &&& 0x3 = 0 ∧
    (DMA.oneChannel 16 0x8200).Active 0 = true ∧
    DMA.sampleMemory.Read16 0x0200001E = some 0xBEEF ∧
    DMA.sampleMemory.Read16 0x0200101E = some 0 ∧
    ((DMA.oneChannel 16 0x8200).Step DMA.sampleMemory).bind
        (fun r => r.2.1.Read16 0x0200101E) = some 0xBEEF ∧
    ((DMA.oneChannel 16 0x8200).Step DMA.sampleMemory).map
        (fun r => (r.1.Active 0, r.1.InternalCount 0, r.1.Requested)) =
      some (true, 16, []) ∧
    ((DMA.oneChannel 16 0x8000).Step DMA.sampleMemory).map
        (fun r => (r.1.Active 0, r.1.InternalCount 0, r.1.Requested)) =
      some (false, 0, []) := by
  decide

/-- C15, the code at a failing input: channel 0 with count 1 and `CNT_H = 0x8200` (enable,
repeat, start timing immediate).  The single unit is moved in one `Step`, so the count
reaches zero in it, yet the channel is active afterwards, with the count latched again.
With start timing 1 (`CNT_H = 0x9200`, started by `Trigger(1)`) the same completion leaves
the channel inactive with count and destination latched again. -/
theorem C15_repeat_immediate_reactivated :
    (DMA.oneChannel 1 0x8200).Active 0 = true ∧
    (DMA.oneChannel 1 0x8200).InternalCount 0 = 1 ∧
    ((DMA.oneChannel 1 0x8200).Step MMU.New).map
        (fun r => (r.1.Active 0, r.1.InternalCount 0, r.1.InternalDest 0)) =
      some (true, 1, 0x02001000) ∧
    (DMA.oneChannel 1 0x9200).Active 0 = false ∧
    ((DMA.oneChannel 1 0x9200).Trigger 1).Active 0 = true ∧
    (((DMA.oneChannel 1 0x9200).Trigger 1).Step MMU.New).map
        (fun r => (r.1.Active 0, r.1.InternalCount 0, r.1.InternalDest 0)) =
      some (false, 1, 0x02001000) := by
  decide

/-- C16, counterexample: with channels 0 and 1 both active and one unit left each, one
`Step` also transfers the unit of channel 1: its `InternalCount` goes from 1 to 0 and its
internal addresses move on by 2. -/
theorem C16_second_channel_transfers_counterexample :
    DMA.twoActive.Active 0 = true ∧ DMA.twoActive.Active 1 = true ∧
    DMA.twoActive.InternalCount 1 = 1 ∧
    DMA.twoActive.InternalSource 1 = 0x02002000 ∧
    DMA.twoActive.InternalDest 1 = 0x02003000 ∧
    (DMA.twoActive.Step MMU.New).map
        (fun r => (r.1.InternalCount 1, r.1.InternalSource 1, r.1.InternalDest 1)) =
      some (0, 0x02002002, 0x02003002) := by
  decide

/-- C16, amended: on a memory with the region lengths of `New`, `Step` returns, and when
channels `i < j` are both active each of them makes its own transfer in that call: for
`k = i` and for `k = j`, unless the transfer ends with the repeat bit set, `InternalCount[k]`
drops by `words k` (the count, at most 16), both internal addresses are adjusted that many
times, and the channel stays active exactly if units are left; a count between 1 and
`2^32 - 1` gets smaller. -/
theorem C16_every_active_channel_transfers (d : DMA) (m : MMU) (hm : m.Sized) (i j : Nat)
    (hij : i < j) (hj : j < 4) (hai : d.Active i = true) (haj : d.Active j = true) :
    ∃ d' m' c, d.Step m = some (d', m', c) ∧ m'.Sized ∧
      ∀ k, k = i ∨ k = j →
        (((d.InternalCount k + 2 ^ 32 - d.words k) % 2 ^ 32 ≠ 0 ∨ d.CNT_H k &&& 0x0200 = 0) →
          d'.InternalCount k = (d.InternalCount k + 2 ^ 32 - d.words k) % 2 ^ 32 ∧
          d'.InternalSource k =
            (fun a => DMA.adjustAddress a ((d.CNT_H k >>> 7) &&& 0x3)
              ((d.CNT_H k >>> 10) &&& 0x3))^[d.words k] (d.InternalSource k) ∧
          d'.InternalDest k =
            (fun a => DMA.adjustAddress a ((d.CNT_H k >>> 5) &&& 0x3)
              ((d.CNT_H k >>> 10) &&& 0x3))^[d.words k] (d.InternalDest k) ∧
          d'.Active k = decide ((d.InternalCount k + 2 ^ 32 - d.words k) % 2 ^ 32 ≠ 0)) ∧
        (0 < d.InternalCount k → d.InternalCount k < 2 ^ 32 →
          (d.InternalCount k + 2 ^ 32 - d.words k) % 2 ^ 32 < d.InternalCount k) := by
  obtain ⟨m', c, e, hs⟩ := DMA.Step_regs d m hm
  refine ⟨_, m', c, e, hs, ?_⟩
  intro k hk
  have hk4 : k < 4 := by rcases hk with h | h <;> omega
  have hak : d.Active k = true := by
    rcases hk with h | h
    · rw [h]; exact hai
    · rw [h]; exact haj
  refine ⟨fun hc => DMA.settle_all d k hk4 hak hc, ?_⟩
  intro h0 h32
  unfold DMA.words
  split_ifs <;> omega

/-- Witness for C16: the two active channels of `twoActive` on a fresh memory. -/
theorem C16_every_active_channel_transfers_witness :
    (MMU.New.Sized ∧ 0 < 1 ∧ 1 < 4 ∧ DMA.twoActive.Active 0 = true ∧
      DMA.twoActive.Active 1 = true) ∧
    ∃ d' m' c, DMA.twoActive.Step MMU.New = some (d', m', c) ∧ m'.Sized ∧
      ∀ k, k = 0 ∨ k = 1 →
        (((DMA.twoActive.InternalCount k + 2 ^ 32 - DMA.twoActive.words k) % 2 ^ 32 ≠ 0 ∨
            DMA.twoActive.CNT_H k &&& 0x0200 = 0) →
          d'.InternalCount k =
            (DMA.twoActive.InternalCount k + 2 ^ 32 - DMA.twoActive.words k) % 2 ^ 32 ∧
          d'.InternalSource k =
            (fun a => DMA.adjustAddress a ((DMA.twoActive.CNT_H k >>> 7) &&& 0x3)
              ((DMA.twoActive.CNT_H k >>> 10) &&& 0x3))^[DMA.twoActive.words k]
              (DMA.twoActive.InternalSource k) ∧
          d'.InternalDest k =
            (fun a => DMA.adjustAddress a ((DMA.twoActive.CNT_H k >>> 5) &&& 0x3)
              ((DMA.twoActive.CNT_H k >>> 10) &&& 0x3))^[DMA.twoActive.words k]
              (DMA.twoActive.InternalDest k) ∧
          d'.Active k =
            decide ((DMA.twoActive.InternalCount k + 2 ^ 32 - DMA.twoActive.words k) % 2 ^ 32
              ≠ 0)) ∧
        (0 < DMA.twoActive.InternalCount k → DMA.twoActive.InternalCount k < 2 ^ 32 →
          (DMA.twoActive.InternalCount k + 2 ^ 32 - DMA.twoActive.words k) % 2 ^ 32 <
            DMA.twoActive.InternalCount k) :=
  ⟨⟨MMU.Sized_New, by decide, by decide, by decide, by decide⟩,
   C16_every_active_channel_transfers DMA.twoActive MMU.New MMU.Sized_New 0 1 (by decide)
     (by decide) (by decide) (by decide)⟩

/-! ### PPU: the mode-3 bitmap -/

namespace PPU

/-- The mode-3 loop: `n` consecutive pixels of row `y` from column `lo` on receive the
little-endian halfwords of VRAM at twice their frame-buffer index, and nothing else
changes. -/
theorem forX_mode3 (vram : Bytes) (y : Nat) (hy : y < 160) (hlen : 76800 ≤ vram.len) :
    ∀ (n lo : Nat) (p : PPU), p.CurrentLine = y → lo + n ≤ 240 →
      forX (fun x q =>
        let offset : Int := (q.CurrentLine * 240 + x) * 2
        if offset + 1 < vram.len then do
          let lo ← vram.getInt? offset
          let hi ← vram.getInt? (offset + 1)
          q.setPixel (q.CurrentLine * 240 + x) (lo ||| ((hi <<< 8) % 2 ^ 16))
        else some q) lo n p =
        some { p with FrameBuffer := fun i =>
          if y * 240 + lo ≤ i ∧ i < y * 240 + lo + n then
            (vram.data (2 * i) % 256 ||| ((vram.data (2 * i + 1) % 256) <<< 8) % 2 ^ 16)
          else p.FrameBuffer i } := by
  intro n
  induction n with
  | zero =>
    intro lo p _ _
    show some p = _
    congr 1
    have : (fun i => if y * 240 + lo ≤ i ∧ i < y * 240 + lo + 0 then
        vram.data (2 * i) % 256 ||| ((vram.data (2 * i + 1) % 256) <<< 8) % 2 ^ 16
        else p.FrameBuffer i) = p.FrameBuffer := by
      funext i
      rw [if_neg (by omega)]
    rw [this]
  | succ n ih =>
    intro lo p hp hle
    have hg : ((p.CurrentLine * 240 + (lo : Int)) * 2 + 1 < vram.len) := by rw [hp]; omega
    have e0 : ((p.CurrentLine * 240 + (lo : Int)) * 2).toNat = 2 * (y * 240 + lo) := by
      rw [hp]; omega
    have e1 : ((p.CurrentLine * 240 + (lo : Int)) * 2 + 1).toNat = 2 * (y * 240 + lo) + 1 := by
      rw [hp]; omega
    have e : (p.CurrentLine * 240 + (lo : Int)).toNat = y * 240 + lo := by rw [hp]; omega
    show (if (p.CurrentLine * 240 + (lo : Int)) * 2 + 1 < vram.len then
        (vram.getInt? ((p.CurrentLine * 240 + (lo : Int)) * 2) >>= fun a =>
          vram.getInt? ((p.CurrentLine * 240 + (lo : Int)) * 2 + 1) >>= fun b =>
            p.setPixel (p.CurrentLine * 240 + lo) (a ||| ((b <<< 8) % 2 ^ 16)))
        else some p).bind _ = _
    rw [if_pos hg, bind_eq_of_some (getInt?_some vram _ (by rw [hp]; omega) (by omega)),
      bind_eq_of_some (getInt?_some vram _ (by rw [hp]; omega) hg),
      setPixel_eq p _ _ (by rw [hp]; omega) (by rw [hp]; omega), e0, e1, e]
    show forX _ (lo + 1) n _ = _
    refine (ih (lo + 1) _ ?_ (by omega)).trans ?_
    · exact hp
    congr 2
    funext i
    show (if y * 240 + (lo + 1) ≤ i ∧ i < y * 240 + (lo + 1) + n then _
      else Function.update p.FrameBuffer (y * 240 + lo) _ i) = _
    rw [Function.update_apply]
    by_cases h2 : y * 240 + (lo + 1) ≤ i ∧ i < y * 240 + (lo + 1) + n
    · have hB : y * 240 + lo ≤ i ∧ i < y * 240 + lo + (n + 1) := by omega
      rw [if_pos h2, if_pos hB]
    · rw [if_neg h2]
      by_cases h1 : i = y * 240 + lo
      · have hB : y * 240 + lo ≤ i ∧ i < y * 240 + lo + (n + 1) := by omega
        rw [if_pos h1, if_pos hB, h1]
      · have hB : ¬(y * 240 + lo ≤ i ∧ i < y * 240 + lo + (n + 1)) := by omega
        rw [if_neg h1, if_neg hB]

/-- `RenderScanline` in mode 3 with the forced-blank and frame-select bits clear: row `y`
receives the halfwords of VRAM, nothing else changes. -/
theorem RenderScanline_mode3 (p : PPU) (vram palette : Bytes) (y : Nat)
    (hy : p.CurrentLine = y) (hy160 : y < 160) (hlen : 76800 ≤ vram.len)
    (hmode : p.DISPCNT &&& 0x0007 = 3) (hfb : p.DISPCNT &&& 0x0080 = 0)
    (hfs : p.DISPCNT &&& 0x0010 = 0) :
    p.RenderScanline vram palette =
      some { p with FrameBuffer := fun i =>
        if y * 240 ≤ i ∧ i < y * 240 + 240 then
          (vram.data (2 * i) % 256 ||| ((vram.data (2 * i + 1) % 256) <<< 8) % 2 ^ 16)
        else p.FrameBuffer i } := by
  unfold RenderScanline renderMode3
  simp only []
  rw [if_neg (not_not.mpr hfb), hmode, if_neg (by decide), if_neg (by decide),
    if_neg (by decide), if_pos rfl, if_neg (not_not.mpr hfs),
    forX_mode3 vram y hy160 hlen 240 0 p hy (by norm_num)]
  rfl

/-- `RenderScanline` in mode 3 with forced blank clear and the frame-select bit set returns
at once. -/
theorem RenderScanline_mode3_select (p : PPU) (vram palette : Bytes)
    (hmode : p.DISPCNT &&& 0x0007 = 3) (hfb : p.DISPCNT &&& 0x0080 = 0)
    (hfs : p.DISPCNT &&& 0x0010 ≠ 0) :
    p.RenderScanline vram palette = some p := by
  unfold RenderScanline renderMode3
  simp only []
  rw [if_neg (not_not.mpr hfb), hmode, if_neg (by decide), if_neg (by decide),
    if_neg (by decide), if_pos rfl, if_pos hfs]

theorem shl8_mod (b : Nat) : ((b % 256) <<< 8) % 2 ^ 16 = (b % 256) <<< 8 := by
  rw [Nat.shiftLeft_eq]
  omega

end PPU

/-- C21, counterexample: mode 3 with forced blank clear, line 0, VRAM starting with the
bytes `0x1F, 0x00`, but `DISPCNT = 0x0413` (frame-select bit set): `RenderScanline` leaves
the state as it was, so pixel (0,0) is still 0 and not `0x001F`. -/
theorem C21_frame_select_counterexample :
    (PPU.New.SetDISPCNT 0x0413).DISPCNT &&& 0x0007 = 3 ∧
    (PPU.New.SetDISPCNT 0x0413).DISPCNT &&& 0x0080 = 0 ∧
    (PPU.New.SetDISPCNT 0x0413).CurrentLine = 0 ∧
    (∃ q, (PPU.New.SetDISPCNT 0x0413).RenderScanline
        ⟨0x18000, fun i => if i = 0 then 0x1F else 0⟩ (Bytes.make 0x400) = some q ∧
      q.FrameBuffer 0 = 0 ∧ q = PPU.New.SetDISPCNT 0x0413) ∧
    ((if (0 : Nat) = 0 then 0x1F else 0) % 256 |||
      ((if (1 : Nat) = 0 then 0x1F else 0) % 256) <<< 8) = 0x001F :=
  ⟨by decide, by decide, rfl,
   ⟨_, PPU.RenderScanline_mode3_select _ _ _ (by decide) (by decide) (by decide), rfl, rfl⟩,
   by decide⟩

/-- C21, amended: with mode 3, forced blank clear, the frame-select bit (bit 4) clear,
`CurrentLine = y < 160` and the VRAM slice of the memory unit (`0x18000` bytes),
`RenderScanline` returns, sets `FrameBuffer[y*240 + x]` to
`VRAM[2*(y*240+x)] | VRAM[2*(y*240+x)+1] << 8` for every `x` in `0..239` and changes nothing
else, whatever the other bits of `DISPCNT` are; with bit 4 set instead it changes nothing. -/
theorem C21_mode3_row (p : PPU) (vram palette : Bytes) (y : Nat)
    (hmode : p.DISPCNT &&& 0x0007 = 3) (hfb : p.DISPCNT &&& 0x0080 = 0)
    (hy : p.CurrentLine = y) (hy160 : y < 160) (hlen : vram.len = VRAMLenth) :
    (p.DISPCNT &&& 0x0010 = 0 →
      ∃ q, p.RenderScanline vram palette = some q ∧
        (∀ x, x < 240 → q.FrameBuffer (y * 240 + x) =
          vram.data (2 * (y * 240 + x)) % 256 |||
            (vram.data (2 * (y * 240 + x) + 1) % 256) <<< 8) ∧
        (∀ i, (i < y * 240 ∨ y * 240 + 240 ≤ i) → q.FrameBuffer i = p.FrameBuffer i) ∧
        PPU.SameRegs p q) ∧
    (p.DISPCNT &&& 0x0010 ≠ 0 → p.RenderScanline vram palette = some p) := by
  have hl : 76800 ≤ vram.len := by rw [hlen]; decide
  refine ⟨fun hfs => ⟨_, PPU.RenderScanline_mode3 p vram palette y hy hy160 hl hmode hfb hfs,
    ?_, ?_, rfl⟩, fun hfs => PPU.RenderScanline_mode3_select p vram palette hmode hfb hfs⟩
  · intro x hx
    show (if y * 240 ≤ y * 240 + x ∧ y * 240 + x < y * 240 + 240 then _ else _) = _
    rw [if_pos ⟨by omega, by omega⟩, PPU.shl8_mod]
  · intro i hi
    show (if y * 240 ≤ i ∧ i < y * 240 + 240 then _ else p.FrameBuffer i) = _
    rw [if_neg (by omega)]

/-- Witness for C21: `DISPCNT = 0x0403`, line 0, VRAM starting with `0x1F, 0x00`: pixel
(0,0) becomes `0x001F`. -/
theorem C21_mode3_row_witness :
    ((PPU.New.SetDISPCNT 0x0403).DISPCNT &&& 0x0007 = 3 ∧
      (PPU.New.SetDISPCNT 0x0403).DISPCNT &&& 0x0080 = 0 ∧
      (PPU.New.SetDISPCNT 0x0403).CurrentLine = (0 : Nat) ∧ 0 < 160 ∧
      (⟨0x18000, fun i => if i = 0 then 0x1F else 0⟩ : Bytes).len = VRAMLenth ∧
      (PPU.New.SetDISPCNT 0x0403).DISPCNT &&& 0x0010 = 0) ∧
    ∃ q, (PPU.New.SetDISPCNT 0x0403).RenderScanline
        ⟨0x18000, fun i => if i = 0 then 0x1F else 0⟩ (Bytes.make 0x400) = some q ∧
      q.FrameBuffer 0 = 0x001F :=
  ⟨⟨by decide, by decide, rfl, by decide, rfl, by decide⟩,
   (((C21_mode3_row (PPU.New.SetDISPCNT 0x0403) ⟨0x18000, fun i => if i = 0 then 0x1F else 0⟩
      (Bytes.make 0x400) 0 (by decide) (by decide) rfl (by decide) rfl).1 (by decide)).imp
      fun _ h => ⟨h.1, h.2.1 0 (by decide)⟩)⟩

/-! ### CPU: bits and status flags -/

namespace CPU

theorem and_two_pow_ne_zero (x k : Nat) : x &&& 2 ^ k ≠ 0 ↔ x.testBit k = true := by
  constructor
  · intro h
    obtain ⟨i, hi⟩ := Nat.ne_zero_implies_bit_true h
    rw [Nat.testBit_and, Nat.testBit_two_pow] at hi
    simp only [Bool.and_eq_true, decide_eq_true_eq] at hi
    obtain ⟨h1, h2⟩ := hi
    rw [h2]
    exact h1
  · intro h h0
    have h1 : (x &&& 2 ^ k).testBit k = true := by
      rw [Nat.testBit_and, h, Nat.testBit_two_pow_self]
      rfl
    rw [h0] at h1
    simp at h1

theorem testBit31 (x : Nat) (h : x < 2 ^ 32) : x.testBit 31 = true ↔ 2 ^ 31 ≤ x := by
  rw [Nat.testBit_to_div_mod, decide_eq_true_eq]
  omega

/-- The sign test `v & 0x80000000 != 0` of a 32-bit word. -/
theorem sign_bit (x : Nat) (h : x < 2 ^ 32) : x &&& 0x80000000 ≠ 0 ↔ 2 ^ 31 ≤ x := by
  have e : (0x80000000 : Nat) = 2 ^ 31 := by norm_num
  rw [e, and_two_pow_ne_zero, testBit31 x h]

/-- The sign test of an exclusive or: the two words differ in sign. -/
theorem xor_sign (a b : Nat) (ha : a < 2 ^ 32) (hb : b < 2 ^ 32) :
    (a ^^^ b) &&& 0x80000000 ≠ 0 ↔ ¬(2 ^ 31 ≤ a ↔ 2 ^ 31 ≤ b) := by
  have e : (0x80000000 : Nat) = 2 ^ 31 := by norm_num
  rw [e, and_two_pow_ne_zero, Nat.testBit_xor, ← testBit31 a ha, ← testBit31 b hb]
  cases a.testBit 31 <;> cases b.testBit 31 <;> simp

theorem or_and_self_eq (x f : Nat) : (x ||| f) &&& f = f := by
  apply Nat.eq_of_testBit_eq
  intro i
  rw [Nat.testBit_and, Nat.testBit_or]
  cases x.testBit i <;> cases f.testBit i <;> rfl

theorem or_and_other (x a b : Nat) (h : a &&& b = 0) : (x ||| a) &&& b = x &&& b := by
  apply Nat.eq_of_testBit_eq
  intro i
  have h1 : (a &&& b).testBit i = false := by rw [h]; exact Nat.zero_testBit i
  rw [Nat.testBit_and] at h1
  rw [Nat.testBit_and, Nat.testBit_or, Nat.testBit_and]
  revert h1
  cases x.testBit i <;> cases a.testBit i <;> cases b.testBit i <;> simp

theorem and_and_other (x a b : Nat) (h : a &&& b = b) : (x &&& a) &&& b = x &&& b := by
  rw [Nat.and_assoc, h]

theorem GetFlag_SetFlag_same (c : CPU) (f : Nat) (b : Bool) (hf : f ≠ 0)
    (h : not32 f &&& f = 0) : (c.SetFlag f b).GetFlag f = b := by
  unfold SetFlag GetFlag
  cases b
  · show decide ((c.CPSR &&& not32 f) &&& f ≠ 0) = false
    rw [Nat.and_assoc, h, Nat.and_zero]
    rfl
  · show decide ((c.CPSR ||| f) &&& f ≠ 0) = true
    rw [or_and_self_eq]
    exact decide_eq_true hf

theorem GetFlag_SetFlag_other (c : CPU) (f g : Nat) (b : Bool) (h1 : f &&& g = 0)
    (h2 : not32 f &&& g = g) : (c.SetFlag f b).GetFlag g = c.GetFlag g := by
  unfold SetFlag GetFlag
  cases b
  · show decide ((c.CPSR &&& not32 f) &&& g ≠ 0) = _
    rw [and_and_other _ _ _ h2]
  · show decide ((c.CPSR ||| f) &&& g ≠ 0) = _
    rw [or_and_other _ _ _ h1]

/-- The four condition flags after `SetNZCV`. -/
theorem GetFlag_SetNZCV (c : CPU) (v : Nat) (carry overflow : Bool) :
    (c.SetNZCV v carry overflow).GetFlag FlagN = decide (v &&& 0x80000000 ≠ 0) ∧
    (c.SetNZCV v carry overflow).GetFlag FlagZ = decide (v = 0) ∧
    (c.SetNZCV v carry overflow).GetFlag FlagC = carry ∧
    (c.SetNZCV v carry overflow).GetFlag FlagV = overflow := by
  unfold SetNZCV SetNZC SetNZ
  refine ⟨?_, ?_, ?_, ?_⟩
  · rw [GetFlag_SetFlag_other _ FlagV FlagN _ (by decide) (by decide),
      GetFlag_SetFlag_other _ FlagC FlagN _ (by decide) (by decide),
      GetFlag_SetFlag_other _ FlagZ FlagN _ (by decide) (by decide),
      GetFlag_SetFlag_same _ FlagN _ (by decide) (by decide)]
  · rw [GetFlag_SetFlag_other _ FlagV FlagZ _ (by decide) (by decide),
      GetFlag_SetFlag_other _ FlagC FlagZ _ (by decide) (by decide),
      GetFlag_SetFlag_same _ FlagZ _ (by decide) (by decide)]
  · rw [GetFlag_SetFlag_other _ FlagV FlagC _ (by decide) (by decide),
      GetFlag_SetFlag_same _ FlagC _ (by decide) (by decide)]
  · rw [GetFlag_SetFlag_same _ FlagV _ (by decide) (by decide)]

end CPU

namespace CPU

theorem GetFlag_congr {c d : CPU} (h : c.CPSR = d.CPSR) (f : Nat) : c.GetFlag f = d.GetFlag f := by
  unfold GetFlag
  rw [h]

theorem alu_add (c : CPU) (a b : Nat) (carry : Bool) :
    c.alu 0x4 a b carry =
      (c, (a + b) % 2 ^ 32, decide ((a + b) % 2 ^ 32 < a),
        decide ((a ^^^ b) &&& 0x80000000 = 0 ∧ (a ^^^ ((a + b) % 2 ^ 32)) &&& 0x80000000 ≠ 0)) :=
  rfl

theorem alu_cmn (c : CPU) (a b : Nat) (carry : Bool) :
    c.alu 0xB a b carry =
      (c, (a + b) % 2 ^ 32, decide ((a + b) % 2 ^ 32 < a),
        decide ((a ^^^ b) &&& 0x80000000 = 0 ∧ (a ^^^ ((a + b) % 2 ^ 32)) &&& 0x80000000 ≠ 0)) :=
  rfl

theorem alu_sub (c : CPU) (a b : Nat) (carry : Bool) :
    c.alu 0x2 a b carry =
      (c, sub32 a b, decide (a ≥ b),
        decide ((a ^^^ b) &&& 0x80000000 ≠ 0 ∧ (a ^^^ sub32 a b) &&& 0x80000000 ≠ 0)) :=
  rfl

theorem alu_cmp (c : CPU) (a b : Nat) (carry : Bool) :
    c.alu 0xA a b carry =
      (c, sub32 a b, decide (a ≥ b),
        decide ((a ^^^ b) &&& 0x80000000 ≠ 0 ∧ (a ^^^ sub32 a b) &&& 0x80000000 ≠ 0)) :=
  rfl

theorem writeResult_CPSR (c : CPU) (opcode rd result : Nat) :
    (c.writeResult opcode rd result).CPSR = c.CPSR := by
  unfold writeResult
  split <;> rfl

theorem writeR15_of_ne (c : CPU) (s rd result : Nat) (h : rd ≠ 15) :
    c.writeR15 s rd result = c := by
  unfold writeR15
  rw [if_neg h]

/-- The status register after an arithmetic instruction (opcodes 2 to 7 and 8 to 11) with
the S bit set and a destination other than R15. -/
theorem handleDataProcessing_CPSR (c : CPU) (instr : Nat)
    (hop : (2 ≤ (instr >>> 21) &&& 0xF ∧ (instr >>> 21) &&& 0xF ≤ 7) ∨
      (instr >>> 21) &&& 0xF = 0xA ∨ (instr >>> 21) &&& 0xF = 0xB)
    (hs : (instr >>> 20) &&& 1 = 1) (hrd : (instr >>> 12) &&& 0xF ≠ 15) :
    (c.handleDataProcessing instr).1.CPSR =
      ((c.alu ((instr >>> 21) &&& 0xF) (c.rnValue instr) (c.operand2 instr).1
          (c.operand2 instr).2).1.SetNZCV
        (c.alu ((instr >>> 21) &&& 0xF) (c.rnValue instr) (c.operand2 instr).1
          (c.operand2 instr).2).2.1
        (c.alu ((instr >>> 21) &&& 0xF) (c.rnValue instr) (c.operand2 instr).1
          (c.operand2 instr).2).2.2.1
        (c.alu ((instr >>> 21) &&& 0xF) (c.rnValue instr) (c.operand2 instr).1
          (c.operand2 instr).2).2.2.2).CPSR := by
  unfold handleDataProcessing
  simp only []
  rw [writeR15_of_ne _ _ _ _ hrd, writeResult_CPSR]
  unfold setResultFlags
  rw [if_pos ⟨hs, hrd⟩]
  by_cases h8 : (instr >>> 21) &&& 0xF ≥ 0x8 ∧ (instr >>> 21) &&& 0xF ≤ 0xB
  · rw [if_pos h8]
  · rw [if_neg h8, if_pos (by omega)]

end CPU

namespace CPU

/-- The carry and overflow tests of an addition. -/
theorem add_flags (a b : Nat) (ha : a < 2 ^ 32) (hb : b < 2 ^ 32) :
    ((a + b) % 2 ^ 32 < a ↔ a + b ≥ 2 ^ 32) ∧
    (((a ^^^ b) &&& 0x80000000 = 0 ∧ (a ^^^ ((a + b) % 2 ^ 32)) &&& 0x80000000 ≠ 0) ↔
      ¬(-(2 ^ 31 : Int) ≤ signed32 a + signed32 b ∧ signed32 a + signed32 b < 2 ^ 31)) := by
  have hr : (a + b) % 2 ^ 32 < 2 ^ 32 := Nat.mod_lt _ (by norm_num)
  have h1 := xor_sign a b ha hb
  have h2 := xor_sign a ((a + b) % 2 ^ 32) ha hr
  have h1' : (a ^^^ b) &&& 0x80000000 = 0 ↔ (2 ^ 31 ≤ a ↔ 2 ^ 31 ≤ b) := by
    rw [← not_not (a := (a ^^^ b) &&& 0x80000000 = 0), ← not_not (a := (2 ^ 31 ≤ a ↔ 2 ^ 31 ≤ b))]
    exact not_congr h1
  rw [h1', h2]
  unfold signed32
  refine ⟨by omega, ?_⟩
  split_ifs <;> omega

/-- The carry and overflow tests of a subtraction. -/
theorem sub_flags (a b : Nat) (ha : a < 2 ^ 32) (hb : b < 2 ^ 32) :
    (((a ^^^ b) &&& 0x80000000 ≠ 0 ∧ (a ^^^ sub32 a b) &&& 0x80000000 ≠ 0) ↔
      ¬(-(2 ^ 31 : Int) ≤ signed32 a - signed32 b ∧ signed32 a - signed32 b < 2 ^ 31)) := by
  have hr : sub32 a b < 2 ^ 32 := Nat.mod_lt _ (by norm_num)
  have h1 := xor_sign a b ha hb
  have h2 := xor_sign a (sub32 a b) ha hr
  rw [h1, h2]
  unfold signed32 sub32
  split_ifs <;> omega

end CPU

namespace CPU

theorem fst_ite_cases {α β : Type} {p : Prop} [Decidable p] {t e : α × β} {x : α}
    (ht : p → t.1 = x) (he : ¬p → e.1 = x) : (ite p t e).1 = x := by
  by_cases h : p
  · rw [if_pos h]; exact ht h
  · rw [if_neg h]; exact he h

/-- Only TST and TEQ change the state inside the opcode switch. -/
theorem alu_state (c : CPU) (op a b : Nat) (carry : Bool) (h8 : op ≠ 0x8) (h9 : op ≠ 0x9) :
    (c.alu op a b carry).1 = c := by
  unfold alu
  repeat' (first
    | (with_reducible apply fst_ite_cases <;> intro _)
    | (with_reducible rfl)
    | contradiction)

theorem UpdateMode_CPSR (c : CPU) : c.UpdateMode.CPSR = c.CPSR := by
  unfold UpdateMode
  simp only []
  split_ifs <;> rfl

theorem UpdateMode_PC (c : CPU) : c.UpdateMode.PC = c.PC := by
  unfold UpdateMode
  simp only []
  split_ifs <;> rfl

theorem UpdateMode_Regs (c : CPU) (i : Nat) (h : i ≠ 15) : c.UpdateMode.Regs i = c.Regs i := by
  unfold UpdateMode
  simp only []
  split_ifs <;> exact Function.update_noteq h _ _

theorem SaveMode_Regs (c : CPU) (i : Nat) (h13 : i ≠ 13) (h14 : i ≠ 14) :
    c.SaveMode.Regs i = c.Regs i := by
  unfold SaveMode
  simp only []
  split_ifs
  · rfl
  · rfl
  · rfl
  · rfl
  · rfl
  · show Function.update (Function.update c.Regs 13 c.SP) 14 c.LR i = c.Regs i
    rw [Function.update_noteq h14, Function.update_noteq h13]

theorem SaveMode_CPSR (c : CPU) : c.SaveMode.CPSR = c.CPSR := by
  unfold SaveMode
  simp only []
  split_ifs <;> rfl

/-- `SwitchMode` writes no register below R13. -/
theorem SwitchMode_Regs (c : CPU) (M i : Nat) (h : i ≤ 12) :
    (c.SwitchMode M).Regs i = c.Regs i := by
  unfold SwitchMode
  simp only []
  rw [UpdateMode_Regs _ _ (by omega)]
  refine Eq.trans ?_ (SaveMode_Regs c i (by omega) (by omega))
  split_ifs <;> rfl

theorem restoreCPSR_Regs (c : CPU) (i : Nat) (h : i ≠ 15) : c.restoreCPSR.Regs i = c.Regs i := by
  unfold restoreCPSR
  rw [UpdateMode_Regs _ _ h]

theorem restoreCPSR_CPSR (c : CPU) : c.restoreCPSR.CPSR = c.GetSPSR := by
  unfold restoreCPSR
  rw [UpdateMode_CPSR]

theorem mode_bits (x M : Nat) (hM : M ≤ 0x1F) : ((x &&& not32 0x1F) ||| M) &&& 0x1F = M := by
  have e : not32 0x1F &&& 0x1F = 0 := by decide
  have e2 : M &&& 0x1F = M := by
    apply Nat.eq_of_testBit_eq
    intro i
    rw [Nat.testBit_and]
    by_cases hi : i < 5
    · have : (0x1F : Nat).testBit i = true := by
        interval_cases i <;> decide
      rw [this, Bool.and_true]
    · have : M.testBit i = false := by
        apply Nat.testBit_lt_two_pow
        calc M < 2 ^ 5 := by omega
          _ ≤ 2 ^ i := Nat.pow_le_pow_right (by norm_num) (by omega)
      rw [this, Bool.false_and]
  have e3 : ((x &&& not32 0x1F) ||| M) &&& 0x1F =
      ((x &&& not32 0x1F) &&& 0x1F) ||| (M &&& 0x1F) := by
    apply Nat.eq_of_testBit_eq
    intro i
    simp only [Nat.testBit_and, Nat.testBit_or]
    cases (x.testBit i && (not32 0x1F).testBit i) <;> cases M.testBit i <;>
      cases (0x1F : Nat).testBit i <;> rfl
  rw [e3, Nat.and_assoc, e, Nat.and_zero, e2, Nat.zero_or]

end CPU

/-! ### CPU: the shifter operand, dispatch and interrupt entry -/

namespace CPU

/-- A register operand shifted by an immediate amount: the amount 0 reaches `shift`
as 32. -/
theorem operand2_imm_shift (c : CPU) (instr : Nat) (h25 : instr &&& 0x02000000 = 0)
    (h4 : instr &&& 0x10 = 0) :
    c.operand2 instr =
      c.shift ((instr >>> 5) &&& 3) (c.Regs (instr &&& 0xF))
        (if (instr >>> 7) &&& 0x1F = 0 then 32 else (instr >>> 7) &&& 0x1F) := by
  unfold operand2
  rw [if_neg (not_not.mpr h25)]
  simp only []
  rw [if_neg (not_not.mpr h4)]

/-- The immediate form LSL #0: the operand is 0 and the carry is bit 0 of `Rm`. -/
theorem operand2_lsl0 (c : CPU) (instr : Nat) (h25 : instr &&& 0x02000000 = 0)
    (h4 : instr &&& 0x10 = 0) (hty : (instr >>> 5) &&& 3 = 0)
    (hamt : (instr >>> 7) &&& 0x1F = 0) :
    c.operand2 instr = (0, decide (c.Regs (instr &&& 0xF) &&& 1 ≠ 0)) := by
  rw [operand2_imm_shift c instr h25 h4, hty, hamt, if_pos rfl]
  rfl

/-- The immediate form LSR #0: a shift by 32. -/
theorem operand2_lsr0 (c : CPU) (instr : Nat) (h25 : instr &&& 0x02000000 = 0)
    (h4 : instr &&& 0x10 = 0) (hty : (instr >>> 5) &&& 3 = 1)
    (hamt : (instr >>> 7) &&& 0x1F = 0) :
    c.operand2 instr = (0, decide (c.Regs (instr &&& 0xF) &&& 0x80000000 ≠ 0)) := by
  rw [operand2_imm_shift c instr h25 h4, hty, hamt, if_pos rfl]
  rfl

/-- The immediate form ASR #0: a shift by 32. -/
theorem operand2_asr0 (c : CPU) (instr : Nat) (h25 : instr &&& 0x02000000 = 0)
    (h4 : instr &&& 0x10 = 0) (hty : (instr >>> 5) &&& 3 = 2)
    (hamt : (instr >>> 7) &&& 0x1F = 0) :
    c.operand2 instr =
      if c.Regs (instr &&& 0xF) &&& 0x80000000 ≠ 0 then (0xFFFFFFFF, true) else (0, false) := by
  rw [operand2_imm_shift c instr h25 h4, hty, hamt, if_pos rfl]
  rfl

/-- The immediate form ROR #0: the operand is `Rm` and the carry is the C flag. -/
theorem operand2_ror0 (c : CPU) (instr : Nat) (h25 : instr &&& 0x02000000 = 0)
    (h4 : instr &&& 0x10 = 0) (hty : (instr >>> 5) &&& 3 = 3)
    (hamt : (instr >>> 7) &&& 0x1F = 0) :
    c.operand2 instr = (c.Regs (instr &&& 0xF), c.GetFlag FlagC) := by
  rw [operand2_imm_shift c instr h25 h4, hty, hamt, if_pos rfl]
  rfl

theorem and_mask_of_eq (x a b v : Nat) (h : x &&& a = v) (hab : a &&& b = b) :
    x &&& b = v &&& b := by
  rw [← h, Nat.and_assoc, hab]

theorem Step_arm (c : CPU) (m : MMU) (hh : c.Halted = false) (ht : c.InThumbMode = false) :
    c.Step m =
      (c.executeARM m).map fun r =>
        ({ r.1 with StepCount := (r.1.StepCount + 1) % 2 ^ 64 }, r.2) := by
  unfold Step
  rw [hh, ht]
  rfl

/-- `executeARM` on a branch encoding whose condition passes. -/
theorem executeARM_branch (c : CPU) (m : MMU) (instr : Nat) (hr : m.Read32 c.PC = some instr)
    (hc : c.ConditionPassed ((instr >>> 28) &&& 0xF) = true)
    (hb : instr &&& 0x0E000000 = 0x0A000000) :
    c.executeARM m = some (c.handleBranch instr) := by
  unfold executeARM
  rw [hr]
  show some _ = some _
  congr 1
  simp only []
  have h3 : ¬(instr &&& 0x0E000090 = 0x00000090) := fun h => by
    have := and_mask_of_eq instr _ 0x0E000000 _ h (by decide)
    rw [hb] at this
    exact absurd this (by decide)
  have h4 : ¬(instr &&& 0x0E000F00 = 0x000000B0 ∨ instr &&& 0x0E000F00 = 0x000000D0) := by
    rintro (h | h)
    · have := and_mask_of_eq instr _ 0x0E000000 _ h (by decide)
      rw [hb] at this
      exact absurd this (by decide)
    · have := and_mask_of_eq instr _ 0x0E000000 _ h (by decide)
      rw [hb] at this
      exact absurd this (by decide)
  have n1 : ¬(instr &&& 0x0E000000 = 0x00000000 ∧ instr &&& 0x00000010 ≠ 0x00000010) :=
    fun h => by
      have h0 := h.1
      rw [hb] at h0
      exact absurd h0 (by decide)
  have n2 : ¬(instr &&& 0x0E000000 = 0x02000000) := by rw [hb]; decide
  have n5 : ¬(instr &&& 0x0E000000 = 0x08000000) := by rw [hb]; decide
  have n6 : ¬(instr &&& 0x0E000000 = 0x04000000) := by rw [hb]; decide
  rw [hc, if_neg (by decide), if_neg n1, if_neg n2, if_neg h3, if_neg h4, if_neg n5,
    if_neg n6, if_pos hb]

/-- `executeARM` on an encoding with bits 27..25 zero and bit 4 clear whose condition
passes. -/
theorem executeARM_dataProcessing (c : CPU) (m : MMU) (instr : Nat)
    (hr : m.Read32 c.PC = some instr)
    (hc : c.ConditionPassed ((instr >>> 28) &&& 0xF) = true)
    (hd : instr &&& 0x0E000000 = 0x00000000) (h4 : instr &&& 0x00000010 ≠ 0x00000010) :
    c.executeARM m = some ((c.advancePC 4).handleDataProcessing instr) := by
  unfold executeARM
  rw [hr]
  show some _ = some _
  congr 1
  simp only []
  rw [hc, if_neg (by decide), if_pos ⟨hd, h4⟩]

/-- A taken branch in ARM state: the target is the address of the instruction plus the
shifted offset, without the 8 bytes of the pipeline; a link goes to the field `LR` as the
address minus 4, and `Regs[14]` is not written. -/
theorem Step_branch (c : CPU) (m : MMU) (instr : Nat) (hh : c.Halted = false)
    (ht : c.InThumbMode = false) (hr : m.Read32 c.PC = some instr)
    (hc : c.ConditionPassed ((instr >>> 28) &&& 0xF) = true)
    (hb : instr &&& 0x0E000000 = 0x0A000000) :
    ∃ c', c.Step m = some (c', 1) ∧
      c'.PC = (c.PC + ((if (instr &&& 0x00FFFFFF) &&& 0x00800000 ≠ 0
        then (instr &&& 0x00FFFFFF) ||| 0xFF000000 else instr &&& 0x00FFFFFF) <<< 2) % 2 ^ 32)
          % 2 ^ 32 ∧
      c'.Regs 14 = c.Regs 14 ∧
      c'.LR = (if (instr >>> 24) &&& 1 = 1 then sub32 c.PC 4 else c.LR) := by
  rw [Step_arm c m hh ht, executeARM_branch c m instr hr hc hb]
  refine ⟨_, rfl, ?_, ?_, ?_⟩
  · unfold handleBranch
    simp only []
    split_ifs <;> rfl
  · unfold handleBranch
    simp only []
    split_ifs <;> rfl
  · unfold handleBranch
    simp only []
    split_ifs <;> rfl

theorem SwitchMode_CPSR (c : CPU) (M : Nat) :
    (c.SwitchMode M).CPSR = (c.CPSR &&& not32 0x1F) ||| M := by
  unfold SwitchMode
  simp only []
  rw [UpdateMode_CPSR, SaveMode_CPSR]
  split_ifs <;> rfl

theorem SwitchMode_PC (c : CPU) (M : Nat) : (c.SwitchMode M).PC = c.PC := by
  unfold SwitchMode
  simp only []
  rw [UpdateMode_PC]
  have : c.SaveMode.PC = c.PC := by
    unfold SaveMode
    simp only []
    split_ifs <;> rfl
  refine Eq.trans ?_ this
  split_ifs <;> rfl

theorem SetSPSR_CPSR (c : CPU) (v : Nat) : (c.SetSPSR v).CPSR = c.CPSR := by
  unfold SetSPSR
  simp only []
  split_ifs <;> rfl

/-- After `SwitchMode` to a mode number the mode bits hold it. -/
theorem SwitchMode_mode (c : CPU) (M : Nat) (hM : M ≤ 0x1F) :
    (c.SwitchMode M).CPSR &&& 0x1F = M := by
  rw [SwitchMode_CPSR, mode_bits _ _ hM]

end CPU

namespace GBA

/-- `handleInterrupt` returns at once unless the master enable is set, the I flag is clear
and an enabled interrupt is pending. -/
theorem handleInterrupt_idle (g : GBA)
    (h : ¬(g.MMU.IME ≠ 0 ∧ g.CPU.GetFlag FlagI = false ∧ g.MMU.IE &&& g.MMU.IF ≠ 0)) :
    g.handleInterrupt = g := by
  unfold handleInterrupt
  by_cases h1 : g.CPU.GetFlag FlagI = true
  · rw [if_pos h1]
  · rw [if_neg h1]
    by_cases h2 : g.MMU.IME = 0
    · rw [if_pos h2]
    · rw [if_neg h2]
      by_cases h3 : g.MMU.IE &&& g.MMU.IF = 0
      · rw [if_pos h3]
      · exact absurd ⟨h2, Bool.eq_false_iff.mpr h1, h3⟩ h

/-- The status register and the program counter after an interrupt is taken: the mode bits
are replaced by those of IRQ mode, and both the I bit and the T bit are set. -/
theorem handleInterrupt_enter (g : GBA) (h1 : g.MMU.IME ≠ 0) (h2 : g.CPU.GetFlag FlagI = false)
    (h3 : g.MMU.IE &&& g.MMU.IF ≠ 0) :
    g.handleInterrupt.CPU.CPSR =
      ((g.CPU.CPSR &&& not32 0x1F) ||| ModeIRQ) ||| (FlagI ||| FlagT) ∧
    g.handleInterrupt.CPU.PC = 0x00000018 ∧
    g.handleInterrupt.MMU = g.MMU := by
  unfold handleInterrupt
  rw [if_neg (by rw [h2]; decide), if_neg h1, if_neg h3]
  refine ⟨?_, rfl, rfl⟩
  show (((g.CPU.SaveMode).SwitchMode ModeIRQ).SetSPSR _).CPSR ||| (FlagI ||| FlagT) = _
  rw [CPU.SetSPSR_CPSR, CPU.SwitchMode_CPSR, CPU.SaveMode_CPSR]

/-- The flags and mode after an interrupt is taken. -/
theorem handleInterrupt_flags (g : GBA) (h1 : g.MMU.IME ≠ 0) (h2 : g.CPU.GetFlag FlagI = false)
    (h3 : g.MMU.IE &&& g.MMU.IF ≠ 0) :
    g.handleInterrupt.CPU.CPSR &&& 0x1F = ModeIRQ ∧
    g.handleInterrupt.CPU.GetFlag FlagI = true ∧
    g.handleInterrupt.CPU.GetFlag FlagT = true := by
  have e := (handleInterrupt_enter g h1 h2 h3).1
  refine ⟨?_, ?_, ?_⟩
  · rw [e, CPU.or_and_other _ _ _ (by decide), CPU.mode_bits _ _ (by decide)]
  · unfold CPU.GetFlag
    rw [e, decide_eq_true_eq]
    have : FlagI = 2 ^ 7 := by decide
    rw [this, CPU.and_two_pow_ne_zero, Nat.testBit_or, ← this]
    have : (FlagI ||| FlagT).testBit 7 = true := by decide
    rw [this, Bool.or_true]
  · unfold CPU.GetFlag
    rw [e, decide_eq_true_eq]
    have : FlagT = 2 ^ 5 := by decide
    rw [this, CPU.and_two_pow_ne_zero, Nat.testBit_or, ← this]
    have : (FlagI ||| FlagT).testBit 5 = true := by decide
    rw [this, Bool.or_true]

end GBA

namespace CPU

theorem UpdateMode_SPSRs (c : CPU) :
    c.UpdateMode.SPSRfiq = c.SPSRfiq ∧ c.UpdateMode.SPSRirq = c.SPSRirq ∧
    c.UpdateMode.SPSRsvc = c.SPSRsvc ∧ c.UpdateMode.SPSRabt = c.SPSRabt ∧
    c.UpdateMode.SPSRund = c.SPSRund := by
  unfold UpdateMode
  simp only []
  split_ifs <;> exact ⟨rfl, rfl, rfl, rfl, rfl⟩

theorem SaveMode_SPSRs (c : CPU) :
    c.SaveMode.SPSRfiq = c.SPSRfiq ∧ c.SaveMode.SPSRirq = c.SPSRirq ∧
    c.SaveMode.SPSRsvc = c.SPSRsvc ∧ c.SaveMode.SPSRabt = c.SPSRabt ∧
    c.SaveMode.SPSRund = c.SPSRund := by
  unfold SaveMode
  simp only []
  split_ifs <;> exact ⟨rfl, rfl, rfl, rfl, rfl⟩

/-- `SwitchMode` writes the saved status register of the old mode only: the register of
any other mode, the new one included, keeps its value. -/
theorem SwitchMode_SPSRs (c : CPU) (M : Nat) :
    (c.CPSR &&& 0x1F ≠ ModeFIQ → (c.SwitchMode M).SPSRfiq = c.SPSRfiq) ∧
    (c.CPSR &&& 0x1F ≠ ModeIRQ → (c.SwitchMode M).SPSRirq = c.SPSRirq) ∧
    (c.CPSR &&& 0x1F ≠ ModeSupervisor → (c.SwitchMode M).SPSRsvc = c.SPSRsvc) ∧
    (c.CPSR &&& 0x1F ≠ ModeAbort → (c.SwitchMode M).SPSRabt = c.SPSRabt) ∧
    (c.CPSR &&& 0x1F ≠ ModeUndefined → (c.SwitchMode M).SPSRund = c.SPSRund) := by
  obtain ⟨u1, u2, u3, u4, u5⟩ := UpdateMode_SPSRs
    (if c.SaveMode.CPSR &&& 0x1F = ModeFIQ then
      { c.SaveMode with
        CPSR := (c.SaveMode.CPSR &&& not32 0x1F) ||| M
        SPSRfiq := (c.SaveMode.CPSR &&& not32 0x1F) ||| M }
    else if c.SaveMode.CPSR &&& 0x1F = ModeIRQ then
      { c.SaveMode with
        CPSR := (c.SaveMode.CPSR &&& not32 0x1F) ||| M
        SPSRirq := (c.SaveMode.CPSR &&& not32 0x1F) ||| M }
    else if c.SaveMode.CPSR &&& 0x1F = ModeSupervisor then
      { c.SaveMode with
        CPSR := (c.SaveMode.CPSR &&& not32 0x1F) ||| M
        SPSRsvc := (c.SaveMode.CPSR &&& not32 0x1F) ||| M }
    else if c.SaveMode.CPSR &&& 0x1F = ModeAbort then
      { c.SaveMode with
        CPSR := (c.SaveMode.CPSR &&& not32 0x1F) ||| M
        SPSRabt := (c.SaveMode.CPSR &&& not32 0x1F) ||| M }
    else if c.SaveMode.CPSR &&& 0x1F = ModeUndefined then
      { c.SaveMode with
        CPSR := (c.SaveMode.CPSR &&& not32 0x1F) ||| M
        SPSRund := (c.SaveMode.CPSR &&& not32 0x1F) ||| M }
    else { c.SaveMode with CPSR := (c.SaveMode.CPSR &&& not32 0x1F) ||| M })
  obtain ⟨s1, s2, s3, s4, s5⟩ := SaveMode_SPSRs c
  have hm := SaveMode_CPSR c
  refine ⟨fun h => ?_, fun h => ?_, fun h => ?_, fun h => ?_, fun h => ?_⟩
  · refine (u1.trans ?_).trans s1
    rw [hm]
    split_ifs <;> first | rfl | contradiction
  · refine (u2.trans ?_).trans s2
    rw [hm]
    split_ifs <;> rfl
  · refine (u3.trans ?_).trans s3
    rw [hm]
    split_ifs <;> rfl
  · refine (u4.trans ?_).trans s4
    rw [hm]
    split_ifs <;> rfl
  · refine (u5.trans ?_).trans s5
    rw [hm]
    split_ifs <;> rfl

/-- After a switch from another mode into IRQ mode, `GetSPSR` returns what `SPSR_irq` held
before the switch, not the status register that was current. -/
theorem SwitchMode_GetSPSR_irq (c : CPU) (h : c.CPSR &&& 0x1F ≠ ModeIRQ) :
    (c.SwitchMode ModeIRQ).GetSPSR = c.SPSRirq := by
  unfold GetSPSR
  simp only []
  rw [SwitchMode_mode c ModeIRQ (by decide), if_neg (by decide), if_pos rfl]
  exact (SwitchMode_SPSRs c ModeIRQ).2.1 h

end CPU

namespace CPU

theorem writeResult_GetSPSR (c : CPU) (opcode rd result : Nat) :
    (c.writeResult opcode rd result).GetSPSR = c.GetSPSR := by
  unfold writeResult
  split <;> rfl

/-- The destination register after an opcode that writes its result, for a destination
other than R15. -/
theorem handleDataProcessing_Regs (c : CPU) (instr : Nat)
    (hop : (instr >>> 21) &&& 0xF ≠ 0x8 ∧ (instr >>> 21) &&& 0xF ≠ 0x9 ∧
      (instr >>> 21) &&& 0xF ≠ 0xA ∧ (instr >>> 21) &&& 0xF ≠ 0xB)
    (hrd : (instr >>> 12) &&& 0xF ≠ 15) :
    (c.handleDataProcessing instr).1.Regs ((instr >>> 12) &&& 0xF) =
      (c.alu ((instr >>> 21) &&& 0xF) (c.rnValue instr) (c.operand2 instr).1
        (c.operand2 instr).2).2.1 := by
  unfold handleDataProcessing
  simp only []
  rw [writeR15_of_ne _ _ _ _ hrd]
  unfold writeResult
  rw [if_pos hop]
  exact Function.update_same _ _ _

theorem sign_flag (v : Nat) : decide (v &&& 0x80000000 ≠ 0) = v.testBit 31 := by
  have e : (0x80000000 : Nat) = 2 ^ 31 := by norm_num
  rw [Bool.eq_iff_iff, decide_eq_true_eq, e]
  exact and_two_pow_ne_zero v 31

/-- In a privileged mode `SaveMode` leaves `Regs[13]` and `Regs[14]` alone. -/
theorem SaveMode_Regs_privileged (c : CPU)
    (h : c.CPSR &&& 0x1F = ModeFIQ ∨ c.CPSR &&& 0x1F = ModeIRQ ∨
      c.CPSR &&& 0x1F = ModeSupervisor ∨ c.CPSR &&& 0x1F = ModeAbort ∨
      c.CPSR &&& 0x1F = ModeUndefined) : c.SaveMode.Regs = c.Regs := by
  unfold SaveMode
  simp only []
  split_ifs
  · rfl
  · rfl
  · rfl
  · rfl
  · rfl
  · rcases h with h | h | h | h | h <;> contradiction

/-- From a privileged mode, `SwitchMode` leaves `Regs[13]` and `Regs[14]` as they were,
whatever the banks of the new mode hold. -/
theorem SwitchMode_Regs_privileged (c : CPU) (M i : Nat) (hi : i ≠ 15)
    (h : c.CPSR &&& 0x1F = ModeFIQ ∨ c.CPSR &&& 0x1F = ModeIRQ ∨
      c.CPSR &&& 0x1F = ModeSupervisor ∨ c.CPSR &&& 0x1F = ModeAbort ∨
      c.CPSR &&& 0x1F = ModeUndefined) : (c.SwitchMode M).Regs i = c.Regs i := by
  unfold SwitchMode
  simp only []
  rw [UpdateMode_Regs _ _ hi]
  refine Eq.trans ?_ (congrFun (SaveMode_Regs_privileged c h) i)
  split_ifs <;> rfl

end CPU

namespace CPU

theorem not32_lt (x : Nat) : not32 x < 2 ^ 32 := by
  unfold not32
  exact Nat.xor_lt_two_pow (by norm_num) (Nat.mod_lt _ (by norm_num))

theorem shiftRight_lt (v s : Nat) (h : v < 2 ^ 32) : v >>> s < 2 ^ 32 := by
  rw [Nat.shiftRight_eq_div_pow]
  exact lt_of_le_of_lt (Nat.div_le_self _ _) h

/-- The shifter returns a 32-bit value. -/
theorem shift_lt (c : CPU) (ty v s : Nat) (h : v < 2 ^ 32) : (c.shift ty v s).1 < 2 ^ 32 := by
  have hm : ∀ x : Nat, x % 2 ^ 32 < 2 ^ 32 := fun x => Nat.mod_lt _ (by norm_num)
  unfold shift
  simp only []
  split_ifs
  · exact h
  · norm_num
  · exact hm _
  · norm_num
  · exact shiftRight_lt v s h
  · norm_num
  · norm_num
  · exact Nat.or_lt_two_pow (shiftRight_lt v s h) (not32_lt _)
  · exact shiftRight_lt v s h
  · exact h
  · exact Nat.or_lt_two_pow (shiftRight_lt v _ h) (hm _)
  · exact h

theorem and_0xF_lt (x : Nat) : x &&& 0xF < 16 :=
  Nat.and_lt_two_pow x (show (0xF : Nat) < 2 ^ 4 by norm_num)

/-- In a state with 32-bit registers the first operand is a 32-bit value. -/
theorem rnValue_lt (c : CPU) (instr : Nat) (hs : c.Sized) : c.rnValue instr < 2 ^ 32 := by
  unfold rnValue
  simp only []
  split_ifs
  · exact Nat.mod_lt _ (by norm_num)
  · exact hs.1 _ (and_0xF_lt _)

/-- In a state with 32-bit registers the shifter operand is a 32-bit value. -/
theorem operand2_lt (c : CPU) (instr : Nat) (hs : c.Sized) :
    (c.operand2 instr).1 < 2 ^ 32 := by
  unfold operand2
  simp only []
  split_ifs
  · refine Nat.or_lt_two_pow (shiftRight_lt _ _ ?_) (Nat.mod_lt _ (by norm_num))
    exact lt_trans (Nat.and_lt_two_pow instr (show (0xFF : Nat) < 2 ^ 8 by norm_num))
      (by norm_num)
  · refine Nat.or_lt_two_pow (shiftRight_lt _ _ ?_) (Nat.mod_lt _ (by norm_num))
    exact lt_trans (Nat.and_lt_two_pow instr (show (0xFF : Nat) < 2 ^ 8 by norm_num))
      (by norm_num)
  · exact shift_lt c _ _ _ (hs.1 _ (and_0xF_lt _))
  · exact shift_lt c _ _ _ (hs.1 _ (and_0xF_lt _))
  · exact shift_lt c _ _ _ (hs.1 _ (and_0xF_lt _))

end CPU

/-! ## Claims on the CPU -/

/-- C22, the code at the failing input: a `BL` with offset field 0 at `0x08000000` (the word
`0xEB000000`, target `0x08000008`), in ARM state with the condition `AL`.  After `Step` the
`PC` is still `0x08000000` and not `0x08000008`, the field `LR` holds `0x07FFFFFC`, and
`Regs[14]`, which later instructions read as R14, is still 0 and not `0x08000004`. -/
theorem C22_branch_ignores_pipeline_offset :
    (MMU.withWord 0xEB000000).Read32 0x08000000 = some 0xEB000000 ∧
    CPU.atROM.PC = 0x08000000 ∧ CPU.atROM.Halted = false ∧ CPU.atROM.InThumbMode = false ∧
    CPU.atROM.ConditionPassed ((0xEB000000 >>> 28) &&& 0xF) = true ∧
    (CPU.atROM.Step (MMU.withWord 0xEB000000)).map
      (fun r => (r.1.PC, r.1.LR, r.1.Regs 14, r.2)) = some (0x08000000, 0x07FFFFFC, 0, 1) ∧
    (0x08000000 + 8 + ((0xEB000000 &&& 0x00FFFFFF) <<< 2)) % 2 ^ 32 = 0x08000008 := by
  decide

/-- C23, the code at the failing input: `MOV R0, R1` (the word `0xE1A00001`, bits 11..4
zero) with `R1 = 43` and the C flag clear.  The shifter operand is 0 with carry `true`
(bit 0 of `R1`) instead of 43 with carry `false`, and after `Step` `R0` is 0. -/
theorem C23_lsl_zero_shifts_by_32 :
    (MMU.withWord 0xE1A00001).Read32 0x08000000 = some 0xE1A00001 ∧
    0xE1A00001 &&& 0x00000FF0 = 0 ∧
    (CPU.atROM.SetReg 1 43).Regs 1 = 43 ∧
    (CPU.atROM.SetReg 1 43).GetFlag FlagC = false ∧
    (CPU.atROM.SetReg 1 43).operand2 0xE1A00001 = (0, true) ∧
    ((CPU.atROM.SetReg 1 43).Step (MMU.withWord 0xE1A00001)).map
      (fun r => (r.1.Regs 0, r.1.Regs 1, r.1.PC)) = some (0, 43, 0x08000004) := by
  decide

/-- C24, the code at the failing input: `MOV R0, R1, ROR #0` (the word `0xE1A00061`) with
`R1 = 3` and the C flag clear.  RRX gives `(0 << 31) | (3 >> 1) = 1` with carry `true`; the
code gives the operand 3 with carry `false`, and after `Step` `R0` is 3.  The forms LSR #0
and ASR #0 do behave as shifts by 32: with `R1 = 0x80000001` they give 0 and `0xFFFFFFFF`,
both with carry `true`. -/
theorem C24_ror_zero_is_not_rrx :
    (MMU.withWord 0xE1A00061).Read32 0x08000000 = some 0xE1A00061 ∧
    (CPU.atROM.SetReg 1 3).GetFlag FlagC = false ∧
    ((boolToUint32 ((CPU.atROM.SetReg 1 3).GetFlag FlagC) <<< 31) ||| (3 >>> 1),
      decide (3 &&& 1 ≠ 0)) = (1, true) ∧
    (CPU.atROM.SetReg 1 3).operand2 0xE1A00061 = (3, false) ∧
    ((CPU.atROM.SetReg 1 3).Step (MMU.withWord 0xE1A00061)).map
      (fun r => (r.1.Regs 0, r.1.Regs 1, r.1.PC)) = some (3, 3, 0x08000004) ∧
    (CPU.atROM.SetReg 1 0x80000001).operand2 0xE1A00021 = (0, true) ∧
    (CPU.atROM.SetReg 1 0x80000001).operand2 0xE1A00041 = (0xFFFFFFFF, true) := by
  decide

/-- The flag rules of `handleDataProcessing` with the S bit set and a destination other
than R15, for 32-bit operand values `A` (the value read for `Rn`) and `B` (the shifter
operand): ADD and
CMN set C iff `A + B ≥ 2^32` and V iff the signed sum lies outside `[-2^31, 2^31)`; SUB and
CMP set C iff `A ≥ B` and V iff the signed difference lies outside that range; N is bit 31
of the 32-bit result and Z is set iff the result is 0; ADD and SUB store the result in
`Rd`.  In a state whose registers hold 32-bit values `A` and `B` are 32-bit values. -/
theorem handleDataProcessing_add_sub_flags (c : CPU) (instr : Nat) (hsz : c.Sized)
    (hs : (instr >>> 20) &&& 1 = 1) (hrd : (instr >>> 12) &&& 0xF ≠ 15) :
    (c.rnValue instr < 2 ^ 32 ∧ (c.operand2 instr).1 < 2 ^ 32) ∧
    (((instr >>> 21) &&& 0xF = 0x4 ∨ (instr >>> 21) &&& 0xF = 0xB) →
      ((c.handleDataProcessing instr).1.GetFlag FlagC = true ↔
        c.rnValue instr + (c.operand2 instr).1 ≥ 2 ^ 32) ∧
      ((c.handleDataProcessing instr).1.GetFlag FlagV = true ↔
        ¬(-(2 ^ 31 : Int) ≤ signed32 (c.rnValue instr) + signed32 (c.operand2 instr).1 ∧
          signed32 (c.rnValue instr) + signed32 (c.operand2 instr).1 < 2 ^ 31)) ∧
      (c.handleDataProcessing instr).1.GetFlag FlagN =
        ((c.rnValue instr + (c.operand2 instr).1) % 2 ^ 32).testBit 31 ∧
      ((c.handleDataProcessing instr).1.GetFlag FlagZ = true ↔
        (c.rnValue instr + (c.operand2 instr).1) % 2 ^ 32 = 0)) ∧
    (((instr >>> 21) &&& 0xF = 0x2 ∨ (instr >>> 21) &&& 0xF = 0xA) →
      ((c.handleDataProcessing instr).1.GetFlag FlagC = true ↔
        c.rnValue instr ≥ (c.operand2 instr).1) ∧
      ((c.handleDataProcessing instr).1.GetFlag FlagV = true ↔
        ¬(-(2 ^ 31 : Int) ≤ signed32 (c.rnValue instr) - signed32 (c.operand2 instr).1 ∧
          signed32 (c.rnValue instr) - signed32 (c.operand2 instr).1 < 2 ^ 31)) ∧
      (c.handleDataProcessing instr).1.GetFlag FlagN =
        (sub32 (c.rnValue instr) (c.operand2 instr).1).testBit 31 ∧
      ((c.handleDataProcessing instr).1.GetFlag FlagZ = true ↔
        sub32 (c.rnValue instr) (c.operand2 instr).1 = 0)) ∧
    ((instr >>> 21) &&& 0xF = 0x4 →
      (c.handleDataProcessing instr).1.Regs ((instr >>> 12) &&& 0xF) =
        (c.rnValue instr + (c.operand2 instr).1) % 2 ^ 32) ∧
    ((instr >>> 21) &&& 0xF = 0x2 →
      (c.handleDataProcessing instr).1.Regs ((instr >>> 12) &&& 0xF) =
        sub32 (c.rnValue instr) (c.operand2 instr).1) := by
  have hA := CPU.rnValue_lt c instr hsz
  have hB := CPU.operand2_lt c instr hsz
  refine ⟨⟨hA, hB⟩, ?_⟩
  have hadd : ∀ op, (op = 0x4 ∨ op = 0xB) → ∀ carry,
      c.alu op (c.rnValue instr) (c.operand2 instr).1 carry =
        (c, (c.rnValue instr + (c.operand2 instr).1) % 2 ^ 32,
          decide ((c.rnValue instr + (c.operand2 instr).1) % 2 ^ 32 < c.rnValue instr),
          decide ((c.rnValue instr ^^^ (c.operand2 instr).1) &&& 0x80000000 = 0 ∧
            (c.rnValue instr ^^^ ((c.rnValue instr + (c.operand2 instr).1) % 2 ^ 32)) &&&
              0x80000000 ≠ 0)) := by
    rintro op (h | h) carry
    · rw [h]; exact CPU.alu_add c _ _ carry
    · rw [h]; exact CPU.alu_cmn c _ _ carry
  have hsub : ∀ op, (op = 0x2 ∨ op = 0xA) → ∀ carry,
      c.alu op (c.rnValue instr) (c.operand2 instr).1 carry =
        (c, sub32 (c.rnValue instr) (c.operand2 instr).1,
          decide (c.rnValue instr ≥ (c.operand2 instr).1),
          decide ((c.rnValue instr ^^^ (c.operand2 instr).1) &&& 0x80000000 ≠ 0 ∧
            (c.rnValue instr ^^^ sub32 (c.rnValue instr) (c.operand2 instr).1) &&&
              0x80000000 ≠ 0)) := by
    rintro op (h | h) carry
    · rw [h]; exact CPU.alu_sub c _ _ carry
    · rw [h]; exact CPU.alu_cmp c _ _ carry
  refine ⟨fun hop => ?_, fun hop => ?_, fun hop => ?_, fun hop => ?_⟩
  · have hcp := CPU.handleDataProcessing_CPSR c instr
      (by rcases hop with h | h <;> rw [h] <;> simp) hs hrd
    rw [hadd _ hop] at hcp
    obtain ⟨fN, fZ, fC, fV⟩ := CPU.GetFlag_SetNZCV c
      ((c.rnValue instr + (c.operand2 instr).1) % 2 ^ 32)
      (decide ((c.rnValue instr + (c.operand2 instr).1) % 2 ^ 32 < c.rnValue instr))
      (decide ((c.rnValue instr ^^^ (c.operand2 instr).1) &&& 0x80000000 = 0 ∧
        (c.rnValue instr ^^^ ((c.rnValue instr + (c.operand2 instr).1) % 2 ^ 32)) &&&
          0x80000000 ≠ 0))
    obtain ⟨a1, a2⟩ := CPU.add_flags _ _ hA hB
    rw [CPU.GetFlag_congr hcp, CPU.GetFlag_congr hcp, CPU.GetFlag_congr hcp,
      CPU.GetFlag_congr hcp, fN, fZ, fC, fV, decide_eq_true_eq, decide_eq_true_eq,
      decide_eq_true_eq, CPU.sign_flag]
    exact ⟨a1, a2, rfl, Iff.rfl⟩
  · have hcp := CPU.handleDataProcessing_CPSR c instr
      (by rcases hop with h | h <;> rw [h] <;> simp) hs hrd
    rw [hsub _ hop] at hcp
    obtain ⟨fN, fZ, fC, fV⟩ := CPU.GetFlag_SetNZCV c
      (sub32 (c.rnValue instr) (c.operand2 instr).1)
      (decide (c.rnValue instr ≥ (c.operand2 instr).1))
      (decide ((c.rnValue instr ^^^ (c.operand2 instr).1) &&& 0x80000000 ≠ 0 ∧
        (c.rnValue instr ^^^ sub32 (c.rnValue instr) (c.operand2 instr).1) &&&
          0x80000000 ≠ 0))
    have a2 := CPU.sub_flags _ _ hA hB
    rw [CPU.GetFlag_congr hcp, CPU.GetFlag_congr hcp, CPU.GetFlag_congr hcp,
      CPU.GetFlag_congr hcp, fN, fZ, fC, fV, decide_eq_true_eq, decide_eq_true_eq,
      decide_eq_true_eq, CPU.sign_flag]
    exact ⟨Iff.rfl, a2, rfl, Iff.rfl⟩
  · rw [CPU.handleDataProcessing_Regs c instr (by rw [hop]; decide) hrd, hop, CPU.alu_add]
  · rw [CPU.handleDataProcessing_Regs c instr (by rw [hop]; decide) hrd, hop, CPU.alu_sub]

/-- In `handleDataProcessing` with `Rd = 15`, the S bit set and an opcode that writes
its result (any but TST, TEQ, CMP, CMN), the status register afterwards is the value
`GetSPSR` returned before the instruction, the saved status register of the mode then
current, and so carries no flag computed from the result; `PC` is the result with its low
two bits cleared, which for MOV is the shifter operand. -/
theorem handleDataProcessing_r15_restores_cpsr (c : CPU) (instr : Nat)
    (hs : (instr >>> 20) &&& 1 = 1) (hrd : (instr >>> 12) &&& 0xF = 15)
    (hop : (instr >>> 21) &&& 0xF ≠ 0x8 ∧ (instr >>> 21) &&& 0xF ≠ 0x9 ∧
      (instr >>> 21) &&& 0xF ≠ 0xA ∧ (instr >>> 21) &&& 0xF ≠ 0xB) :
    (c.handleDataProcessing instr).1.CPSR = c.GetSPSR ∧
    (c.handleDataProcessing instr).1.PC =
      (c.alu ((instr >>> 21) &&& 0xF) (c.rnValue instr) (c.operand2 instr).1
        (c.operand2 instr).2).2.1 &&& 0xFFFFFFFC ∧
    ((instr >>> 21) &&& 0xF = 0xD →
      (c.handleDataProcessing instr).1.PC = (c.operand2 instr).1 &&& 0xFFFFFFFC) := by
  have hst := CPU.alu_state c ((instr >>> 21) &&& 0xF) (c.rnValue instr) (c.operand2 instr).1
    (c.operand2 instr).2 hop.1 hop.2.1
  have hpc : (c.handleDataProcessing instr).1.PC =
      (c.alu ((instr >>> 21) &&& 0xF) (c.rnValue instr) (c.operand2 instr).1
        (c.operand2 instr).2).2.1 &&& 0xFFFFFFFC := by
    unfold CPU.handleDataProcessing
    simp only []
    unfold CPU.writeR15
    rw [if_pos hrd]
    rfl
  refine ⟨?_, hpc, fun h => ?_⟩
  · unfold CPU.handleDataProcessing
    simp only []
    rw [hst]
    unfold CPU.writeR15 CPU.setResultFlags
    rw [if_pos hrd, if_pos hs, if_neg (fun h => h.2 hrd)]
    show (CPU.restoreCPSR _).CPSR = _
    rw [CPU.restoreCPSR_CPSR, CPU.writeResult_GetSPSR]
  · rw [hpc, h]
    rfl

/-- Example for `handleDataProcessing_add_sub_flags`: `ADDS R0, R1, R2, LSL #1` with
`R1 = 0x7FFFFFFF` and `R2 = 1`, so `A = 0x7FFFFFFF` and `B = 2`. -/
theorem handleDataProcessing_add_sub_flags_example :
    (((CPU.New.SetReg 1 0x7FFFFFFF).SetReg 2 1).Sized ∧
      (0xE0910082 >>> 20) &&& 1 = 1 ∧ (0xE0910082 >>> 12) &&& 0xF ≠ 15 ∧
      (0xE0910082 >>> 21) &&& 0xF = 0x4 ∧
      ((CPU.New.SetReg 1 0x7FFFFFFF).SetReg 2 1).rnValue 0xE0910082 = 0x7FFFFFFF ∧
      (((CPU.New.SetReg 1 0x7FFFFFFF).SetReg 2 1).operand2 0xE0910082).1 = 2) ∧
    ((((CPU.New.SetReg 1 0x7FFFFFFF).SetReg 2 1).handleDataProcessing 0xE0910082).1.GetFlag
        FlagC = true ↔
      ((CPU.New.SetReg 1 0x7FFFFFFF).SetReg 2 1).rnValue 0xE0910082 +
        (((CPU.New.SetReg 1 0x7FFFFFFF).SetReg 2 1).operand2 0xE0910082).1 ≥ 2 ^ 32) ∧
    ((((CPU.New.SetReg 1 0x7FFFFFFF).SetReg 2 1).handleDataProcessing 0xE0910082).1.GetFlag
        FlagV = true ↔
      ¬(-(2 ^ 31 : Int) ≤
          signed32 (((CPU.New.SetReg 1 0x7FFFFFFF).SetReg 2 1).rnValue 0xE0910082) +
            signed32 (((CPU.New.SetReg 1 0x7FFFFFFF).SetReg 2 1).operand2 0xE0910082).1 ∧
        signed32 (((CPU.New.SetReg 1 0x7FFFFFFF).SetReg 2 1).rnValue 0xE0910082) +
          signed32 (((CPU.New.SetReg 1 0x7FFFFFFF).SetReg 2 1).operand2 0xE0910082).1
            < 2 ^ 31)) ∧
    (((CPU.New.SetReg 1 0x7FFFFFFF).SetReg 2 1).handleDataProcessing 0xE0910082).1.GetFlag
        FlagN =
      ((((CPU.New.SetReg 1 0x7FFFFFFF).SetReg 2 1).rnValue 0xE0910082 +
        (((CPU.New.SetReg 1 0x7FFFFFFF).SetReg 2 1).operand2 0xE0910082).1) %
          2 ^ 32).testBit 31 ∧
    ((((CPU.New.SetReg 1 0x7FFFFFFF).SetReg 2 1).handleDataProcessing 0xE0910082).1.GetFlag
        FlagZ = true ↔
      (((CPU.New.SetReg 1 0x7FFFFFFF).SetReg 2 1).rnValue 0xE0910082 +
        (((CPU.New.SetReg 1 0x7FFFFFFF).SetReg 2 1).operand2 0xE0910082).1) % 2 ^ 32 = 0) :=
  ⟨⟨by decide, by decide, by decide, by decide, by decide, by decide⟩,
   (handleDataProcessing_add_sub_flags ((CPU.New.SetReg 1 0x7FFFFFFF).SetReg 2 1) 0xE0910082 (by decide)
      (by decide) (by decide)).2.1 (Or.inl (by decide))⟩

/-- Example for `handleDataProcessing_r15_restores_cpsr`: `SUBS PC, R14, R1, LSL #1` in
IRQ mode with `SPSR_irq = 0x10`, `R14 = 0x08000104` and `R1 = 2`. -/
theorem handleDataProcessing_r15_restores_cpsr_example :
    ((0xE05EF081 >>> 20) &&& 1 = 1 ∧ (0xE05EF081 >>> 12) &&& 0xF = 15 ∧
      ((0xE05EF081 >>> 21) &&& 0xF ≠ 0x8 ∧ (0xE05EF081 >>> 21) &&& 0xF ≠ 0x9 ∧
        (0xE05EF081 >>> 21) &&& 0xF ≠ 0xA ∧ (0xE05EF081 >>> 21) &&& 0xF ≠ 0xB)) ∧
    (((({ CPU.New with CPSR := 0x92, SPSRirq := 0x10 } : CPU).SetReg 14 0x08000104).SetReg 1
        2).handleDataProcessing 0xE05EF081).1.CPSR = 0x10 ∧
    (((({ CPU.New with CPSR := 0x92, SPSRirq := 0x10 } : CPU).SetReg 14 0x08000104).SetReg 1
        2).handleDataProcessing 0xE05EF081).1.PC = 0x08000100 :=
  ⟨⟨by decide, by decide, by decide⟩,
   ((handleDataProcessing_r15_restores_cpsr ((({ CPU.New with CPSR := 0x92, SPSRirq := 0x10 } : CPU).SetReg 14
      0x08000104).SetReg 1 2) 0xE05EF081 (by decide) (by decide) (by decide)).1.trans
      (by decide)),
   ((handleDataProcessing_r15_restores_cpsr ((({ CPU.New with CPSR := 0x92, SPSRirq := 0x10 } : CPU).SetReg 14
      0x08000104).SetReg 1 2) 0xE05EF081 (by decide) (by decide) (by decide)).2.1.trans
      (by decide))⟩

/-- C27, the code at the failing input: from the reset state (Supervisor mode,
`CPSR = 0xD3`) `SwitchMode(ModeIRQ)` sets the mode bits to IRQ, but the status register it
saves is the new one, `0xD2`, and it goes to `SPSR_svc`, the register of the old mode;
`GetSPSR` in the new mode returns `SPSR_irq`, which is still 0 and not `0xD3`. -/
theorem C27_switch_mode_saves_into_old_mode :
    CPU.New.CPSR = 0xD3 ∧ CPU.New.CPSR &&& 0x1F = ModeSupervisor ∧
    (CPU.New.SwitchMode ModeIRQ).CPSR &&& 0x1F = ModeIRQ ∧
    (CPU.New.SwitchMode ModeIRQ).GetSPSR = 0 ∧
    (CPU.New.SwitchMode ModeIRQ).SPSRirq = 0 ∧
    (CPU.New.SwitchMode ModeIRQ).SPSRsvc = 0xD2 := by
  decide

/-- C28, the code at the failing inputs.  From the reset state (Supervisor mode) with `PC`
at the ROM, `SwitchMode(ModeIRQ)` leaves `Regs[13] = 0x03007F00` although the IRQ bank
holds `0x03007FA0`: the bank is loaded into the field `SP`, and `ORR R0, R13, R1, LSL #1`
(with `R1 = 0`) executed next reads `0x03007F00`.  In User mode, after
`MOV R13, R1, LSL #1` (with `R1 = 0x80`) has set `Regs[13] = 0x100`, the switch to IRQ mode
and back leaves `Regs[13] = 0x03007F00`: the value the instruction wrote is lost. -/
theorem C28_banked_registers_not_swapped :
    CPU.atROM.Regs 13 = 0x03007F00 ∧ CPU.atROM.RegsIRQ 0 = 0x03007FA0 ∧
    (CPU.atROM.SwitchMode ModeIRQ).CPSR &&& 0x1F = ModeIRQ ∧
    (CPU.atROM.SwitchMode ModeIRQ).RegsIRQ 0 = 0x03007FA0 ∧
    (CPU.atROM.SwitchMode ModeIRQ).SP = 0x03007FA0 ∧
    (CPU.atROM.SwitchMode ModeIRQ).Regs 13 = 0x03007F00 ∧
    ((CPU.atROM.SwitchMode ModeIRQ).Step (MMU.withWord 0xE18D0081)).map
      (fun r => r.1.Regs 0) = some 0x03007F00 ∧
    (((CPU.atROM.SwitchMode ModeUser).SetReg 1 0x80).Step (MMU.withWord 0xE1A0D081)).map
      (fun r => (r.1.CPSR &&& 0x1F, r.1.Regs 13)) = some (ModeUser, 0x100) ∧
    (((CPU.atROM.SwitchMode ModeUser).SetReg 1 0x80).Step (MMU.withWord 0xE1A0D081)).map
      (fun r => (((r.1.SwitchMode ModeIRQ).SwitchMode ModeUser).CPSR &&& 0x1F,
        ((r.1.SwitchMode ModeIRQ).SwitchMode ModeUser).Regs 13)) =
      some (ModeUser, 0x03007F00) := by
  decide

/-- C29: `SwitchMode(M)` followed by `CPSR = GetSPSR(); UpdateMode()` leaves `Regs[0]` to
`Regs[12]` unchanged, for every state and every mode number `M`. -/
theorem C29_mode_round_trip_keeps_low_registers (c : CPU) (M i : Nat) (hi : i ≤ 12) :
    ((c.SwitchMode M).restoreCPSR).Regs i = c.Regs i := by
  rw [CPU.restoreCPSR_Regs _ _ (by omega), CPU.SwitchMode_Regs c M i hi]

/-- Witness for C29: register 0 holding 42, through IRQ mode. -/
theorem C29_mode_round_trip_keeps_low_registers_witness :
    (0 : Nat) ≤ 12 ∧
    (((CPU.New.SetReg 0 42).SwitchMode ModeIRQ).restoreCPSR).Regs 0 = 42 :=
  ⟨by decide,
   (C29_mode_round_trip_keeps_low_registers (CPU.New.SetReg 0 42) ModeIRQ 0 (by decide)).trans
     (by decide)⟩

/-- C30, the code at the failing input: with `IME = IE = IF = 1` and the I flag clear,
`handleInterrupt` enters IRQ mode with the I flag set and `PC = 0x18`, but it sets the T bit
as well (`CPSR |= FlagI | FlagT`), so the CPU is in Thumb state at the vector. -/
theorem C30_irq_entry_sets_thumb_bit :
    GBA.pendingIRQ.MMU.IME ≠ 0 ∧ GBA.pendingIRQ.CPU.GetFlag FlagI = false ∧
    GBA.pendingIRQ.MMU.IE &&& GBA.pendingIRQ.MMU.IF ≠ 0 ∧
    GBA.pendingIRQ.MMU.CheckInterrupts = true ∧
    GBA.pendingIRQ.CPU.GetFlag FlagT = false ∧
    GBA.pendingIRQ.handleInterrupt.CPU.CPSR &&& 0x1F = ModeIRQ ∧
    GBA.pendingIRQ.handleInterrupt.CPU.GetFlag FlagI = true ∧
    GBA.pendingIRQ.handleInterrupt.CPU.PC = 0x00000018 ∧
    GBA.pendingIRQ.handleInterrupt.CPU.GetFlag FlagT = true ∧
    GBA.pendingIRQ.handleInterrupt.CPU.InThumbMode = true := by
  decide

/-! ### CPU: carries, the Thumb dispatch and the SWI dispatch -/

namespace CPU

theorem alu_adc (c : CPU) (a b : Nat) (carry : Bool) :
    c.alu 0x5 a b carry =
      (c, (a + b + boolToUint32 (c.GetFlag FlagC)) % 2 ^ 32,
        decide ((a + b + boolToUint32 (c.GetFlag FlagC)) % 2 ^ 32 < a ∨
          ((a + b + boolToUint32 (c.GetFlag FlagC)) % 2 ^ 32 = a ∧ c.GetFlag FlagC = true)),
        false) :=
  rfl

theorem alu_sbc (c : CPU) (a b : Nat) (carry : Bool) :
    c.alu 0x6 a b carry =
      (c, sub32 (sub32 a b) (boolToUint32 (!c.GetFlag FlagC)),
        decide (a > b ∨ (a = b ∧ c.GetFlag FlagC = true)), false) :=
  rfl

/-- The carry test of an addition with carry in, ties included. -/
theorem adc_carry (a b : Nat) (f : Bool) (ha : a < 2 ^ 32) (hb : b < 2 ^ 32) :
    ((a + b + boolToUint32 f) % 2 ^ 32 < a ∨
      ((a + b + boolToUint32 f) % 2 ^ 32 = a ∧ f = true)) ↔
    a + b + boolToUint32 f ≥ 2 ^ 32 := by
  cases f
  · have e : boolToUint32 false = 0 := rfl
    rw [e]
    constructor
    · rintro (h | ⟨_, h⟩)
      · omega
      · exact absurd h (by decide)
    · intro h
      left
      omega
  · have e : boolToUint32 true = 1 := rfl
    rw [e]
    constructor
    · rintro (h | ⟨h, _⟩) <;> omega
    · intro h
      by_cases hb1 : b = 2 ^ 32 - 1
      · right
        exact ⟨by omega, rfl⟩
      · left
        omega

/-- The carry test of a subtraction with carry in, ties included. -/
theorem sbc_carry (a b : Nat) (f : Bool) :
    (a > b ∨ (a = b ∧ f = true)) ↔ a ≥ b + (1 - boolToUint32 f) := by
  cases f
  · have e : boolToUint32 false = 0 := rfl
    rw [e]
    constructor
    · rintro (h | ⟨_, h⟩)
      · omega
      · exact absurd h (by decide)
    · intro h
      left
      omega
  · have e : boolToUint32 true = 1 := rfl
    rw [e]
    constructor
    · rintro (h | ⟨h, _⟩) <;> omega
    · intro h
      by_cases hab : a = b
      · right
        exact ⟨hab, rfl⟩
      · left
        omega

/-- The result of a subtraction with carry in, as an integer modulo `2^32`. -/
theorem sbc_result (a b : Nat) (f : Bool) :
    ((sub32 (sub32 a b) (boolToUint32 (!f)) : Nat) : Int) =
      ((a : Int) - b - (1 - (boolToUint32 f : Nat))) % 2 ^ 32 := by
  cases f
  · have e : boolToUint32 false = 0 := rfl
    have e' : boolToUint32 (!false) = 1 := rfl
    rw [e, e']
    unfold sub32
    omega
  · have e : boolToUint32 true = 1 := rfl
    have e' : boolToUint32 (!true) = 0 := rfl
    rw [e, e']
    unfold sub32
    omega

/-- `shift` with type LSL, case by case: every amount from 32 up gives 0 with carry bit 0
of the value. -/
theorem shift_lsl (c : CPU) (v n : Nat) :
    c.shift 0 v n =
      if n = 0 then (v, c.GetFlag FlagC)
      else if n ≥ 32 then (0, decide (v &&& 1 ≠ 0))
      else ((v <<< n) % 2 ^ 32, decide ((v >>> (32 - n)) &&& 1 ≠ 0)) := by
  unfold shift
  by_cases h : n = 0
  · rw [if_pos h, if_pos h]
  · rw [if_neg h, if_neg h, if_pos rfl]

end CPU

/-- The carry rules of ADC and SBC in `handleDataProcessing` with the S bit set and a
destination other than R15, in a state whose registers hold 32-bit values, with `A` the
value read for `Rn`, `B` the
shifter operand and `cin` the C flag before the instruction: ADC stores
`(A + B + cin) mod 2^32` in `Rd` and sets C iff `A + B + cin ≥ 2^32`; SBC stores
`(A - B - (1 - cin)) mod 2^32` and sets C iff `A ≥ B + (1 - cin)`. -/
theorem handleDataProcessing_adc_sbc_carry (c : CPU) (instr : Nat) (hsz : c.Sized)
    (hs : (instr >>> 20) &&& 1 = 1) (hrd : (instr >>> 12) &&& 0xF ≠ 15) :
    ((instr >>> 21) &&& 0xF = 0x5 →
      (c.handleDataProcessing instr).1.Regs ((instr >>> 12) &&& 0xF) =
        (c.rnValue instr + (c.operand2 instr).1 + boolToUint32 (c.GetFlag FlagC)) % 2 ^ 32 ∧
      ((c.handleDataProcessing instr).1.GetFlag FlagC = true ↔
        c.rnValue instr + (c.operand2 instr).1 + boolToUint32 (c.GetFlag FlagC) ≥ 2 ^ 32)) ∧
    ((instr >>> 21) &&& 0xF = 0x6 →
      (((c.handleDataProcessing instr).1.Regs ((instr >>> 12) &&& 0xF) : Nat) : Int) =
        ((c.rnValue instr : Int) - (c.operand2 instr).1 -
          (1 - (boolToUint32 (c.GetFlag FlagC) : Nat))) % 2 ^ 32 ∧
      ((c.handleDataProcessing instr).1.GetFlag FlagC = true ↔
        c.rnValue instr ≥ (c.operand2 instr).1 + (1 - boolToUint32 (c.GetFlag FlagC)))) := by
  have hA := CPU.rnValue_lt c instr hsz
  have hB := CPU.operand2_lt c instr hsz
  refine ⟨fun hop => ⟨?_, ?_⟩, fun hop => ⟨?_, ?_⟩⟩
  · rw [CPU.handleDataProcessing_Regs c instr (by rw [hop]; decide) hrd, hop, CPU.alu_adc]
  · have hcp := CPU.handleDataProcessing_CPSR c instr (Or.inl (by omega)) hs hrd
    rw [hop, CPU.alu_adc] at hcp
    rw [CPU.GetFlag_congr hcp, (CPU.GetFlag_SetNZCV c _ _ _).2.2.1, decide_eq_true_eq]
    exact CPU.adc_carry _ _ _ hA hB
  · rw [CPU.handleDataProcessing_Regs c instr (by rw [hop]; decide) hrd, hop, CPU.alu_sbc]
    exact CPU.sbc_result _ _ _
  · have hcp := CPU.handleDataProcessing_CPSR c instr (Or.inl (by omega)) hs hrd
    rw [hop, CPU.alu_sbc] at hcp
    rw [CPU.GetFlag_congr hcp, (CPU.GetFlag_SetNZCV c _ _ _).2.2.1, decide_eq_true_eq]
    exact CPU.sbc_carry _ _ _

/-- Example for `handleDataProcessing_adc_sbc_carry`: `ADCS R0, R1, R2, ASR #1` with
`R1 = 5`, `R2 = 0xFFFFFFFF` and the C flag set, the tie `B = 0xFFFFFFFF`, `cin = 1`: the
result is 5 and C is set. -/
theorem handleDataProcessing_adc_sbc_carry_example :
    ((((CPU.New.SetFlag FlagC true).SetReg 1 5).SetReg 2 0xFFFFFFFF).Sized ∧
      (0xE0B100C2 >>> 20) &&& 1 = 1 ∧ (0xE0B100C2 >>> 12) &&& 0xF ≠ 15 ∧
      (0xE0B100C2 >>> 21) &&& 0xF = 0x5 ∧
      (((CPU.New.SetFlag FlagC true).SetReg 1 5).SetReg 2 0xFFFFFFFF).rnValue 0xE0B100C2 = 5 ∧
      ((((CPU.New.SetFlag FlagC true).SetReg 1 5).SetReg 2 0xFFFFFFFF).operand2
        0xE0B100C2).1 = 0xFFFFFFFF ∧
      boolToUint32 ((((CPU.New.SetFlag FlagC true).SetReg 1 5).SetReg 2 0xFFFFFFFF).GetFlag
        FlagC) = 1) ∧
    ((((CPU.New.SetFlag FlagC true).SetReg 1 5).SetReg 2 0xFFFFFFFF).handleDataProcessing
        0xE0B100C2).1.Regs ((0xE0B100C2 >>> 12) &&& 0xF) = 5 ∧
    ((((CPU.New.SetFlag FlagC true).SetReg 1 5).SetReg 2 0xFFFFFFFF).handleDataProcessing
        0xE0B100C2).1.GetFlag FlagC = true :=
  ⟨⟨by decide, by decide, by decide, by decide, by decide, by decide, by decide⟩,
   (((handleDataProcessing_adc_sbc_carry (((CPU.New.SetFlag FlagC true).SetReg 1 5).SetReg 2 0xFFFFFFFF)
      0xE0B100C2 (by decide) (by decide) (by decide)).1 (by decide)).1.trans (by decide)),
   (((handleDataProcessing_adc_sbc_carry (((CPU.New.SetFlag FlagC true).SetReg 1 5).SetReg 2 0xFFFFFFFF)
      0xE0B100C2 (by decide) (by decide) (by decide)).1 (by decide)).2.mpr (by decide))⟩

/-- C34, counterexample: `shift` with type LSL, value 1 and amount 33 returns carry `true`
(bit 0 of the value, as for the amount 32) and not `false`; so it does for the amount 255.
The other cases of the claim hold: amount 0 returns the value and the C flag, amount 1 on
`0x80000001` returns 2 with carry bit 31, amount 32 returns 0 with carry bit 0. -/
theorem C34_lsl_above_32_counterexample :
    CPU.New.shift 0 1 33 = (0, true) ∧
    CPU.New.shift 0 1 255 = (0, true) ∧
    CPU.New.shift 0 1 32 = (0, true) ∧
    CPU.New.shift 0 0x80000001 1 = (2, true) ∧
    CPU.New.shift 0 5 0 = (5, CPU.New.GetFlag FlagC) := by
  decide

namespace CPU

theorem Step_thumb (c : CPU) (m : MMU) (hh : c.Halted = false) (ht : c.InThumbMode = true) :
    c.Step m =
      (c.executeThumb m).map fun r =>
        ({ r.1 with StepCount := (r.1.StepCount + 1) % 2 ^ 64 }, r.2) := by
  unfold Step
  rw [hh, ht]
  rfl

/-- `executeThumb` on a PC-relative load: the handler runs after `PC` has moved on by 2,
not by 4. -/
theorem executeThumb_loadPC (c : CPU) (m : MMU) (instr : Nat)
    (hr : m.Read16 c.PC = some instr) (hi : instr &&& 0xF800 = 0x4800) :
    c.executeThumb m = (c.advancePC 2).thumbLoadPC m instr := by
  unfold executeThumb
  rw [hr]
  show (c.advancePC 2).dispatchThumb m instr = _
  unfold dispatchThumb
  have n1 : ¬(instr &&& 0xF800 = 0x1800) := by rw [hi]; decide
  have e2 := and_mask_of_eq instr 0xF800 0xE000 _ hi (by decide)
  have n2 : ¬(instr &&& 0xE000 = 0x0000) := by rw [e2]; decide
  have n3 : ¬(instr &&& 0xE000 = 0x2000) := by rw [e2]; decide
  have n4 : ¬(instr &&& 0xFC00 = 0x4000) := fun h => by
    have := and_mask_of_eq instr 0xFC00 0xF800 _ h (by decide)
    rw [hi] at this
    exact absurd this (by decide)
  have n5 : ¬(instr &&& 0xFC00 = 0x4400) := fun h => by
    have := and_mask_of_eq instr 0xFC00 0xF800 _ h (by decide)
    rw [hi] at this
    exact absurd this (by decide)
  rw [if_neg n1, if_neg n2, if_neg n3, if_neg n4, if_neg n5, if_pos hi]

/-- A Thumb PC-relative load fetched from `A = c.PC`: the word is read from
`((A + 2) AND NOT 3) + 4*imm8` and stored in `Rd`. -/
theorem Step_thumbLoadPC (c : CPU) (m : MMU) (instr v : Nat) (hh : c.Halted = false)
    (ht : c.InThumbMode = true) (hr : m.Read16 c.PC = some instr)
    (hi : instr &&& 0xF800 = 0x4800)
    (hv : m.Read32 (((((c.PC + 2) % 2 ^ 32) &&& not32 3) +
      ((instr &&& 0xFF) <<< 2) % 2 ^ 32) % 2 ^ 32) = some v) :
    ∃ c', c.Step m = some (c', 1) ∧ c'.Regs ((instr >>> 8) &&& 7) = v ∧
      c'.PC = (c.PC + 2) % 2 ^ 32 := by
  rw [Step_thumb c m hh ht, executeThumb_loadPC c m instr hr hi]
  unfold thumbLoadPC
  simp only []
  have e : (c.advancePC 2).PC = (c.PC + 2) % 2 ^ 32 := rfl
  rw [e, hv]
  exact ⟨_, rfl, Function.update_same _ _ _, rfl⟩

/-- The destination register after `thumbMoveCompare`: MOV stores the immediate, ADD the
sum, and both CMP and SUB leave the register as it was. -/
theorem thumbMoveCompare_Regs (c : CPU) (instr : Nat) :
    ((instr >>> 11) &&& 3 = 0 →
      (c.thumbMoveCompare instr).1.Regs ((instr >>> 8) &&& 7) = instr &&& 0xFF) ∧
    ((instr >>> 11) &&& 3 = 1 →
      (c.thumbMoveCompare instr).1.Regs ((instr >>> 8) &&& 7) =
        c.Regs ((instr >>> 8) &&& 7)) ∧
    ((instr >>> 11) &&& 3 = 2 →
      (c.thumbMoveCompare instr).1.Regs ((instr >>> 8) &&& 7) =
        (c.Regs ((instr >>> 8) &&& 7) + (instr &&& 0xFF)) % 2 ^ 32) ∧
    ((instr >>> 11) &&& 3 = 3 →
      (c.thumbMoveCompare instr).1.Regs ((instr >>> 8) &&& 7) =
        c.Regs ((instr >>> 8) &&& 7)) := by
  have hF : ∀ (d : CPU) (f : Nat) (b : Bool), (d.SetFlag f b).Regs = d.Regs := by
    intro d f b
    unfold SetFlag
    split <;> rfl
  have hNZ : ∀ (d : CPU) (v : Nat), (d.SetNZ v).Regs = d.Regs := by
    intro d v
    unfold SetNZ
    rw [hF, hF]
  refine ⟨fun h => ?_, fun h => ?_, fun h => ?_, fun h => ?_⟩
  · unfold thumbMoveCompare
    simp only []
    rw [h, if_pos rfl, hNZ]
    exact Function.update_same _ _ _
  · unfold thumbMoveCompare
    simp only []
    rw [h, if_neg (by decide), if_pos rfl, hNZ, hF, hF]
  · unfold thumbMoveCompare
    simp only []
    rw [h, if_neg (by decide), if_neg (by decide), if_pos rfl, hNZ]
    exact Function.update_same _ _ _
  · unfold thumbMoveCompare
    simp only []
    rw [h, if_neg (by decide), if_neg (by decide), if_neg (by decide), if_pos rfl, hNZ, hF, hF]

/-- CMP and SUB with the same register and immediate leave the same status register. -/
theorem thumbMoveCompare_cmp_sub (c : CPU) (i1 i3 : Nat)
    (h1 : (i1 >>> 11) &&& 3 = 1) (h3 : (i3 >>> 11) &&& 3 = 3)
    (hrd : (i1 >>> 8) &&& 7 = (i3 >>> 8) &&& 7) (himm : i1 &&& 0xFF = i3 &&& 0xFF) :
    (c.thumbMoveCompare i1).1.CPSR = (c.thumbMoveCompare i3).1.CPSR := by
  unfold thumbMoveCompare
  simp only []
  rw [h1, h3, hrd, himm, if_neg (by decide), if_pos rfl, if_neg (by decide), if_neg (by decide),
    if_neg (by decide), if_pos rfl]

/-- `executeARM` on a software interrupt whose condition passes: `PC` moves on by 4 and the
empty `handleSWI` is called. -/
theorem executeARM_swi (c : CPU) (m : MMU) (instr : Nat) (hr : m.Read32 c.PC = some instr)
    (hc : c.ConditionPassed ((instr >>> 28) &&& 0xF) = true)
    (hb : instr &&& 0x0F000000 = 0x0F000000) :
    c.executeARM m = some (c.advancePC 4, 1) := by
  unfold executeARM
  rw [hr]
  show some _ = some _
  congr 1
  simp only []
  have he := and_mask_of_eq instr 0x0F000000 0x0E000000 _ hb (by decide)
  have n1 : ¬(instr &&& 0x0E000000 = 0x00000000 ∧ instr &&& 0x00000010 ≠ 0x00000010) :=
    fun h => by
      have h0 := h.1
      rw [he] at h0
      exact absurd h0 (by decide)
  have n2 : ¬(instr &&& 0x0E000000 = 0x02000000) := by rw [he]; decide
  have n3 : ¬(instr &&& 0x0E000090 = 0x00000090) := fun h => by
    have := and_mask_of_eq instr _ 0x0E000000 _ h (by decide)
    rw [he] at this
    exact absurd this (by decide)
  have n4 : ¬(instr &&& 0x0E000F00 = 0x000000B0 ∨ instr &&& 0x0E000F00 = 0x000000D0) := by
    rintro (h | h)
    · have := and_mask_of_eq instr _ 0x0E000000 _ h (by decide)
      rw [he] at this
      exact absurd this (by decide)
    · have := and_mask_of_eq instr _ 0x0E000000 _ h (by decide)
      rw [he] at this
      exact absurd this (by decide)
  have n5 : ¬(instr &&& 0x0E000000 = 0x08000000) := by rw [he]; decide
  have n6 : ¬(instr &&& 0x0E000000 = 0x04000000) := by rw [he]; decide
  have n7 : ¬(instr &&& 0x0E000000 = 0x0A000000) := by rw [he]; decide
  rw [hc, if_neg (by decide), if_neg n1, if_neg n2, if_neg n3, if_neg n4, if_neg n5,
    if_neg n6, if_neg n7, if_pos hb]
  rfl

end CPU

namespace GBA

/-- What `handleInterrupt` saves when it takes an interrupt from a state with status
register `c0` and program counter `P`: `SPSR_irq` receives `c0` with the mode bits already
replaced by those of IRQ mode, the field `LR` receives `P - 4`, and neither `Regs[14]` nor
the IRQ bank is written. -/
theorem handleInterrupt_saved (g : GBA) (h1 : g.MMU.IME ≠ 0) (h2 : g.CPU.GetFlag FlagI = false)
    (h3 : g.MMU.IE &&& g.MMU.IF ≠ 0) :
    g.handleInterrupt.CPU.SPSRirq = (g.CPU.CPSR &&& not32 0x1F) ||| ModeIRQ ∧
    g.handleInterrupt.CPU.LR = sub32 g.CPU.PC 4 := by
  unfold handleInterrupt
  rw [if_neg (by rw [h2]; decide), if_neg h1, if_neg h3]
  have hm : ((g.CPU.SaveMode).SwitchMode ModeIRQ).CPSR &&& 0x1F = ModeIRQ :=
    CPU.SwitchMode_mode _ _ (by decide)
  have hc : ((g.CPU.SaveMode).SwitchMode ModeIRQ).CPSR =
      (g.CPU.CPSR &&& not32 0x1F) ||| ModeIRQ := by
    rw [CPU.SwitchMode_CPSR, CPU.SaveMode_CPSR]
  have hp : ((g.CPU.SaveMode).SwitchMode ModeIRQ).PC = g.CPU.PC := by
    rw [CPU.SwitchMode_PC]
    unfold CPU.SaveMode
    simp only []
    split_ifs <;> rfl
  have hs : ∀ v, (((g.CPU.SaveMode).SwitchMode ModeIRQ).SetSPSR v) =
      { ((g.CPU.SaveMode).SwitchMode ModeIRQ) with SPSRirq := v } := by
    intro v
    unfold CPU.SetSPSR
    simp only []
    rw [hm, if_neg (by decide), if_pos rfl]
  refine ⟨?_, ?_⟩
  · show (((g.CPU.SaveMode).SwitchMode ModeIRQ).SetSPSR _).SPSRirq = _
    rw [hs, hc]
  · show sub32 (((g.CPU.SaveMode).SwitchMode ModeIRQ).SetSPSR _).PC 4 = _
    rw [hs]
    show sub32 ((g.CPU.SaveMode).SwitchMode ModeIRQ).PC 4 = _
    rw [hp]

end GBA

/-- C31, the code at the failing input: the interrupt is taken from Supervisor mode with
`CPSR = c0 = 0x53` and `PC = P = 0x08000100`.  Afterwards `SPSR_irq` is `0x52`, the status
register with the mode bits already those of IRQ mode, and not `0x53`; the field `LR` is
`0x080000FC = P - 4` and not `P + 4 = 0x08000104`, and the link registers an IRQ-mode
instruction can read, `Regs[14]` and the bank `RegsIRQ[1]`, are still 0. -/
theorem C31_irq_entry_saves_switched_cpsr :
    GBA.pendingIRQAt.MMU.IME ≠ 0 ∧ GBA.pendingIRQAt.CPU.GetFlag FlagI = false ∧
    GBA.pendingIRQAt.MMU.IE &&& GBA.pendingIRQAt.MMU.IF ≠ 0 ∧
    GBA.pendingIRQAt.CPU.CPSR = 0x53 ∧ GBA.pendingIRQAt.CPU.PC = 0x08000100 ∧
    GBA.pendingIRQAt.handleInterrupt.CPU.CPSR &&& 0x1F = ModeIRQ ∧
    GBA.pendingIRQAt.handleInterrupt.CPU.SPSRirq = 0x52 ∧
    GBA.pendingIRQAt.handleInterrupt.CPU.GetSPSR = 0x52 ∧
    GBA.pendingIRQAt.handleInterrupt.CPU.LR = 0x080000FC ∧
    GBA.pendingIRQAt.handleInterrupt.CPU.Regs 14 = 0 ∧
    GBA.pendingIRQAt.handleInterrupt.CPU.RegsIRQ 1 = 0 := by
  decide

/-- C32, counterexample: an `SWI` (the word `0xEF000000`) at `0x08000000` executed in User
mode with `CPSR = 0x10`.  After `Step` the status register is still `0x10` (User mode, I
clear), `SPSR_svc` is still 0, the Supervisor bank and the field `LR` are untouched, and
`PC` is `0x08000004`, not `0x00000008`. -/
theorem C32_swi_not_taken_counterexample :
    (MMU.withWord 0xEF000000).Read32 0x08000000 = some 0xEF000000 ∧
    ({ CPU.atROM with CPSR := 0x10 } : CPU).InThumbMode = false ∧
    ({ CPU.atROM with CPSR := 0x10 } : CPU).ConditionPassed ((0xEF000000 >>> 28) &&& 0xF)
      = true ∧
    (({ CPU.atROM with CPSR := 0x10 } : CPU).Step (MMU.withWord 0xEF000000)).map
      (fun r => (r.1.CPSR, r.1.SPSRsvc, r.1.PC, r.1.RegsSVC 1, r.1.LR, r.2)) =
      some (0x10, 0, 0x08000004, 0, ({ CPU.atROM with CPSR := 0x10 } : CPU).LR, 1) := by
  decide

/-- C32, amended: for every ARM-state CPU that is not halted and whose condition passes,
`Step` on an `SWI` instruction at address `A` returns 1 cycle and only moves `PC` to
`A + 4` (and `Regs[15]` to `A + 8`) and counts the step: the status register, the saved
status registers, the banks and the field `LR` are unchanged, because `handleSWI` is
empty. -/
theorem C32_swi_only_advances (c : CPU) (m : MMU) (instr : Nat) (hh : c.Halted = false)
    (ht : c.InThumbMode = false) (hr : m.Read32 c.PC = some instr)
    (hc : c.ConditionPassed ((instr >>> 28) &&& 0xF) = true)
    (hb : instr &&& 0x0F000000 = 0x0F000000) :
    c.Step m =
      some ({ c with
        PC := (c.PC + 4) % 2 ^ 32
        Regs := Function.update c.Regs 15 (((c.PC + 4) % 2 ^ 32 + 4) % 2 ^ 32)
        StepCount := (c.StepCount + 1) % 2 ^ 64 }, 1) := by
  rw [CPU.Step_arm c m hh ht, CPU.executeARM_swi c m instr hr hc hb]
  rfl

/-- Witness for C32: the `SWI` at `0x08000000` in User mode. -/
theorem C32_swi_only_advances_witness :
    (({ CPU.atROM with CPSR := 0x10 } : CPU).Halted = false ∧
      ({ CPU.atROM with CPSR := 0x10 } : CPU).InThumbMode = false ∧
      (MMU.withWord 0xEF000000).Read32 ({ CPU.atROM with CPSR := 0x10 } : CPU).PC
        = some 0xEF000000 ∧
      ({ CPU.atROM with CPSR := 0x10 } : CPU).ConditionPassed ((0xEF000000 >>> 28) &&& 0xF)
        = true ∧
      0xEF000000 &&& 0x0F000000 = 0x0F000000) ∧
    (({ CPU.atROM with CPSR := 0x10 } : CPU).Step (MMU.withWord 0xEF000000)).map
      (fun r => (r.1.PC, r.1.CPSR, r.1.SPSRsvc)) = some (0x08000004, 0x10, 0) :=
  ⟨⟨by decide, by decide, by decide, by decide, by decide⟩,
   (congrArg (Option.map fun r => (r.1.PC, r.1.CPSR, r.1.SPSRsvc))
     (C32_swi_only_advances ({ CPU.atROM with CPSR := 0x10 } : CPU) (MMU.withWord 0xEF000000)
       0xEF000000 (by decide) (by decide) (by decide) (by decide) (by decide))).trans
     (by decide)⟩

/-- C36, the code at the failing input: `LDR R0, [PC, #0]` (the halfword `0x4800`) fetched
in Thumb state from `A = 0x08000000`, with the word `0xDEADBEEF` at `0x08000004`.  The
claimed address is `((A + 4) AND NOT 3) + 0 = 0x08000004`; the code reads from
`((A + 2) AND NOT 3) + 0 = 0x08000000`, so `R0` receives `0x00004800`, the instruction
itself, and not `0xDEADBEEF`. -/
theorem C36_thumb_load_base_is_pc_plus_2 :
    (MMU.New.LoadROM [0x00, 0x48, 0x00, 0x00, 0xEF, 0xBE, 0xAD, 0xDE]).Read16 0x08000000
      = some 0x4800 ∧
    (MMU.New.LoadROM [0x00, 0x48, 0x00, 0x00, 0xEF, 0xBE, 0xAD, 0xDE]).Read32 0x08000004
      = some 0xDEADBEEF ∧
    (MMU.New.LoadROM [0x00, 0x48, 0x00, 0x00, 0xEF, 0xBE, 0xAD, 0xDE]).Read32 0x08000000
      = some 0x00004800 ∧
    (CPU.atROM.SetFlag FlagT true).InThumbMode = true ∧
    (CPU.atROM.SetFlag FlagT true).PC = 0x08000000 ∧
    ((0x08000000 + 4) &&& not32 3) + 4 * (0x4800 &&& 0xFF) = 0x08000004 ∧
    ((CPU.atROM.SetFlag FlagT true).Step
      (MMU.New.LoadROM [0x00, 0x48, 0x00, 0x00, 0xEF, 0xBE, 0xAD, 0xDE])).map
      (fun r => (r.1.Regs 0, r.1.PC, r.2)) = some (0x00004800, 0x08000002, 1) := by
  decide

/-- C37, the code at the failing input: `SUB R0, #1` (the halfword `0x3801`) in Thumb state
with `R0 = 5`.  After `Step` `R0` is still 5 and not 4, although the flags are those of
`5 - 1`: the SUB case of `thumbMoveCompare` computes the result and sets C and V but never
stores it.  MOV, ADD and CMP behave as claimed: `MOV R0, #1` (`0x2001`) gives 1,
`ADD R0, #1` (`0x3001`) gives 6, `CMP R0, #1` (`0x2801`) leaves 5 and sets the same status
register as the SUB. -/
theorem C37_thumb_sub_immediate_not_stored :
    (MMU.withWord 0x3801).Read16 0x08000000 = some 0x3801 ∧
    ((CPU.atROM.SetFlag FlagT true).SetReg 0 5).InThumbMode = true ∧
    ((CPU.atROM.SetFlag FlagT true).SetReg 0 5).Regs 0 = 5 ∧
    (((CPU.atROM.SetFlag FlagT true).SetReg 0 5).Step (MMU.withWord 0x3801)).map
      (fun r => (r.1.Regs 0, r.1.GetFlag FlagN, r.1.GetFlag FlagZ, r.1.GetFlag FlagC,
        r.1.GetFlag FlagV)) = some (5, false, false, true, false) ∧
    sub32 5 1 = 4 ∧
    (((CPU.atROM.SetFlag FlagT true).SetReg 0 5).Step (MMU.withWord 0x2001)).map
      (fun r => r.1.Regs 0) = some 1 ∧
    (((CPU.atROM.SetFlag FlagT true).SetReg 0 5).Step (MMU.withWord 0x3001)).map
      (fun r => r.1.Regs 0) = some 6 ∧
    (((CPU.atROM.SetFlag FlagT true).SetReg 0 5).Step (MMU.withWord 0x2801)).map
      (fun r => (r.1.Regs 0, r.1.CPSR)) =
    (((CPU.atROM.SetFlag FlagT true).SetReg 0 5).Step (MMU.withWord 0x3801)).map
      (fun r => (r.1.Regs 0, r.1.CPSR)) := by
  decide

/-- C39, the code at the failing input: `CMP R0, R9` (the halfword `0x4548`) in Thumb state
with `a = R0 = 0` and `b = R9 = 0x80000002`.  The signed difference is `2147483646`, inside
`[-2^31, 2^31)`, and bit 31 of `a XOR (a - b) = 0x7FFFFFFE` is 0, yet V is set after
`Step`: the second test of `thumbHiReg` masks with `0x80000032`, so bits 1, 4 and 5 of
`a XOR (a - b)` count as well.  N, Z and C are those of the subtraction. -/
theorem C39_hireg_cmp_overflow_mask :
    (MMU.withWord 0x4548).Read16 0x08000000 = some 0x4548 ∧
    (((CPU.atROM.SetFlag FlagT true).SetReg 0 0).SetReg 9 0x80000002).InThumbMode = true ∧
    (((CPU.atROM.SetFlag FlagT true).SetReg 0 0).SetReg 9 0x80000002).Regs 0 = 0 ∧
    (((CPU.atROM.SetFlag FlagT true).SetReg 0 0).SetReg 9 0x80000002).Regs 9 = 0x80000002 ∧
    signed32 0 - signed32 0x80000002 = 2147483646 ∧
    (-(2 ^ 31 : Int) ≤ signed32 0 - signed32 0x80000002 ∧
      signed32 0 - signed32 0x80000002 < 2 ^ 31) ∧
    sub32 0 0x80000002 = 0x7FFFFFFE ∧
    ((0 ^^^ 0x80000002) &&& 0x80000000 ≠ 0 ∧ (0 ^^^ sub32 0 0x80000002) &&& 0x80000000 = 0) ∧
    ((((CPU.atROM.SetFlag FlagT true).SetReg 0 0).SetReg 9 0x80000002).Step
      (MMU.withWord 0x4548)).map
      (fun r => (r.1.GetFlag FlagV, r.1.GetFlag FlagN, r.1.GetFlag FlagZ, r.1.GetFlag FlagC))
      = some (true, false, false, false) := by
  decide

/-! ### Cartridge and BIOS reads -/

namespace Cartridge

/-- Where `addr + 3` does not wrap and the length is a `uint32`, `Read32` returns: the
little-endian word when the four bytes lie inside the ROM, and 0 otherwise. -/
theorem Read32_of_no_wrap (c : Cartridge) (addr : Nat) (ha : addr + 3 < 2 ^ 32)
    (hl : c.ROM.len < 2 ^ 32) :
    c.Read32 addr =
      some (if addr + 3 < c.ROM.len then
        c.ROM.data addr % 256 ||| (c.ROM.data (addr + 1) % 256) <<< 8 |||
          (c.ROM.data (addr + 2) % 256) <<< 16 ||| (c.ROM.data (addr + 3) % 256) <<< 24
      else 0) := by
  unfold Read32
  rw [Nat.mod_eq_of_lt ha, Nat.mod_eq_of_lt hl]
  by_cases h : addr + 3 < c.ROM.len
  · rw [if_pos h, if_pos h]
    unfold Bytes.sliceFrom?
    rw [if_pos (by omega)]
    show Bytes.Uint32? _ = _
    unfold Bytes.Uint32? Bytes.get?
    simp only []
    rw [if_pos (by omega), if_pos (by omega), if_pos (by omega), if_pos (by omega)]
    rfl
  · rw [if_neg h, if_neg h]

/-- Where `addr + 1` does not wrap and the length is a `uint32`, `Read16` returns: the
little-endian halfword when both bytes lie inside the ROM, and 0 otherwise. -/
theorem Read16_of_no_wrap (c : Cartridge) (addr : Nat) (ha : addr + 1 < 2 ^ 32)
    (hl : c.ROM.len < 2 ^ 32) :
    c.Read16 addr =
      some (if addr + 1 < c.ROM.len then
        c.ROM.data addr % 256 ||| (c.ROM.data (addr + 1) % 256) <<< 8
      else 0) := by
  unfold Read16
  rw [Nat.mod_eq_of_lt ha, Nat.mod_eq_of_lt hl]
  by_cases h : addr + 1 < c.ROM.len
  · rw [if_pos h, if_pos h]
    unfold Bytes.sliceFrom?
    rw [if_pos (by omega)]
    show Bytes.Uint16? _ = _
    unfold Bytes.Uint16? Bytes.get?
    simp only []
    rw [if_pos (by omega), if_pos (by omega)]
    rfl
  · rw [if_neg h, if_neg h]

/-- Where `addr + 3` wraps, the guard of `Read32` compares a number below 3 with the length,
and the slice expression panics on every ROM that passes it. -/
theorem Read32_of_wrap (c : Cartridge) (addr : Nat) (ha : addr < 2 ^ 32)
    (hw : 2 ^ 32 ≤ addr + 3) (hl : c.ROM.len < 2 ^ 32 - 3)
    (hg : addr + 3 - 2 ^ 32 < c.ROM.len) : c.Read32 addr = none := by
  unfold Read32
  have e : (addr + 3) % 2 ^ 32 = addr + 3 - 2 ^ 32 := by omega
  rw [e, Nat.mod_eq_of_lt (by omega), if_pos hg]
  unfold Bytes.sliceFrom?
  rw [if_neg (by omega)]
  rfl

end Cartridge

/-- Where `addr + 3` does not wrap, `ReadBIOS` returns: the little-endian word when the four
bytes lie inside the BIOS region, and 0 otherwise. -/
theorem MMU.ReadBIOS_of_no_wrap (m : MMU) (hm : m.Sized) (addr : Nat) (ha : addr + 3 < 2 ^ 32) :
    m.ReadBIOS addr =
      some (if addr + 3 < BIOSLength then
        m.BIOS.data addr % 256 ||| (m.BIOS.data (addr + 1) % 256) <<< 8 |||
          (m.BIOS.data (addr + 2) % 256) <<< 16 ||| (m.BIOS.data (addr + 3) % 256) <<< 24
      else 0) := by
  have hb := hm.bios
  unfold ReadBIOS
  rw [Nat.mod_eq_of_lt ha]
  unfold BIOSStart BIOSLength at *
  by_cases h : addr + 3 < 0x4000
  · rw [if_pos ⟨Nat.zero_le _, by omega⟩, if_pos h]
    unfold Bytes.sliceFrom?
    rw [if_pos (by omega)]
    show Bytes.Uint32? _ = _
    unfold Bytes.Uint32? Bytes.get?
    simp only []
    rw [if_pos (by omega), if_pos (by omega), if_pos (by omega), if_pos (by omega)]
    rfl
  · rw [if_neg (fun hc => h (by omega)), if_neg h]

/-- C40 (fails in the code): the guards `addr+1 < len` and `addr+3 < len` are computed in
`uint32`, so they pass for the addresses at which the sum wraps, and the slice expression
`ROM[addr:]` then panics.  On the smallest cartridge that loads (`0xC0` bytes) `Read32`
panics at `0xFFFFFFFD`, `0xFFFFFFFE` and `0xFFFFFFFF` and `Read16` at `0xFFFFFFFF`, and
`ReadBIOS` of a fresh memory unit panics at `0xFFFFFFFD`; one address lower each of them
returns 0, and inside the ROM they return the stored word. -/
theorem C40_wrapped_guard_panics :
    Cartridge.smallest.Read32 0xFFFFFFFD = none ∧
    Cartridge.smallest.Read32 0xFFFFFFFE = none ∧
    Cartridge.smallest.Read32 0xFFFFFFFF = none ∧
    Cartridge.smallest.Read16 0xFFFFFFFF = none ∧
    MMU.New.ReadBIOS 0xFFFFFFFD = none ∧
    Cartridge.smallest.Read32 0xFFFFFFFC = some 0 ∧
    Cartridge.smallest.Read16 0xFFFFFFFE = some 0 ∧
    MMU.New.ReadBIOS 0xFFFFFFFC = some 0 ∧
    (Cartridge.mk (Bytes.ofList [0x78, 0x56, 0x34, 0x12])).Read32 0 = some 0x12345678 ∧
    (Cartridge.mk (Bytes.ofList [0x78, 0x56, 0x34, 0x12])).Read16 2 = some 0x1234 := by
  decide

/-! ### PPU: scanline timing in single cycles -/

namespace PPU

/-- While the phase the PPU is in has not reached its length, `Step` only counts the
cycles. -/
theorem Step_wait (p : PPU) (vram palette : Bytes) (c : Int)
    (hw : (p.VBlank = true ∧ p.CycleCount + c < 1232) ∨
      (p.VBlank = false ∧ p.HBlank = true ∧ p.CycleCount + c < 272) ∨
      (p.VBlank = false ∧ p.HBlank = false ∧ p.CycleCount + c < 960)) :
    p.Step vram palette c = some ({ p with CycleCount := p.CycleCount + c }, false) := by
  rcases Step_cases p vram palette c with ⟨_, _, e⟩ | ⟨a, b, _, _⟩ | ⟨a, b, _, _⟩ |
    ⟨_, _, _, e⟩ | ⟨a, a', b, _, _⟩ | ⟨a, a', b, _, _⟩ | ⟨_, _, _, e⟩ |
    ⟨a, a', b, _, _⟩ | ⟨a, a', b, _, _⟩
  · exact e
  · rcases hw with ⟨_, h⟩ | ⟨h, _⟩ | ⟨h, _⟩
    · omega
    · rw [a] at h; cases h
    · rw [a] at h; cases h
  · rcases hw with ⟨_, h⟩ | ⟨h, _⟩ | ⟨h, _⟩
    · omega
    · rw [a] at h; cases h
    · rw [a] at h; cases h
  · exact e
  · rcases hw with ⟨h, _⟩ | ⟨_, _, h⟩ | ⟨_, h, _⟩
    · rw [a] at h; cases h
    · omega
    · rw [a'] at h; cases h
  · rcases hw with ⟨h, _⟩ | ⟨_, _, h⟩ | ⟨_, h, _⟩
    · rw [a] at h; cases h
    · omega
    · rw [a'] at h; cases h
  · exact e
  · rcases hw with ⟨h, _⟩ | ⟨_, h, _⟩ | ⟨_, _, h⟩
    · rw [a] at h; cases h
    · rw [a'] at h; cases h
    · omega
  · rcases hw with ⟨h, _⟩ | ⟨_, h, _⟩ | ⟨_, _, h⟩
    · rw [a] at h; cases h
    · rw [a'] at h; cases h
    · omega

/-- A run of `k` single-cycle calls inside one phase: every call returns `false`, and
together they add `k` to the cycle counter. -/
theorem StepFrame_wait (vram palette : Bytes) (k : Nat) :
    ∀ (p : PPU) (rest : List Int),
      ((p.VBlank = true ∧ p.CycleCount + k < 1232) ∨
        (p.VBlank = false ∧ p.HBlank = true ∧ p.CycleCount + k < 272) ∨
        (p.VBlank = false ∧ p.HBlank = false ∧ p.CycleCount + k < 960)) →
      StepFrame vram palette p (List.replicate k 1 ++ rest) =
        StepFrame vram palette { p with CycleCount := p.CycleCount + k } rest := by
  induction k with
  | zero =>
    intro p rest _
    show StepFrame vram palette p rest = _
    have e : ({ p with CycleCount := p.CycleCount + ((0 : Nat) : Int) } : PPU) = p := by
      cases p
      simp
    rw [e]
  | succ k ih =>
    intro p rest hw
    have hk : ((k + 1 : Nat) : Int) = (k : Int) + 1 := by push_cast; rfl
    rw [hk] at hw
    have e : p.Step vram palette 1 = some ({ p with CycleCount := p.CycleCount + 1 }, false) := by
      apply Step_wait
      rcases hw with ⟨a, h⟩ | ⟨a, b, h⟩ | ⟨a, b, h⟩
      · exact Or.inl ⟨a, by omega⟩
      · exact Or.inr (Or.inl ⟨a, b, by omega⟩)
      · exact Or.inr (Or.inr ⟨a, b, by omega⟩)
    show StepFrame vram palette p (1 :: (List.replicate k 1 ++ rest)) = _
    rw [StepFrame_cons_false vram palette p _ 1 _ e, ih _ rest]
    · have e2 : p.CycleCount + 1 + (k : Int) = p.CycleCount + ((k + 1 : Nat) : Int) := by
        push_cast; omega
      show StepFrame vram palette { p with CycleCount := p.CycleCount + 1 + (k : Int) } rest = _
      rw [e2]
    · rcases hw with ⟨a, h⟩ | ⟨a, b, h⟩ | ⟨a, b, h⟩
      · exact Or.inl ⟨a, by show p.CycleCount + 1 + (k : Int) < 1232; omega⟩
      · exact Or.inr (Or.inl ⟨a, b, by show p.CycleCount + 1 + (k : Int) < 272; omega⟩)
      · exact Or.inr (Or.inr ⟨a, b, by show p.CycleCount + 1 + (k : Int) < 960; omega⟩)

theorem replicate_split (a b : Nat) (rest : List Int) :
    List.replicate (a + b) (1 : Int) ++ rest =
      List.replicate a 1 ++ (List.replicate b 1 ++ rest) := by
  rw [List.replicate_add, List.append_assoc]

/-- Leaving HBlank or entering VBlank does not touch the HBlank-IRQ enable bit. -/
theorem line_flag_irq (d : Nat) :
    ((d &&& (0xFFFF ^^^ 0x0002)) ||| 0x0001) &&& 0x0010 = d &&& 0x0010 := by
  rw [or_and_of_disjoint _ _ _ (by decide), and_and_of_sub _ _ _ (by decide)]

/-- The visible part of scanline `y < 160` in single cycles: the first 959 calls count, the
960th renders the line and enters HBlank. -/
theorem LineStart.to_hblank (vram palette : Bytes) (p : PPU) (y : Nat) (h : p.LineStart y)
    (hy : y < 160) :
    ∃ q, q.CurrentLine = (y : Int) ∧ q.VCOUNT = y ∧ q.CycleCount = 0 ∧ q.HBlank = true ∧
      q.VBlank = false ∧ q.DISPSTAT &&& 0x0008 = 0 ∧ q.DISPSTAT &&& 0x0010 = 0 ∧
      ∀ rest, StepFrame vram palette p (List.replicate 960 1 ++ rest) =
        StepFrame vram palette q rest := by
  obtain ⟨hl, hvc, hc, hh, hv, h8, h10⟩ := h
  have hv' : p.VBlank = false := by rw [hv]; exact decide_eq_false (by omega)
  have hwait : ∀ rest, StepFrame vram palette p (List.replicate 960 1 ++ rest) =
      StepFrame vram palette { p with CycleCount := p.CycleCount + (959 : Nat) } (1 :: rest) := by
    intro rest
    rw [← StepFrame_wait vram palette 959 p (1 :: rest)
      (Or.inr (Or.inr ⟨hv', hh, by rw [hc]; norm_num⟩))]
    exact congrArg _ (replicate_split 959 1 rest)
  rcases Step_cases { p with CycleCount := p.CycleCount + (959 : Nat) } vram palette 1 with
    ⟨a, _, _⟩ | ⟨a, _, _, _⟩ | ⟨a, _, _, _⟩ |
    ⟨_, a, _, _⟩ | ⟨_, a, _, _, _⟩ | ⟨_, a, _, _, _⟩ | ⟨_, _, a, _⟩ |
    ⟨_, _, _, a, _⟩ | ⟨_, _, _, _, e⟩
  · rw [hv'] at a; cases a
  · rw [hv'] at a; cases a
  · rw [hv'] at a; cases a
  · rw [hh] at a; cases a
  · rw [hh] at a; cases a
  · rw [hh] at a; cases a
  · exfalso
    have a' : p.CycleCount + (959 : Nat) + 1 < 960 := a
    rw [hc] at a'
    norm_num at a'
  · exact absurd h10 a
  · obtain ⟨q, hq, hs⟩ := RenderScanline_some
      { p with
        CycleCount := p.CycleCount + (959 : Nat) + 1 - 960, HBlank := true
        DISPSTAT := p.DISPSTAT ||| 0x0002 } vram palette y hl hy
    unfold SameRegs at hs
    refine ⟨q, ?_, ?_, ?_, ?_, ?_, ?_, ?_, ?_⟩
    · rw [hs]; exact hl
    · rw [hs]; exact hvc
    · rw [hs]; show p.CycleCount + (959 : Nat) + 1 - 960 = 0; rw [hc]; norm_num
    · rw [hs]
    · rw [hs]; exact hv'
    · rw [hs]; show (p.DISPSTAT ||| 0x0002) &&& 0x0008 = 0
      rw [or_and_of_disjoint _ _ _ (by decide)]; exact h8
    · rw [hs]; show (p.DISPSTAT ||| 0x0002) &&& 0x0010 = 0
      rw [hblank_flag_irq]; exact h10
    · intro rest
      rw [hwait rest]
      exact StepFrame_cons_false vram palette _ q 1 rest (by rw [e]; show Option.map _ _ = _; rw [hq]; rfl)

/-- The HBlank part of scanline `y < 160` in single cycles: 271 calls count and stay on the
line, the 272nd starts line `y + 1`. -/
theorem from_hblank (vram palette : Bytes) (q : PPU) (y : Nat) (hy : y < 160)
    (hl : q.CurrentLine = (y : Int)) (hvc : q.VCOUNT = y) (hc : q.CycleCount = 0)
    (hh : q.HBlank = true) (hv : q.VBlank = false) (h8 : q.DISPSTAT &&& 0x0008 = 0)
    (h10 : q.DISPSTAT &&& 0x0010 = 0) :
    (∃ q', StepFrame vram palette q (List.replicate 271 1) = some (q', false) ∧ q'.VCOUNT = y) ∧
    ∃ p2, p2.LineStart (y + 1) ∧
      ∀ rest, StepFrame vram palette q (List.replicate 272 1 ++ rest) =
        StepFrame vram palette p2 rest := by
  have hw := fun rest => StepFrame_wait vram palette 271 q rest
    (Or.inr (Or.inl ⟨hv, hh, by rw [hc]; norm_num⟩))
  constructor
  · refine ⟨{ q with CycleCount := q.CycleCount + (271 : Nat) }, ?_, hvc⟩
    have := hw []
    rw [List.append_nil] at this
    rw [this]
    rfl
  have hwait : ∀ rest, StepFrame vram palette q (List.replicate 272 1 ++ rest) =
      StepFrame vram palette { q with CycleCount := q.CycleCount + (271 : Nat) } (1 :: rest) := by
    intro rest
    rw [← hw (1 :: rest)]
    exact congrArg _ (replicate_split 271 1 rest)
  rcases Step_cases { q with CycleCount := q.CycleCount + (271 : Nat) } vram palette 1 with
    ⟨a, _, _⟩ | ⟨a, _, _, _⟩ | ⟨a, _, _, _⟩ |
    ⟨_, _, a, _⟩ | ⟨_, _, _, hn, e⟩ | ⟨_, _, _, hn, e⟩ | ⟨_, a, _, _⟩ |
    ⟨_, a, _, _, _⟩ | ⟨_, a, _, _, _⟩
  · rw [hv] at a; cases a
  · rw [hv] at a; cases a
  · rw [hv] at a; cases a
  · exfalso
    have a' : q.CycleCount + (271 : Nat) + 1 < 272 := a
    rw [hc] at a'
    norm_num at a'
  · have hn' : q.CurrentLine + 1 < 160 := hn
    refine ⟨_, ?_, fun rest => by rw [hwait rest]; exact StepFrame_cons_false vram palette _ _ 1 rest e⟩
    refine ⟨?_, ?_, ?_, rfl, ?_, ?_, ?_⟩
    · show q.CurrentLine + 1 = ((y + 1 : Nat) : Int); rw [hl]; push_cast; rfl
    · show ((q.CurrentLine + 1) % 2 ^ 16).toNat = y + 1; rw [hl]; omega
    · show q.CycleCount + (271 : Nat) + 1 - 272 = 0; rw [hc]; norm_num
    · show q.VBlank = _; rw [hv]; exact (decide_eq_false (by omega)).symm
    · show (q.DISPSTAT &&& (0xFFFF ^^^ 0x0002)) &&& 0x0008 = 0
      rw [and_and_of_sub _ _ _ (by decide)]; exact h8
    · show (q.DISPSTAT &&& (0xFFFF ^^^ 0x0002)) &&& 0x0010 = 0
      rw [and_and_of_sub _ _ _ (by decide)]; exact h10
  · have hn' : q.CurrentLine + 1 ≥ 160 := hn
    have hd : decide (q.DISPSTAT &&& 0x0008 ≠ 0) = false := decide_eq_false (fun hne => hne h8)
    have e' := e
    rw [show ({ q with CycleCount := q.CycleCount + (271 : Nat) } : PPU).DISPSTAT = q.DISPSTAT
      from rfl, hd] at e'
    refine ⟨_, ?_, fun rest => by rw [hwait rest]; exact StepFrame_cons_false vram palette _ _ 1 rest e'⟩
    refine ⟨?_, ?_, ?_, rfl, ?_, ?_, ?_⟩
    · show q.CurrentLine + 1 = ((y + 1 : Nat) : Int); rw [hl]; push_cast; rfl
    · show ((q.CurrentLine + 1) % 2 ^ 16).toNat = y + 1; rw [hl]; omega
    · show q.CycleCount + (271 : Nat) + 1 - 272 = 0; rw [hc]; norm_num
    · show true = _; rw [hl] at hn'; exact (decide_eq_true (by omega)).symm
    · show ((q.DISPSTAT &&& (0xFFFF ^^^ 0x0002)) ||| 0x0001) &&& 0x0008 = 0
      rw [vblank_flag_irq]; exact h8
    · show ((q.DISPSTAT &&& (0xFFFF ^^^ 0x0002)) ||| 0x0001) &&& 0x0010 = 0
      rw [line_flag_irq]; exact h10
  · rw [hh] at a; cases a
  · rw [hh] at a; cases a
  · rw [hh] at a; cases a

/-- A visible scanline in single cycles: the first 1231 calls return `false` and stay on the
line, the 1232nd starts the next line. -/
theorem LineStart.visible_ticks (vram palette : Bytes) (p : PPU) (y : Nat) (h : p.LineStart y)
    (hy : y < 160) :
    (∃ q', StepFrame vram palette p (List.replicate 1231 1) = some (q', false) ∧ q'.VCOUNT = y) ∧
    ∃ p2, p2.LineStart (y + 1) ∧
      ∀ rest, StepFrame vram palette p (List.replicate 1232 1 ++ rest) =
        StepFrame vram palette p2 rest := by
  obtain ⟨q, hl, hvc, hc, hh, hv, h8, h10, hq⟩ := h.to_hblank vram palette p y hy
  obtain ⟨⟨q', e', hv'⟩, p2, h2, e2⟩ := from_hblank vram palette q y hy hl hvc hc hh hv h8 h10
  refine ⟨⟨q', ?_, hv'⟩, p2, h2, fun rest => ?_⟩
  · have e := replicate_split 960 271 []
    rw [List.append_nil, List.append_nil] at e
    rw [show (1231 : Nat) = 960 + 271 from rfl, e, hq, e']
  · rw [show (1232 : Nat) = 960 + 272 from rfl, replicate_split, hq, e2]

/-- A scanline of the VBlank period in single cycles: the first 1231 calls return `false` and
stay on the line; the 1232nd starts the next line, or after line 227 line 0 of the next
frame, and only then returns `true`. -/
theorem LineStart.blank_ticks (vram palette : Bytes) (p : PPU) (y : Nat) (h : p.LineStart y)
    (hy : 160 ≤ y) (hy2 : y < 228) :
    (∃ q', StepFrame vram palette p (List.replicate 1231 1) = some (q', false) ∧ q'.VCOUNT = y) ∧
    (y < 227 → ∃ p2, p2.LineStart (y + 1) ∧
      ∀ rest, StepFrame vram palette p (List.replicate 1232 1 ++ rest) =
        StepFrame vram palette p2 rest) ∧
    (y = 227 → ∃ p2, p2.LineStart 0 ∧
      ∀ rest, StepFrame vram palette p (List.replicate 1232 1 ++ rest) = some (p2, true)) := by
  obtain ⟨hl, hvc, hc, hh, hv, h8, h10⟩ := h
  have hv' : p.VBlank = true := by rw [hv]; exact decide_eq_true hy
  have hw := fun rest => StepFrame_wait vram palette 1231 p rest
    (Or.inl ⟨hv', by rw [hc]; norm_num⟩)
  have hwait : ∀ rest, StepFrame vram palette p (List.replicate 1232 1 ++ rest) =
      StepFrame vram palette { p with CycleCount := p.CycleCount + (1231 : Nat) } (1 :: rest) := by
    intro rest
    rw [← hw (1 :: rest)]
    exact congrArg _ (replicate_split 1231 1 rest)
  refine ⟨?_, ?_, ?_⟩
  · refine ⟨{ p with CycleCount := p.CycleCount + (1231 : Nat) }, ?_, hvc⟩
    have := hw []
    rw [List.append_nil] at this
    rw [this]
    rfl
  · intro hy3
    rcases Step_cases { p with CycleCount := p.CycleCount + (1231 : Nat) } vram palette 1 with
      ⟨_, a, _⟩ | ⟨_, _, _, e⟩ | ⟨_, _, a, _⟩ |
      ⟨a, _, _, _⟩ | ⟨a, _, _, _, _⟩ | ⟨a, _, _, _, _⟩ | ⟨a, _, _, _⟩ |
      ⟨a, _, _, _, _⟩ | ⟨a, _, _, _, _⟩
    · exfalso
      have a' : p.CycleCount + (1231 : Nat) + 1 < 1232 := a
      rw [hc] at a'
      norm_num at a'
    · refine ⟨_, ?_, fun rest => by
        rw [hwait rest]; exact StepFrame_cons_false vram palette _ _ 1 rest e⟩
      refine ⟨?_, ?_, ?_, hh, ?_, h8, h10⟩
      · show p.CurrentLine + 1 = ((y + 1 : Nat) : Int); rw [hl]; push_cast; rfl
      · show ((p.CurrentLine + 1) % 2 ^ 16).toNat = y + 1; rw [hl]; omega
      · show p.CycleCount + (1231 : Nat) + 1 - 1232 = 0; rw [hc]; norm_num
      · show p.VBlank = _; rw [hv']; exact (decide_eq_true (by omega)).symm
    · exfalso
      have a' : p.CurrentLine + 1 ≥ 228 := a
      rw [hl] at a'
      omega
    · rw [hv'] at a; cases a
    · rw [hv'] at a; cases a
    · rw [hv'] at a; cases a
    · rw [hv'] at a; cases a
    · rw [hv'] at a; cases a
    · rw [hv'] at a; cases a
  · intro hy3
    rcases Step_cases { p with CycleCount := p.CycleCount + (1231 : Nat) } vram palette 1 with
      ⟨_, a, _⟩ | ⟨_, _, a, _⟩ | ⟨_, _, _, e⟩ |
      ⟨a, _, _, _⟩ | ⟨a, _, _, _, _⟩ | ⟨a, _, _, _, _⟩ | ⟨a, _, _, _⟩ |
      ⟨a, _, _, _, _⟩ | ⟨a, _, _, _, _⟩
    · exfalso
      have a' : p.CycleCount + (1231 : Nat) + 1 < 1232 := a
      rw [hc] at a'
      norm_num at a'
    · exfalso
      have a' : p.CurrentLine + 1 < 228 := a
      rw [hl] at a'
      omega
    · refine ⟨_, ?_, fun rest => by
        rw [hwait rest]; exact StepFrame_cons_true vram palette _ _ 1 rest e⟩
      refine ⟨rfl, rfl, ?_, hh, rfl, ?_, ?_⟩
      · show p.CycleCount + (1231 : Nat) + 1 - 1232 = 0; rw [hc]; norm_num
      · show (p.DISPSTAT &&& (0xFFFF ^^^ 0x0001)) &&& 0x0008 = 0
        rw [and_and_of_sub _ _ _ (by decide)]; exact h8
      · show (p.DISPSTAT &&& (0xFFFF ^^^ 0x0001)) &&& 0x0010 = 0
        rw [and_and_of_sub _ _ _ (by decide)]; exact h10
    · rw [hv'] at a; cases a
    · rw [hv'] at a; cases a
    · rw [hv'] at a; cases a
    · rw [hv'] at a; cases a
    · rw [hv'] at a; cases a
    · rw [hv'] at a; cases a

/-- One scanline, visible or not, below the last one. -/
theorem LineStart.next_line_ticks (vram palette : Bytes) (p : PPU) (y : Nat) (h : p.LineStart y)
    (hy : y < 227) :
    ∃ p2, p2.LineStart (y + 1) ∧
      ∀ rest, StepFrame vram palette p (List.replicate 1232 1 ++ rest) =
        StepFrame vram palette p2 rest := by
  by_cases h160 : y < 160
  · exact (h.visible_ticks vram palette p y h160).2
  · exact (h.blank_ticks vram palette p y (by omega) (by omega)).2.1 hy

/-- The next `k` scanlines in single cycles, none of them the last of the frame. -/
theorem LineStart.line_ticks (vram palette : Bytes) (k : Nat) :
    ∀ (p : PPU) (y : Nat), p.LineStart y → y + k ≤ 227 →
      ∃ p2, p2.LineStart (y + k) ∧
        ∀ rest, StepFrame vram palette p (List.replicate (k * 1232) 1 ++ rest) =
          StepFrame vram palette p2 rest := by
  induction k with
  | zero =>
    intro p y h _
    refine ⟨p, h, fun rest => ?_⟩
    rw [Nat.zero_mul]
    rfl
  | succ k ih =>
    intro p y h hle
    obtain ⟨p1, h1, e1⟩ := h.next_line_ticks vram palette p y (by omega)
    obtain ⟨p2, h2, e2⟩ := ih p1 (y + 1) h1 (by omega)
    refine ⟨p2, ?_, fun rest => ?_⟩
    · rw [show y + (k + 1) = y + 1 + k by omega]; exact h2
    · rw [show (k + 1) * 1232 = 1232 + k * 1232 by ring, replicate_split, e1, e2]

theorem LineStart_Reset (p0 : PPU) : p0.Reset.LineStart 0 :=
  ⟨rfl, rfl, rfl, rfl, rfl, Nat.zero_and _, Nat.zero_and _⟩

/-- A frame in single cycles from a state at the start of line 0: no call before the
280896th returns `true`, and that one does and leaves the PPU at the start of line 0. -/
theorem LineStart.frame_ticks (vram palette : Bytes) (p : PPU) (h : p.LineStart 0) :
    (∃ q, StepFrame vram palette p (List.replicate 280895 1) = some (q, false)) ∧
    ∃ p2, p2.LineStart 0 ∧
      StepFrame vram palette p (List.replicate 280896 1) = some (p2, true) := by
  obtain ⟨p1, h1, e1⟩ := LineStart.line_ticks vram palette 227 p 0 h (by norm_num)
  obtain ⟨⟨q, eq, -⟩, -, hlast⟩ := h1.blank_ticks vram palette p1 227 (by norm_num)
    (by norm_num)
  obtain ⟨p2, h2, e2⟩ := hlast rfl
  constructor
  · refine ⟨q, ?_⟩
    have e := replicate_split (227 * 1232) 1231 []
    rw [List.append_nil, List.append_nil] at e
    have e1' := e1 (List.replicate 1231 1)
    rw [← e] at e1'
    rw [← eq, ← e1']
  · refine ⟨p2, h2, ?_⟩
    have e := replicate_split (227 * 1232) 1232 []
    rw [List.append_nil, List.append_nil] at e
    have e1' := e1 (List.replicate 1232 1)
    rw [← e] at e1'
    have e2' := e2 []
    rw [List.append_nil] at e2'
    rw [← e2', ← e1']

end PPU

/-- C38: after `PPU.Reset` (which clears `DISPSTAT`, so both IRQ enables are clear), with any
memory contents, none of the first 280895 calls `Step(1)` returns `true` (`StepFrame` runs the
calls up to the first that does, and returns `false` when none has), the 280896th
(`228 * 1232`) does, and it leaves `VCOUNT = 0` with VBlank clear.  More generally, from the
start of any scanline `y < 228`, visible or not, with the IRQ enables clear: the first 1231
calls `Step(1)` return `false` and leave `VCOUNT = y`, and the 1232nd starts line `y + 1`, or
line 0 after line 227, returning `true` in that case only. -/
theorem C38_scanline_lasts_1232_cycles (vram palette : Bytes) (p0 : PPU) :
    (∃ q, PPU.StepFrame vram palette p0.Reset (List.replicate 280895 1) = some (q, false)) ∧
    (∃ p2, PPU.StepFrame vram palette p0.Reset (List.replicate 280896 1) = some (p2, true) ∧
      p2.VCOUNT = 0 ∧ p2.VBlank = false) ∧
    (280896 : Nat) = 228 * 1232 ∧
    ∀ (p : PPU) (y : Nat), y < 228 → p.LineStart y →
      (∃ q, PPU.StepFrame vram palette p (List.replicate 1231 1) = some (q, false) ∧
        q.VCOUNT = y) ∧
      ∃ p2, PPU.StepFrame vram palette p (List.replicate 1232 1) =
          some (p2, decide (y = 227)) ∧
        p2.LineStart ((y + 1) % 228) ∧ p2.VCOUNT = (y + 1) % 228 := by
  obtain ⟨hq, p2, h2, e2⟩ := PPU.LineStart.frame_ticks vram palette p0.Reset (PPU.LineStart_Reset p0)
  refine ⟨hq, ⟨p2, e2, h2.2.1, h2.2.2.2.2.1⟩, by norm_num, ?_⟩
  intro p y hy h
  by_cases h160 : y < 160
  · obtain ⟨hw, p3, h3, e3⟩ := h.visible_ticks vram palette p y h160
    refine ⟨hw, p3, ?_, ?_, ?_⟩
    · have e := e3 []
      rw [List.append_nil] at e
      rw [e, decide_eq_false (by omega)]
      rfl
    · rw [Nat.mod_eq_of_lt (by omega)]; exact h3
    · rw [Nat.mod_eq_of_lt (by omega)]; exact h3.2.1
  · obtain ⟨hw, hn, hl⟩ := h.blank_ticks vram palette p y (by omega) hy
    refine ⟨hw, ?_⟩
    by_cases h227 : y = 227
    · obtain ⟨p3, h3, e3⟩ := hl h227
      refine ⟨p3, ?_, ?_, ?_⟩
      · have e := e3 []
        rw [List.append_nil] at e
        rw [e, decide_eq_true h227]
      · rw [h227]; exact h3
      · rw [h227]; exact h3.2.1
    · obtain ⟨p3, h3, e3⟩ := hn (by omega)
      refine ⟨p3, ?_, ?_, ?_⟩
      · have e := e3 []
        rw [List.append_nil] at e
        rw [e, decide_eq_false h227]
        rfl
      · rw [Nat.mod_eq_of_lt (by omega)]; exact h3
      · rw [Nat.mod_eq_of_lt (by omega)]; exact h3.2.1

theorem C38_scanline_lasts_1232_cycles_witness :
    (0 : Nat) < 228 ∧ PPU.New.LineStart 0 ∧
    (∃ q, PPU.StepFrame (Bytes.make 0) (Bytes.make 0) PPU.New (List.replicate 1231 1) =
        some (q, false) ∧ q.VCOUNT = 0) ∧
    ∃ p2, PPU.StepFrame (Bytes.make 0) (Bytes.make 0) PPU.New (List.replicate 1232 1) =
        some (p2, decide (0 = 227)) ∧
      p2.LineStart ((0 + 1) % 228) ∧ p2.VCOUNT = (0 + 1) % 228 :=
  ⟨by decide, by decide,
    (C38_scanline_lasts_1232_cycles (Bytes.make 0) (Bytes.make 0) PPU.New).2.2.2 PPU.New 0
      (by decide) (by decide)⟩

/-! ### The system step -/

namespace CPU

/-- The Thumb dispatch returns on a memory with the region lengths of `New`. -/
theorem dispatchThumb_isSome (c : CPU) (m : MMU) (hm : m.Sized) (instr : Nat) :
    (c.dispatchThumb m instr).isSome = true := by
  unfold dispatchThumb
  repeat' (first
    | (with_reducible apply isSome_ite_cases <;> intro _)
    | exact Option.isSome_some)
  unfold thumbLoadPC
  simp only []
  obtain ⟨v, hv⟩ := Option.isSome_iff_exists.mp (MMU.Read32_isSome m hm
    (((c.PC &&& not32 3) + ((instr &&& 0xFF) <<< 2) % 2 ^ 32) % 2 ^ 32))
  rw [hv]
  rfl

/-- `CPU.Step` returns on a memory with the region lengths of `New`. -/
theorem Step_isSome (c : CPU) (m : MMU) (hm : m.Sized) : ∃ r, c.Step m = some r := by
  apply Option.isSome_iff_exists.mp
  unfold Step
  by_cases hh : c.Halted = true
  · rw [if_pos hh]; rfl
  · rw [if_neg hh]
    by_cases ht : c.InThumbMode = true
    · rw [if_pos ht]
      unfold executeThumb
      obtain ⟨v, hv⟩ := Option.isSome_iff_exists.mp (MMU.Read16_isSome m hm c.PC)
      rw [hv]
      obtain ⟨r, hr⟩ := Option.isSome_iff_exists.mp
        (dispatchThumb_isSome (c.advancePC 2) m hm v)
      show (Option.map _ ((c.advancePC 2).dispatchThumb m v)).isSome = true
      rw [hr]
      rfl
    · rw [if_neg ht]
      unfold executeARM
      obtain ⟨v, hv⟩ := Option.isSome_iff_exists.mp (MMU.Read32_isSome m hm c.PC)
      rw [hv]
      rfl

end CPU

theorem Samples.set?_in_range (b : Samples) (i v : Int) (h0 : 0 ≤ i) (h1 : i < (b.len : Int)) :
    b.set? i v = some { b with data := Function.update b.data i.toNat v } := by
  unfold Samples.set?
  rw [if_pos ⟨h0, h1⟩]

namespace APU

theorem cyclesPerSample_eq : cyclesPerSample = 512 := by decide

/-- `generateSample` returns when the buffer position is not negative, keeps it so, and
leaves the cycle counter alone. -/
theorem generateSample_some (a : APU) (h : 0 ≤ a.BufferPos) :
    ∃ a', a.generateSample = some a' ∧ 0 ≤ a'.BufferPos ∧ a'.CycleCount = a.CycleCount := by
  unfold generateSample
  simp only []
  by_cases hb : a.BufferPos < (a.SoundBuffer.len : Int) - 1
  · rw [if_pos hb]
    rw [Samples.set?_in_range _ _ _ h (by omega)]
    simp only [Option.some_bind]
    rw [Samples.set?_in_range _ _ _ (by omega)
      (by show a.BufferPos + 1 < (a.SoundBuffer.len : Int); omega)]
    exact ⟨_, rfl, by show 0 ≤ a.BufferPos + 2; omega, rfl⟩
  · rw [if_neg hb]
    exact ⟨a, rfl, h, rfl⟩

/-- The sample loop ends within the fuel `CycleCount`. -/
theorem stepLoop_some (fuel : Nat) :
    ∀ a : APU, a.CycleCount ≤ fuel → 0 ≤ a.BufferPos →
      ∃ a', stepLoop fuel a = some a' ∧ 0 ≤ a'.BufferPos := by
  induction fuel with
  | zero =>
    intro a hc hb
    refine ⟨a, ?_, hb⟩
    unfold stepLoop
    rw [cyclesPerSample_eq, if_neg (by push_cast at hc; omega)]
  | succ fuel ih =>
    intro a hc hb
    unfold stepLoop
    rw [cyclesPerSample_eq]
    by_cases h : a.CycleCount ≥ 512
    · rw [if_pos h]
      obtain ⟨a1, e1, hb1, hc1⟩ := generateSample_some
        { a with CycleCount := a.CycleCount - 512 } hb
      rw [e1]
      show ∃ a', stepLoop fuel a1 = some a' ∧ _
      exact ih a1 (by rw [hc1]; show a.CycleCount - 512 ≤ (fuel : Int); push_cast at hc; omega) hb1
    · rw [if_neg h]
      exact ⟨a, rfl, hb⟩

/-- `APU.Step` returns when the buffer position is not negative, and keeps it so. -/
theorem Step_some (a : APU) (cycles : Int) (h : 0 ≤ a.BufferPos) :
    ∃ a', a.Step cycles = some a' ∧ 0 ≤ a'.BufferPos := by
  unfold Step
  exact stepLoop_some _ _ (Int.self_le_toNat _) h

end APU

namespace MMU

theorem RequestInterrupt_sized {m : MMU} (hm : m.Sized) (irq : Nat) :
    (m.RequestInterrupt irq).Sized :=
  ⟨hm.bios, hm.wram256, hm.wram32, hm.io, hm.palette, hm.vram, hm.oam, hm.sram⟩

theorem deliver_sized {m : MMU} (hm : m.Sized) (log : List Nat) : (m.deliver log).Sized := by
  induction log with
  | nil => exact hm
  | cons irq log ih => exact RequestInterrupt_sized ih irq

end MMU

namespace GBA

/-- A channel pass of the DMA controller returns on a memory with the region lengths of
`New` and keeps them. -/
theorem dmaChannel_sized (d : LiveGBA.DMA) (m : LiveGBA.MMU) (hm : m.Sized) (i : Nat) :
    ∃ d' m', dmaChannel (d, m) i = some (d', m') ∧ m'.Sized := by
  unfold dmaChannel
  by_cases ha : d.Active i = true
  · obtain ⟨m1, e, h1⟩ := DMA.transfer_regs { d with Requested := [] } m hm i
    simp only []
    rw [if_pos ha, e]
    exact ⟨_, _, rfl, MMU.deliver_sized h1 _⟩
  · simp only []
    rw [if_neg ha]
    exact ⟨d, m, rfl, hm⟩

/-- The DMA step returns on a memory with the region lengths of `New` and keeps them. -/
theorem dmaStep_sized (d : LiveGBA.DMA) (m : LiveGBA.MMU) (hm : m.Sized) :
    ∃ d' m', dmaStep d m = some (d', m') ∧ m'.Sized := by
  obtain ⟨d0, m0, e0, h0⟩ := dmaChannel_sized d m hm 0
  obtain ⟨d1, m1, e1, h1⟩ := dmaChannel_sized d0 m0 h0 1
  obtain ⟨d2, m2, e2, h2⟩ := dmaChannel_sized d1 m1 h1 2
  obtain ⟨d3, m3, e3, h3⟩ := dmaChannel_sized d2 m2 h2 3
  refine ⟨d3, m3, ?_, h3⟩
  unfold dmaStep
  rw [e0]
  show (dmaChannel (d0, m0) 1 >>= fun r1 => _) = _
  rw [e1]
  show (dmaChannel (d1, m1) 2 >>= fun r2 => _) = _
  rw [e2]
  exact e3

/-- The interrupt check changes the CPU only. -/
theorem serviceInterrupts_eq (g : GBA) :
    g.serviceInterrupts = { g with CPU := g.serviceInterrupts.CPU } := by
  unfold serviceInterrupts handleInterrupt
  split_ifs <;> rfl

/-- The frame block changes the CPU and the frame counter only. -/
theorem endFrame_eq (g : GBA) (b : Bool) :
    g.endFrame b =
      { g with
        CPU := (g.endFrame b).CPU
        FrameCount := g.FrameCount + (if b = true then 1 else 0) } := by
  unfold endFrame
  by_cases hb : b = true
  · rw [if_pos hb, if_pos hb]
    rw [serviceInterrupts_eq]
  · rw [if_neg hb, if_neg hb]
    show g = { g with CPU := g.CPU, FrameCount := g.FrameCount + 0 }
    rw [Int.add_zero]

/-- `GBA.Step` written out: the five calls in the order of the source, each on the state the
calls before it have left, and then the two interrupt checks. -/
theorem Step_eq (g : GBA) :
    g.Step =
      (g.CPU.Step g.MMU).bind fun r =>
        (({ g.Timer with Requested := [] } : LiveGBA.Timer).Step r.2).bind fun t =>
          (g.APU.Step r.2).bind fun a =>
            (dmaStep g.DMA (g.MMU.deliver t.Requested)).bind fun dm =>
              (g.PPU.Step dm.2.VRAM dm.2.Palette r.2).bind fun pb =>
                some (((({ g with
                          CPU := r.1, MMU := dm.2, PPU := pb.1, APU := a, DMA := dm.1
                          Timer := t, TotalCycles := g.TotalCycles + r.2 } : GBA).endFrame
                        pb.2).serviceInterrupts), r.2) := by
  unfold Step stepTimer stepAPU stepDMA stepPPU
  cases g.CPU.Step g.MMU with
  | none => rfl
  | some r =>
    show Option.bind (Option.map _ (({ g.Timer with Requested := [] } : LiveGBA.Timer).Step r.2)) _
      = Option.bind (({ g.Timer with Requested := [] } : LiveGBA.Timer).Step r.2) _
    cases ({ g.Timer with Requested := [] } : LiveGBA.Timer).Step r.2 with
    | none => rfl
    | some t =>
      show Option.bind (Option.map _ (g.APU.Step r.2)) _ = Option.bind (g.APU.Step r.2) _
      cases g.APU.Step r.2 with
      | none => rfl
      | some a =>
        show Option.bind (Option.map _ (dmaStep g.DMA (g.MMU.deliver t.Requested))) _ =
          Option.bind (dmaStep g.DMA (g.MMU.deliver t.Requested)) _
        cases dmaStep g.DMA (g.MMU.deliver t.Requested) with
        | none => rfl
        | some dm =>
          show Option.bind (Option.map _ (g.PPU.Step dm.2.VRAM dm.2.Palette r.2)) _ =
            Option.bind (g.PPU.Step dm.2.VRAM dm.2.Palette r.2) _
          cases g.PPU.Step dm.2.VRAM dm.2.Palette r.2 with
          | none => rfl
          | some pb => rfl

theorem Ready_New : GBA.New.Ready :=
  ⟨MMU.Sized_New, fun i hi => by
      show (1 : Int) ≤ (if i < 4 then 1 else 0)
      rw [if_pos hi],
    le_refl _, PPU.LineInv_New⟩

/-- The timers return when the prescalers are positive, and keep them. -/
theorem timer_step_prescaler (t : LiveGBA.Timer) (c : Int)
    (hp : ∀ i, i < 4 → 1 ≤ t.Prescaler i) :
    ∃ t', t.Step c = some t' ∧ ∀ i, i < 4 → 1 ≤ t'.Prescaler i := by
  obtain ⟨t1, t2, t3, t4, e, s1, s2, s3, s4⟩ := Timer.Step_stages t c hp
  refine ⟨t4, e, fun i hi => ?_⟩
  rw [s4.same.prescaler, s3.same.prescaler, s2.same.prescaler, s1.same.prescaler]
  exact hp i hi

/-- One `GBA.Step` from a state that satisfies `Ready`: each of the five calls returns, the
step returns the cycle count of `CPU.Step`, and the state it leaves holds what the calls
have left. -/
theorem Step_ready (g : GBA) (h : g.Ready) :
    ∃ cpu c t a d m p b g',
      g.CPU.Step g.MMU = some (cpu, c) ∧
      ({ g.Timer with Requested := [] } : LiveGBA.Timer).Step c = some t ∧
      g.APU.Step c = some a ∧
      dmaStep g.DMA (g.MMU.deliver t.Requested) = some (d, m) ∧
      g.PPU.Step m.VRAM m.Palette c = some (p, b) ∧
      g.Step = some (g', c) ∧
      g'.TotalCycles = g.TotalCycles + c ∧ g'.Timer = t ∧ g'.APU = a ∧ g'.DMA = d ∧
      g'.MMU = m ∧ g'.PPU = p ∧
      g'.FrameCount = g.FrameCount + (if b = true then 1 else 0) ∧ g'.Ready := by
  obtain ⟨hm, ht, ha, hp⟩ := h
  obtain ⟨⟨cpu, c⟩, e1⟩ := CPU.Step_isSome g.CPU g.MMU hm
  obtain ⟨t, e2, ht'⟩ := timer_step_prescaler { g.Timer with Requested := [] } c ht
  obtain ⟨a, e3, ha'⟩ := APU.Step_some g.APU c ha
  obtain ⟨d, m, e4, hm'⟩ := dmaStep_sized g.DMA (g.MMU.deliver t.Requested)
    (MMU.deliver_sized hm _)
  obtain ⟨p, b, e5, hp', -⟩ := PPU.Step_total g.PPU hp m.VRAM m.Palette c
  have e : g.Step = some (((({ g with
      CPU := cpu, MMU := m, PPU := p, APU := a, DMA := d
      Timer := t, TotalCycles := g.TotalCycles + c } : GBA).endFrame b).serviceInterrupts), c) := by
    rw [Step_eq, e1]
    show Option.bind (({ g.Timer with Requested := [] } : LiveGBA.Timer).Step c) _ = _
    rw [e2]
    show Option.bind (g.APU.Step c) _ = _
    rw [e3]
    show Option.bind (dmaStep g.DMA (g.MMU.deliver t.Requested)) _ = _
    rw [e4]
    show Option.bind (g.PPU.Step m.VRAM m.Palette c) _ = _
    rw [e5]
    rfl
  refine ⟨cpu, c, t, a, d, m, p, b, _, e1, e2, e3, e4, e5, e, ?_⟩
  rw [serviceInterrupts_eq, endFrame_eq]
  exact ⟨rfl, rfl, rfl, rfl, rfl, rfl, rfl, hm', ht', ha', hp'⟩

/-- Any number of steps from a state that satisfies `Ready`: the run returns, and the list
of the cycle counts it has returned is the list the timers, the APU and the PPU have been
stepped with, the PPU on the memory of each step. -/
theorem run_ready (n : Nat) :
    ∀ g : GBA, g.Ready →
      ∃ (g' : GBA) (cs : List Int) (ms : List LiveGBA.MMU),
        g.run n = some (g', cs) ∧ cs.length = n ∧ ms.length = n ∧
        g'.TotalCycles = g.TotalCycles + cs.sum ∧
        timerRun g.Timer cs = some g'.Timer ∧ g.APU.StepAll cs = some g'.APU ∧
        ppuRun g.PPU (ms.zip cs) = some g'.PPU ∧ g'.Ready := by
  induction n with
  | zero =>
    intro g h
    exact ⟨g, [], [], rfl, rfl, rfl, by rw [List.sum_nil, Int.add_zero], rfl, rfl, rfl, h⟩
  | succ n ih =>
    intro g h
    obtain ⟨cpu, c, t, a, d, m, p, b, g1, -, e2, e3, -, e5, e, hT, ht, ha, -, hm, hp, -, h1⟩ :=
      Step_ready g h
    obtain ⟨g', cs, ms, r, hl, hl', hT', ht', ha', hp', h'⟩ := ih g1 h1
    refine ⟨g', c :: cs, m :: ms, ?_, by rw [List.length_cons, hl],
      by rw [List.length_cons, hl'], ?_, ?_, ?_, ?_, h'⟩
    · show (g.Step.bind fun r => _) = _
      rw [e]
      show Option.map _ (run n g1) = _
      rw [r]
      rfl
    · rw [hT', hT, List.sum_cons, Int.add_assoc]
    · show Option.bind (({ g.Timer with Requested := [] } : LiveGBA.Timer).Step c) _ = _
      rw [e2]
      show timerRun t cs = _
      rw [← ht]
      exact ht'
    · show Option.bind (g.APU.Step c) _ = _
      rw [e3]
      show a.StepAll cs = _
      rw [← ha]
      exact ha'
    · show Option.bind (g.PPU.Step m.VRAM m.Palette c) _ = _
      rw [e5]
      show ppuRun p (ms.zip cs) = _
      rw [← hp]
      exact hp'

end GBA

/-- C33: in every state `g` that the constructors and methods can leave (`Ready`: allocated
region lengths, positive prescalers, buffer position not negative, PPU line counter in step)
`GBA.Step` returns, and it returns the cycle count `c` that `CPU.Step` has returned on the
memory of `g`.  `TotalCycles` grows by `c`; the timers are stepped once with `c`, the APU once
with `c`, the DMA controller once on the memory on which the timers have requested their
interrupts, and the PPU once with `c` on the memory the DMA step has left; no later part of
the step changes what these calls leave.  Hence after any number `n` of steps the returned
counts `cs` add up to the growth of `TotalCycles`, and `cs` is the list of counts the timers,
the APU and the PPU have been stepped with. -/
theorem C33_step_passes_cpu_cycles (g : GBA) (h : g.Ready) :
    (∃ cpu c t a d m p b g',
      g.CPU.Step g.MMU = some (cpu, c) ∧
      ({ g.Timer with Requested := [] } : Timer).Step c = some t ∧
      g.APU.Step c = some a ∧
      GBA.dmaStep g.DMA (g.MMU.deliver t.Requested) = some (d, m) ∧
      g.PPU.Step m.VRAM m.Palette c = some (p, b) ∧
      g.Step = some (g', c) ∧
      g'.TotalCycles = g.TotalCycles + c ∧ g'.Timer = t ∧ g'.APU = a ∧ g'.DMA = d ∧
      g'.MMU = m ∧ g'.PPU = p ∧
      g'.FrameCount = g.FrameCount + (if b = true then 1 else 0) ∧ g'.Ready) ∧
    ∀ n, ∃ (g' : GBA) (cs : List Int) (ms : List MMU),
      g.run n = some (g', cs) ∧ cs.length = n ∧ ms.length = n ∧
      g'.TotalCycles = g.TotalCycles + cs.sum ∧
      GBA.timerRun g.Timer cs = some g'.Timer ∧ g.APU.StepAll cs = some g'.APU ∧
      GBA.ppuRun g.PPU (ms.zip cs) = some g'.PPU ∧ g'.Ready :=
  ⟨GBA.Step_ready g h, fun n => GBA.run_ready n g h⟩

theorem C33_step_passes_cpu_cycles_witness :
    GBA.New.Ready ∧
    (∃ cpu c t a d m p b g',
      GBA.New.CPU.Step GBA.New.MMU = some (cpu, c) ∧
      ({ GBA.New.Timer with Requested := [] } : Timer).Step c = some t ∧
      GBA.New.APU.Step c = some a ∧
      GBA.dmaStep GBA.New.DMA (GBA.New.MMU.deliver t.Requested) = some (d, m) ∧
      GBA.New.PPU.Step m.VRAM m.Palette c = some (p, b) ∧
      GBA.New.Step = some (g', c) ∧
      g'.TotalCycles = GBA.New.TotalCycles + c ∧ g'.Timer = t ∧ g'.APU = a ∧ g'.DMA = d ∧
      g'.MMU = m ∧ g'.PPU = p ∧
      g'.FrameCount = GBA.New.FrameCount + (if b = true then 1 else 0) ∧ g'.Ready) ∧
    ∀ n, ∃ (g' : GBA) (cs : List Int) (ms : List MMU),
      GBA.New.run n = some (g', cs) ∧ cs.length = n ∧ ms.length = n ∧
      g'.TotalCycles = GBA.New.TotalCycles + cs.sum ∧
      GBA.timerRun GBA.New.Timer cs = some g'.Timer ∧
      GBA.New.APU.StepAll cs = some g'.APU ∧
      GBA.ppuRun GBA.New.PPU (ms.zip cs) = some g'.PPU ∧ g'.Ready :=
  ⟨GBA.Ready_New, C33_step_passes_cpu_cycles GBA.New GBA.Ready_New⟩

/-! ### CPU: the data-processing forms `executeARM` does not dispatch -/

namespace CPU

/-- `executeARM` on a word with bits 27..25 = 001, the data-processing forms with an
immediate operand: the second case of the `switch` takes it, `handlePSRTransfer` is empty,
and only `PC` is advanced. -/
theorem executeARM_immediate (c : CPU) (m : MMU) (instr : Nat)
    (hr : m.Read32 c.PC = some instr)
    (hc : c.ConditionPassed ((instr >>> 28) &&& 0xF) = true)
    (hb : instr &&& 0x0E000000 = 0x02000000) :
    c.executeARM m = some (c.advancePC 4, 1) := by
  unfold executeARM
  rw [hr]
  show some _ = some _
  congr 1
  simp only []
  have n1 : ¬(instr &&& 0x0E000000 = 0x00000000 ∧ instr &&& 0x00000010 ≠ 0x00000010) :=
    fun h => by
      have h0 := h.1
      rw [hb] at h0
      exact absurd h0 (by decide)
  rw [hc, if_neg (by decide), if_neg n1, if_pos hb]
  rfl

/-- `executeARM` on a word with bits 27..25 = 000, bit 4 set and bit 7 clear, the
data-processing forms whose shift amount comes from a register: no case of the `switch`
takes it, and only `PC` is advanced. -/
theorem executeARM_registerShift (c : CPU) (m : MMU) (instr : Nat)
    (hr : m.Read32 c.PC = some instr)
    (hc : c.ConditionPassed ((instr >>> 28) &&& 0xF) = true)
    (hd : instr &&& 0x0E000000 = 0x00000000) (h4 : instr &&& 0x00000010 = 0x00000010)
    (h7 : instr &&& 0x00000080 = 0) :
    c.executeARM m = some (c.advancePC 4, 1) := by
  unfold executeARM
  rw [hr]
  show some _ = some _
  congr 1
  simp only []
  have n1 : ¬(instr &&& 0x0E000000 = 0x00000000 ∧ instr &&& 0x00000010 ≠ 0x00000010) :=
    fun h => h.2 h4
  have n2 : ¬(instr &&& 0x0E000000 = 0x02000000) := by rw [hd]; decide
  have n3 : ¬(instr &&& 0x0E000090 = 0x00000090) := fun h => by
    have := and_mask_of_eq instr _ 0x00000080 _ h (by decide)
    rw [h7] at this
    exact absurd this (by decide)
  have n4 : ¬(instr &&& 0x0E000F00 = 0x000000B0 ∨ instr &&& 0x0E000F00 = 0x000000D0) := by
    rintro (h | h)
    · have := and_mask_of_eq instr _ 0x0E000F00 _ h (by decide)
      rw [h] at this
      exact absurd this (by decide)
    · have := and_mask_of_eq instr _ 0x0E000F00 _ h (by decide)
      rw [h] at this
      exact absurd this (by decide)
  have n5 : ¬(instr &&& 0x0E000000 = 0x08000000) := by rw [hd]; decide
  have n6 : ¬(instr &&& 0x0E000000 = 0x04000000) := by rw [hd]; decide
  have n7 : ¬(instr &&& 0x0E000000 = 0x0A000000) := by rw [hd]; decide
  have n8 : ¬(instr &&& 0x0F000000 = 0x0F000000) := fun h => by
    have := and_mask_of_eq instr _ 0x0E000000 _ h (by decide)
    rw [hd] at this
    exact absurd this (by decide)
  have n9 : ¬(instr &&& 0x0E000000 = 0x0C000000) := by rw [hd]; decide
  rw [hc, if_neg (by decide), if_neg n1, if_neg n2, if_neg n3, if_neg n4, if_neg n5,
    if_neg n6, if_neg n7, if_neg n8, if_neg n9]

/-- A data-processing instruction with an immediate operand, executed by `Step` in ARM
state with its condition passed, changes nothing but `PC`, `Regs[15]` and the step
counter: no register is written and no flag is set. -/
theorem Step_immediate (c : CPU) (m : MMU) (instr : Nat) (hh : c.Halted = false)
    (ht : c.InThumbMode = false) (hr : m.Read32 c.PC = some instr)
    (hc : c.ConditionPassed ((instr >>> 28) &&& 0xF) = true)
    (hb : instr &&& 0x0E000000 = 0x02000000) :
    c.Step m =
      some ({ c with
        PC := (c.PC + 4) % 2 ^ 32
        Regs := Function.update c.Regs 15 (((c.PC + 4) % 2 ^ 32 + 4) % 2 ^ 32)
        StepCount := (c.StepCount + 1) % 2 ^ 64 }, 1) := by
  rw [Step_arm c m hh ht, executeARM_immediate c m instr hr hc hb]
  rfl

/-- A data-processing instruction whose shift amount comes from a register, executed by
`Step` in ARM state with its condition passed, changes nothing but `PC`, `Regs[15]` and the
step counter. -/
theorem Step_registerShift (c : CPU) (m : MMU) (instr : Nat) (hh : c.Halted = false)
    (ht : c.InThumbMode = false) (hr : m.Read32 c.PC = some instr)
    (hc : c.ConditionPassed ((instr >>> 28) &&& 0xF) = true)
    (hd : instr &&& 0x0E000000 = 0x00000000) (h4 : instr &&& 0x00000010 = 0x00000010)
    (h7 : instr &&& 0x00000080 = 0) :
    c.Step m =
      some ({ c with
        PC := (c.PC + 4) % 2 ^ 32
        Regs := Function.update c.Regs 15 (((c.PC + 4) % 2 ^ 32 + 4) % 2 ^ 32)
        StepCount := (c.StepCount + 1) % 2 ^ 64 }, 1) := by
  rw [Step_arm c m hh ht, executeARM_registerShift c m instr hr hc hd h4 h7]
  rfl

/-- A data-processing instruction with a register operand shifted by an immediate amount,
executed by `Step` in ARM state with its condition passed: the state is the one
`handleDataProcessing` leaves after `PC` has been advanced, with the step counted. -/
theorem Step_dataProcessing (c : CPU) (m : MMU) (instr : Nat) (hh : c.Halted = false)
    (ht : c.InThumbMode = false) (hr : m.Read32 c.PC = some instr)
    (hc : c.ConditionPassed ((instr >>> 28) &&& 0xF) = true)
    (hd : instr &&& 0x0E000000 = 0x00000000) (h4 : instr &&& 0x00000010 ≠ 0x00000010) :
    c.Step m =
      some ({ ((c.advancePC 4).handleDataProcessing instr).1 with
        StepCount := (((c.advancePC 4).handleDataProcessing instr).1.StepCount + 1) % 2 ^ 64 },
        1) := by
  rw [Step_arm c m hh ht, executeARM_dataProcessing c m instr hr hc hd h4]
  rfl

/-- The only call of `shift` that `executeARM` reaches passes an amount from 1 to 32: a
dispatched data-processing word has bit 25 and bit 4 clear, and its 5-bit immediate amount
is replaced by 32 when it is 0. -/
theorem operand2_amount (c : CPU) (instr : Nat) (hd : instr &&& 0x0E000000 = 0x00000000)
    (h4 : instr &&& 0x00000010 ≠ 0x00000010) :
    ∃ n, 1 ≤ n ∧ n ≤ 32 ∧
      c.operand2 instr = c.shift ((instr >>> 5) &&& 3) (c.Regs (instr &&& 0xF)) n := by
  have h25 : instr &&& 0x02000000 = 0 := by
    have := and_mask_of_eq instr _ 0x02000000 _ hd (by decide)
    rw [this]
    decide
  have h4' : instr &&& 0x10 = 0 := by
    have hlt : instr &&& 0x10 ≤ 0x10 := Nat.and_le_right
    have hb : (instr &&& 0x10) &&& 0x10 = instr &&& 0x10 := by
      rw [Nat.and_assoc, Nat.and_self]
    rcases Nat.lt_or_ge (instr &&& 0x10) 0x10 with hl | hg
    · have hz : ∀ k, k < 0x10 → k &&& 0x10 = k → k = 0 := by decide
      exact hz _ hl hb
    · exact absurd (Nat.le_antisymm hlt hg) h4
  refine ⟨if (instr >>> 7) &&& 0x1F = 0 then 32 else (instr >>> 7) &&& 0x1F, ?_, ?_, ?_⟩
  · split_ifs with h
    · decide
    · omega
  · split_ifs with h
    · exact le_refl _
    · have : (instr >>> 7) &&& 0x1F ≤ 0x1F := Nat.and_le_right
      omega
  · unfold operand2
    simp only []
    rw [if_neg (by rw [h25]; decide), if_neg (by rw [h4']; decide)]

end CPU

/-- C25, the code at the failing input: `ADDS R0, R1, #1` (the word `0xE2910001`) at
`0x08000000` with `R0 = 7` and `R1 = 0xFFFFFFFF`, so `A = 0xFFFFFFFF`, `B = 1` and
`A + B = 2^32`.  The claim gives C and Z set and `R0 = 0`; after `Step` C, Z, N and V are
clear as before and `R0` is still 7, because `executeARM` sends every word with bits
27..25 = 001 to the empty `handlePSRTransfer`.  `handleDataProcessing`, called on the same
word, sets C and Z and stores 0.  `SUBS R0, R1, #1` (`0xE2510001`) leaves C clear although
`A ≥ B`, and `ADDS R0, R1, R2, LSL R3` (`0xE0910312`, with `R2 = 1`, `R3 = 0`), which no
case of the dispatch takes, changes no flag either. -/
theorem C25_add_immediate_sets_no_flag :
    (MMU.withWord 0xE2910001).Read32 0x08000000 = some 0xE2910001 ∧
    ((CPU.atROM.SetReg 0 7).SetReg 1 0xFFFFFFFF).InThumbMode = false ∧
    ((CPU.atROM.SetReg 0 7).SetReg 1 0xFFFFFFFF).CPSR = 0xD3 ∧
    ((CPU.atROM.SetReg 0 7).SetReg 1 0xFFFFFFFF).ConditionPassed
      ((0xE2910001 >>> 28) &&& 0xF) = true ∧
    ((0xE2910001 >>> 21) &&& 0xF = 0x4 ∧ (0xE2910001 >>> 20) &&& 1 = 1 ∧
      (0xE2910001 >>> 12) &&& 0xF = 0) ∧
    (((CPU.atROM.SetReg 0 7).SetReg 1 0xFFFFFFFF).advancePC 4).rnValue 0xE2910001
      = 0xFFFFFFFF ∧
    ((((CPU.atROM.SetReg 0 7).SetReg 1 0xFFFFFFFF).advancePC 4).operand2 0xE2910001).1 = 1 ∧
    (((CPU.atROM.SetReg 0 7).SetReg 1 0xFFFFFFFF).Step (MMU.withWord 0xE2910001)).map
      (fun r => (r.1.GetFlag FlagC, r.1.GetFlag FlagZ, r.1.GetFlag FlagN, r.1.GetFlag FlagV))
      = some (false, false, false, false) ∧
    (((CPU.atROM.SetReg 0 7).SetReg 1 0xFFFFFFFF).Step (MMU.withWord 0xE2910001)).map
      (fun r => (r.1.Regs 0, r.1.PC, r.2)) = some (7, 0x08000004, 1) ∧
    (fun r : CPU × Int => (r.1.GetFlag FlagC, r.1.GetFlag FlagZ, r.1.Regs 0))
      ((((CPU.atROM.SetReg 0 7).SetReg 1 0xFFFFFFFF).advancePC 4).handleDataProcessing
        0xE2910001) = (true, true, 0) ∧
    (((CPU.atROM.SetReg 0 7).SetReg 1 0xFFFFFFFF).Step (MMU.withWord 0xE2510001)).map
      (fun r => (r.1.GetFlag FlagC, r.1.GetFlag FlagN, r.1.Regs 0)) = some (false, false, 7) ∧
    ((((CPU.atROM.SetReg 0 7).SetReg 1 0xFFFFFFFF).SetReg 2 1).Step
      (MMU.withWord 0xE0910312)).map
      (fun r => (r.1.GetFlag FlagC, r.1.GetFlag FlagZ, r.1.Regs 0)) = some (false, false, 7) := by
  decide

/-- C26, the code at the failing input: `SUBS PC, R14, #4` (the word `0xE25EF004`, the
return from an interrupt) at `0x08000000` in IRQ mode with `CPSR = 0x92`,
`SPSR_irq = 0x10` and `R14 = 0x08000108`.  The claim gives `CPSR = 0x10` and
`PC = 0x08000104`; after `Step` the status register is still `0x92` and `PC` is
`0x08000004`, the next instruction, because `executeARM` sends every word with bits
27..25 = 001 to the empty `handlePSRTransfer`.  `handleDataProcessing`, called on the same
word, restores `CPSR = 0x10` and sets `PC = 0x08000104`. -/
theorem C26_subs_pc_immediate_not_executed :
    (MMU.withWord 0xE25EF004).Read32 0x08000000 = some 0xE25EF004 ∧
    (({ CPU.atROM with CPSR := 0x92, SPSRirq := 0x10 } : CPU).SetReg 14
      0x08000108).InThumbMode = false ∧
    (({ CPU.atROM with CPSR := 0x92, SPSRirq := 0x10 } : CPU).SetReg 14
      0x08000108).ConditionPassed ((0xE25EF004 >>> 28) &&& 0xF) = true ∧
    ((0xE25EF004 >>> 21) &&& 0xF = 0x2 ∧ (0xE25EF004 >>> 20) &&& 1 = 1 ∧
      (0xE25EF004 >>> 12) &&& 0xF = 15) ∧
    (({ CPU.atROM with CPSR := 0x92, SPSRirq := 0x10 } : CPU).SetReg 14
      0x08000108).GetSPSR = 0x10 ∧
    sub32 0x08000108 4 &&& not32 3 = 0x08000104 ∧
    ((({ CPU.atROM with CPSR := 0x92, SPSRirq := 0x10 } : CPU).SetReg 14 0x08000108).Step
      (MMU.withWord 0xE25EF004)).map (fun r => (r.1.CPSR, r.1.PC, r.2))
      = some (0x92, 0x08000004, 1) ∧
    (fun r : CPU × Int => (r.1.CPSR, r.1.PC))
      (((({ CPU.atROM with CPSR := 0x92, SPSRirq := 0x10 } : CPU).SetReg 14
        0x08000108).advancePC 4).handleDataProcessing 0xE25EF004) = (0x10, 0x08000104) := by
  decide

/-- C35, the code at the failing input: `ADCS R0, R1, #1` (the word `0xE2B10001`) at
`0x08000000` with `R1 = 5` and the C flag set, so `A = 5`, `B = 1` and the carry-in is 1.
The claim gives `R0 = 7` with C clear; after `Step` `R0` is still 0 and C is still set,
because `executeARM` sends every word with bits 27..25 = 001 to the empty
`handlePSRTransfer`.  `SBCS R0, R1, #1` (`0xE2D10001`) should give `R0 = 4` and leaves 0.
`handleDataProcessing`, called on the same words, gives 7 with C clear and 4 with C set. -/
theorem C35_adc_immediate_not_executed :
    (MMU.withWord 0xE2B10001).Read32 0x08000000 = some 0xE2B10001 ∧
    ((CPU.atROM.SetFlag FlagC true).SetReg 1 5).InThumbMode = false ∧
    ((CPU.atROM.SetFlag FlagC true).SetReg 1 5).ConditionPassed
      ((0xE2B10001 >>> 28) &&& 0xF) = true ∧
    ((0xE2B10001 >>> 21) &&& 0xF = 0x5 ∧ (0xE2D10001 >>> 21) &&& 0xF = 0x6 ∧
      (0xE2B10001 >>> 20) &&& 1 = 1 ∧ (0xE2B10001 >>> 12) &&& 0xF = 0) ∧
    ((CPU.atROM.SetFlag FlagC true).SetReg 1 5).GetFlag FlagC = true ∧
    (((CPU.atROM.SetFlag FlagC true).SetReg 1 5).advancePC 4).rnValue 0xE2B10001 = 5 ∧
    ((((CPU.atROM.SetFlag FlagC true).SetReg 1 5).advancePC 4).operand2 0xE2B10001).1 = 1 ∧
    (((CPU.atROM.SetFlag FlagC true).SetReg 1 5).Step (MMU.withWord 0xE2B10001)).map
      (fun r => (r.1.Regs 0, r.1.GetFlag FlagC, r.1.PC, r.2))
      = some (0, true, 0x08000004, 1) ∧
    (fun r : CPU × Int => (r.1.Regs 0, r.1.GetFlag FlagC))
      ((((CPU.atROM.SetFlag FlagC true).SetReg 1 5).advancePC 4).handleDataProcessing
        0xE2B10001) = (7, false) ∧
    (((CPU.atROM.SetFlag FlagC true).SetReg 1 5).Step (MMU.withWord 0xE2D10001)).map
      (fun r => (r.1.Regs 0, r.1.GetFlag FlagC)) = some (0, true) ∧
    (fun r : CPU × Int => (r.1.Regs 0, r.1.GetFlag FlagC))
      ((((CPU.atROM.SetFlag FlagC true).SetReg 1 5).advancePC 4).handleDataProcessing
        0xE2D10001) = (4, true) := by
  decide

/-- C34, amended: for `CPU.shift` with type LSL, every state, every value `v` and every
amount `n`: the amount 0 returns `v` with the current C flag; an amount from 1 to 31
returns `(v << n) mod 2^32` with carry bit `32 - n` of `v`; every amount from 32 up, above
32 as well as 32 itself, returns 0 with carry bit 0 of `v`. -/
theorem C34_lsl_carry_from_32_is_bit0 (c : CPU) (v n : Nat) :
    c.shift 0 v n =
      if n = 0 then (v, c.GetFlag FlagC)
      else if n ≥ 32 then (0, decide (v &&& 1 ≠ 0))
      else ((v <<< n) % 2 ^ 32, decide ((v >>> (32 - n)) &&& 1 ≠ 0)) :=
  CPU.shift_lsl c v n

end LiveGBA
